import Mathlib

/-!
# Index construction and concurrent validation (src/backend/catalog/index.c)

A shallow embedding of the index build scan, the tuple projection, the
validation merge-join with validate_index around it, the pg_index state flags
and reindex_relation, and of DatabaseInfo_AlignAppendOnly
(src/backend/cdb/cdbdatabaseinfo.c), followed by the theorems that settle the
properties stated for them.

Conventions of the embedding:
* block numbers and offset numbers (BlockNumber, OffsetNumber) are Nat; an
  InvalidBlockNumber held in root_blkno is the value none.
* C arrays indexed by an int expression (root_offsets, in_index) are functions
  on Int, the index expression off - 1 being an int in C; staying inside the
  bounds of the arrays is a property of its own and not part of the functions.
  The arrays written by FormIndexDatum are returned as lists holding the
  entries 0 .. ii_NumIndexAttrs - 1.
* the double counters (reltuples, htups, itups, tups_inserted) are Nat.
* evaluation of an index expression or of the predicate on a row is a total
  function of the row.
* elog(ERROR) and ereport(ERROR) are the error case of Except.
* calls into the access method (the build callback, index_insert) are recorded
  in order in a trace held by the state.
* the array indexes an iteration of the validation merge uses are listed by
  trace functions of their own, which follow the control flow of the loop.
* the two arrays of DatabaseInfo_AlignAppendOnly are lists; the index g splits
  gpRelationNodes into the entries before it and the entries from it on.
* an Oid is a Nat and InvalidOid is 0; the list *oidmap of reindex_relation is
  an Option, none when the pointer oidmap is NULL.
* functions of other files (heap_get_root_tuples, HeapTupleSatisfiesVacuum,
  index_insert, the relation cache) are parameters held in an environment;
  index_bulk_delete and the tuplesort are modelled as the specification
  describes them.
-/

namespace Gpdb

/-! ## Basic types -/

abbrev Datum := Int
abbrev Oid := Nat
abbrev TransactionId := Nat

/-- Location identifier of a row version: block number (BlockNumber) and
offset in the page (OffsetNumber), both unsigned. -/
structure ItemPointerData where
  ip_blkid : Nat
  ip_posid : Nat
deriving DecidableEq, Repr

/-- The errors raised by the embedded code. The last constructor is not an
error of the program: it marks a recheck loop that was cut by the budget of
the embedding. -/
inductive ErrorData where
  | wrong_number_of_index_expressions
  | concurrent_insert_in_progress
  | concurrent_delete_in_progress
  | unexpected_HeapTupleSatisfiesVacuum_result
  | cannot_create_index_concurrently
  | unrecognized_relation_storage_type
  | cache_lookup_failed_for_index
  | access_method_error (code : Nat)
  | recheck_budget_exhausted
deriving DecidableEq, Repr

/-- A row version as the scans see it: its own identifier, the two HOT bits of
its header, the inserting and deleting transaction ids, and the columns as
slot_getattr reads them (value and null flag per attribute number). -/
structure HeapTupleData where
  t_self : ItemPointerData
  heap_only : Bool
  hot_updated : Bool
  xmin : TransactionId
  xmax : TransactionId
  attr : Int → Datum × Bool

/-- An index expression, given by its evaluation against the scan tuple
(ExecEvalExprSwitchContext): value and null flag. -/
abbrev ExprState := HeapTupleData → Datum × Bool

/-- One clause of the implicit-AND predicate list of an index with a
predicate, given by its evaluation against the scan tuple. -/
abbrev QualClause := HeapTupleData → Bool

/-- The fields of struct IndexInfo used by index.c. -/
structure IndexInfo where
  ii_NumIndexAttrs : Nat
  ii_KeyAttrNumbers : Nat → Int
  ii_Expressions : List ExprState
  ii_ExpressionsState : List ExprState
  ii_Predicate : List QualClause
  ii_PredicateState : List QualClause
  ii_Unique : Bool
  ii_ReadyForInserts : Bool
  ii_Concurrent : Bool
  ii_BrokenHotChain : Bool

/-- Modelled from the spec: ExecPrepareExpr is not in the file; the projector
"lazily compiles expression/predicate evaluation state from the descriptor's
stored expression trees", one state per stored tree, in order. -/
def ExecPrepareExpr {α : Type} (exprs : List α) : List α := exprs

/-- Modelled from the spec: ExecQual is not in the file; a row passes the
predicate when every clause of the list evaluates to true. -/
def ExecQual (predicate : List QualClause) (slot : HeapTupleData) : Bool :=
  predicate.all (fun q => q slot)

/-- Modelled from the spec: ItemPointerCompare is not in the file; identifiers
are ordered "table-page-major, in-page-offset-minor". The result is negative,
zero or positive. -/
def ItemPointerCompare (a b : ItemPointerData) : Int :=
  if a.ip_blkid < b.ip_blkid then -1
  else if a.ip_blkid > b.ip_blkid then 1
  else if a.ip_posid < b.ip_posid then -1
  else if a.ip_posid > b.ip_posid then 1
  else 0

/-! ## FormIndexDatum -/

/-- The for loop of FormIndexDatum: the first argument counts the iterations
left, the second is the loop variable i, indexpr_item is the list cell cursor
(the remaining expression states). -/
def FormIndexDatum_loop (indexInfo : IndexInfo) (slot : HeapTupleData) :
    Nat → Nat → List ExprState → List Datum → List Bool →
    Except ErrorData (List ExprState × List Datum × List Bool)
  | 0, _, indexpr_item, values, isnull => .ok (indexpr_item, values, isnull)
  | n + 1, i, indexpr_item, values, isnull =>
    let keycol := indexInfo.ii_KeyAttrNumbers i
    if keycol ≠ 0 then
      let r := slot.attr keycol
      FormIndexDatum_loop indexInfo slot n (i + 1) indexpr_item
        (values ++ [r.1]) (isnull ++ [r.2])
    else
      match indexpr_item with
      | [] => .error .wrong_number_of_index_expressions
      | e :: rest =>
        let r := e slot
        FormIndexDatum_loop indexInfo slot n (i + 1) rest
          (values ++ [r.1]) (isnull ++ [r.2])

/-- The first-time set-up of FormIndexDatum: the expression states are
prepared from ii_Expressions when there are expressions and no state yet. -/
def FormIndexDatum_setup (indexInfo : IndexInfo) : IndexInfo :=
  if !indexInfo.ii_Expressions.isEmpty && indexInfo.ii_ExpressionsState.isEmpty then
    { indexInfo with ii_ExpressionsState := ExecPrepareExpr indexInfo.ii_Expressions }
  else indexInfo

/-- FormIndexDatum: returns the descriptor (with its cached expression
states) and the arrays values[] and isnull[]. -/
def FormIndexDatum (indexInfo : IndexInfo) (slot : HeapTupleData) :
    Except ErrorData (IndexInfo × List Datum × List Bool) :=
  let indexInfo1 := FormIndexDatum_setup indexInfo
  match FormIndexDatum_loop indexInfo1 slot indexInfo1.ii_NumIndexAttrs 0
      indexInfo1.ii_ExpressionsState [] [] with
  | .error e => .error e
  | .ok (indexpr_item, values, isnull) =>
    if !indexpr_item.isEmpty then .error .wrong_number_of_index_expressions
    else .ok (indexInfo1, values, isnull)

/-- Number of key positions before position i whose attribute number is 0. -/
def exprPositionsBefore (indexInfo : IndexInfo) (i : Nat) : Nat :=
  ((List.range i).filter (fun p => indexInfo.ii_KeyAttrNumbers p = 0)).length

/-- The entry the projection computes for key position p from the expression
states available at the start of the loop. -/
def projectedEntry (indexInfo : IndexInfo) (slot : HeapTupleData)
    (states : List ExprState) (p : Nat) : Datum × Bool :=
  if indexInfo.ii_KeyAttrNumbers p ≠ 0 then slot.attr (indexInfo.ii_KeyAttrNumbers p)
  else match states[exprPositionsBefore indexInfo p]? with
    | some e => e slot
    | none => (0, false)

/-- The expression states FormIndexDatum has available: the cached states, or
the ones prepared by the first-time set-up. -/
def indexExpressionStates (indexInfo : IndexInfo) : List ExprState :=
  (FormIndexDatum_setup indexInfo).ii_ExpressionsState


/-! ## pg_index state flags -/

/-- The pg_index row of an index (Form_pg_index). The two text columns
indexprs and indpred are kept by their null flags. -/
structure FormData_pg_index where
  indexrelid : Oid
  indrelid : Oid
  indnatts : Nat
  indisunique : Bool
  indisprimary : Bool
  indisclustered : Bool
  indisvalid : Bool
  indcheckxmin : Bool
  indisready : Bool
  indkey : List Int
  indclass : List Oid
  indoption : List Int
  indexprs_isnull : Bool
  indpred_isnull : Bool
deriving DecidableEq, Repr

/-- The pg_index catalog: the row found by the syscache lookup on INDEXRELID. -/
abbrev PgIndex := Oid → Option FormData_pg_index

/-- UpdateIndexRelation: builds the pg_index row of a new index and inserts
it. isvalid and isready are set the same way. -/
def UpdateIndexRelation (pg_index : PgIndex) (indexoid heapoid : Oid)
    (indexInfo : IndexInfo) (classOids : List Oid) (coloptions : List Int)
    (primary isvalid : Bool) : PgIndex :=
  Function.update pg_index indexoid (some
    { indexrelid := indexoid
      indrelid := heapoid
      indnatts := indexInfo.ii_NumIndexAttrs
      indisunique := indexInfo.ii_Unique
      indisprimary := primary
      indisclustered := false
      indisvalid := isvalid
      indcheckxmin := false
      indisready := isvalid
      indkey := (List.range indexInfo.ii_NumIndexAttrs).map indexInfo.ii_KeyAttrNumbers
      indclass := classOids.take indexInfo.ii_NumIndexAttrs
      indoption := coloptions.take indexInfo.ii_NumIndexAttrs
      indexprs_isnull := indexInfo.ii_Expressions.isEmpty
      indpred_isnull := indexInfo.ii_Predicate.isEmpty })

def InvalidOid : Oid := 0

def OidIsValid (objectId : Oid) : Bool := decide (objectId ≠ InvalidOid)

/-- The errors index_create raises: the elog and ereport calls of its own body,
the failed Insist on constrOid, and (raised) an error of a function it calls. -/
inductive IndexCreateError where
  | must_index_at_least_one_column
  | user_defined_indexes_on_system_catalog_tables_are_not_supported
  | concurrent_index_creation_on_system_catalog_tables_is_not_supported
  | shared_indexes_cannot_be_created_after_initdb
  | shared_relations_must_be_placed_in_pg_global_tablespace
  | only_shared_relations_can_be_placed_in_pg_global_tablespace
  | relation_already_exists
  | constraint_already_exists
  | constraint_must_be_PRIMARY_or_UNIQUE
  | constraints_cannot_have_index_expressions
  | constrOid_is_NULL
  | raised (e : ErrorData)
deriving DecidableEq, Repr

/-- What index_create and index_build read from their surroundings. Relation
names are numbers.
* the processing mode (IsBootstrapProcessingMode, IsNormalProcessingMode);
* GLOBALTABLESPACE_OID;
* of the heap relation opened by its OID: IsSystemRelation and
  rd_rel->relisshared;
* get_relname_relid for a name in the namespace of the heap relation;
* the outcome of ConstructTupleDescriptor for the descriptor and the operator
  classes: it raises for a column number outside the table, for too few index
  expressions and for a failed pg_type or pg_opclass lookup, and writes
  nothing (the tuple descriptor it returns is used by heap_create only);
* GetNewRelFileNode for a tablespace and the shared flag;
* the outcome of the calls that create the index relation and its pg_class,
  gp_relation_node and pg_attribute rows for an index OID
  (CheckNewRelFileNodeIsOk when the OID was given and the backend runs under
  the postmaster, heap_create, LockRelation, InsertPgClassTuple,
  MetaTrackAddObject, InsertGpRelationNodeTuple, InitializeAttributeOids,
  AppendAttributeTuples), none of which writes pg_index;
* ConstraintNameIsUsed for the heap relation and a constraint name, and the
  outcomes of CreateConstraintEntry and of the recordDependencyOn calls;
* the outcome of index_update_stats, which writes pg_class only and raises
  when the pg_class row of the relation is not found;
* the build procedure of the access method (rd_am->ambuild): the descriptor as
  the build leaves it (the heap scan may set ii_BrokenHotChain), or an error. -/
structure IndexCreateEnv where
  IsBootstrapProcessingMode : Bool
  IsNormalProcessingMode : Bool
  GLOBALTABLESPACE_OID : Oid
  IsSystemRelation : Oid → Bool
  relisshared : Oid → Bool
  get_relname_relid : Nat → Oid
  ConstructTupleDescriptor : IndexInfo → List Oid → Except ErrorData Unit
  GetNewRelFileNode : Oid → Bool → Oid
  heap_create : Oid → Except ErrorData Unit
  ConstraintNameIsUsed : Oid → Nat → Bool
  CreateConstraintEntry : Except ErrorData Unit
  recordDependencyOn : Except ErrorData Unit
  index_update_stats : Except ErrorData Unit
  ambuild : IndexInfo → Except ErrorData IndexInfo

/-- index_build: calls the build procedure of the access method; if it found
broken HOT chains, this is not a reindex and the descriptor is not concurrent,
the pg_index row of the index is fetched, indcheckxmin is set in it and the row
is written back (the Assert before the write is that indcheckxmin is not yet
set); then the pg_class rows are updated (index_update_stats). isprimary is
passed to index_update_stats only. -/
def index_build (env : IndexCreateEnv) (pg_index : PgIndex) (indexId : Oid)
    (indexInfo : IndexInfo) (isreindex : Bool) : Except ErrorData (PgIndex × IndexInfo) :=
  match env.ambuild indexInfo with
  | .error e => .error e
  | .ok indexInfo1 =>
    let written : Except ErrorData PgIndex :=
      if indexInfo1.ii_BrokenHotChain && !isreindex && !indexInfo1.ii_Concurrent then
        match pg_index indexId with
        | none => .error .cache_lookup_failed_for_index
        | some indexForm =>
          .ok (Function.update pg_index indexId (some { indexForm with indcheckxmin := true }))
      else .ok pg_index
    match written with
    | .error e => .error e
    | .ok pg_index1 =>
      match env.index_update_stats with
      | .error e => .error e
      | .ok _ => .ok (pg_index1, indexInfo1)

/-- The "check parameters" block of index_create, up to the test that the
index name is not in use. -/
def index_create_check_parameters (env : IndexCreateEnv) (heapRelationId : Oid)
    (indexRelationName : Nat) (indexInfo : IndexInfo) (tableSpaceId : Oid)
    (allow_system_table_mods concurrent : Bool) : Except IndexCreateError Unit :=
  let shared_relation := env.relisshared heapRelationId
  if indexInfo.ii_NumIndexAttrs < 1 then .error .must_index_at_least_one_column
  else if !allow_system_table_mods && env.IsSystemRelation heapRelationId &&
      env.IsNormalProcessingMode then
    .error .user_defined_indexes_on_system_catalog_tables_are_not_supported
  else if concurrent && env.IsSystemRelation heapRelationId then
    .error .concurrent_index_creation_on_system_catalog_tables_is_not_supported
  else if shared_relation && !env.IsBootstrapProcessingMode then
    .error .shared_indexes_cannot_be_created_after_initdb
  else if shared_relation && tableSpaceId != env.GLOBALTABLESPACE_OID then
    .error .shared_relations_must_be_placed_in_pg_global_tablespace
  else if !shared_relation && tableSpaceId == env.GLOBALTABLESPACE_OID then
    .error .only_shared_relations_can_be_placed_in_pg_global_tablespace
  else if OidIsValid (env.get_relname_relid indexRelationName) then
    .error .relation_already_exists
  else .ok ()

/-- The OID index_create gives the index: the one it was told to use, or a
new one from GetNewRelFileNode when it was given InvalidOid. -/
def index_create_oid (env : IndexCreateEnv) (heapRelationId indexRelationId tableSpaceId : Oid) :
    Oid :=
  if !OidIsValid indexRelationId then
    env.GetNewRelFileNode tableSpaceId (env.relisshared heapRelationId)
  else indexRelationId

/-- The first part of index_create, through the UpdateIndexRelation call: the
parameter checks, ConstructTupleDescriptor, the choice of the OID, the creation
of the index relation and of its pg_class and pg_attribute rows, then the
pg_index row, written with isvalid = !concurrent. The result is the OID of the
index and the catalog with the new row. -/
def index_create_register (env : IndexCreateEnv) (pg_index : PgIndex) (heapRelationId : Oid)
    (indexRelationName : Nat) (indexRelationId : Oid) (indexInfo : IndexInfo)
    (tableSpaceId : Oid) (classObjectId : List Oid) (coloptions : List Int)
    (isprimary allow_system_table_mods concurrent : Bool) :
    Except IndexCreateError (Oid × PgIndex) :=
  match index_create_check_parameters env heapRelationId indexRelationName indexInfo
      tableSpaceId allow_system_table_mods concurrent with
  | .error e => .error e
  | .ok _ =>
    match env.ConstructTupleDescriptor indexInfo classObjectId with
    | .error e => .error (.raised e)
    | .ok _ =>
      let indexRelationId1 := index_create_oid env heapRelationId indexRelationId tableSpaceId
      match env.heap_create indexRelationId1 with
      | .error e => .error (.raised e)
      | .ok _ =>
        .ok (indexRelationId1,
          UpdateIndexRelation pg_index indexRelationId1 heapRelationId indexInfo
            classObjectId coloptions isprimary (!concurrent))

/-- The block of index_create that registers the constraint and the
dependencies of the index; it is skipped in bootstrap mode. -/
def index_create_dependencies (env : IndexCreateEnv) (heapRelationId : Oid)
    (indexRelationName : Nat) (indexInfo : IndexInfo) (isprimary isconstraint : Bool)
    (constrOid : Option Oid) (altConName : Option Nat) : Except IndexCreateError Unit :=
  if !env.IsBootstrapProcessingMode then
    if isconstraint then
      let constraintName :=
        match altConName with
        | some name => name
        | none => indexRelationName
      if env.ConstraintNameIsUsed heapRelationId constraintName then
        .error .constraint_already_exists
      else if !isprimary && !indexInfo.ii_Unique then
        .error .constraint_must_be_PRIMARY_or_UNIQUE
      else if !indexInfo.ii_Expressions.isEmpty then
        .error .constraints_cannot_have_index_expressions
      else
        match constrOid with
        | none => .error .constrOid_is_NULL
        | some _ =>
          match env.CreateConstraintEntry with
          | .error e => .error (.raised e)
          | .ok _ =>
            match env.recordDependencyOn with
            | .error e => .error (.raised e)
            | .ok _ => .ok ()
    else
      match env.recordDependencyOn with
      | .error e => .error (.raised e)
      | .ok _ => .ok ()
  else .ok ()

/-- index_create: registers the index (index_create_register), records the
constraint and the dependencies, then in bootstrap mode only notes the index
for a later build (index_register), with skip_build only updates the pg_class
row of the table, and otherwise calls index_build with isreindex false. The
result is the OID of the index, the catalog and the descriptor as the build
left it. -/
def index_create (env : IndexCreateEnv) (pg_index : PgIndex) (heapRelationId : Oid)
    (indexRelationName : Nat) (indexRelationId : Oid) (indexInfo : IndexInfo)
    (tableSpaceId : Oid) (classObjectId : List Oid) (coloptions : List Int)
    (isprimary isconstraint : Bool) (constrOid : Option Oid)
    (allow_system_table_mods skip_build concurrent : Bool) (altConName : Option Nat) :
    Except IndexCreateError (Oid × PgIndex × IndexInfo) :=
  match index_create_register env pg_index heapRelationId indexRelationName indexRelationId
      indexInfo tableSpaceId classObjectId coloptions isprimary allow_system_table_mods
      concurrent with
  | .error e => .error e
  | .ok (indexRelationId1, pg_index1) =>
    match index_create_dependencies env heapRelationId indexRelationName indexInfo isprimary
        isconstraint constrOid altConName with
    | .error e => .error e
    | .ok _ =>
      if env.IsBootstrapProcessingMode then .ok (indexRelationId1, pg_index1, indexInfo)
      else if skip_build then
        match env.index_update_stats with
        | .error e => .error (.raised e)
        | .ok _ => .ok (indexRelationId1, pg_index1, indexInfo)
      else
        match index_build env pg_index1 indexRelationId1 indexInfo false with
        | .error e => .error (.raised e)
        | .ok (pg_index2, indexInfo2) => .ok (indexRelationId1, pg_index2, indexInfo2)

inductive IndexStateFlagsAction where
  | INDEX_CREATE_SET_READY
  | INDEX_CREATE_SET_VALID
deriving DecidableEq, Repr

/-- The Assert lines of index_set_state_flags for the requested action. -/
def index_set_state_flags_asserts (indexForm : FormData_pg_index) :
    IndexStateFlagsAction → Bool
  | .INDEX_CREATE_SET_READY => !indexForm.indisready && !indexForm.indisvalid
  | .INDEX_CREATE_SET_VALID => indexForm.indisready && !indexForm.indisvalid

/-- index_set_state_flags: fetches a copy of the row, performs the requested
change on the copy and writes it back in place. The Assert lines are
index_set_state_flags_asserts. -/
def index_set_state_flags (pg_index : PgIndex) (indexId : Oid)
    (action : IndexStateFlagsAction) : Except ErrorData PgIndex :=
  match pg_index indexId with
  | none => .error .cache_lookup_failed_for_index
  | some indexForm =>
    let indexForm1 :=
      match action with
      | .INDEX_CREATE_SET_READY => { indexForm with indisready := true }
      | .INDEX_CREATE_SET_VALID => { indexForm with indisvalid := true }
    .ok (Function.update pg_index indexId (some indexForm1))

/-- The end of reindex_index, after the rebuild (whose outcome is the argument
rebuild): the pg_index row is fetched and, if the index is marked invalid or
not ready, both flags are set and the row is updated. The Bool of the result
tells whether simple_heap_update was called. -/
def reindex_index (pg_index : PgIndex) (indexId : Oid) (rebuild : Except ErrorData Unit) :
    Except ErrorData (PgIndex × Bool) :=
  match rebuild with
  | .error e => .error e
  | .ok _ =>
    match pg_index indexId with
    | none => .error .cache_lookup_failed_for_index
    | some indexForm =>
      if !indexForm.indisvalid || !indexForm.indisready then
        .ok (Function.update pg_index indexId
          (some { indexForm with indisvalid := true, indisready := true }), true)
      else .ok (pg_index, false)

/-- Every row of the catalog that is marked valid is marked ready. -/
def ValidImpliesReady (pg_index : PgIndex) : Prop :=
  ∀ indexId indexForm, pg_index indexId = some indexForm →
    indexForm.indisvalid = true → indexForm.indisready = true

/-- The catalog states reachable from a start state by the operations of
index.c that write pg_index rows: UpdateIndexRelation (with either value of
isvalid), index_create and index_build when they return, index_set_state_flags
(when its Assert lines hold) and reindex_index. -/
inductive FlagsReachable (start : PgIndex) : PgIndex → Prop where
  | start : FlagsReachable start start
  | create {c : PgIndex} (indexoid heapoid : Oid) (indexInfo : IndexInfo)
      (classOids : List Oid) (coloptions : List Int) (primary isvalid : Bool) :
      FlagsReachable start c →
      FlagsReachable start (UpdateIndexRelation c indexoid heapoid indexInfo classOids
        coloptions primary isvalid)
  | created {c c1 : PgIndex} (env : IndexCreateEnv) (heapRelationId : Oid)
      (indexRelationName : Nat) (indexRelationId : Oid) (indexInfo : IndexInfo)
      (tableSpaceId : Oid) (classObjectId : List Oid) (coloptions : List Int)
      (isprimary isconstraint : Bool) (constrOid : Option Oid)
      (allow_system_table_mods skip_build concurrent : Bool) (altConName : Option Nat)
      (indexoid : Oid) (indexInfo1 : IndexInfo) :
      FlagsReachable start c →
      index_create env c heapRelationId indexRelationName indexRelationId indexInfo
        tableSpaceId classObjectId coloptions isprimary isconstraint constrOid
        allow_system_table_mods skip_build concurrent altConName =
          .ok (indexoid, c1, indexInfo1) →
      FlagsReachable start c1
  | built {c c1 : PgIndex} (env : IndexCreateEnv) (indexId : Oid)
      (indexInfo indexInfo1 : IndexInfo) (isreindex : Bool) :
      FlagsReachable start c →
      index_build env c indexId indexInfo isreindex = .ok (c1, indexInfo1) →
      FlagsReachable start c1
  | set_flags {c c1 : PgIndex} (indexId : Oid) (action : IndexStateFlagsAction)
      (indexForm : FormData_pg_index) :
      FlagsReachable start c →
      c indexId = some indexForm →
      index_set_state_flags_asserts indexForm action = true →
      index_set_state_flags c indexId action = .ok c1 →
      FlagsReachable start c1
  | reindex {c c1 : PgIndex} (indexId : Oid) (rebuild : Except ErrorData Unit)
      (updated : Bool) :
      FlagsReachable start c →
      reindex_index c indexId rebuild = .ok (c1, updated) →
      FlagsReachable start c1

/-! ## reindex_relation -/

/-- What reindex_relation reads from its surroundings: whether Gp_role is
GP_ROLE_EXECUTE, the index list of a relation (RelationGetIndexList), its
toast relation (rd_rel->reltoastrelid), whether it is append-only, the
auxiliary relations GetAppendOnlyEntryAuxOids reports for it (segment list,
block directory, visibility map), and the outcome of the call
reindex_index(indexOid, mapoid, &extra_oids): the new relfilenode and the extra
oids it leaves, or the error it raises. -/
structure ReindexEnv where
  Gp_role_EXECUTE : Bool
  RelationGetIndexList : Oid → List Oid
  reltoastrelid : Oid → Oid
  relIsAO : Oid → Bool
  GetAppendOnlyEntryAuxOids : Oid → Oid × Oid × Oid
  reindex_index : Oid → Oid → List Oid → Except ErrorData (Oid × List Oid)

/-- The mutable surroundings of reindex_relation: the list *oidmap (none when
the pointer oidmap is NULL) and the indexes reindex_index was called for, in
call order. -/
structure ReindexState where
  oidmap : Option (List (List Oid))
  rebuilt : List Oid
deriving DecidableEq, Repr

/-- The search of the oid map for indexOid: the first entry whose first oid is
indexOid gives mapoid (its second oid) and extra_oids (the entry without its
first two oids); without such an entry mapoid stays InvalidOid. -/
def reindex_relation_lookup (oidmap : List (List Oid)) (indexOid : Oid) : Oid × List Oid :=
  match oidmap.find? (fun map => decide (map.head? = some indexOid)) with
  | some map => ((map.drop 1).headD InvalidOid, map.drop 2)
  | none => (InvalidOid, [])

/-- The condition Gp_role == GP_ROLE_EXECUTE && !build_map && oidmap && *oidmap
under which the oid map is consulted. -/
def reindex_relation_uses_map (env : ReindexEnv) (build_map : Bool) (st : ReindexState) :
    Bool :=
  env.Gp_role_EXECUTE && !build_map &&
    (match st.oidmap with
     | some (_ :: _) => true
     | _ => false)

/-- The foreach loop of reindex_relation over the index list. An index whose
mapoid is not found in a consulted map is skipped by continue; every other one
is passed to reindex_index, and with build_map its entry is appended to the
map. -/
def reindex_relation_loop (env : ReindexEnv) (build_map : Bool) :
    List Oid → ReindexState → Except ErrorData ReindexState
  | [], st => .ok st
  | indexOid :: rest, st =>
    let found :=
      if reindex_relation_uses_map env build_map st then
        reindex_relation_lookup (st.oidmap.getD []) indexOid
      else (InvalidOid, [])
    if reindex_relation_uses_map env build_map st && !OidIsValid found.1 then
      reindex_relation_loop env build_map rest st
    else
      match env.reindex_index indexOid found.1 found.2 with
      | .error e => .error e
      | .ok (newrelfilenode, extra_oids) =>
        reindex_relation_loop env build_map rest
          { oidmap :=
              if build_map then
                st.oidmap.map (fun m => m ++ [[indexOid, newrelfilenode] ++ extra_oids])
              else st.oidmap
            rebuilt := st.rebuilt ++ [indexOid] }

/-- The part of reindex_relation every call runs: the loop over the indexes of
the relation, then result = (indexIds != NIL). -/
def reindex_relation_indexes (env : ReindexEnv) (relid : Oid) (build_map : Bool)
    (st : ReindexState) : Except ErrorData (Bool × ReindexState) :=
  match reindex_relation_loop env build_map (env.RelationGetIndexList relid) st with
  | .error e => .error e
  | .ok st1 => .ok (!(env.RelationGetIndexList relid).isEmpty, st1)

/-- One of the four statements
result |= reindex_relation(aux_relid, false, false, false, false, oidmap, build_map)
guarded by its flag and OidIsValid(aux_relid). The inner call has all four
flags false, so it runs reindex_relation_indexes only. -/
def reindex_relation_secondary (env : ReindexEnv) (build_map : Bool) (too : Bool)
    (aux_relid : Oid) (acc : Bool × ReindexState) : Except ErrorData (Bool × ReindexState) :=
  if too && OidIsValid aux_relid then
    match reindex_relation_indexes env aux_relid build_map acc.2 with
    | .error e => .error e
    | .ok (result, st) => .ok (acc.1 || result, st)
  else .ok acc

/-- reindex_relation: the indexes of the relation, then those of its toast
relation and of its append-only auxiliary relations as requested. The auxiliary
oids are fetched only for an append-only relation when one of the three flags
is set; otherwise they stay InvalidOid. The Bool is the returned result. -/
def reindex_relation (env : ReindexEnv) (relid : Oid)
    (toast_too aoseg_too aoblkdir_too aovisimap_too : Bool) (build_map : Bool)
    (st : ReindexState) : Except ErrorData (Bool × ReindexState) :=
  let aux : Oid × Oid × Oid :=
    if (aoseg_too || aoblkdir_too || aovisimap_too) && env.relIsAO relid then
      env.GetAppendOnlyEntryAuxOids relid
    else (InvalidOid, InvalidOid, InvalidOid)
  match reindex_relation_indexes env relid build_map st with
  | .error e => .error e
  | .ok r0 =>
    match reindex_relation_secondary env build_map toast_too (env.reltoastrelid relid) r0 with
    | .error e => .error e
    | .ok r1 =>
      match reindex_relation_secondary env build_map aoseg_too aux.1 r1 with
      | .error e => .error e
      | .ok r2 =>
        match reindex_relation_secondary env build_map aoblkdir_too aux.2.1 r2 with
        | .error e => .error e
        | .ok r3 => reindex_relation_secondary env build_map aovisimap_too aux.2.2 r3

/-! ## The table scan driver -/

/-- Results of HeapTupleSatisfiesVacuum. The last constructor stands for any
value outside the five named ones (the default branch of the switch). -/
inductive HTSV_Result where
  | HEAPTUPLE_DEAD
  | HEAPTUPLE_LIVE
  | HEAPTUPLE_RECENTLY_DEAD
  | HEAPTUPLE_INSERT_IN_PROGRESS
  | HEAPTUPLE_DELETE_IN_PROGRESS
  | HEAPTUPLE_UNEXPECTED
deriving DecidableEq, Repr

/-- The snapshot handed to a scan: SnapshotAny, SnapshotNow, or a copy of the
transaction snapshot (a regular MVCC snapshot). -/
inductive Snapshot where
  | SnapshotAny
  | SnapshotNow
  | TransactionSnapshot
deriving DecidableEq, Repr

/-- What the heap scans read from their collaborators:
* heap_get_root_tuples: for the page of a block, the array root_offsets;
* HeapTupleSatisfiesVacuum: the classification of a row version against the
  horizon OldestXmin; the Nat is the number of XactLockTableWait calls already
  made for this row (the answer can change after a wait);
* TransactionIdIsCurrentTransactionId and IsSystemRelation(heapRelation). -/
structure HeapScanEnv where
  heap_get_root_tuples : Nat → Int → Nat
  HeapTupleSatisfiesVacuum : HeapTupleData → Nat → HTSV_Result
  TransactionIdIsCurrentTransactionId : TransactionId → Bool
  IsSystemRelation : Bool

/-- The arguments of one invocation of the build callback. -/
structure IndexBuildCall where
  tid : ItemPointerData
  values : List Datum
  isnull : List Bool
  tupleIsAlive : Bool
deriving DecidableEq, Repr

/-- The variables of a build scan: the descriptor, the row count, the page of
the root map in use, the root map, and in order the callback invocations and
the XactLockTableWait calls made so far. -/
structure BuildScanState where
  indexInfo : IndexInfo
  reltuples : Nat
  root_blkno : Option Nat
  root_offsets : Int → Nat
  callbacks : List IndexBuildCall
  waits : List TransactionId

/-- Outcome of the time qual check of one row. -/
structure TimeQual where
  indexIt : Bool
  tupleIsAlive : Bool
  indexInfo : IndexInfo
  waits : List TransactionId

/-- The time qual check of IndexBuildHeapScan under SnapshotAny, from the label
recheck to the end of the switch. The first Nat bounds the number of passes
through the label, waited counts the waits made for this row. -/
def IndexBuildHeapScan_recheck (env : HeapScanEnv) (heapTuple : HeapTupleData) :
    Nat → Nat → IndexInfo → List TransactionId → Except ErrorData TimeQual
  | 0, _, _, _ => .error .recheck_budget_exhausted
  | fuel + 1, waited, indexInfo, waits =>
    match env.HeapTupleSatisfiesVacuum heapTuple waited with
    | .HEAPTUPLE_DEAD => .ok ⟨false, false, indexInfo, waits⟩
    | .HEAPTUPLE_LIVE => .ok ⟨true, true, indexInfo, waits⟩
    | .HEAPTUPLE_RECENTLY_DEAD =>
      if heapTuple.hot_updated then
        .ok ⟨false, false, { indexInfo with ii_BrokenHotChain := true }, waits⟩
      else .ok ⟨true, false, indexInfo, waits⟩
    | .HEAPTUPLE_INSERT_IN_PROGRESS =>
      if !env.TransactionIdIsCurrentTransactionId heapTuple.xmin then
        if !env.IsSystemRelation then .error .concurrent_insert_in_progress
        else
          IndexBuildHeapScan_recheck env heapTuple fuel (waited + 1) indexInfo
            (waits ++ [heapTuple.xmin])
      else .ok ⟨true, true, indexInfo, waits⟩
    | .HEAPTUPLE_DELETE_IN_PROGRESS =>
      if !env.TransactionIdIsCurrentTransactionId heapTuple.xmax then
        if !env.IsSystemRelation then .error .concurrent_delete_in_progress
        else
          IndexBuildHeapScan_recheck env heapTuple fuel (waited + 1) indexInfo
            (waits ++ [heapTuple.xmax])
      else if heapTuple.hot_updated then
        .ok ⟨false, false, { indexInfo with ii_BrokenHotChain := true }, waits⟩
      else .ok ⟨true, false, indexInfo, waits⟩
    | .HEAPTUPLE_UNEXPECTED => .error .unexpected_HeapTupleSatisfiesVacuum_result

/-- The identifier handed to the callback: for a heap-only tuple the offset is
replaced by root_offsets[offnum - 1], otherwise it is the tuple's own. -/
def rootItemPointer (root_offsets : Int → Nat) (heapTuple : HeapTupleData) :
    ItemPointerData :=
  if heapTuple.heap_only then
    { heapTuple.t_self with ip_posid := root_offsets ((heapTuple.t_self.ip_posid : Int) - 1) }
  else heapTuple.t_self

/-- The body of the loop of IndexBuildHeapScan after the visibility decision:
count the row, apply the predicate, project, invoke the callback. -/
def IndexBuildHeapScan_index (predicate : List QualClause) (st : BuildScanState)
    (heapTuple : HeapTupleData) (tupleIsAlive : Bool) : Except ErrorData BuildScanState :=
  let st1 := { st with reltuples := st.reltuples + 1 }
  if !predicate.isEmpty && !ExecQual predicate heapTuple then .ok st1
  else
    match FormIndexDatum st1.indexInfo heapTuple with
    | .error e => .error e
    | .ok (indexInfo, values, isnull) =>
      .ok { st1 with
        indexInfo := indexInfo
        callbacks := st1.callbacks ++
          [⟨rootItemPointer st1.root_offsets heapTuple, values, isnull, tupleIsAlive⟩] }

/-- One iteration of the loop of IndexBuildHeapScan. -/
def IndexBuildHeapScan_row (env : HeapScanEnv) (snapshot : Snapshot) (fuel : Nat)
    (predicate : List QualClause) (st : BuildScanState) (heapTuple : HeapTupleData) :
    Except ErrorData BuildScanState :=
  let st1 :=
    if st.root_blkno ≠ some heapTuple.t_self.ip_blkid then
      { st with
        root_offsets := env.heap_get_root_tuples heapTuple.t_self.ip_blkid
        root_blkno := some heapTuple.t_self.ip_blkid }
    else st
  if snapshot = .SnapshotAny then
    match IndexBuildHeapScan_recheck env heapTuple fuel 0 st1.indexInfo st1.waits with
    | .error e => .error e
    | .ok q =>
      let st2 := { st1 with indexInfo := q.indexInfo, waits := q.waits }
      if !q.indexIt then .ok st2
      else IndexBuildHeapScan_index predicate st2 heapTuple q.tupleIsAlive
  else IndexBuildHeapScan_index predicate st1 heapTuple true

/-- The page-change block at the head of the loop body of IndexBuildHeapScan:
when the scan has reached another page the root map is rebuilt for it. It is
the first step of IndexBuildHeapScan_row. -/
def IndexBuildHeapScan_newpage (env : HeapScanEnv) (st : BuildScanState)
    (heapTuple : HeapTupleData) : BuildScanState :=
  if st.root_blkno ≠ some heapTuple.t_self.ip_blkid then
    { st with
      root_offsets := env.heap_get_root_tuples heapTuple.t_self.ip_blkid
      root_blkno := some heapTuple.t_self.ip_blkid }
  else st

/-- The while loop of IndexBuildHeapScan over the rows heap_getnext returns. -/
def IndexBuildHeapScan_loop (env : HeapScanEnv) (snapshot : Snapshot) (fuel : Nat)
    (predicate : List QualClause) :
    List HeapTupleData → BuildScanState → Except ErrorData BuildScanState
  | [], st => .ok st
  | heapTuple :: rest, st =>
    match IndexBuildHeapScan_row env snapshot fuel predicate st heapTuple with
    | .error e => .error e
    | .ok st1 => IndexBuildHeapScan_loop env snapshot fuel predicate rest st1

/-- The state of a build scan before its first row. -/
def BuildScanState.init (indexInfo : IndexInfo) : BuildScanState :=
  { indexInfo := indexInfo
    reltuples := 0
    root_blkno := none
    root_offsets := fun _ => 0
    callbacks := []
    waits := [] }

/-- IndexBuildHeapScan over the rows the heap scan returns under the snapshot.
The returned reltuples is the field of that name in the final state. -/
def IndexBuildHeapScan (env : HeapScanEnv) (indexInfo : IndexInfo) (snapshot : Snapshot)
    (fuel : Nat) (rows : List HeapTupleData) : Except ErrorData BuildScanState :=
  IndexBuildHeapScan_loop env snapshot fuel (ExecPrepareExpr indexInfo.ii_Predicate) rows
    (BuildScanState.init indexInfo)

/-- One iteration of the loop of the two append-only scans: count the row,
apply the predicate, project, invoke the callback with the slot's ctid. -/
def IndexBuildAppendOnly_row (predicate : List QualClause) (st : BuildScanState)
    (slot : HeapTupleData) : Except ErrorData BuildScanState :=
  let st1 := { st with reltuples := st.reltuples + 1 }
  if !predicate.isEmpty && !ExecQual predicate slot then .ok st1
  else
    match FormIndexDatum st1.indexInfo slot with
    | .error e => .error e
    | .ok (indexInfo, values, isnull) =>
      .ok { st1 with
        indexInfo := indexInfo
        callbacks := st1.callbacks ++ [⟨slot.t_self, values, isnull, true⟩] }

def IndexBuildAppendOnly_loop (predicate : List QualClause) :
    List HeapTupleData → BuildScanState → Except ErrorData BuildScanState
  | [], st => .ok st
  | slot :: rest, st =>
    match IndexBuildAppendOnly_row predicate st slot with
    | .error e => .error e
    | .ok st1 => IndexBuildAppendOnly_loop predicate rest st1

/-- IndexBuildAppendOnlyRowScan; blkdir tells whether the block directory of
the relation exists (both of its oids valid). -/
def IndexBuildAppendOnlyRowScan (indexInfo : IndexInfo) (blkdir : Bool)
    (rows : List HeapTupleData) : Except ErrorData BuildScanState :=
  if !blkdir && indexInfo.ii_Concurrent then .error .cannot_create_index_concurrently
  else
    IndexBuildAppendOnly_loop (ExecPrepareExpr indexInfo.ii_Predicate) rows
      (BuildScanState.init indexInfo)

/-- IndexBuildAppendOnlyColScan; blkdir as in the row scan. -/
def IndexBuildAppendOnlyColScan (indexInfo : IndexInfo) (blkdir : Bool)
    (rows : List HeapTupleData) : Except ErrorData BuildScanState :=
  if !blkdir && indexInfo.ii_Concurrent then .error .cannot_create_index_concurrently
  else
    IndexBuildAppendOnly_loop (ExecPrepareExpr indexInfo.ii_Predicate) rows
      (BuildScanState.init indexInfo)

/-- The storage type of the parent relation (relstorage). -/
inductive RelStorage where
  | heap
  | aorows
  | aocols
  | other
deriving DecidableEq, Repr

/-- The snapshot IndexBuildScan scans with. -/
def IndexBuildScan_snapshot (bootstrap : Bool) (relstorage : RelStorage)
    (indexInfo : IndexInfo) : Snapshot :=
  if bootstrap then .SnapshotNow
  else if indexInfo.ii_Concurrent || relstorage = .aorows || relstorage = .aocols then
    .TransactionSnapshot
  else .SnapshotAny

/-- IndexBuildScan: chooses the snapshot, runs the scan for the storage type
over the rows the storage layer returns under that snapshot, and clears the
two cached evaluation states of the descriptor. -/
def IndexBuildScan (env : HeapScanEnv) (bootstrap : Bool) (relstorage : RelStorage)
    (blkdir : Bool) (indexInfo : IndexInfo) (fuel : Nat)
    (scan : Snapshot → List HeapTupleData) : Except ErrorData BuildScanState :=
  let snapshot := IndexBuildScan_snapshot bootstrap relstorage indexInfo
  let result :=
    match relstorage with
    | .heap => IndexBuildHeapScan env indexInfo snapshot fuel (scan snapshot)
    | .aorows => IndexBuildAppendOnlyRowScan indexInfo blkdir (scan snapshot)
    | .aocols => IndexBuildAppendOnlyColScan indexInfo blkdir (scan snapshot)
    | .other => .error .unrecognized_relation_storage_type
  match result with
  | .error e => .error e
  | .ok st =>
    .ok { st with
      indexInfo := { st.indexInfo with ii_ExpressionsState := [], ii_PredicateState := [] } }

/-! ## The validation merge-join -/

/-- The arguments of one call of index_insert. -/
structure IndexInsertCall where
  values : List Datum
  isnull : List Bool
  heap_t_ctid : ItemPointerData
  check_uniqueness : Bool
deriving DecidableEq, Repr

/-- The struct v_i_state: the tuplesort (here the identifiers it has still to
deliver, in its output order) and the three counters. -/
structure v_i_state where
  tuplesort : List ItemPointerData
  htups : Nat
  itups : Nat
  tups_inserted : Nat
deriving DecidableEq, Repr

/-- The variables of validate_index_heapscan. index is the state of the access
method and inserts the calls of index_insert made so far, in order. An
indexcursor of none is the NULL pointer. -/
structure ValidateScanState (σ : Type) where
  state : v_i_state
  indexInfo : IndexInfo
  root_blkno : Option Nat
  root_offsets : Int → Nat
  in_index : Int → Bool
  indexcursor : Option ItemPointerData
  tuplesort_empty : Bool
  index : σ
  inserts : List IndexInsertCall

/-- The second conjunct of the condition of the merge while loop:
!indexcursor || ItemPointerCompare(indexcursor, &rootTuple) < 0. -/
def validate_index_behind (rootTuple : ItemPointerData) : Option ItemPointerData → Bool
  | none => true
  | some c => decide (ItemPointerCompare c rootTuple < 0)

/-- The statement that remembers the cursor in in_index[] before it is
replaced, when it lies on the current heap page. -/
def validate_index_remember (root_blkno : Option Nat) (in_index : Int → Bool) :
    Option ItemPointerData → Int → Bool
  | none => in_index
  | some c =>
    if some c.ip_blkid = root_blkno then
      Function.update in_index ((c.ip_posid : Int) - 1) true
    else in_index

/-- The merge while loop, entered with tuplesort_empty false: skips through the
tuplesort output until the cursor finds or passes rootTuple. Returns the rest
of the tuplesort, indexcursor, tuplesort_empty and in_index. Once the
tuplesort is exhausted the code never reads indexcursor again; it is none
here. -/
def validate_index_skip (rootTuple : ItemPointerData) (root_blkno : Option Nat) :
    List ItemPointerData → Option ItemPointerData → (Int → Bool) →
    List ItemPointerData × Option ItemPointerData × Bool × (Int → Bool)
  | [], indexcursor, in_index =>
    if validate_index_behind rootTuple indexcursor then
      ([], none, true, validate_index_remember root_blkno in_index indexcursor)
    else ([], indexcursor, false, in_index)
  | t :: rest, indexcursor, in_index =>
    if validate_index_behind rootTuple indexcursor then
      validate_index_skip rootTuple root_blkno rest (some t)
        (validate_index_remember root_blkno in_index indexcursor)
    else (t :: rest, indexcursor, false, in_index)

/-- The first conjunct of the insert condition: tuplesort_empty ||
ItemPointerCompare(indexcursor, &rootTuple) > 0. The cursor is never NULL here
unless the tuplesort is empty. -/
def validate_index_overshot (rootTuple : ItemPointerData) (tuplesort_empty : Bool) :
    Option ItemPointerData → Bool
  | none => tuplesort_empty
  | some c => tuplesort_empty || decide (ItemPointerCompare c rootTuple > 0)

/-- Start of an iteration of validate_index_heapscan: the row is counted in
htups, and when the scan has advanced onto a new page (rs_cblock, the block of
the row, differs from root_blkno) the root map is rebuilt, in_index is cleared
and root_blkno is set. -/
def validate_index_heapscan_newpage {σ : Type} (env : HeapScanEnv)
    (st : ValidateScanState σ) (heapTuple : HeapTupleData) : ValidateScanState σ :=
  let st1 := { st with state := { st.state with htups := st.state.htups + 1 } }
  if st1.root_blkno ≠ some heapTuple.t_self.ip_blkid then
    { st1 with
      root_offsets := env.heap_get_root_tuples heapTuple.t_self.ip_blkid
      in_index := fun _ => false
      root_blkno := some heapTuple.t_self.ip_blkid }
  else st1

/-- Conversion of the actual tuple TID to the root TID: root_offnum. -/
def validate_index_root_offnum {σ : Type} (st : ValidateScanState σ)
    (heapTuple : HeapTupleData) : Nat :=
  if heapTuple.heap_only then st.root_offsets ((heapTuple.t_self.ip_posid : Int) - 1)
  else heapTuple.t_self.ip_posid

/-- The merge step of an iteration: the while loop with its guard on
tuplesort_empty. -/
def validate_index_heapscan_merge {σ : Type} (rootTuple : ItemPointerData)
    (st : ValidateScanState σ) : ValidateScanState σ :=
  if st.tuplesort_empty then st
  else
    let r := validate_index_skip rootTuple st.root_blkno st.state.tuplesort
      st.indexcursor st.in_index
    { st with
      state := { st.state with tuplesort := r.1 }
      indexcursor := r.2.1
      tuplesort_empty := r.2.2.1
      in_index := r.2.2.2 }

/-- End of an iteration: if the tuplesort has overshot and no match was seen
earlier, the row is missing from the index; unless the predicate discards it,
it is projected and inserted. -/
def validate_index_heapscan_insert {σ : Type}
    (index_insert : σ → IndexInsertCall → Except ErrorData σ)
    (predicate : List QualClause) (st : ValidateScanState σ) (heapTuple : HeapTupleData)
    (rootTuple : ItemPointerData) : Except ErrorData (ValidateScanState σ) :=
  if validate_index_overshot rootTuple st.tuplesort_empty st.indexcursor &&
      !st.in_index ((rootTuple.ip_posid : Int) - 1) then
    if !predicate.isEmpty && !ExecQual predicate heapTuple then .ok st
    else
      match FormIndexDatum st.indexInfo heapTuple with
      | .error e => .error e
      | .ok (indexInfo, values, isnull) =>
        let call : IndexInsertCall := ⟨values, isnull, rootTuple, indexInfo.ii_Unique⟩
        match index_insert st.index call with
        | .error e => .error e
        | .ok index1 =>
          .ok { st with
            state := { st.state with tups_inserted := st.state.tups_inserted + 1 }
            indexInfo := indexInfo
            index := index1
            inserts := st.inserts ++ [call] }
  else .ok st

/-- One iteration of the loop of validate_index_heapscan. -/
def validate_index_heapscan_row {σ : Type} (env : HeapScanEnv)
    (index_insert : σ → IndexInsertCall → Except ErrorData σ)
    (predicate : List QualClause) (st : ValidateScanState σ) (heapTuple : HeapTupleData) :
    Except ErrorData (ValidateScanState σ) :=
  let st2 := validate_index_heapscan_newpage env st heapTuple
  let rootTuple : ItemPointerData :=
    { heapTuple.t_self with ip_posid := validate_index_root_offnum st2 heapTuple }
  let st3 := validate_index_heapscan_merge rootTuple st2
  validate_index_heapscan_insert index_insert predicate st3 heapTuple rootTuple

/-- The while loop of validate_index_heapscan over the rows heap_getnext
returns under the reference snapshot. -/
def validate_index_heapscan_loop {σ : Type} (env : HeapScanEnv)
    (index_insert : σ → IndexInsertCall → Except ErrorData σ)
    (predicate : List QualClause) :
    List HeapTupleData → ValidateScanState σ → Except ErrorData (ValidateScanState σ)
  | [], st => .ok st
  | heapTuple :: rest, st =>
    match validate_index_heapscan_row env index_insert predicate st heapTuple with
    | .error e => .error e
    | .ok st1 => validate_index_heapscan_loop env index_insert predicate rest st1

/-- The variables of validate_index_heapscan before the first row. -/
def ValidateScanState.init {σ : Type} (indexInfo : IndexInfo) (state : v_i_state) (index : σ) :
    ValidateScanState σ :=
  { state := state
    indexInfo := indexInfo
    root_blkno := none
    root_offsets := fun _ => 0
    in_index := fun _ => false
    indexcursor := none
    tuplesort_empty := false
    index := index
    inserts := [] }

/-- The function validate_index_heapscan: the merge of the heap scan with the
sorted tuplesort held by state, and the reset of the two cached evaluation
states at the end. -/
def validate_index_heapscan {σ : Type} (env : HeapScanEnv)
    (index_insert : σ → IndexInsertCall → Except ErrorData σ)
    (indexInfo : IndexInfo) (state : v_i_state) (index : σ) (rows : List HeapTupleData) :
    Except ErrorData (ValidateScanState σ) :=
  match validate_index_heapscan_loop env index_insert (ExecPrepareExpr indexInfo.ii_Predicate)
      rows (ValidateScanState.init indexInfo state index) with
  | .error e => .error e
  | .ok st =>
    .ok { st with
      indexInfo := { st.indexInfo with ii_ExpressionsState := [], ii_PredicateState := [] } }

/-! ## The array accesses of the validation merge -/

/-- The indexes at which one iteration of validate_index_heapscan reads
root_offsets, writes in_index and reads in_index, in the order of the
accesses. The memset that clears in_index covers the whole array and is not
listed. -/
structure ArrayAccesses where
  root_offsets_read : List Int
  in_index_written : List Int
  in_index_read : List Int
deriving DecidableEq, Repr

/-- The index written by in_index[ItemPointerGetOffsetNumber(indexcursor) - 1]
= true, executed for a cursor that is not NULL and lies on the page
root_blkno. -/
def validate_index_remember_write (root_blkno : Option Nat) :
    Option ItemPointerData → List Int
  | none => []
  | some c => if some c.ip_blkid = root_blkno then [(c.ip_posid : Int) - 1] else []

/-- The indexes written by the merge while loop, following validate_index_skip
pass by pass. -/
def validate_index_skip_writes (rootTuple : ItemPointerData) (root_blkno : Option Nat) :
    List ItemPointerData → Option ItemPointerData → List Int
  | [], indexcursor =>
    if validate_index_behind rootTuple indexcursor then
      validate_index_remember_write root_blkno indexcursor
    else []
  | t :: rest, indexcursor =>
    if validate_index_behind rootTuple indexcursor then
      validate_index_remember_write root_blkno indexcursor ++
        validate_index_skip_writes rootTuple root_blkno rest (some t)
    else []

/-- The array accesses of one iteration of validate_index_heapscan:
root_offsets[root_offnum - 1] is read for a heap-only tuple, the merge loop
writes in_index, and in_index[root_offnum - 1] is read when the first
conjunct of the insert condition holds. -/
def validate_index_heapscan_row_accesses {σ : Type} (env : HeapScanEnv)
    (st : ValidateScanState σ) (heapTuple : HeapTupleData) : ArrayAccesses :=
  let st2 := validate_index_heapscan_newpage env st heapTuple
  let rootTuple : ItemPointerData :=
    { heapTuple.t_self with ip_posid := validate_index_root_offnum st2 heapTuple }
  let st3 := validate_index_heapscan_merge rootTuple st2
  { root_offsets_read :=
      if heapTuple.heap_only then [(heapTuple.t_self.ip_posid : Int) - 1] else []
    in_index_written :=
      if st2.tuplesort_empty then []
      else validate_index_skip_writes rootTuple st2.root_blkno st2.state.tuplesort
        st2.indexcursor
    in_index_read :=
      if validate_index_overshot rootTuple st3.tuplesort_empty st3.indexcursor then
        [(rootTuple.ip_posid : Int) - 1]
      else [] }

/-- The array accesses of the loop of validate_index_heapscan, iteration by
iteration, up to and including the iteration that raises, if one does. -/
def validate_index_heapscan_loop_accesses {σ : Type} (env : HeapScanEnv)
    (index_insert : σ → IndexInsertCall → Except ErrorData σ)
    (predicate : List QualClause) :
    List HeapTupleData → ValidateScanState σ → List ArrayAccesses
  | [], _ => []
  | heapTuple :: rest, st =>
    validate_index_heapscan_row_accesses env st heapTuple ::
      (match validate_index_heapscan_row env index_insert predicate st heapTuple with
       | .error _ => []
       | .ok st1 => validate_index_heapscan_loop_accesses env index_insert predicate rest st1)

/-! ## validate_index -/

/-- validate_index_callback: puts the identifier into the tuplesort, counts it
in itups and returns false (never delete anything). During the collection the
field tuplesort holds the identifiers put so far, in the order they came. The
two branches on gp_enable_mk_sort differ only in the tuplesort implementation
used. -/
def validate_index_callback (itemptr : ItemPointerData) (state : v_i_state) :
    Bool × v_i_state :=
  (false, { state with tuplesort := state.tuplesort ++ [itemptr], itups := state.itups + 1 })

/-- The collaborators of validate_index outside index.c: the access method
(index_insert; the identifiers its bulk-delete traversal reports for an index
state, in traversal order; the removal of one entry) and, for each of
tuplesort_begin_datum, index_bulk_delete and tuplesort_performsort, the error
it raises, if any. -/
structure ValidateEnv (σ : Type) where
  index_insert : σ → IndexInsertCall → Except ErrorData σ
  stored_ids : σ → List ItemPointerData
  remove_id : σ → ItemPointerData → σ
  tuplesort_begin_error : Option ErrorData
  index_bulk_delete_error : Option ErrorData
  tuplesort_performsort_error : Option ErrorData

/-- Modelled from the spec: index_bulk_delete is the traversal of all stored
identifiers of the access-method interface; every stored identifier is
reported to the callback once, and the entries for which the callback answers
true are removed. -/
def index_bulk_delete {σ : Type} (am : ValidateEnv σ) (index : σ)
    (callback : ItemPointerData → v_i_state → Bool × v_i_state) (callback_state : v_i_state) :
    Except ErrorData (σ × v_i_state) :=
  match am.index_bulk_delete_error with
  | some e => .error e
  | none =>
    let r := (am.stored_ids index).foldl
      (fun (acc : List ItemPointerData × v_i_state) itemptr =>
        ((if (callback itemptr acc.2).1 then acc.1 ++ [itemptr] else acc.1),
          (callback itemptr acc.2).2))
      ([], callback_state)
    .ok (r.1.foldl am.remove_id index, r.2)

/-- Modelled from the spec: the sort buffer delivers the identifiers put into
it in ascending order of their total ordering, here ItemPointerCompare. -/
def tuplesort_performsort (tids : List ItemPointerData) : List ItemPointerData :=
  tids.insertionSort (fun x y => ItemPointerCompare x y ≤ 0)

/-- How the PG_TRY block of validate_index is left: with the state of the merge
or with the error raised inside it, with state.tuplesort NULL or not, and
after so many calls of tuplesort_end. -/
structure ValidateIndexTry (σ : Type) where
  outcome : Except ErrorData (ValidateScanState σ)
  tuplesort_allocated : Bool
  tuplesort_end_calls : Nat

/-- The PG_TRY block of validate_index: tuplesort_begin_datum, the collection
of the index identifiers by index_bulk_delete with validate_index_callback,
tuplesort_performsort, validate_index_heapscan over the rows the heap scan
returns under the reference snapshot, tuplesort_end. -/
def validate_index_try {σ : Type} (env : HeapScanEnv) (am : ValidateEnv σ)
    (indexInfo : IndexInfo) (index : σ) (rows : List HeapTupleData) : ValidateIndexTry σ :=
  match am.tuplesort_begin_error with
  | some e => ⟨.error e, false, 0⟩
  | none =>
    let state : v_i_state := { tuplesort := [], htups := 0, itups := 0, tups_inserted := 0 }
    match index_bulk_delete am index validate_index_callback state with
    | .error e => ⟨.error e, true, 0⟩
    | .ok (index1, state1) =>
      match am.tuplesort_performsort_error with
      | some e => ⟨.error e, true, 0⟩
      | none =>
        let state2 := { state1 with tuplesort := tuplesort_performsort state1.tuplesort }
        match validate_index_heapscan env am.index_insert indexInfo state2 index1 rows with
        | .error e => ⟨.error e, true, 0⟩
        | .ok st => ⟨.ok st, false, 1⟩

/-- What a run of validate_index leaves: the final state of the merge, or the
error that propagates to the caller, and the number of calls of
tuplesort_end. -/
structure ValidateIndexRun (σ : Type) where
  result : Except ErrorData (ValidateScanState σ)
  tuplesort_end_calls : Nat

/-- validate_index, for the descriptor BuildIndexInfo returns for the index:
ii_Concurrent is set, the PG_TRY block runs, and PG_CATCH ends the tuplesort
if state.tuplesort is not NULL and re-throws the error. -/
def validate_index {σ : Type} (env : HeapScanEnv) (am : ValidateEnv σ)
    (indexInfo : IndexInfo) (index : σ) (rows : List HeapTupleData) : ValidateIndexRun σ :=
  let r := validate_index_try env am { indexInfo with ii_Concurrent := true } index rows
  match r.outcome with
  | .error e =>
    { result := .error e
      tuplesort_end_calls := r.tuplesort_end_calls + (if r.tuplesort_allocated then 1 else 0) }
  | .ok st => { result := .ok st, tuplesort_end_calls := r.tuplesort_end_calls }

/-! ## DatabaseInfo_AlignAppendOnly (src/backend/cdb/cdbdatabaseinfo.c) -/

/-- The fields of a gp_relation_node entry (DbInfoGpRelationNode) the
alignment reads and writes. -/
structure DbInfoGpRelationNode where
  segmentFileNum : Int
  logicalEof : Int
deriving DecidableEq, Repr

/-- The fields of an aoseg / aocsseg entry
(DbInfoAppendOnlyCatalogSegmentInfo) the alignment reads. -/
structure DbInfoAppendOnlyCatalogSegmentInfo where
  segmentFileNum : Int
  logicalEof : Int
deriving DecidableEq, Repr

/-- The four elog(ERROR) calls of DatabaseInfo_AlignAppendOnly, with the
segment file number they report. -/
inductive AlignAppendOnlyError where
  | has_data_but_no_gp_relation_node (segmentFileNum logicalEof : Int)
  | without_aoseg_entry_case_1 (segmentFileNum : Int)
  | without_aoseg_entry (segmentFileNum : Int)
  | without_aoseg_entry_case_2 (segmentFileNum : Int)
deriving DecidableEq, Repr

/-- The while (true) loop run for one aoseg / aocsseg entry. The first list
holds the entries gpRelationNodes[0 .. g-1] as they are by now, the second the
entries from index g on; the result is the same split when the loop is left by
break. -/
def DatabaseInfo_AlignAppendOnly_entry
    (appendOnlyCatalogSegmentInfo : DbInfoAppendOnlyCatalogSegmentInfo) :
    List DbInfoGpRelationNode → List DbInfoGpRelationNode →
    Except AlignAppendOnlyError (List DbInfoGpRelationNode × List DbInfoGpRelationNode)
  | aligned, [] =>
    if appendOnlyCatalogSegmentInfo.logicalEof > 0 then
      .error (.has_data_but_no_gp_relation_node appendOnlyCatalogSegmentInfo.segmentFileNum
        appendOnlyCatalogSegmentInfo.logicalEof)
    else .ok (aligned, [])
  | aligned, node :: rest =>
    if node.segmentFileNum < appendOnlyCatalogSegmentInfo.segmentFileNum then
      if node.segmentFileNum = 0 then
        DatabaseInfo_AlignAppendOnly_entry appendOnlyCatalogSegmentInfo (aligned ++ [node]) rest
      else .error (.without_aoseg_entry_case_1 node.segmentFileNum)
    else if node.segmentFileNum = appendOnlyCatalogSegmentInfo.segmentFileNum then
      .ok (aligned ++ [{ node with logicalEof := appendOnlyCatalogSegmentInfo.logicalEof }],
        rest)
    else .error (.without_aoseg_entry node.segmentFileNum)

/-- The for loop over the aoseg / aocsseg entries. -/
def DatabaseInfo_AlignAppendOnly_loop :
    List DbInfoAppendOnlyCatalogSegmentInfo → List DbInfoGpRelationNode →
    List DbInfoGpRelationNode →
    Except AlignAppendOnlyError (List DbInfoGpRelationNode × List DbInfoGpRelationNode)
  | [], aligned, rest => .ok (aligned, rest)
  | entry :: entries, aligned, rest =>
    match DatabaseInfo_AlignAppendOnly_entry entry aligned rest with
    | .error e => .error e
    | .ok r => DatabaseInfo_AlignAppendOnly_loop entries r.1 r.2

/-- The final loop that drains the remaining gp_relation_node entries. -/
def DatabaseInfo_AlignAppendOnly_drain :
    List DbInfoGpRelationNode → Except AlignAppendOnlyError Unit
  | [] => .ok ()
  | node :: rest =>
    if node.segmentFileNum > 0 then .error (.without_aoseg_entry_case_2 node.segmentFileNum)
    else DatabaseInfo_AlignAppendOnly_drain rest

/-- DatabaseInfo_AlignAppendOnly on the two arrays of a relation; the result is
the array gpRelationNodes as the function leaves it. -/
def DatabaseInfo_AlignAppendOnly (gpRelationNodes : List DbInfoGpRelationNode)
    (appendOnlyCatalogSegmentInfo : List DbInfoAppendOnlyCatalogSegmentInfo) :
    Except AlignAppendOnlyError (List DbInfoGpRelationNode) :=
  match DatabaseInfo_AlignAppendOnly_loop appendOnlyCatalogSegmentInfo [] gpRelationNodes with
  | .error e => .error e
  | .ok r =>
    match DatabaseInfo_AlignAppendOnly_drain r.2 with
    | .error e => .error e
    | .ok _ => .ok (r.1 ++ r.2)

/-! ## Vocabulary of the statements -/

/-- The arrays values[] and isnull[] FormIndexDatum computes for a row (empty
when it raises). -/
def FormIndexDatum_values (indexInfo : IndexInfo) (slot : HeapTupleData) :
    List Datum × List Bool :=
  match FormIndexDatum indexInfo slot with
  | .ok r => r.2
  | .error _ => ([], [])

/-- The row passes the predicate of the index, if it has one. -/
def passesPredicate (indexInfo : IndexInfo) (heapTuple : HeapTupleData) : Bool :=
  indexInfo.ii_Predicate.isEmpty || ExecQual indexInfo.ii_Predicate heapTuple

/-- The chain-root identifier of a row: its own identifier, or for a heap-only
row the offset the root map of the row's page gives for it. -/
def rootOf (env : HeapScanEnv) (heapTuple : HeapTupleData) : ItemPointerData :=
  rootItemPointer (env.heap_get_root_tuples heapTuple.t_self.ip_blkid) heapTuple

/-- The visibility decision of a build scan for one row: under SnapshotAny the
outcome of the time qual check (indexIt, tupleIsAlive), otherwise the row is
taken as the heap scan returned it. -/
def visibilityDecision (env : HeapScanEnv) (snapshot : Snapshot) (fuel : Nat)
    (indexInfo : IndexInfo) (heapTuple : HeapTupleData) : Except ErrorData (Bool × Bool) :=
  if snapshot = .SnapshotAny then
    match IndexBuildHeapScan_recheck env heapTuple fuel 0 indexInfo [] with
    | .error e => .error e
    | .ok q => .ok (q.indexIt, q.tupleIsAlive)
  else .ok (true, true)

/-- The row passed the visibility decision (it is counted). -/
def passedVisibility (env : HeapScanEnv) (snapshot : Snapshot) (fuel : Nat)
    (indexInfo : IndexInfo) (heapTuple : HeapTupleData) : Bool :=
  match visibilityDecision env snapshot fuel indexInfo heapTuple with
  | .ok d => d.1
  | .error _ => false

/-- The eligible-for-uniqueness flag the visibility decision gives the row. -/
def decidedAlive (env : HeapScanEnv) (snapshot : Snapshot) (fuel : Nat)
    (indexInfo : IndexInfo) (heapTuple : HeapTupleData) : Bool :=
  match visibilityDecision env snapshot fuel indexInfo heapTuple with
  | .ok d => d.2
  | .error _ => false

/-- The callback invocation expected for a row of a heap build scan. -/
def heapBuildCall (env : HeapScanEnv) (snapshot : Snapshot) (fuel : Nat)
    (indexInfo : IndexInfo) (heapTuple : HeapTupleData) : IndexBuildCall :=
  { tid := rootOf env heapTuple
    values := (FormIndexDatum_values indexInfo heapTuple).1
    isnull := (FormIndexDatum_values indexInfo heapTuple).2
    tupleIsAlive := decidedAlive env snapshot fuel indexInfo heapTuple }

/-- The callback invocation expected for a row of an append-only scan. -/
def appendOnlyBuildCall (indexInfo : IndexInfo) (slot : HeapTupleData) : IndexBuildCall :=
  { tid := slot.t_self
    values := (FormIndexDatum_values indexInfo slot).1
    isnull := (FormIndexDatum_values indexInfo slot).2
    tupleIsAlive := true }

/-- Two descriptors that project and filter rows alike: same key columns,
same available expression states, same predicate and uniqueness flag. -/
def SameDescriptor (a b : IndexInfo) : Prop :=
  a.ii_NumIndexAttrs = b.ii_NumIndexAttrs ∧
  a.ii_KeyAttrNumbers = b.ii_KeyAttrNumbers ∧
  indexExpressionStates a = indexExpressionStates b ∧
  a.ii_Unique = b.ii_Unique ∧
  a.ii_Predicate = b.ii_Predicate

/-- Invariant of the build scan loop: the root map in use is the one of the
page it was built for, and the descriptor still projects like the one the scan
was started with. -/
def BuildInv (env : HeapScanEnv) (indexInfo : IndexInfo) (st : BuildScanState) : Prop :=
  (∀ b, st.root_blkno = some b → st.root_offsets = env.heap_get_root_tuples b) ∧
  SameDescriptor st.indexInfo indexInfo

/-- The effect of an iteration of the build scan that indexes the row: the row
is counted and, if it passes the predicate, the callback receives the
chain-root identifier, the projected values and the given uniqueness flag; the
broken-chain flag of the descriptor is as before. -/
def RowIndexed (env : HeapScanEnv) (indexInfo : IndexInfo) (st : BuildScanState)
    (heapTuple : HeapTupleData) (tupleIsAlive : Bool) (st1 : BuildScanState) : Prop :=
  st1.reltuples = st.reltuples + 1 ∧
  st1.callbacks = st.callbacks ++
    (if passesPredicate indexInfo heapTuple then
      [⟨rootOf env heapTuple, (FormIndexDatum_values indexInfo heapTuple).1,
        (FormIndexDatum_values indexInfo heapTuple).2, tupleIsAlive⟩] else []) ∧
  st1.indexInfo.ii_BrokenHotChain = st.indexInfo.ii_BrokenHotChain

/-- The effect of an iteration of the build scan that skips the row: the row
count, the callback invocations and the waits are as before, and the
descriptor is the given one. -/
def RowSkipped (st : BuildScanState) (indexInfo : IndexInfo) (st1 : BuildScanState) : Prop :=
  st1.reltuples = st.reltuples ∧ st1.callbacks = st.callbacks ∧ st1.waits = st.waits ∧
  st1.indexInfo = indexInfo

/-- The classification the row gets after k waits is in progress by a
transaction that is not the current one: InsertInProgress with a foreign
inserter or DeleteInProgress with a foreign deleter. -/
def foreignInProgress (env : HeapScanEnv) (heapTuple : HeapTupleData) (k : Nat) : Bool :=
  match env.HeapTupleSatisfiesVacuum heapTuple k with
  | .HEAPTUPLE_INSERT_IN_PROGRESS => !env.TransactionIdIsCurrentTransactionId heapTuple.xmin
  | .HEAPTUPLE_DELETE_IN_PROGRESS => !env.TransactionIdIsCurrentTransactionId heapTuple.xmax
  | _ => false

/-- The transaction whose end is awaited after a foreign in-progress
classification obtained after k waits: the inserter, or the deleter. -/
def waitedTransaction (env : HeapScanEnv) (heapTuple : HeapTupleData) (k : Nat) :
    TransactionId :=
  match env.HeapTupleSatisfiesVacuum heapTuple k with
  | .HEAPTUPLE_INSERT_IN_PROGRESS => heapTuple.xmin
  | _ => heapTuple.xmax

/-- The version is HOT-updated and the classification it gets after k waits is
RecentlyDead, or DeleteInProgress by the current transaction. -/
def ambiguousChainMember (env : HeapScanEnv) (heapTuple : HeapTupleData) (k : Nat) : Bool :=
  heapTuple.hot_updated &&
    (match env.HeapTupleSatisfiesVacuum heapTuple k with
     | .HEAPTUPLE_RECENTLY_DEAD => true
     | .HEAPTUPLE_DELETE_IN_PROGRESS => env.TransactionIdIsCurrentTransactionId heapTuple.xmax
     | _ => false)

/-- The number of waits the time qual check makes for the row before it
decides it (0 when it raises). -/
def waitsFor (env : HeapScanEnv) (fuel : Nat) (indexInfo : IndexInfo)
    (heapTuple : HeapTupleData) : Nat :=
  match IndexBuildHeapScan_recheck env heapTuple fuel 0 indexInfo [] with
  | .ok q => q.waits.length
  | .error _ => 0

/-- The classification that decides the row, the one obtained after the waits
made for it, finds it an ambiguous chain member. -/
def metAmbiguousChainMember (env : HeapScanEnv) (fuel : Nat) (indexInfo : IndexInfo)
    (heapTuple : HeapTupleData) : Bool :=
  ambiguousChainMember env heapTuple (waitsFor env fuel indexInfo heapTuple)

/-! ## Vocabulary of the validation statements -/

/-- The buffer of index identifiers is in the order the tuplesort delivers:
ascending by ItemPointerCompare. -/
def TidSorted (tids : List ItemPointerData) : Prop :=
  tids.Pairwise (fun a b => ItemPointerCompare a b ≤ 0)

/-- The heap scan delivers its rows in forward page order. -/
def ForwardPageOrder (rows : List HeapTupleData) : Prop :=
  rows.Pairwise (fun a b => a.t_self.ip_blkid ≤ b.t_self.ip_blkid)

/-- The row is missing from the index buffer and passes the predicate. -/
def missingFrom (env : HeapScanEnv) (indexInfo : IndexInfo) (tids : List ItemPointerData)
    (heapTuple : HeapTupleData) : Bool :=
  decide (rootOf env heapTuple ∉ tids) && passesPredicate indexInfo heapTuple

/-- The index_insert call expected for a missing row. -/
def validateCall (env : HeapScanEnv) (indexInfo : IndexInfo) (heapTuple : HeapTupleData) :
    IndexInsertCall :=
  { values := (FormIndexDatum_values indexInfo heapTuple).1
    isnull := (FormIndexDatum_values indexInfo heapTuple).2
    heap_t_ctid := rootOf env heapTuple
    check_uniqueness := indexInfo.ii_Unique }

/-- Invariant of the merge: the buffer tids splits into the identifiers the
cursor has passed over, the cursor and the rest of the tuplesort; the root map
is the one of the current page; every identifier passed over lies on the
current page or before it; and in_index marks exactly the identifiers of the
current page that were passed over. -/
def MergeInv {σ : Type} (env : HeapScanEnv) (indexInfo : IndexInfo)
    (tids passed : List ItemPointerData) (st : ValidateScanState σ) : Prop :=
  (st.tuplesort_empty = true → st.state.tuplesort = [] ∧ tids = passed) ∧
  (st.tuplesort_empty = false →
    tids = passed ++ (st.indexcursor.toList ++ st.state.tuplesort)) ∧
  (st.root_blkno = none → passed = []) ∧
  (∀ b, st.root_blkno = some b →
    st.root_offsets = env.heap_get_root_tuples b ∧
    (∀ c ∈ passed, c.ip_blkid ≤ b) ∧
    ∀ k, st.in_index k = true ↔ ∃ c ∈ passed, c.ip_blkid = b ∧ (c.ip_posid : Int) - 1 = k) ∧
  SameDescriptor st.indexInfo indexInfo

/-- The identifiers passed to index_insert and the value of tups_inserted of a
validation scan that returned. -/
def validateOutcome {σ : Type} (r : Except ErrorData (ValidateScanState σ)) :
    Option (List IndexInsertCall × Nat) :=
  match r with
  | .ok st => some (st.inserts, st.state.tups_inserted)
  | .error _ => none

/-- The given calls of index_insert made one after the other, from the given
state of the index, up to the first that raises. -/
def insertAll {σ : Type} (index_insert : σ → IndexInsertCall → Except ErrorData σ) :
    σ → List IndexInsertCall → Except ErrorData σ
  | index, [] => .ok index
  | index, call :: rest =>
    match index_insert index call with
    | .error e => .error e
    | .ok index1 => insertAll index_insert index1 rest

/-- The index_insert calls expected of a validation against the buffer tids:
one for every row that is missing from it and passes the predicate, in scan
order. -/
def validateCalls (env : HeapScanEnv) (indexInfo : IndexInfo) (tids : List ItemPointerData)
    (rows : List HeapTupleData) : List IndexInsertCall :=
  (rows.filter (missingFrom env indexInfo tids)).map (validateCall env indexInfo)

/-- An index_insert that refuses every call whose uniqueness flag is not the
given one and otherwise is the given index_insert. -/
def insertWithFlag {σ : Type} (index_insert : σ → IndexInsertCall → Except ErrorData σ)
    (flag : Bool) : σ → IndexInsertCall → Except ErrorData σ :=
  fun index call =>
    if call.check_uniqueness = flag then index_insert index call
    else .error (.access_method_error 0)

/-- The identifiers passed to index_insert, in call order. -/
def insertedTids (calls : List IndexInsertCall) : List ItemPointerData :=
  calls.map (fun c => c.heap_t_ctid)

/-- The sorted union of two lists of identifiers, as the tuplesort would
deliver it. -/
def sortedUnion (a b : List ItemPointerData) : List ItemPointerData :=
  (a ++ b).insertionSort (fun x y => ItemPointerCompare x y ≤ 0)

/-! ## Concrete inputs used by the witnesses and counterexamples -/

/-- A row version with a single column (attribute 1) holding v. -/
def exampleRow (blk off : Nat) (heap_only hot_updated : Bool) (v : Datum) : HeapTupleData :=
  { t_self := ⟨blk, off⟩
    heap_only := heap_only
    hot_updated := hot_updated
    xmin := 2
    xmax := 0
    attr := fun k => if k = 1 then (v, false) else (0, true) }

/-- An index on attribute 1 with the given predicate list. -/
def exampleIndexInfo (predicate : List QualClause) : IndexInfo :=
  { ii_NumIndexAttrs := 1
    ii_KeyAttrNumbers := fun _ => 1
    ii_Expressions := []
    ii_ExpressionsState := []
    ii_Predicate := predicate
    ii_PredicateState := []
    ii_Unique := false
    ii_ReadyForInserts := true
    ii_Concurrent := false
    ii_BrokenHotChain := false }

/-- The predicate value > 10 on attribute 1. -/
def valueAbove10 : QualClause := fun t => decide ((t.attr 1).1 > 10)

/-- An ordinary table whose classifier answers by the given function and whose
pages all have the given root map; transaction 2 is the current one. -/
def exampleEnv (classify : HeapTupleData → HTSV_Result) (roots : Int → Nat) :
    HeapScanEnv :=
  { heap_get_root_tuples := fun _ => roots
    HeapTupleSatisfiesVacuum := fun t _ => classify t
    TransactionIdIsCurrentTransactionId := fun x => decide (x = 2)
    IsSystemRelation := false }

/-- A system catalog whose classifier answers by the given function of the row
and of the number of waits already made for it; transaction 2 is the current
one. -/
def exampleCatalogEnv (classify : HeapTupleData → Nat → HTSV_Result) : HeapScanEnv :=
  { heap_get_root_tuples := fun _ _ => 0
    HeapTupleSatisfiesVacuum := classify
    TransactionIdIsCurrentTransactionId := fun x => decide (x = 2)
    IsSystemRelation := true }

/-- Rows with values 5, 15 and 25 on page 0. -/
def rows_5_15_25 : List HeapTupleData :=
  [exampleRow 0 1 false false 5, exampleRow 0 2 false false 15, exampleRow 0 3 false false 25]

/-- The callback invocations and the row count of a build scan that returned. -/
def buildOutcome (r : Except ErrorData BuildScanState) : Option (List IndexBuildCall × Nat) :=
  match r with
  | .ok st => some (st.callbacks, st.reltuples)
  | .error _ => none

/-- An access method that accepts every insertion and keeps the calls. -/
def exampleInsert : List IndexInsertCall → IndexInsertCall →
    Except ErrorData (List IndexInsertCall) :=
  fun index call => .ok (index ++ [call])

/-- The root map of the example page: the heap-only row at offset 1 belongs to
the chain rooted at offset 5. -/
def exampleRoots : Int → Nat := fun k => if k = 0 then 5 else 0

/-- A heap scan in forward page order whose roots on page 0 are visited out of
ascending order: the heap-only row at offset 1 has root (0,5), the next row is
its own root (0,3); a third row lies on page 1. -/
def exampleScan : List HeapTupleData :=
  [exampleRow 0 1 true false 7, exampleRow 0 3 false false 8, exampleRow 1 1 false false 9]

/-- The value a run returned (the given value when it raised). -/
def returned {α : Type} (r : Except ErrorData α) (otherwise : α) : α :=
  match r with
  | .ok a => a
  | .error _ => otherwise

/-- A segment (Gp_role = GP_ROLE_EXECUTE) on which table 50 has the single
index 100 and no toast or auxiliary relation; reindex_index answers with the
relfilenode it was given. -/
def exampleReindexEnv : ReindexEnv :=
  { Gp_role_EXECUTE := true
    RelationGetIndexList := fun relid => if relid = 50 then [100] else []
    reltoastrelid := fun _ => InvalidOid
    relIsAO := fun _ => false
    GetAppendOnlyEntryAuxOids := fun _ => (InvalidOid, InvalidOid, InvalidOid)
    reindex_index := fun _ mapoid extra_oids => .ok (mapoid, extra_oids) }

/-- An oid map sent by the master that has an entry for index 200 only. -/
def exampleOidMap : ReindexState :=
  { oidmap := some [[200, 201, 0]], rebuilt := [] }

/-- A unique index on attribute 1 without predicate. -/
def exampleUniqueIndexInfo : IndexInfo :=
  { exampleIndexInfo [] with ii_Unique := true }

/-- An access method that keeps its entries in a list and, when asked to check
uniqueness, raises error 23505 for values it already holds; no collaborator
of the collection raises. -/
def exampleUniqueMethod : ValidateEnv (List IndexInsertCall) :=
  { index_insert := fun index call =>
      if call.check_uniqueness && index.any (fun c => decide (c.values = call.values)) then
        .error (.access_method_error 23505)
      else .ok (index ++ [call])
    stored_ids := fun index => index.map (fun c => c.heap_t_ctid)
    remove_id := fun index tid => index.filter (fun c => decide (c.heap_t_ctid ≠ tid))
    tuplesort_begin_error := none
    index_bulk_delete_error := none
    tuplesort_performsort_error := none }

/-- Two rows on page 0 that both hold the value 5. -/
def exampleDuplicates : List HeapTupleData :=
  [exampleRow 0 1 false false 5, exampleRow 0 2 false false 5]

/-- The empty pg_index catalog. -/
def emptyCatalog : PgIndex := fun _ => none

/-- A row at (0,2) with value 15 inserted by transaction 7 and deleted by
transaction 8, neither of them the current one. -/
def exampleForeignRow : HeapTupleData :=
  { t_self := ⟨0, 2⟩
    heap_only := false
    hot_updated := false
    xmin := 7
    xmax := 8
    attr := fun k => if k = 1 then (15, false) else (0, true) }

/-- A row at (0,2) with value 15 deleted by the current transaction 2. -/
def exampleOwnDelete (hot_updated : Bool) : HeapTupleData :=
  { t_self := ⟨0, 2⟩
    heap_only := false
    hot_updated := hot_updated
    xmin := 1
    xmax := 2
    attr := fun k => if k = 1 then (15, false) else (0, true) }

/-- Surroundings of a CREATE INDEX in normal processing mode: relations below
OID 16 are system catalogs, none is shared, the names 1 and 2 are in use for
the relations 50 and 60, nothing index_create calls raises, and the build of
the access method leaves the descriptor as the given function says. -/
def exampleCreateEnv (ambuild : IndexInfo → IndexInfo) : IndexCreateEnv :=
  { IsBootstrapProcessingMode := false
    IsNormalProcessingMode := true
    GLOBALTABLESPACE_OID := 1664
    IsSystemRelation := fun relid => decide (relid < 16)
    relisshared := fun _ => false
    get_relname_relid := fun name => if name = 1 then 50 else if name = 2 then 60 else 0
    ConstructTupleDescriptor := fun _ _ => .ok ()
    GetNewRelFileNode := fun _ _ => 100
    heap_create := fun _ => .ok ()
    ConstraintNameIsUsed := fun _ _ => false
    CreateConstraintEntry := .ok ()
    recordDependencyOn := .ok ()
    index_update_stats := .ok ()
    ambuild := fun indexInfo => .ok (ambuild indexInfo) }

/-- The catalog right after a concurrent CREATE INDEX registered index 100 on
table 50: the row UpdateIndexRelation writes with isvalid false. -/
def exampleRegistered : PgIndex :=
  UpdateIndexRelation emptyCatalog 100 50 (exampleIndexInfo []) [1978] [0] false false

/-- The catalog after a concurrent CREATE INDEX has gone through its three
flag writes for index 100 on table 50: registration, ready, valid. -/
def exampleCatalog : PgIndex :=
  returned (index_set_state_flags
    (returned (index_set_state_flags exampleRegistered
      100 .INDEX_CREATE_SET_READY) emptyCatalog)
    100 .INDEX_CREATE_SET_VALID) emptyCatalog

/-- The OID a returned index_create gave the index and the flags (indisready,
indisvalid, indcheckxmin, indisclustered) of the row of that index. -/
def createOutcome (r : Except IndexCreateError (Oid × PgIndex × IndexInfo)) :
    Except IndexCreateError (Oid × Option (Bool × Bool × Bool × Bool)) :=
  match r with
  | .error e => .error e
  | .ok (indexoid, pg_index, _) =>
    .ok (indexoid, (pg_index indexoid).map
      (fun f => (f.indisready, f.indisvalid, f.indcheckxmin, f.indisclustered)))

/-- A row with attributes 1 and 2 holding 11 and 22. -/
def exampleSlot : HeapTupleData :=
  { t_self := ⟨0, 1⟩
    heap_only := false
    hot_updated := false
    xmin := 2
    xmax := 0
    attr := fun k => if k = 1 then (11, false) else if k = 2 then (22, false) else (0, true) }

/-- An index with four key positions: column 1, an expression, column 2, an
expression; the expressions are attribute 1 plus 100 and the null value. -/
def exampleExpressionIndex : IndexInfo :=
  { ii_NumIndexAttrs := 4
    ii_KeyAttrNumbers := fun i => if i = 0 then 1 else if i = 2 then 2 else 0
    ii_Expressions := [fun t => ((t.attr 1).1 + 100, false), fun _ => (0, true)]
    ii_ExpressionsState := []
    ii_Predicate := []
    ii_PredicateState := []
    ii_Unique := true
    ii_ReadyForInserts := true
    ii_Concurrent := false
    ii_BrokenHotChain := false }


/-! ## Theorems -/

theorem exprPositionsBefore_succ (indexInfo : IndexInfo) (i : Nat) :
    exprPositionsBefore indexInfo (i + 1) =
      exprPositionsBefore indexInfo i + (if indexInfo.ii_KeyAttrNumbers i = 0 then 1 else 0) := by
  unfold exprPositionsBefore
  rw [List.range_succ, List.filter_append]
  by_cases h : indexInfo.ii_KeyAttrNumbers i = 0 <;> simp [h]

theorem exprPositionsBefore_mono (indexInfo : IndexInfo) (i n : Nat) :
    exprPositionsBefore indexInfo i ≤ exprPositionsBefore indexInfo (i + n) := by
  induction n with
  | zero => simp
  | succ n ih =>
    rw [← Nat.add_assoc, exprPositionsBefore_succ]
    omega

theorem FormIndexDatum_loop_eq (indexInfo : IndexInfo) (slot : HeapTupleData)
    (states : List ExprState) (n : Nat) :
    ∀ (i : Nat) (values : List Datum) (isnull : List Bool),
      exprPositionsBefore indexInfo i ≤ states.length →
      FormIndexDatum_loop indexInfo slot n i
          (states.drop (exprPositionsBefore indexInfo i)) values isnull =
        if exprPositionsBefore indexInfo (i + n) ≤ states.length then
          .ok (states.drop (exprPositionsBefore indexInfo (i + n)),
            values ++ (List.range' i n).map (fun p => (projectedEntry indexInfo slot states p).1),
            isnull ++ (List.range' i n).map (fun p => (projectedEntry indexInfo slot states p).2))
        else .error .wrong_number_of_index_expressions := by
  induction n with
  | zero =>
    intro i values isnull h
    simp [FormIndexDatum_loop, h]
  | succ n ih =>
    intro i values isnull h
    have hs := exprPositionsBefore_succ indexInfo i
    have hidx : i + (n + 1) = i + 1 + n := by omega
    by_cases hk : indexInfo.ii_KeyAttrNumbers i = 0
    · simp only [hk, if_true] at hs
      rcases Nat.lt_or_ge (exprPositionsBefore indexInfo i) states.length with hlt | hge
      · have hd : states.drop (exprPositionsBefore indexInfo i) =
            states[exprPositionsBefore indexInfo i] ::
              states.drop (exprPositionsBefore indexInfo i + 1) :=
          List.drop_eq_getElem_cons hlt
        have hget : states[exprPositionsBefore indexInfo i]? =
            some states[exprPositionsBefore indexInfo i] := List.getElem?_eq_getElem hlt
        rw [hd]
        simp only [FormIndexDatum_loop, hk, ne_eq, not_true_eq_false, if_false]
        rw [← hs, ih (i + 1) _ _ (by omega), hidx]
        simp [List.range', projectedEntry, hk, hget]
      · have hd : states.drop (exprPositionsBefore indexInfo i) = [] :=
          List.drop_eq_nil_of_le hge
        have hm := exprPositionsBefore_mono indexInfo (i + 1) n
        rw [hd]
        simp only [FormIndexDatum_loop, hk, ne_eq, not_true_eq_false, if_false]
        rw [hidx, if_neg (by omega)]
    · simp only [hk, if_false, Nat.add_zero] at hs
      simp only [FormIndexDatum_loop, ne_eq, hk, not_false_eq_true, if_true]
      have := ih (i + 1) (values ++ [(slot.attr (indexInfo.ii_KeyAttrNumbers i)).1])
        (isnull ++ [(slot.attr (indexInfo.ii_KeyAttrNumbers i)).2]) (by omega)
      rw [hs] at this
      rw [this, hidx]
      simp [List.range', projectedEntry, hk]


theorem FormIndexDatum_setup_keys (indexInfo : IndexInfo) :
    (FormIndexDatum_setup indexInfo).ii_KeyAttrNumbers = indexInfo.ii_KeyAttrNumbers ∧
    (FormIndexDatum_setup indexInfo).ii_NumIndexAttrs = indexInfo.ii_NumIndexAttrs := by
  unfold FormIndexDatum_setup
  split <;> simp

theorem exprPositionsBefore_setup (indexInfo : IndexInfo) (i : Nat) :
    exprPositionsBefore (FormIndexDatum_setup indexInfo) i = exprPositionsBefore indexInfo i := by
  unfold exprPositionsBefore
  rw [(FormIndexDatum_setup_keys indexInfo).1]

theorem projectedEntry_setup (indexInfo : IndexInfo) (slot : HeapTupleData)
    (states : List ExprState) (p : Nat) :
    projectedEntry (FormIndexDatum_setup indexInfo) slot states p =
      projectedEntry indexInfo slot states p := by
  unfold projectedEntry
  rw [(FormIndexDatum_setup_keys indexInfo).1, exprPositionsBefore_setup]

/-- FormIndexDatum in closed form: it succeeds exactly when the number of
available expression states equals the number of expression key positions. -/
theorem FormIndexDatum_eq (indexInfo : IndexInfo) (slot : HeapTupleData) :
    FormIndexDatum indexInfo slot =
      if (indexExpressionStates indexInfo).length =
          exprPositionsBefore indexInfo indexInfo.ii_NumIndexAttrs then
        .ok (FormIndexDatum_setup indexInfo,
          (List.range indexInfo.ii_NumIndexAttrs).map
            (fun p => (projectedEntry indexInfo slot (indexExpressionStates indexInfo) p).1),
          (List.range indexInfo.ii_NumIndexAttrs).map
            (fun p => (projectedEntry indexInfo slot (indexExpressionStates indexInfo) p).2))
      else .error .wrong_number_of_index_expressions := by
  have h0 : exprPositionsBefore (FormIndexDatum_setup indexInfo) 0 = 0 := by
    simp [exprPositionsBefore]
  have hl := FormIndexDatum_loop_eq (FormIndexDatum_setup indexInfo) slot
    (indexExpressionStates indexInfo) (FormIndexDatum_setup indexInfo).ii_NumIndexAttrs 0 [] []
    (by rw [h0]; exact Nat.zero_le _)
  rw [h0, List.drop_zero, Nat.zero_add] at hl
  unfold FormIndexDatum
  simp only [indexExpressionStates] at hl ⊢
  rw [hl]
  simp only [exprPositionsBefore_setup, (FormIndexDatum_setup_keys indexInfo).2,
    projectedEntry_setup, List.nil_append, List.range_eq_range']
  rcases Nat.lt_trichotomy (exprPositionsBefore indexInfo indexInfo.ii_NumIndexAttrs)
    (FormIndexDatum_setup indexInfo).ii_ExpressionsState.length with h | h | h
  · have hne : (List.drop (exprPositionsBefore indexInfo indexInfo.ii_NumIndexAttrs)
        (FormIndexDatum_setup indexInfo).ii_ExpressionsState).isEmpty = false := by
      rw [List.isEmpty_eq_false, ne_eq, List.drop_eq_nil_iff]
      omega
    simp [Nat.le_of_lt h, Nat.ne_of_gt h, hne]
  · simp [h]
  · have : ¬ exprPositionsBefore indexInfo indexInfo.ii_NumIndexAttrs ≤
        (FormIndexDatum_setup indexInfo).ii_ExpressionsState.length := by omega
    simp [this, Nat.ne_of_lt h]

/-- C9: when FormIndexDatum does not raise, every key position i below
ii_NumIndexAttrs holds the column value and null flag of the row if its
attribute number is non-zero, and otherwise the result of the j-th available
expression state, j being the number of expression positions before i. -/
theorem FormIndexDatum_projects (indexInfo : IndexInfo) (slot : HeapTupleData)
    (indexInfo1 : IndexInfo) (values : List Datum) (isnull : List Bool)
    (h : FormIndexDatum indexInfo slot = .ok (indexInfo1, values, isnull)) :
    values.length = indexInfo.ii_NumIndexAttrs ∧
    isnull.length = indexInfo.ii_NumIndexAttrs ∧
    ∀ i, i < indexInfo.ii_NumIndexAttrs →
      (indexInfo.ii_KeyAttrNumbers i ≠ 0 →
        values[i]? = some (slot.attr (indexInfo.ii_KeyAttrNumbers i)).1 ∧
        isnull[i]? = some (slot.attr (indexInfo.ii_KeyAttrNumbers i)).2) ∧
      (indexInfo.ii_KeyAttrNumbers i = 0 →
        ∃ e, (indexExpressionStates indexInfo)[exprPositionsBefore indexInfo i]? = some e ∧
          values[i]? = some (e slot).1 ∧ isnull[i]? = some (e slot).2) := by
  rw [FormIndexDatum_eq] at h
  split at h
  · rename_i hlen
    simp only [Except.ok.injEq, Prod.mk.injEq] at h
    obtain ⟨-, hv, hn⟩ := h
    subst hv hn
    refine ⟨by simp, by simp, ?_⟩
    intro i hi
    constructor
    · intro hk
      simp [hi, projectedEntry, hk]
    · intro hk
      have hs := exprPositionsBefore_succ indexInfo i
      simp only [hk, if_true] at hs
      have hm := exprPositionsBefore_mono indexInfo (i + 1) (indexInfo.ii_NumIndexAttrs - (i + 1))
      have hidx : i + 1 + (indexInfo.ii_NumIndexAttrs - (i + 1)) = indexInfo.ii_NumIndexAttrs := by
        omega
      rw [hidx] at hm
      have hlt : exprPositionsBefore indexInfo i < (indexExpressionStates indexInfo).length := by
        omega
      refine ⟨(indexExpressionStates indexInfo)[exprPositionsBefore indexInfo i],
        List.getElem?_eq_getElem hlt, ?_, ?_⟩ <;>
        simp [hi, projectedEntry, hk, List.getElem?_eq_getElem hlt]
  · simp at h

/-- C10: FormIndexDatum raises the error "wrong number of index expressions"
exactly when the number of available expression states differs from the number
of key positions whose attribute number is 0; on the example index (two
expression positions) it is raised with one expression state and with three,
and not with two. -/
theorem FormIndexDatum_wrong_number_iff (indexInfo : IndexInfo) (slot : HeapTupleData) :
    (FormIndexDatum indexInfo slot = .error .wrong_number_of_index_expressions ↔
      (indexExpressionStates indexInfo).length ≠
        exprPositionsBefore indexInfo indexInfo.ii_NumIndexAttrs) ∧
    FormIndexDatum { exampleExpressionIndex with ii_Expressions := [fun _ => (0, true)] }
      exampleSlot = .error .wrong_number_of_index_expressions ∧
    FormIndexDatum { exampleExpressionIndex with
        ii_Expressions := [fun _ => (0, true), fun _ => (1, false), fun _ => (2, false)] }
      exampleSlot = .error .wrong_number_of_index_expressions ∧
    (FormIndexDatum_values exampleExpressionIndex exampleSlot).1 = [11, 111, 22, 0] := by
  refine ⟨?_, rfl, rfl, rfl⟩
  rw [FormIndexDatum_eq]
  by_cases h : (indexExpressionStates indexInfo).length =
      exprPositionsBefore indexInfo indexInfo.ii_NumIndexAttrs <;> simp [h]

/-! ### State flags -/

theorem ValidImpliesReady_update (c : PgIndex) (indexId : Oid) (row : FormData_pg_index)
    (hc : ValidImpliesReady c) (hrow : row.indisvalid = true → row.indisready = true) :
    ValidImpliesReady (Function.update c indexId (some row)) := by
  intro i f hf hv
  by_cases hi : i = indexId
  · subst hi
    rw [Function.update_same] at hf
    cases hf
    exact hrow hv
  · rw [Function.update_noteq hi] at hf
    exact hc i f hf hv

/-- What a returned index_build did: the build procedure and the statistics
update returned, and the catalog is unchanged unless broken HOT chains were
found in a build that is neither a reindex nor concurrent, in which case
indcheckxmin was set in the row of the index and nothing else changed. -/
theorem index_build_ok (env : IndexCreateEnv) (pg_index : PgIndex) (indexId : Oid)
    (indexInfo : IndexInfo) (isreindex : Bool) (pg_index1 : PgIndex) (indexInfo1 : IndexInfo)
    (h : index_build env pg_index indexId indexInfo isreindex = .ok (pg_index1, indexInfo1)) :
    env.ambuild indexInfo = .ok indexInfo1 ∧ env.index_update_stats = .ok () ∧
    ((indexInfo1.ii_BrokenHotChain && !isreindex && !indexInfo1.ii_Concurrent) = true →
      ∃ indexForm, pg_index indexId = some indexForm ∧
        pg_index1 = Function.update pg_index indexId
          (some { indexForm with indcheckxmin := true })) ∧
    ((indexInfo1.ii_BrokenHotChain && !isreindex && !indexInfo1.ii_Concurrent) = false →
      pg_index1 = pg_index) := by
  unfold index_build at h
  cases ha : env.ambuild indexInfo with
  | error e => rw [ha] at h; cases h
  | ok info =>
    rw [ha] at h
    simp only at h
    cases hs : env.index_update_stats with
    | error e =>
      rw [hs] at h
      split at h <;> cases h
    | ok u =>
      rw [hs] at h
      cases hb : (info.ii_BrokenHotChain && !isreindex && !info.ii_Concurrent)
      · rw [hb] at h
        simp only [Bool.false_eq_true, if_false, Except.ok.injEq, Prod.mk.injEq] at h
        obtain ⟨h1, h2⟩ := h
        subst h1 h2
        exact ⟨rfl, rfl, fun hc => (by rw [hb] at hc; cases hc), fun _ => rfl⟩
      · rw [hb] at h
        simp only [if_true] at h
        cases hrow : pg_index indexId with
        | none => rw [hrow] at h; cases h
        | some indexForm =>
          rw [hrow] at h
          simp only [Except.ok.injEq, Prod.mk.injEq] at h
          obtain ⟨h1, h2⟩ := h
          subst h1 h2
          exact ⟨rfl, rfl, fun _ => ⟨indexForm, rfl, rfl⟩, fun hc => (by rw [hb] at hc; cases hc)⟩

/-- What a returned index_create_register did: the parameter checks passed,
nothing called before the registration raised, and the catalog is the one
UpdateIndexRelation gives for the chosen OID with isvalid = !concurrent. -/
theorem index_create_register_ok (env : IndexCreateEnv) (pg_index : PgIndex)
    (heapRelationId : Oid) (indexRelationName : Nat) (indexRelationId : Oid)
    (indexInfo : IndexInfo) (tableSpaceId : Oid) (classObjectId : List Oid)
    (coloptions : List Int) (isprimary allow_system_table_mods concurrent : Bool)
    (indexoid : Oid) (pg_index1 : PgIndex)
    (h : index_create_register env pg_index heapRelationId indexRelationName indexRelationId
      indexInfo tableSpaceId classObjectId coloptions isprimary allow_system_table_mods
      concurrent = .ok (indexoid, pg_index1)) :
    index_create_check_parameters env heapRelationId indexRelationName indexInfo tableSpaceId
      allow_system_table_mods concurrent = .ok () ∧
    env.ConstructTupleDescriptor indexInfo classObjectId = .ok () ∧
    env.heap_create indexoid = .ok () ∧
    indexoid = index_create_oid env heapRelationId indexRelationId tableSpaceId ∧
    pg_index1 = UpdateIndexRelation pg_index indexoid heapRelationId indexInfo classObjectId
      coloptions isprimary (!concurrent) := by
  unfold index_create_register at h
  cases hc : index_create_check_parameters env heapRelationId indexRelationName indexInfo
      tableSpaceId allow_system_table_mods concurrent with
  | error e => rw [hc] at h; cases h
  | ok u =>
    rw [hc] at h
    simp only at h
    cases hd : env.ConstructTupleDescriptor indexInfo classObjectId with
    | error e => rw [hd] at h; cases h
    | ok u1 =>
      rw [hd] at h
      simp only at h
      cases hh : env.heap_create
          (index_create_oid env heapRelationId indexRelationId tableSpaceId) with
      | error e => rw [hh] at h; cases h
      | ok u2 =>
        rw [hh] at h
        simp only [Except.ok.injEq, Prod.mk.injEq] at h
        obtain ⟨h1, h2⟩ := h
        subst h1 h2
        exact ⟨rfl, rfl, hh, rfl, rfl⟩

/-- What a returned index_create did: the registration and the dependency
block returned, and then either nothing more was written to pg_index
(bootstrap mode, or skip_build) or index_build ran with isreindex false. -/
theorem index_create_ok (env : IndexCreateEnv) (pg_index : PgIndex) (heapRelationId : Oid)
    (indexRelationName : Nat) (indexRelationId : Oid) (indexInfo : IndexInfo)
    (tableSpaceId : Oid) (classObjectId : List Oid) (coloptions : List Int)
    (isprimary isconstraint : Bool) (constrOid : Option Oid)
    (allow_system_table_mods skip_build concurrent : Bool) (altConName : Option Nat)
    (indexoid : Oid) (pg_index2 : PgIndex) (indexInfo2 : IndexInfo)
    (h : index_create env pg_index heapRelationId indexRelationName indexRelationId indexInfo
      tableSpaceId classObjectId coloptions isprimary isconstraint constrOid
      allow_system_table_mods skip_build concurrent altConName =
        .ok (indexoid, pg_index2, indexInfo2)) :
    ∃ pg_index1,
      index_create_register env pg_index heapRelationId indexRelationName indexRelationId
        indexInfo tableSpaceId classObjectId coloptions isprimary allow_system_table_mods
        concurrent = .ok (indexoid, pg_index1) ∧
      index_create_dependencies env heapRelationId indexRelationName indexInfo isprimary
        isconstraint constrOid altConName = .ok () ∧
      ((env.IsBootstrapProcessingMode = true ∧ pg_index2 = pg_index1 ∧
          indexInfo2 = indexInfo) ∨
        (env.IsBootstrapProcessingMode = false ∧ skip_build = true ∧
          env.index_update_stats = .ok () ∧ pg_index2 = pg_index1 ∧ indexInfo2 = indexInfo) ∨
        (env.IsBootstrapProcessingMode = false ∧ skip_build = false ∧
          index_build env pg_index1 indexoid indexInfo false = .ok (pg_index2, indexInfo2))) := by
  unfold index_create at h
  cases hr : index_create_register env pg_index heapRelationId indexRelationName
      indexRelationId indexInfo tableSpaceId classObjectId coloptions isprimary
      allow_system_table_mods concurrent with
  | error e => rw [hr] at h; cases h
  | ok r =>
    obtain ⟨oid1, c1⟩ := r
    rw [hr] at h
    simp only at h
    cases hd : index_create_dependencies env heapRelationId indexRelationName indexInfo
        isprimary isconstraint constrOid altConName with
    | error e => rw [hd] at h; cases h
    | ok u =>
      rw [hd] at h
      simp only at h
      cases hb : env.IsBootstrapProcessingMode
      · rw [hb] at h
        simp only [Bool.false_eq_true, if_false] at h
        cases hk : skip_build
        · rw [hk] at h
          simp only [Bool.false_eq_true, if_false] at h
          cases hbuild : index_build env c1 oid1 indexInfo false with
          | error e => rw [hbuild] at h; cases h
          | ok b =>
            obtain ⟨c2, info2⟩ := b
            rw [hbuild] at h
            simp only [Except.ok.injEq, Prod.mk.injEq] at h
            obtain ⟨h1, h2, h3⟩ := h
            subst h1 h2 h3
            exact ⟨c1, rfl, rfl, Or.inr (Or.inr ⟨rfl, rfl, hbuild⟩)⟩
        · rw [hk] at h
          simp only [if_true] at h
          cases hs : env.index_update_stats with
          | error e => rw [hs] at h; cases h
          | ok u1 =>
            rw [hs] at h
            simp only [Except.ok.injEq, Prod.mk.injEq] at h
            obtain ⟨h1, h2, h3⟩ := h
            subst h1 h2 h3
            exact ⟨c1, rfl, rfl, Or.inr (Or.inl ⟨rfl, rfl, rfl, rfl, rfl⟩)⟩
      · rw [hb] at h
        simp only [if_true, Except.ok.injEq, Prod.mk.injEq] at h
        obtain ⟨h1, h2, h3⟩ := h
        subst h1 h2 h3
        exact ⟨c1, rfl, rfl, Or.inl ⟨rfl, rfl, rfl⟩⟩

/-- A returned index_build keeps "valid implies ready": it writes indcheckxmin
only. -/
theorem ValidImpliesReady_index_build (env : IndexCreateEnv) (pg_index : PgIndex)
    (indexId : Oid) (indexInfo : IndexInfo) (isreindex : Bool) (pg_index1 : PgIndex)
    (indexInfo1 : IndexInfo)
    (h : index_build env pg_index indexId indexInfo isreindex = .ok (pg_index1, indexInfo1))
    (hc : ValidImpliesReady pg_index) : ValidImpliesReady pg_index1 := by
  obtain ⟨-, -, hset, hkeep⟩ := index_build_ok env pg_index indexId indexInfo isreindex
    pg_index1 indexInfo1 h
  cases hb : (indexInfo1.ii_BrokenHotChain && !isreindex && !indexInfo1.ii_Concurrent)
  · rw [hkeep hb]
    exact hc
  · obtain ⟨indexForm, hrow, heq⟩ := hset hb
    rw [heq]
    exact ValidImpliesReady_update _ _ _ hc (fun hv => hc indexId indexForm hrow hv)

/-- C4: "valid implies ready" is preserved by every operation of index.c that
writes the two flags (index_create through UpdateIndexRelation,
index_set_state_flags under its Assert lines, reindex_index), so it holds in
every state reachable from a state in which it holds. -/
theorem valid_implies_ready_invariant (start c : PgIndex)
    (hstart : ValidImpliesReady start) (hreach : FlagsReachable start c) :
    ValidImpliesReady c := by
  induction hreach with
  | start => exact hstart
  | create indexoid heapoid indexInfo classOids coloptions primary isvalid _ ih =>
    unfold UpdateIndexRelation
    exact ValidImpliesReady_update _ _ _ ih (by simp)
  | @created c0 c1 env heapRelationId indexRelationName indexRelationId indexInfo tableSpaceId
      classObjectId coloptions isprimary isconstraint constrOid allow_system_table_mods
      skip_build concurrent altConName indexoid indexInfo1 _ hstep ih =>
    obtain ⟨c, hreg, -, hrest⟩ := index_create_ok env c0 heapRelationId indexRelationName
      indexRelationId indexInfo tableSpaceId classObjectId coloptions isprimary isconstraint
      constrOid allow_system_table_mods skip_build concurrent altConName indexoid c1
      indexInfo1 hstep
    have hc : ValidImpliesReady c := by
      rw [(index_create_register_ok env c0 heapRelationId indexRelationName indexRelationId
        indexInfo tableSpaceId classObjectId coloptions isprimary allow_system_table_mods
        concurrent indexoid c hreg).2.2.2.2]
      unfold UpdateIndexRelation
      exact ValidImpliesReady_update _ _ _ ih (by simp)
    rcases hrest with ⟨-, h2, -⟩ | ⟨-, -, -, h2, -⟩ | ⟨-, -, hbuild⟩
    · rw [h2]; exact hc
    · rw [h2]; exact hc
    · exact ValidImpliesReady_index_build env c indexoid indexInfo false c1 indexInfo1 hbuild hc
  | @built c0 c1 env indexId indexInfo indexInfo1 isreindex _ hstep ih =>
    exact ValidImpliesReady_index_build env c0 indexId indexInfo isreindex c1 indexInfo1 hstep ih
  | set_flags indexId action indexForm _ hrow hassert hstep ih =>
    unfold index_set_state_flags at hstep
    rw [hrow] at hstep
    simp only [Except.ok.injEq] at hstep
    subst hstep
    apply ValidImpliesReady_update _ _ _ ih
    cases action
    · simp
    · simp only [index_set_state_flags_asserts, Bool.and_eq_true] at hassert
      intro _
      exact hassert.1
  | @reindex c0 c1 indexId rebuild updated _ hstep ih =>
    unfold reindex_index at hstep
    cases rebuild with
    | error e => simp at hstep
    | ok u =>
      simp only at hstep
      cases hrow : c0 indexId with
      | none => simp [hrow] at hstep
      | some indexForm =>
        simp only [hrow] at hstep
        split at hstep
        · simp only [Except.ok.injEq, Prod.mk.injEq] at hstep
          rw [← hstep.1]
          exact ValidImpliesReady_update _ _ _ ih (by simp)
        · simp only [Except.ok.injEq, Prod.mk.injEq] at hstep
          rw [← hstep.1]
          exact ih

/-! ### Descriptors that project alike -/

theorem SameDescriptor.refl (a : IndexInfo) : SameDescriptor a a :=
  ⟨rfl, rfl, rfl, rfl, rfl⟩

theorem indexExpressionStates_setup (a : IndexInfo) :
    indexExpressionStates (FormIndexDatum_setup a) = indexExpressionStates a := by
  cases h1 : a.ii_Expressions.isEmpty <;> cases h2 : a.ii_ExpressionsState.isEmpty <;>
    simp [FormIndexDatum_setup, indexExpressionStates, h1, h2, ExecPrepareExpr]

theorem SameDescriptor.setup (a : IndexInfo) : SameDescriptor (FormIndexDatum_setup a) a := by
  refine ⟨(FormIndexDatum_setup_keys a).2, (FormIndexDatum_setup_keys a).1,
    indexExpressionStates_setup a, ?_, ?_⟩ <;>
  · unfold FormIndexDatum_setup
    split <;> rfl

theorem SameDescriptor.trans {a b c : IndexInfo} (h1 : SameDescriptor a b)
    (h2 : SameDescriptor b c) : SameDescriptor a c :=
  ⟨h1.1.trans h2.1, h1.2.1.trans h2.2.1, h1.2.2.1.trans h2.2.2.1,
    h1.2.2.2.1.trans h2.2.2.2.1, h1.2.2.2.2.trans h2.2.2.2.2⟩

theorem SameDescriptor.brokenHotChain (a : IndexInfo) (b : Bool) :
    SameDescriptor { a with ii_BrokenHotChain := b } a := by
  refine ⟨rfl, rfl, ?_, rfl, rfl⟩
  unfold indexExpressionStates FormIndexDatum_setup
  split <;> rfl

theorem exprPositionsBefore_congr {a b : IndexInfo}
    (h : a.ii_KeyAttrNumbers = b.ii_KeyAttrNumbers) (i : Nat) :
    exprPositionsBefore a i = exprPositionsBefore b i := by
  unfold exprPositionsBefore
  rw [h]

/-- FormIndexDatum on a descriptor that projects like indexInfo gives the
arrays it gives on indexInfo, and a descriptor that still projects alike. -/
theorem FormIndexDatum_congr {a b : IndexInfo} (hab : SameDescriptor a b)
    (slot : HeapTupleData) :
    (∀ e, FormIndexDatum a slot = .error e → FormIndexDatum b slot = .error e) ∧
    (∀ a1 values isnull, FormIndexDatum a slot = .ok (a1, values, isnull) →
      SameDescriptor a1 b ∧ FormIndexDatum_values b slot = (values, isnull) ∧
      ∃ b1, FormIndexDatum b slot = .ok (b1, values, isnull)) := by
  obtain ⟨hn, hk, hs, hu, hp⟩ := hab
  have hpe : ∀ p, projectedEntry a slot (indexExpressionStates b) p =
      projectedEntry b slot (indexExpressionStates b) p := by
    intro p
    unfold projectedEntry
    rw [hk, exprPositionsBefore_congr hk]
  rw [FormIndexDatum_eq a slot, FormIndexDatum_eq b slot]
  unfold FormIndexDatum_values
  rw [FormIndexDatum_eq b slot]
  simp only [hpe, hn, hs, exprPositionsBefore_congr hk]
  constructor
  · intro e he
    split at he
    · simp at he
    · rename_i hne
      rw [if_neg hne]
      exact he
  · intro a1 values isnull he
    split at he
    · rename_i heq
      simp only [Except.ok.injEq, Prod.mk.injEq] at he
      obtain ⟨h1, h2, h3⟩ := he
      subst h1 h2 h3
      rw [if_pos heq]
      exact ⟨(SameDescriptor.setup a).trans ⟨hn, hk, hs, hu, hp⟩, rfl, _, rfl⟩
    · simp at he

/-! ### The build scan -/

/-- The time qual check decides alike whatever descriptor and wait trace it is
entered with; the descriptor it returns still projects alike. -/
theorem IndexBuildHeapScan_recheck_indep (env : HeapScanEnv) (heapTuple : HeapTupleData)
    (fuel : Nat) :
    ∀ (waited : Nat) (a b : IndexInfo) (wa wb : List TransactionId),
      (∀ e, IndexBuildHeapScan_recheck env heapTuple fuel waited a wa = .error e →
        IndexBuildHeapScan_recheck env heapTuple fuel waited b wb = .error e) ∧
      (∀ q, IndexBuildHeapScan_recheck env heapTuple fuel waited a wa = .ok q →
        SameDescriptor q.indexInfo a ∧
        ∃ q1, IndexBuildHeapScan_recheck env heapTuple fuel waited b wb = .ok q1 ∧
          q1.indexIt = q.indexIt ∧ q1.tupleIsAlive = q.tupleIsAlive) := by
  induction fuel with
  | zero =>
    intro waited a b wa wb
    simp [IndexBuildHeapScan_recheck]
  | succ fuel ih =>
    intro waited a b wa wb
    unfold IndexBuildHeapScan_recheck
    cases env.HeapTupleSatisfiesVacuum heapTuple waited
    · simp [SameDescriptor.refl]
    · simp [SameDescriptor.refl]
    · by_cases hh : heapTuple.hot_updated = true
      · simp [hh, SameDescriptor.brokenHotChain]
      · simp [hh, SameDescriptor.refl]
    · by_cases hc : env.TransactionIdIsCurrentTransactionId heapTuple.xmin = true
      · simp [hc, SameDescriptor.refl]
      · by_cases hs : env.IsSystemRelation = true
        · simp only [Bool.not_eq_true] at hc
          simp only [hc, hs, Bool.not_true, Bool.false_eq_true, if_false,
            Bool.not_false, if_true]
          exact ih _ a b _ _
        · simp [hc, hs]
    · by_cases hc : env.TransactionIdIsCurrentTransactionId heapTuple.xmax = true
      · by_cases hh : heapTuple.hot_updated = true
        · simp [hc, hh, SameDescriptor.brokenHotChain]
        · simp [hc, hh, SameDescriptor.refl]
      · by_cases hs : env.IsSystemRelation = true
        · simp only [Bool.not_eq_true] at hc
          simp only [hc, hs, Bool.not_true, Bool.false_eq_true, if_false,
            Bool.not_false, if_true]
          exact ih _ a b _ _
        · simp [hc, hs]
    · simp

theorem not_passesPredicate_iff (indexInfo : IndexInfo) (heapTuple : HeapTupleData) :
    (!indexInfo.ii_Predicate.isEmpty && !ExecQual indexInfo.ii_Predicate heapTuple) =
      !passesPredicate indexInfo heapTuple := by
  unfold passesPredicate
  cases indexInfo.ii_Predicate.isEmpty <;> cases ExecQual indexInfo.ii_Predicate heapTuple <;> rfl

/-- The part of a build scan iteration after the visibility decision, when it
returns: the row is counted, and the callback is invoked exactly when the row
passes the predicate, with the root identifier and the projected arrays. -/
theorem IndexBuildHeapScan_index_ok (env : HeapScanEnv) (indexInfo : IndexInfo)
    (st st1 : BuildScanState) (heapTuple : HeapTupleData) (alive : Bool)
    (hd : SameDescriptor st.indexInfo indexInfo)
    (hroot : st.root_offsets = env.heap_get_root_tuples heapTuple.t_self.ip_blkid)
    (h : IndexBuildHeapScan_index indexInfo.ii_Predicate st heapTuple alive = .ok st1) :
    st1.reltuples = st.reltuples + 1 ∧
    st1.callbacks = st.callbacks ++
      (if passesPredicate indexInfo heapTuple then
        [⟨rootOf env heapTuple, (FormIndexDatum_values indexInfo heapTuple).1,
          (FormIndexDatum_values indexInfo heapTuple).2, alive⟩] else []) ∧
    st1.root_blkno = st.root_blkno ∧ st1.root_offsets = st.root_offsets ∧
    st1.waits = st.waits ∧ SameDescriptor st1.indexInfo indexInfo ∧
    st1.indexInfo.ii_BrokenHotChain = st.indexInfo.ii_BrokenHotChain := by
  unfold IndexBuildHeapScan_index at h
  rw [not_passesPredicate_iff] at h
  cases hp : passesPredicate indexInfo heapTuple
  · simp only [hp, Bool.not_false, if_true, Except.ok.injEq] at h
    subst h
    simp [hd]
  · simp only [hp, Bool.not_true, Bool.false_eq_true, if_false] at h
    cases hf : FormIndexDatum st.indexInfo heapTuple with
    | error e => simp [hf] at h
    | ok r =>
      obtain ⟨a1, values, isnull⟩ := r
      simp only [hf, Except.ok.injEq] at h
      subst h
      obtain ⟨hd1, hv, -⟩ := (FormIndexDatum_congr hd heapTuple).2 a1 values isnull hf
      have hb : a1.ii_BrokenHotChain = st.indexInfo.ii_BrokenHotChain := by
        rw [FormIndexDatum_eq] at hf
        split at hf
        · simp only [Except.ok.injEq, Prod.mk.injEq] at hf
          rw [← hf.1]
          unfold FormIndexDatum_setup
          split <;> rfl
        · simp at hf
      simp [hv, hd1, rootOf, hroot, hb]

/-- The part of a build scan iteration after the visibility decision returns
whenever the row fails the predicate or can be projected. -/
theorem IndexBuildHeapScan_index_returns (indexInfo : IndexInfo)
    (st : BuildScanState) (heapTuple : HeapTupleData) (alive : Bool)
    (hd : SameDescriptor st.indexInfo indexInfo)
    (hproj : passesPredicate indexInfo heapTuple = true →
      ∃ r, FormIndexDatum indexInfo heapTuple = .ok r) :
    ∃ st1, IndexBuildHeapScan_index indexInfo.ii_Predicate st heapTuple alive = .ok st1 := by
  unfold IndexBuildHeapScan_index
  rw [not_passesPredicate_iff]
  cases hp : passesPredicate indexInfo heapTuple
  · simp
  · simp only [Bool.not_true, Bool.false_eq_true, if_false]
    obtain ⟨r, hr⟩ := hproj hp
    cases hf : FormIndexDatum st.indexInfo heapTuple with
    | error e =>
      have := (FormIndexDatum_congr hd heapTuple).1 e hf
      rw [hr] at this
      cases this
    | ok r1 => exact ⟨_, rfl⟩

theorem visibilityDecision_of_recheck_ok (env : HeapScanEnv) (fuel : Nat)
    (indexInfo a : IndexInfo) (wa : List TransactionId) (heapTuple : HeapTupleData)
    (q : TimeQual)
    (h : IndexBuildHeapScan_recheck env heapTuple fuel 0 a wa = .ok q) :
    visibilityDecision env .SnapshotAny fuel indexInfo heapTuple =
      .ok (q.indexIt, q.tupleIsAlive) := by
  obtain ⟨-, q1, hq1, h1, h2⟩ :=
    (IndexBuildHeapScan_recheck_indep env heapTuple fuel 0 a indexInfo wa []).2 q h
  simp [visibilityDecision, hq1, h1, h2]

theorem visibilityDecision_of_recheck_error (env : HeapScanEnv) (fuel : Nat)
    (indexInfo a : IndexInfo) (wa : List TransactionId) (heapTuple : HeapTupleData)
    (e : ErrorData)
    (h : IndexBuildHeapScan_recheck env heapTuple fuel 0 a wa = .error e) :
    visibilityDecision env .SnapshotAny fuel indexInfo heapTuple = .error e := by
  have := (IndexBuildHeapScan_recheck_indep env heapTuple fuel 0 a indexInfo wa []).1 e h
  simp [visibilityDecision, this]

theorem visibilityDecision_reference (env : HeapScanEnv) (snapshot : Snapshot) (fuel : Nat)
    (indexInfo : IndexInfo) (heapTuple : HeapTupleData) (hs : snapshot ≠ .SnapshotAny) :
    visibilityDecision env snapshot fuel indexInfo heapTuple = .ok (true, true) := by
  simp [visibilityDecision, hs]

/-- One iteration of the build scan, when it returns: the row is counted
exactly when it passed the visibility decision, and handed to the callback
exactly when it also passes the predicate. -/
theorem IndexBuildHeapScan_row_ok (env : HeapScanEnv) (indexInfo : IndexInfo)
    (snapshot : Snapshot) (fuel : Nat) (st st1 : BuildScanState) (heapTuple : HeapTupleData)
    (hinv : BuildInv env indexInfo st)
    (h : IndexBuildHeapScan_row env snapshot fuel indexInfo.ii_Predicate st heapTuple =
      .ok st1) :
    BuildInv env indexInfo st1 ∧
    st1.reltuples = st.reltuples +
      (if passedVisibility env snapshot fuel indexInfo heapTuple then 1 else 0) ∧
    st1.callbacks = st.callbacks ++
      (if passedVisibility env snapshot fuel indexInfo heapTuple &&
          passesPredicate indexInfo heapTuple then
        [heapBuildCall env snapshot fuel indexInfo heapTuple] else []) := by
  obtain ⟨hroot, hdesc⟩ := hinv
  unfold IndexBuildHeapScan_row at h
  -- the state after the root map has been refreshed
  generalize hst0 : (if st.root_blkno ≠ some heapTuple.t_self.ip_blkid then
      { st with
        root_offsets := env.heap_get_root_tuples heapTuple.t_self.ip_blkid
        root_blkno := some heapTuple.t_self.ip_blkid }
    else st) = st0 at h
  have h0 : st0.root_blkno = some heapTuple.t_self.ip_blkid ∧
      st0.root_offsets = env.heap_get_root_tuples heapTuple.t_self.ip_blkid ∧
      st0.indexInfo = st.indexInfo ∧ st0.reltuples = st.reltuples ∧
      st0.callbacks = st.callbacks ∧ st0.waits = st.waits := by
    by_cases hb : st.root_blkno = some heapTuple.t_self.ip_blkid
    · simp only [ne_eq, hb, not_true_eq_false, if_false] at hst0
      subst hst0
      exact ⟨hb, hroot _ hb, rfl, rfl, rfl, rfl⟩
    · simp only [ne_eq, hb, not_false_eq_true, if_true] at hst0
      subst hst0
      exact ⟨rfl, rfl, rfl, rfl, rfl, rfl⟩
  obtain ⟨hb0, hr0, hi0, hc0, hcb0, hw0⟩ := h0
  have hroot0 : ∀ b, st0.root_blkno = some b → st0.root_offsets = env.heap_get_root_tuples b := by
    intro b hb
    rw [hb0] at hb
    cases hb
    exact hr0
  by_cases hs : snapshot = .SnapshotAny
  · subst hs
    simp only [if_true] at h
    cases hq : IndexBuildHeapScan_recheck env heapTuple fuel 0 st0.indexInfo st0.waits with
    | error e => simp [hq] at h
    | ok q =>
      simp only [hq] at h
      have hv := visibilityDecision_of_recheck_ok env fuel indexInfo _ _ heapTuple q hq
      have hqd : SameDescriptor q.indexInfo indexInfo :=
        ((IndexBuildHeapScan_recheck_indep env heapTuple fuel 0 st0.indexInfo indexInfo
          st0.waits []).2 q hq).1.trans (hi0 ▸ hdesc)
      cases hit : q.indexIt
      · simp only [hit, Bool.not_false, if_true, Except.ok.injEq] at h
        subst h
        refine ⟨⟨hroot0, hqd⟩, ?_, ?_⟩
        · simp [passedVisibility, hv, hit, hc0]
        · simp [passedVisibility, hv, hit, hcb0]
      · simp only [hit, Bool.not_true, Bool.false_eq_true, if_false] at h
        obtain ⟨h1, h2, h3, h4, -, h6, -⟩ := IndexBuildHeapScan_index_ok env indexInfo
          { st0 with indexInfo := q.indexInfo, waits := q.waits } st1 heapTuple
          q.tupleIsAlive hqd hr0 h
        refine ⟨⟨?_, h6⟩, ?_, ?_⟩
        · intro b hb
          rw [h3] at hb
          rw [h4]
          exact hroot0 b hb
        · simp [passedVisibility, hv, hit, h1, hc0]
        · simp [passedVisibility, hv, hit, h2, hcb0, heapBuildCall, decidedAlive]
  · simp only [hs, if_false] at h
    have hv := visibilityDecision_reference env snapshot fuel indexInfo heapTuple hs
    obtain ⟨h1, h2, h3, h4, -, h6, -⟩ := IndexBuildHeapScan_index_ok env indexInfo
      st0 st1 heapTuple true (hi0 ▸ hdesc) hr0 h
    refine ⟨⟨?_, h6⟩, ?_, ?_⟩
    · intro b hb
      rw [h3] at hb
      rw [h4]
      exact hroot0 b hb
    · simp [passedVisibility, hv, h1, hc0]
    · simp [passedVisibility, hv, h2, hcb0, heapBuildCall, decidedAlive]

/-- One iteration of the build scan returns whenever the visibility decision
does and the row, if it qualifies, can be projected. -/
theorem IndexBuildHeapScan_row_returns (env : HeapScanEnv) (indexInfo : IndexInfo)
    (snapshot : Snapshot) (fuel : Nat) (st : BuildScanState) (heapTuple : HeapTupleData)
    (hinv : BuildInv env indexInfo st)
    (hvis : ∃ d, visibilityDecision env snapshot fuel indexInfo heapTuple = .ok d)
    (hproj : passedVisibility env snapshot fuel indexInfo heapTuple = true →
      passesPredicate indexInfo heapTuple = true →
      ∃ r, FormIndexDatum indexInfo heapTuple = .ok r) :
    ∃ st1, IndexBuildHeapScan_row env snapshot fuel indexInfo.ii_Predicate st heapTuple =
      .ok st1 := by
  obtain ⟨hroot, hdesc⟩ := hinv
  unfold IndexBuildHeapScan_row
  generalize hst0 : (if st.root_blkno ≠ some heapTuple.t_self.ip_blkid then
      { st with
        root_offsets := env.heap_get_root_tuples heapTuple.t_self.ip_blkid
        root_blkno := some heapTuple.t_self.ip_blkid }
    else st) = st0
  have hi0 : st0.indexInfo = st.indexInfo := by
    subst hst0
    split <;> rfl
  by_cases hs : snapshot = .SnapshotAny
  · subst hs
    simp only [if_true]
    obtain ⟨d, hd⟩ := hvis
    cases hq : IndexBuildHeapScan_recheck env heapTuple fuel 0 st0.indexInfo st0.waits with
    | error e =>
      rw [visibilityDecision_of_recheck_error env fuel indexInfo _ _ heapTuple e hq] at hd
      cases hd
    | ok q =>
      have hv := visibilityDecision_of_recheck_ok env fuel indexInfo _ _ heapTuple q hq
      have hqd : SameDescriptor q.indexInfo indexInfo :=
        ((IndexBuildHeapScan_recheck_indep env heapTuple fuel 0 st0.indexInfo indexInfo
          st0.waits []).2 q hq).1.trans (hi0 ▸ hdesc)
      cases hit : q.indexIt
      · simp [hit]
      · simp only [hit, Bool.not_true, Bool.false_eq_true, if_false]
        apply IndexBuildHeapScan_index_returns indexInfo _ heapTuple _ hqd
        apply hproj
        simp [passedVisibility, hv, hit]
  · simp only [hs, if_false]
    have hv := visibilityDecision_reference env snapshot fuel indexInfo heapTuple hs
    apply IndexBuildHeapScan_index_returns indexInfo _ heapTuple _ (hi0 ▸ hdesc)
    apply hproj
    simp [passedVisibility, hv]

theorem visibilityDecision_indep (env : HeapScanEnv) (snapshot : Snapshot) (fuel : Nat)
    (a b : IndexInfo) (heapTuple : HeapTupleData) :
    visibilityDecision env snapshot fuel a heapTuple =
      visibilityDecision env snapshot fuel b heapTuple := by
  by_cases hs : snapshot = .SnapshotAny
  · subst hs
    cases hq : IndexBuildHeapScan_recheck env heapTuple fuel 0 a [] with
    | error e =>
      rw [visibilityDecision_of_recheck_error env fuel a a [] heapTuple e hq,
        visibilityDecision_of_recheck_error env fuel b a [] heapTuple e hq]
    | ok q =>
      rw [visibilityDecision_of_recheck_ok env fuel a a [] heapTuple q hq,
        visibilityDecision_of_recheck_ok env fuel b a [] heapTuple q hq]
  · rw [visibilityDecision_reference _ _ _ _ _ hs, visibilityDecision_reference _ _ _ _ _ hs]

theorem passedVisibility_indep (env : HeapScanEnv) (snapshot : Snapshot) (fuel : Nat)
    (a b : IndexInfo) :
    passedVisibility env snapshot fuel a = passedVisibility env snapshot fuel b := by
  funext t
  unfold passedVisibility
  rw [visibilityDecision_indep env snapshot fuel a b t]

/-- The loop of the build scan, when it returns: the count grows by the number
of rows that passed the visibility decision, and the callback trace by one
invocation per row that also passes the predicate, in scan order. -/
theorem IndexBuildHeapScan_loop_ok (env : HeapScanEnv) (indexInfo : IndexInfo)
    (snapshot : Snapshot) (fuel : Nat) (rows : List HeapTupleData) :
    ∀ (st st1 : BuildScanState), BuildInv env indexInfo st →
      IndexBuildHeapScan_loop env snapshot fuel indexInfo.ii_Predicate rows st = .ok st1 →
      BuildInv env indexInfo st1 ∧
      st1.reltuples = st.reltuples +
        (rows.filter (passedVisibility env snapshot fuel indexInfo)).length ∧
      st1.callbacks = st.callbacks ++
        (rows.filter (fun t => passedVisibility env snapshot fuel indexInfo t &&
          passesPredicate indexInfo t)).map (heapBuildCall env snapshot fuel indexInfo) := by
  induction rows with
  | nil =>
    intro st st1 hinv h
    simp only [IndexBuildHeapScan_loop, Except.ok.injEq] at h
    subst h
    simp [hinv]
  | cons t rest ih =>
    intro st st1 hinv h
    simp only [IndexBuildHeapScan_loop] at h
    cases hrow : IndexBuildHeapScan_row env snapshot fuel indexInfo.ii_Predicate st t with
    | error e => simp [hrow] at h
    | ok st2 =>
      simp only [hrow] at h
      obtain ⟨hinv2, hc2, hcb2⟩ :=
        IndexBuildHeapScan_row_ok env indexInfo snapshot fuel st st2 t hinv hrow
      obtain ⟨hinv1, hc1, hcb1⟩ := ih st2 st1 hinv2 h
      refine ⟨hinv1, ?_, ?_⟩
      · rw [hc1, hc2, List.filter_cons]
        cases passedVisibility env snapshot fuel indexInfo t
        · simp
        · simp
          omega
      · rw [hcb1, hcb2, List.filter_cons]
        cases passedVisibility env snapshot fuel indexInfo t <;>
          cases passesPredicate indexInfo t <;> simp

/-- The loop of the build scan returns whenever every row gets a visibility
decision and every row that qualifies can be projected. -/
theorem IndexBuildHeapScan_loop_returns (env : HeapScanEnv) (indexInfo : IndexInfo)
    (snapshot : Snapshot) (fuel : Nat) (rows : List HeapTupleData) :
    ∀ (st : BuildScanState), BuildInv env indexInfo st →
      (∀ t ∈ rows, ∃ d, visibilityDecision env snapshot fuel indexInfo t = .ok d) →
      (∀ t ∈ rows, passedVisibility env snapshot fuel indexInfo t = true →
        passesPredicate indexInfo t = true → ∃ r, FormIndexDatum indexInfo t = .ok r) →
      ∃ st1, IndexBuildHeapScan_loop env snapshot fuel indexInfo.ii_Predicate rows st =
        .ok st1 := by
  induction rows with
  | nil =>
    intro st _ _ _
    exact ⟨st, rfl⟩
  | cons t rest ih =>
    intro st hinv hvis hproj
    obtain ⟨st2, hrow⟩ := IndexBuildHeapScan_row_returns env indexInfo snapshot fuel st t hinv
      (hvis t (List.mem_cons_self _ _)) (hproj t (List.mem_cons_self _ _))
    have hinv2 := (IndexBuildHeapScan_row_ok env indexInfo snapshot fuel st st2 t hinv hrow).1
    obtain ⟨st1, h1⟩ := ih st2 hinv2
      (fun u hu => hvis u (List.mem_cons_of_mem _ hu))
      (fun u hu => hproj u (List.mem_cons_of_mem _ hu))
    exact ⟨st1, by simp [IndexBuildHeapScan_loop, hrow, h1]⟩

theorem BuildInv_init (env : HeapScanEnv) (indexInfo : IndexInfo) :
    BuildInv env indexInfo (BuildScanState.init indexInfo) :=
  ⟨fun b hb => by simp [BuildScanState.init] at hb, SameDescriptor.refl _⟩

/-- IndexBuildHeapScan, when it returns, in closed form. -/
theorem IndexBuildHeapScan_ok (env : HeapScanEnv) (indexInfo : IndexInfo)
    (snapshot : Snapshot) (fuel : Nat) (rows : List HeapTupleData) (st : BuildScanState)
    (h : IndexBuildHeapScan env indexInfo snapshot fuel rows = .ok st) :
    st.reltuples = (rows.filter (passedVisibility env snapshot fuel indexInfo)).length ∧
    st.callbacks =
      (rows.filter (fun t => passedVisibility env snapshot fuel indexInfo t &&
        passesPredicate indexInfo t)).map (heapBuildCall env snapshot fuel indexInfo) := by
  obtain ⟨-, h1, h2⟩ := IndexBuildHeapScan_loop_ok env indexInfo snapshot fuel rows _ st
    (BuildInv_init env indexInfo) h
  simpa [BuildScanState.init] using And.intro h1 h2

theorem IndexBuildHeapScan_returns (env : HeapScanEnv) (indexInfo : IndexInfo)
    (snapshot : Snapshot) (fuel : Nat) (rows : List HeapTupleData)
    (hvis : ∀ t ∈ rows, ∃ d, visibilityDecision env snapshot fuel indexInfo t = .ok d)
    (hproj : ∀ t ∈ rows, passedVisibility env snapshot fuel indexInfo t = true →
      passesPredicate indexInfo t = true → ∃ r, FormIndexDatum indexInfo t = .ok r) :
    ∃ st, IndexBuildHeapScan env indexInfo snapshot fuel rows = .ok st :=
  IndexBuildHeapScan_loop_returns env indexInfo snapshot fuel rows _
    (BuildInv_init env indexInfo) hvis hproj

/-! ### The append-only scans -/

theorem IndexBuildAppendOnly_row_ok (indexInfo : IndexInfo) (st st1 : BuildScanState)
    (slot : HeapTupleData) (hd : SameDescriptor st.indexInfo indexInfo)
    (h : IndexBuildAppendOnly_row indexInfo.ii_Predicate st slot = .ok st1) :
    SameDescriptor st1.indexInfo indexInfo ∧
    st1.reltuples = st.reltuples + 1 ∧
    st1.callbacks = st.callbacks ++
      (if passesPredicate indexInfo slot then [appendOnlyBuildCall indexInfo slot] else []) := by
  unfold IndexBuildAppendOnly_row at h
  rw [not_passesPredicate_iff] at h
  cases hp : passesPredicate indexInfo slot
  · simp only [hp, Bool.not_false, if_true, Except.ok.injEq] at h
    subst h
    simp [hd]
  · simp only [hp, Bool.not_true, Bool.false_eq_true, if_false] at h
    cases hf : FormIndexDatum st.indexInfo slot with
    | error e => simp [hf] at h
    | ok r =>
      obtain ⟨a1, values, isnull⟩ := r
      simp only [hf, Except.ok.injEq] at h
      subst h
      obtain ⟨hd1, hv, -⟩ := (FormIndexDatum_congr hd slot).2 a1 values isnull hf
      simp [hv, hd1, appendOnlyBuildCall]

theorem IndexBuildAppendOnly_row_returns (indexInfo : IndexInfo) (st : BuildScanState)
    (slot : HeapTupleData) (hd : SameDescriptor st.indexInfo indexInfo)
    (hproj : passesPredicate indexInfo slot = true →
      ∃ r, FormIndexDatum indexInfo slot = .ok r) :
    ∃ st1, IndexBuildAppendOnly_row indexInfo.ii_Predicate st slot = .ok st1 := by
  unfold IndexBuildAppendOnly_row
  rw [not_passesPredicate_iff]
  cases hp : passesPredicate indexInfo slot
  · simp
  · simp only [Bool.not_true, Bool.false_eq_true, if_false]
    obtain ⟨r, hr⟩ := hproj hp
    cases hf : FormIndexDatum st.indexInfo slot with
    | error e =>
      have := (FormIndexDatum_congr hd slot).1 e hf
      rw [hr] at this
      cases this
    | ok r1 => exact ⟨_, rfl⟩

theorem IndexBuildAppendOnly_loop_ok (indexInfo : IndexInfo) (rows : List HeapTupleData) :
    ∀ (st st1 : BuildScanState), SameDescriptor st.indexInfo indexInfo →
      IndexBuildAppendOnly_loop indexInfo.ii_Predicate rows st = .ok st1 →
      SameDescriptor st1.indexInfo indexInfo ∧
      st1.reltuples = st.reltuples + rows.length ∧
      st1.callbacks = st.callbacks ++
        (rows.filter (passesPredicate indexInfo)).map (appendOnlyBuildCall indexInfo) := by
  induction rows with
  | nil =>
    intro st st1 hd h
    simp only [IndexBuildAppendOnly_loop, Except.ok.injEq] at h
    subst h
    simp [hd]
  | cons t rest ih =>
    intro st st1 hd h
    simp only [IndexBuildAppendOnly_loop] at h
    cases hrow : IndexBuildAppendOnly_row indexInfo.ii_Predicate st t with
    | error e => simp [hrow] at h
    | ok st2 =>
      simp only [hrow] at h
      obtain ⟨hd2, hc2, hcb2⟩ := IndexBuildAppendOnly_row_ok indexInfo st st2 t hd hrow
      obtain ⟨hd1, hc1, hcb1⟩ := ih st2 st1 hd2 h
      refine ⟨hd1, ?_, ?_⟩
      · rw [hc1, hc2, List.length_cons]
        omega
      · rw [hcb1, hcb2, List.filter_cons]
        cases passesPredicate indexInfo t <;> simp

theorem IndexBuildAppendOnly_loop_returns (indexInfo : IndexInfo) (rows : List HeapTupleData) :
    ∀ (st : BuildScanState), SameDescriptor st.indexInfo indexInfo →
      (∀ t ∈ rows, passesPredicate indexInfo t = true →
        ∃ r, FormIndexDatum indexInfo t = .ok r) →
      ∃ st1, IndexBuildAppendOnly_loop indexInfo.ii_Predicate rows st = .ok st1 := by
  induction rows with
  | nil =>
    intro st _ _
    exact ⟨st, rfl⟩
  | cons t rest ih =>
    intro st hd hproj
    obtain ⟨st2, hrow⟩ := IndexBuildAppendOnly_row_returns indexInfo st t hd
      (hproj t (List.mem_cons_self _ _))
    have hd2 := (IndexBuildAppendOnly_row_ok indexInfo st st2 t hd hrow).1
    obtain ⟨st1, h1⟩ := ih st2 hd2 (fun u hu => hproj u (List.mem_cons_of_mem _ hu))
    exact ⟨st1, by simp [IndexBuildAppendOnly_loop, hrow, h1]⟩

/-! ### Properties of the build scan -/

/-- C7: the row count IndexBuildHeapScan returns is the number of scanned row
versions that passed the visibility decision (all of them under a reference
snapshot), counted before the predicate is applied: it is the same for every
descriptor, whatever its predicate, and it is at least the number of callback
invocations. The scan returns whenever every row gets a visibility decision
and every row that qualifies can be projected. -/
theorem IndexBuildHeapScan_reltuples (env : HeapScanEnv) (indexInfo : IndexInfo)
    (snapshot : Snapshot) (fuel : Nat) (rows : List HeapTupleData) :
    (∀ st, IndexBuildHeapScan env indexInfo snapshot fuel rows = .ok st →
      st.reltuples = (rows.filter (passedVisibility env snapshot fuel indexInfo)).length ∧
      (snapshot ≠ .SnapshotAny → st.reltuples = rows.length) ∧
      (∀ (indexInfo2 : IndexInfo) (st2 : BuildScanState),
        IndexBuildHeapScan env indexInfo2 snapshot fuel rows = .ok st2 →
        st2.reltuples = st.reltuples) ∧
      st.callbacks.length ≤ st.reltuples) ∧
    ((∀ t ∈ rows, ∃ d, visibilityDecision env snapshot fuel indexInfo t = .ok d) →
      (∀ t ∈ rows, passedVisibility env snapshot fuel indexInfo t = true →
        passesPredicate indexInfo t = true → ∃ r, FormIndexDatum indexInfo t = .ok r) →
      ∃ st, IndexBuildHeapScan env indexInfo snapshot fuel rows = .ok st) := by
  refine ⟨?_, IndexBuildHeapScan_returns env indexInfo snapshot fuel rows⟩
  intro st h
  obtain ⟨h1, h2⟩ := IndexBuildHeapScan_ok env indexInfo snapshot fuel rows st h
  refine ⟨h1, ?_, ?_, ?_⟩
  · intro hs
    rw [h1]
    congr 1
    rw [List.filter_eq_self]
    intro t _
    simp [passedVisibility, visibilityDecision_reference env snapshot fuel indexInfo t hs]
  · intro indexInfo2 st2 h3
    rw [h1, (IndexBuildHeapScan_ok env indexInfo2 snapshot fuel rows st2 h3).1,
      passedVisibility_indep env snapshot fuel indexInfo2 indexInfo]
  · rw [h1, h2, List.length_map]
    have : ∀ l : List HeapTupleData,
        (l.filter (fun t => passedVisibility env snapshot fuel indexInfo t &&
          passesPredicate indexInfo t)).length ≤
        (l.filter (passedVisibility env snapshot fuel indexInfo)).length := by
      intro l
      induction l with
      | nil => simp
      | cons t l ih =>
        rw [List.filter_cons, List.filter_cons]
        cases passedVisibility env snapshot fuel indexInfo t <;>
          cases passesPredicate indexInfo t <;> simp <;> omega
    exact this rows

theorem IndexBuildHeapScan_reltuples_witness :
    buildOutcome (IndexBuildHeapScan (exampleEnv (fun _ => .HEAPTUPLE_LIVE) (fun _ => 0))
        (exampleIndexInfo [valueAbove10]) .SnapshotAny 1 rows_5_15_25) =
      some ([⟨⟨0, 2⟩, [15], [false], true⟩, ⟨⟨0, 3⟩, [25], [false], true⟩], 3) ∧
    (returned (IndexBuildHeapScan (exampleEnv (fun _ => .HEAPTUPLE_LIVE) (fun _ => 0))
        (exampleIndexInfo [valueAbove10]) .SnapshotAny 1 rows_5_15_25)
      (BuildScanState.init (exampleIndexInfo []))).callbacks.length ≤
    (returned (IndexBuildHeapScan (exampleEnv (fun _ => .HEAPTUPLE_LIVE) (fun _ => 0))
        (exampleIndexInfo [valueAbove10]) .SnapshotAny 1 rows_5_15_25)
      (BuildScanState.init (exampleIndexInfo []))).reltuples :=
  ⟨rfl, ((IndexBuildHeapScan_reltuples (exampleEnv (fun _ => .HEAPTUPLE_LIVE) (fun _ => 0))
    (exampleIndexInfo [valueAbove10]) .SnapshotAny 1 rows_5_15_25).1 _ rfl).2.2.2⟩

theorem IndexBuildAppendOnlyRowScan_ok (indexInfo : IndexInfo) (blkdir : Bool)
    (rows : List HeapTupleData) (st : BuildScanState)
    (h : IndexBuildAppendOnlyRowScan indexInfo blkdir rows = .ok st) :
    st.reltuples = rows.length ∧
    st.callbacks = (rows.filter (passesPredicate indexInfo)).map (appendOnlyBuildCall indexInfo) := by
  unfold IndexBuildAppendOnlyRowScan at h
  split at h
  · simp at h
  · obtain ⟨-, h1, h2⟩ := IndexBuildAppendOnly_loop_ok indexInfo rows _ st
      (SameDescriptor.refl _) h
    simpa [BuildScanState.init] using And.intro h1 h2

theorem IndexBuildAppendOnlyColScan_ok (indexInfo : IndexInfo) (blkdir : Bool)
    (rows : List HeapTupleData) (st : BuildScanState)
    (h : IndexBuildAppendOnlyColScan indexInfo blkdir rows = .ok st) :
    st.reltuples = rows.length ∧
    st.callbacks = (rows.filter (passesPredicate indexInfo)).map (appendOnlyBuildCall indexInfo) := by
  unfold IndexBuildAppendOnlyColScan at h
  split at h
  · simp at h
  · obtain ⟨-, h1, h2⟩ := IndexBuildAppendOnly_loop_ok indexInfo rows _ st
      (SameDescriptor.refl _) h
    simpa [BuildScanState.init] using And.intro h1 h2

/-- C8: the build scans invoke the callback exactly for the rows that passed
the visibility decision and pass the predicate, in scan order (every row of an
append-only scan passes the visibility decision); a row failing the predicate
is not projected, so the heap scan returns as soon as the rows that qualify can
be projected; and for rows with values 5, 15, 25 and the predicate value > 10
exactly the rows 15 and 25 reach the callback. -/
theorem build_scan_applies_predicate (env : HeapScanEnv) (indexInfo : IndexInfo)
    (snapshot : Snapshot) (fuel : Nat) (blkdir : Bool) (rows : List HeapTupleData) :
    (∀ st, IndexBuildHeapScan env indexInfo snapshot fuel rows = .ok st →
      st.callbacks =
        (rows.filter (fun t => passedVisibility env snapshot fuel indexInfo t &&
          passesPredicate indexInfo t)).map (heapBuildCall env snapshot fuel indexInfo)) ∧
    (∀ st, IndexBuildAppendOnlyRowScan indexInfo blkdir rows = .ok st →
      st.callbacks =
        (rows.filter (passesPredicate indexInfo)).map (appendOnlyBuildCall indexInfo)) ∧
    (∀ st, IndexBuildAppendOnlyColScan indexInfo blkdir rows = .ok st →
      st.callbacks =
        (rows.filter (passesPredicate indexInfo)).map (appendOnlyBuildCall indexInfo)) ∧
    ((∀ t ∈ rows, ∃ d, visibilityDecision env snapshot fuel indexInfo t = .ok d) →
      (∀ t ∈ rows, passedVisibility env snapshot fuel indexInfo t = true →
        passesPredicate indexInfo t = true → ∃ r, FormIndexDatum indexInfo t = .ok r) →
      ∃ st, IndexBuildHeapScan env indexInfo snapshot fuel rows = .ok st) ∧
    buildOutcome (IndexBuildHeapScan (exampleEnv (fun _ => .HEAPTUPLE_LIVE) (fun _ => 0))
        (exampleIndexInfo [valueAbove10]) .SnapshotAny 1 rows_5_15_25) =
      some ([⟨⟨0, 2⟩, [15], [false], true⟩, ⟨⟨0, 3⟩, [25], [false], true⟩], 3) ∧
    buildOutcome (IndexBuildHeapScan (exampleEnv (fun _ => .HEAPTUPLE_LIVE) (fun _ => 0))
        (exampleIndexInfo [valueAbove10]) .TransactionSnapshot 0 rows_5_15_25) =
      some ([⟨⟨0, 2⟩, [15], [false], true⟩, ⟨⟨0, 3⟩, [25], [false], true⟩], 3) ∧
    buildOutcome (IndexBuildAppendOnlyRowScan (exampleIndexInfo [valueAbove10]) true
        rows_5_15_25) =
      some ([⟨⟨0, 2⟩, [15], [false], true⟩, ⟨⟨0, 3⟩, [25], [false], true⟩], 3) ∧
    buildOutcome (IndexBuildAppendOnlyColScan (exampleIndexInfo [valueAbove10]) true
        rows_5_15_25) =
      some ([⟨⟨0, 2⟩, [15], [false], true⟩, ⟨⟨0, 3⟩, [25], [false], true⟩], 3) :=
  ⟨fun st h => (IndexBuildHeapScan_ok env indexInfo snapshot fuel rows st h).2,
    fun st h => (IndexBuildAppendOnlyRowScan_ok indexInfo blkdir rows st h).2,
    fun st h => (IndexBuildAppendOnlyColScan_ok indexInfo blkdir rows st h).2,
    IndexBuildHeapScan_returns env indexInfo snapshot fuel rows,
    rfl, rfl, rfl, rfl⟩

/-- C6 (as stated) fails: a table whose only row version is classified
RecentlyDead and is not HOT-updated has no Live version, yet the build scan
hands it to the callback and returns a row count of 1. -/
theorem no_live_rows_counterexample :
    (∀ t ∈ [exampleRow 0 1 false false 7],
      (exampleEnv (fun _ => .HEAPTUPLE_RECENTLY_DEAD) (fun _ => 0)).HeapTupleSatisfiesVacuum t 0
        ≠ .HEAPTUPLE_LIVE) ∧
    buildOutcome (IndexBuildHeapScan (exampleEnv (fun _ => .HEAPTUPLE_RECENTLY_DEAD) (fun _ => 0))
        (exampleIndexInfo []) .SnapshotAny 1 [exampleRow 0 1 false false 7]) =
      some ([⟨⟨0, 1⟩, [7], [false], false⟩], 1) ∧
    buildOutcome (IndexBuildScan (exampleEnv (fun _ => .HEAPTUPLE_RECENTLY_DEAD) (fun _ => 0))
        false .heap true (exampleIndexInfo []) 1 (fun _ => [exampleRow 0 1 false false 7])) =
      some ([⟨⟨0, 1⟩, [7], [false], false⟩], 1) :=
  ⟨by simp [exampleEnv], rfl, rfl⟩

/-- The versions the time qual check skips on its first pass. -/
theorem visibilityDecision_skipped (env : HeapScanEnv) (fuel : Nat) (indexInfo : IndexInfo)
    (t : HeapTupleData)
    (h : env.HeapTupleSatisfiesVacuum t 0 = .HEAPTUPLE_DEAD ∨
      (env.HeapTupleSatisfiesVacuum t 0 = .HEAPTUPLE_RECENTLY_DEAD ∧ t.hot_updated = true) ∨
      (env.HeapTupleSatisfiesVacuum t 0 = .HEAPTUPLE_DELETE_IN_PROGRESS ∧
        env.TransactionIdIsCurrentTransactionId t.xmax = true ∧ t.hot_updated = true)) :
    visibilityDecision env .SnapshotAny (fuel + 1) indexInfo t = .ok (false, false) := by
  unfold visibilityDecision IndexBuildHeapScan_recheck
  rcases h with h | ⟨h, hh⟩ | ⟨h, hc, hh⟩
  · simp [h]
  · simp [h, hh]
  · simp [h, hc, hh]

/-- C6 (amended): when every row version is skipped by the visibility decision
(classified Dead, or classified RecentlyDead or DeleteInProgress by the current
transaction and HOT-updated), a liveness-evaluation build scan returns, invokes
the callback zero times and returns a row count of 0; so does IndexBuildScan
for a non-concurrent build of a heap table outside bootstrap mode. -/
theorem no_indexable_rows_zero (env : HeapScanEnv) (indexInfo : IndexInfo) (fuel : Nat)
    (rows : List HeapTupleData)
    (hskip : ∀ t ∈ rows, env.HeapTupleSatisfiesVacuum t 0 = .HEAPTUPLE_DEAD ∨
      (env.HeapTupleSatisfiesVacuum t 0 = .HEAPTUPLE_RECENTLY_DEAD ∧ t.hot_updated = true) ∨
      (env.HeapTupleSatisfiesVacuum t 0 = .HEAPTUPLE_DELETE_IN_PROGRESS ∧
        env.TransactionIdIsCurrentTransactionId t.xmax = true ∧ t.hot_updated = true)) :
    (∃ st, IndexBuildHeapScan env indexInfo .SnapshotAny (fuel + 1) rows = .ok st ∧
      st.callbacks = [] ∧ st.reltuples = 0) ∧
    (indexInfo.ii_Concurrent = false →
      ∀ (blkdir : Bool) (scan : Snapshot → List HeapTupleData), scan .SnapshotAny = rows →
      ∃ st, IndexBuildScan env false .heap blkdir indexInfo (fuel + 1) scan = .ok st ∧
        st.callbacks = [] ∧ st.reltuples = 0) := by
  have hv : ∀ t ∈ rows, visibilityDecision env .SnapshotAny (fuel + 1) indexInfo t =
      .ok (false, false) :=
    fun t ht => visibilityDecision_skipped env fuel indexInfo t (hskip t ht)
  have hpv : ∀ t ∈ rows, passedVisibility env .SnapshotAny (fuel + 1) indexInfo t = false := by
    intro t ht
    simp [passedVisibility, hv t ht]
  obtain ⟨st, hst⟩ := IndexBuildHeapScan_returns env indexInfo .SnapshotAny (fuel + 1) rows
    (fun t ht => ⟨_, hv t ht⟩) (fun t ht h => by rw [hpv t ht] at h; cases h)
  obtain ⟨h1, h2⟩ := IndexBuildHeapScan_ok env indexInfo .SnapshotAny (fuel + 1) rows st hst
  have hf1 : rows.filter (passedVisibility env .SnapshotAny (fuel + 1) indexInfo) = [] := by
    rw [List.filter_eq_nil_iff]
    intro t ht
    simp [hpv t ht]
  have hf2 : rows.filter (fun t => passedVisibility env .SnapshotAny (fuel + 1) indexInfo t &&
      passesPredicate indexInfo t) = [] := by
    rw [List.filter_eq_nil_iff]
    intro t ht
    simp [hpv t ht]
  rw [hf1] at h1
  rw [hf2] at h2
  refine ⟨⟨st, hst, h2, h1⟩, ?_⟩
  intro hc blkdir scan hscan
  refine ⟨{ st with indexInfo :=
    { st.indexInfo with ii_ExpressionsState := [], ii_PredicateState := [] } }, ?_, h2, h1⟩
  simp [IndexBuildScan, IndexBuildScan_snapshot, hc, hscan, hst]

theorem visibilityDecision_live (env : HeapScanEnv) (fuel : Nat) (indexInfo : IndexInfo)
    (t : HeapTupleData) (h : env.HeapTupleSatisfiesVacuum t 0 = .HEAPTUPLE_LIVE) :
    visibilityDecision env .SnapshotAny (fuel + 1) indexInfo t = .ok (true, true) := by
  unfold visibilityDecision IndexBuildHeapScan_recheck
  simp [h]

/-- C5 (as stated) fails: a chain of two versions on page 0, the root
RecentlyDead and HOT-updated, the heap-only successor Live with value 5; with
the predicate value > 10 the live member is rejected and the callback is
invoked zero times for the chain. -/
theorem rejected_live_member_counterexample :
    (exampleEnv (fun t => if t.hot_updated then .HEAPTUPLE_RECENTLY_DEAD else .HEAPTUPLE_LIVE)
        (fun _ => 1)).HeapTupleSatisfiesVacuum (exampleRow 0 2 true false 5) 0 = .HEAPTUPLE_LIVE ∧
    (exampleEnv (fun t => if t.hot_updated then .HEAPTUPLE_RECENTLY_DEAD else .HEAPTUPLE_LIVE)
        (fun _ => 1)).HeapTupleSatisfiesVacuum (exampleRow 0 1 false true 5) 0 =
      .HEAPTUPLE_RECENTLY_DEAD ∧
    (exampleRow 0 1 false true 5).hot_updated = true ∧
    rootOf (exampleEnv (fun t => if t.hot_updated then .HEAPTUPLE_RECENTLY_DEAD else .HEAPTUPLE_LIVE)
        (fun _ => 1)) (exampleRow 0 1 false true 5) = ⟨0, 1⟩ ∧
    rootOf (exampleEnv (fun t => if t.hot_updated then .HEAPTUPLE_RECENTLY_DEAD else .HEAPTUPLE_LIVE)
        (fun _ => 1)) (exampleRow 0 2 true false 5) = ⟨0, 1⟩ ∧
    buildOutcome (IndexBuildHeapScan
        (exampleEnv (fun t => if t.hot_updated then .HEAPTUPLE_RECENTLY_DEAD else .HEAPTUPLE_LIVE)
          (fun _ => 1))
        (exampleIndexInfo [valueAbove10]) .SnapshotAny 1
        [exampleRow 0 1 false true 5, exampleRow 0 2 true false 5]) = some ([], 1) :=
  ⟨rfl, rfl, rfl, rfl, rfl, rfl⟩

/-- C5 (amended): in a liveness-evaluation build over an update chain of which
exactly one member is classified Live and every other one is classified Dead,
or RecentlyDead and HOT-updated: if the live member passes the predicate of the
index (if any) and can be projected, the callback is invoked exactly once,
with the chain root's identifier, the live member's values and the flag
tupleIsAlive, whichever member is the live one; if the live member fails the
predicate, the callback is not invoked. The row count is 1 in both cases. -/
theorem chain_indexed_once (env : HeapScanEnv) (indexInfo : IndexInfo)
    (fuel : Nat) (before after : List HeapTupleData) (live : HeapTupleData)
    (root : ItemPointerData)
    (hchain : ∀ t ∈ before ++ live :: after, rootOf env t = root)
    (hlive : env.HeapTupleSatisfiesVacuum live 0 = .HEAPTUPLE_LIVE)
    (hothers : ∀ t ∈ before ++ after, env.HeapTupleSatisfiesVacuum t 0 = .HEAPTUPLE_DEAD ∨
      (env.HeapTupleSatisfiesVacuum t 0 = .HEAPTUPLE_RECENTLY_DEAD ∧ t.hot_updated = true)) :
    (∀ (indexInfo1 : IndexInfo) (values : List Datum) (isnull : List Bool),
      passesPredicate indexInfo live = true →
      FormIndexDatum indexInfo live = .ok (indexInfo1, values, isnull) →
      ∃ st, IndexBuildHeapScan env indexInfo .SnapshotAny (fuel + 1)
          (before ++ live :: after) = .ok st ∧
        st.callbacks = [⟨root, values, isnull, true⟩] ∧ st.reltuples = 1) ∧
    (passesPredicate indexInfo live = false →
      ∃ st, IndexBuildHeapScan env indexInfo .SnapshotAny (fuel + 1)
          (before ++ live :: after) = .ok st ∧
        st.callbacks = [] ∧ st.reltuples = 1) := by
  have hvl := visibilityDecision_live env fuel indexInfo live hlive
  have hvo : ∀ t ∈ before ++ after,
      visibilityDecision env .SnapshotAny (fuel + 1) indexInfo t = .ok (false, false) := by
    intro t ht
    apply visibilityDecision_skipped
    rcases hothers t ht with h | h
    · exact Or.inl h
    · exact Or.inr (Or.inl h)
  have hpl : passedVisibility env .SnapshotAny (fuel + 1) indexInfo live = true := by
    simp [passedVisibility, hvl]
  have hpo : ∀ t ∈ before ++ after,
      passedVisibility env .SnapshotAny (fuel + 1) indexInfo t = false := by
    intro t ht
    simp [passedVisibility, hvo t ht]
  have hmem : ∀ t ∈ before ++ live :: after, t = live ∨ t ∈ before ++ after := by
    intro t ht
    simp only [List.mem_append, List.mem_cons] at ht ⊢
    tauto
  have hvis : ∀ t ∈ before ++ live :: after,
      ∃ d, visibilityDecision env .SnapshotAny (fuel + 1) indexInfo t = .ok d := by
    intro t ht
    rcases hmem t ht with h | h
    · exact ⟨_, h ▸ hvl⟩
    · exact ⟨_, hvo t h⟩
  have hfb : ∀ l : List HeapTupleData, (∀ t ∈ l, t ∈ before ++ after) →
      l.filter (passedVisibility env .SnapshotAny (fuel + 1) indexInfo) = [] ∧
      l.filter (fun t => passedVisibility env .SnapshotAny (fuel + 1) indexInfo t &&
        passesPredicate indexInfo t) = [] := by
    intro l hl
    constructor <;>
    · rw [List.filter_eq_nil_iff]
      intro t ht
      simp [hpo t (hl t ht)]
  obtain ⟨hb1, hb2⟩ := hfb before (fun t ht => List.mem_append_left _ ht)
  obtain ⟨ha1, ha2⟩ := hfb after (fun t ht => List.mem_append_right _ ht)
  constructor
  · intro indexInfo1 values isnull hpred hproj
    obtain ⟨st, hst⟩ := IndexBuildHeapScan_returns env indexInfo .SnapshotAny (fuel + 1)
      (before ++ live :: after) hvis
      (fun t ht hv _ => by
        rcases hmem t ht with h | h
        · exact ⟨_, h ▸ hproj⟩
        · rw [hpo t h] at hv
          cases hv)
    obtain ⟨h1, h2⟩ := IndexBuildHeapScan_ok env indexInfo .SnapshotAny (fuel + 1) _ st hst
    refine ⟨st, hst, ?_, ?_⟩
    · rw [h2, List.filter_append, List.filter_cons, hb2, ha2]
      have hroot := hchain live (by simp)
      have hval : FormIndexDatum_values indexInfo live = (values, isnull) := by
        simp [FormIndexDatum_values, hproj]
      simp [hpl, hpred, heapBuildCall, hroot, hval, decidedAlive, hvl]
    · rw [h1, List.filter_append, List.filter_cons, hb1, ha1]
      simp [hpl]
  · intro hpred
    obtain ⟨st, hst⟩ := IndexBuildHeapScan_returns env indexInfo .SnapshotAny (fuel + 1)
      (before ++ live :: after) hvis
      (fun t ht hv hp => by
        rcases hmem t ht with h | h
        · rw [h, hpred] at hp
          cases hp
        · rw [hpo t h] at hv
          cases hv)
    obtain ⟨h1, h2⟩ := IndexBuildHeapScan_ok env indexInfo .SnapshotAny (fuel + 1) _ st hst
    refine ⟨st, hst, ?_, ?_⟩
    · rw [h2, List.filter_append, List.filter_cons, hb2, ha2]
      simp [hpl, hpred]
    · rw [h1, List.filter_append, List.filter_cons, hb1, ha1]
      simp [hpl]

/-! ### The validation merge-join -/

theorem ItemPointerCompare_lt_blk {a b : ItemPointerData} (h : ItemPointerCompare a b < 0) :
    a.ip_blkid ≤ b.ip_blkid := by
  unfold ItemPointerCompare at h
  split at h
  · omega
  · split at h
    · omega
    · omega

theorem ItemPointerCompare_eq_zero {a b : ItemPointerData}
    (h1 : ¬ ItemPointerCompare a b < 0) (h2 : ¬ ItemPointerCompare a b > 0) : a = b := by
  unfold ItemPointerCompare at h1 h2
  obtain ⟨ab, ao⟩ := a
  obtain ⟨bb, bo⟩ := b
  simp only at h1 h2
  split at h1
  · omega
  · split at h1
    · simp at h2
      omega
    · split at h1
      · omega
      · split at h1
        · simp at h2
          omega
        · have e1 : ab = bb := by omega
          have e2 : ao = bo := by omega
          rw [e1, e2]

theorem ItemPointerCompare_self (a : ItemPointerData) : ItemPointerCompare a a = 0 := by
  simp [ItemPointerCompare]

/-- An identifier that is not below the cursor cannot be strictly below a root
the cursor has overshot. -/
theorem ItemPointerCompare_overshot_ne {c x r : ItemPointerData}
    (hcx : ItemPointerCompare c x ≤ 0) (hcr : ItemPointerCompare c r > 0) : x ≠ r := by
  intro hxr
  subst hxr
  omega

/-- What the merge while loop does: it passes over a run of identifiers, all
below rootTuple, marks those of the current page in in_index, and stops either
with the tuplesort exhausted or on a cursor that is not below rootTuple. -/
theorem validate_index_skip_spec (rootTuple : ItemPointerData) (b : Nat) :
    ∀ (rest : List ItemPointerData) (cursor : Option ItemPointerData) (inx : Int → Bool),
      ∃ skipped : List ItemPointerData,
        cursor.toList ++ rest =
          skipped ++ ((validate_index_skip rootTuple (some b) rest cursor inx).2.1.toList ++
            (validate_index_skip rootTuple (some b) rest cursor inx).1) ∧
        (∀ c ∈ skipped, ItemPointerCompare c rootTuple < 0) ∧
        (∀ k, (validate_index_skip rootTuple (some b) rest cursor inx).2.2.2 k = true ↔
          (inx k = true ∨ ∃ c ∈ skipped, c.ip_blkid = b ∧ (c.ip_posid : Int) - 1 = k)) ∧
        ((validate_index_skip rootTuple (some b) rest cursor inx).2.2.1 = true →
          (validate_index_skip rootTuple (some b) rest cursor inx).2.1 = none ∧
          (validate_index_skip rootTuple (some b) rest cursor inx).1 = []) ∧
        ((validate_index_skip rootTuple (some b) rest cursor inx).2.2.1 = false →
          ∃ c, (validate_index_skip rootTuple (some b) rest cursor inx).2.1 = some c ∧
            ¬ ItemPointerCompare c rootTuple < 0) := by
  have hrem : ∀ (cursor : Option ItemPointerData) (inx : Int → Bool) (k : Int),
      validate_index_remember (some b) inx cursor k = true ↔
        (inx k = true ∨ ∃ c ∈ cursor.toList, c.ip_blkid = b ∧ (c.ip_posid : Int) - 1 = k) := by
    intro cursor inx k
    cases cursor with
    | none => simp [validate_index_remember]
    | some c =>
      simp only [validate_index_remember, Option.some.injEq, Option.toList_some,
        List.mem_singleton, exists_eq_left]
      by_cases hb : c.ip_blkid = b
      · simp only [hb, if_true, true_and]
        by_cases hk : k = (c.ip_posid : Int) - 1
        · subst hk
          simp
        · rw [Function.update_noteq hk]
          constructor
          · exact Or.inl
          · rintro (h | h)
            · exact h
            · exact absurd h.symm hk
      · simp [hb]
  have hbehind : ∀ (cursor : Option ItemPointerData),
      validate_index_behind rootTuple cursor = true →
      ∀ c ∈ cursor.toList, ItemPointerCompare c rootTuple < 0 := by
    intro cursor h c hc
    cases cursor with
    | none => simp at hc
    | some d =>
      simp only [Option.toList_some, List.mem_singleton] at hc
      subst hc
      simpa [validate_index_behind] using h
  have hnot : ∀ (cursor : Option ItemPointerData),
      ¬ validate_index_behind rootTuple cursor = true →
      ∃ c, cursor = some c ∧ ¬ ItemPointerCompare c rootTuple < 0 := by
    intro cursor h
    cases cursor with
    | none => simp [validate_index_behind] at h
    | some d => exact ⟨d, rfl, by simpa [validate_index_behind] using h⟩
  intro rest
  induction rest with
  | nil =>
    intro cursor inx
    by_cases hbh : validate_index_behind rootTuple cursor = true
    · refine ⟨cursor.toList, ?_, hbehind cursor hbh, ?_, ?_, ?_⟩
      · simp [validate_index_skip, hbh]
      · intro k
        simp only [validate_index_skip, hbh, if_true]
        exact hrem cursor inx k
      · simp [validate_index_skip, hbh]
      · simp [validate_index_skip, hbh]
    · refine ⟨[], ?_, by simp, ?_, ?_, ?_⟩
      · simp [validate_index_skip, hbh]
      · simp [validate_index_skip, hbh]
      · simp [validate_index_skip, hbh]
      · intro _
        simpa [validate_index_skip, hbh] using hnot cursor hbh
  | cons t rest ih =>
    intro cursor inx
    by_cases hbh : validate_index_behind rootTuple cursor = true
    · obtain ⟨skipped, h1, h2, h3, h4, h5⟩ :=
        ih (some t) (validate_index_remember (some b) inx cursor)
      refine ⟨cursor.toList ++ skipped, ?_, ?_, ?_, ?_, ?_⟩
      · simp only [validate_index_skip, hbh, if_true]
        rw [List.append_assoc, ← h1]
        simp
      · intro c hc
        rcases List.mem_append.1 hc with hc | hc
        · exact hbehind cursor hbh c hc
        · exact h2 c hc
      · intro k
        simp only [validate_index_skip, hbh, if_true]
        rw [h3 k, hrem cursor inx k]
        constructor
        · rintro ((h | ⟨c, hc, hcb⟩) | ⟨c, hc, hcb⟩)
          · exact Or.inl h
          · exact Or.inr ⟨c, List.mem_append_left _ hc, hcb⟩
          · exact Or.inr ⟨c, List.mem_append_right _ hc, hcb⟩
        · rintro (h | ⟨c, hc, hcb⟩)
          · exact Or.inl (Or.inl h)
          · rcases List.mem_append.1 hc with hc | hc
            · exact Or.inl (Or.inr ⟨c, hc, hcb⟩)
            · exact Or.inr ⟨c, hc, hcb⟩
      · simpa only [validate_index_skip, hbh, if_true] using h4
      · simpa only [validate_index_skip, hbh, if_true] using h5
    · refine ⟨[], ?_, by simp, ?_, ?_, ?_⟩
      · simp [validate_index_skip, hbh]
      · simp [validate_index_skip, hbh]
      · simp [validate_index_skip, hbh]
      · intro _
        simpa [validate_index_skip, hbh] using hnot cursor hbh

/-- The start of an iteration keeps the merge invariant when the scan moves
forward: on a new page nothing passed over so far lies on it. -/
theorem validate_index_heapscan_newpage_inv {σ : Type} (env : HeapScanEnv)
    (indexInfo : IndexInfo) (tids passed : List ItemPointerData) (st : ValidateScanState σ)
    (heapTuple : HeapTupleData) (hinv : MergeInv env indexInfo tids passed st)
    (hfwd : ∀ b, st.root_blkno = some b → b ≤ heapTuple.t_self.ip_blkid) :
    MergeInv env indexInfo tids passed (validate_index_heapscan_newpage env st heapTuple) ∧
    (validate_index_heapscan_newpage env st heapTuple).root_blkno =
      some heapTuple.t_self.ip_blkid ∧
    (validate_index_heapscan_newpage env st heapTuple).index = st.index ∧
    (validate_index_heapscan_newpage env st heapTuple).inserts = st.inserts ∧
    (validate_index_heapscan_newpage env st heapTuple).state.htups = st.state.htups + 1 ∧
    (validate_index_heapscan_newpage env st heapTuple).state.tups_inserted =
      st.state.tups_inserted := by
  obtain ⟨h1, h2, h3, h4, h5⟩ := hinv
  unfold validate_index_heapscan_newpage
  by_cases hb : st.root_blkno = some heapTuple.t_self.ip_blkid
  · rw [if_neg (by simpa using hb)]
    refine ⟨⟨h1, h2, ?_, ?_, h5⟩, hb, rfl, rfl, rfl, rfl⟩
    · intro hn
      have hn1 : st.root_blkno = none := hn
      rw [hb] at hn1
      cases hn1
    · intro b hb1
      exact h4 b hb1
  · rw [if_pos (by simpa using hb)]
    refine ⟨⟨h1, h2, ?_, ?_, h5⟩, rfl, rfl, rfl, rfl, rfl⟩
    · intro hn
      cases hn
    · intro b hb1
      have hb2 : some heapTuple.t_self.ip_blkid = some b := hb1
      simp only [Option.some.injEq] at hb2
      subst hb2
      have hlt : ∀ c ∈ passed, c.ip_blkid < heapTuple.t_self.ip_blkid := by
        intro c hc
        cases hrb : st.root_blkno with
        | none =>
          rw [h3 hrb] at hc
          simp at hc
        | some b0 =>
          have hle := (h4 b0 hrb).2.1 c hc
          have hfw := hfwd b0 hrb
          have hne : b0 ≠ heapTuple.t_self.ip_blkid := by
            intro he
            rw [hrb, he] at hb
            exact hb rfl
          omega
      refine ⟨rfl, fun c hc => Nat.le_of_lt (hlt c hc), ?_⟩
      intro k
      constructor
      · intro hk
        cases hk
      · rintro ⟨c, hc, hcb, -⟩
        have := hlt c hc
        omega

/-- The merge step keeps the invariant, extending the identifiers passed over,
and stops with the tuplesort exhausted or on a cursor not below rootTuple. -/
theorem validate_index_heapscan_merge_inv {σ : Type} (env : HeapScanEnv)
    (indexInfo : IndexInfo) (tids passed : List ItemPointerData) (st : ValidateScanState σ)
    (rootTuple : ItemPointerData) (hinv : MergeInv env indexInfo tids passed st)
    (hb : st.root_blkno = some rootTuple.ip_blkid) :
    (∃ passed1, MergeInv env indexInfo tids passed1
      (validate_index_heapscan_merge rootTuple st)) ∧
    (validate_index_heapscan_merge rootTuple st).root_blkno = st.root_blkno ∧
    (validate_index_heapscan_merge rootTuple st).index = st.index ∧
    (validate_index_heapscan_merge rootTuple st).inserts = st.inserts ∧
    (validate_index_heapscan_merge rootTuple st).indexInfo = st.indexInfo ∧
    (validate_index_heapscan_merge rootTuple st).state.htups = st.state.htups ∧
    (validate_index_heapscan_merge rootTuple st).state.tups_inserted =
      st.state.tups_inserted ∧
    ((validate_index_heapscan_merge rootTuple st).tuplesort_empty = false →
      ∃ c, (validate_index_heapscan_merge rootTuple st).indexcursor = some c ∧
        ¬ ItemPointerCompare c rootTuple < 0) := by
  obtain ⟨h1, h2, h3, h4, h5⟩ := hinv
  unfold validate_index_heapscan_merge
  by_cases he : st.tuplesort_empty = true
  · rw [if_pos he]
    refine ⟨⟨passed, h1, h2, h3, h4, h5⟩, rfl, rfl, rfl, rfl, rfl, rfl, ?_⟩
    intro hf
    rw [he] at hf
    cases hf
  · rw [if_neg he]
    simp only [Bool.not_eq_true] at he
    obtain ⟨skipped, s1, s2, s3, s4, s5⟩ := validate_index_skip_spec rootTuple
      rootTuple.ip_blkid st.state.tuplesort st.indexcursor st.in_index
    rw [← hb] at s1 s3 s4 s5
    obtain ⟨r1, r2, r3⟩ := h4 _ hb
    refine ⟨⟨passed ++ skipped, ?_, ?_, ?_, ?_, h5⟩, rfl, rfl, rfl, rfl, rfl, rfl, s5⟩
    · intro hemp
      obtain ⟨e1, e2⟩ := s4 hemp
      refine ⟨e2, ?_⟩
      rw [h2 he, s1, e1, e2]
      simp
    · intro hemp
      rw [h2 he, s1, List.append_assoc]
    · intro hn
      have hn1 : st.root_blkno = none := hn
      rw [hb] at hn1
      cases hn1
    · intro b hb1
      have hb2 : st.root_blkno = some b := hb1
      rw [hb] at hb2
      simp only [Option.some.injEq] at hb2
      subst hb2
      refine ⟨r1, ?_, ?_⟩
      · intro c hc
        rcases List.mem_append.1 hc with hc | hc
        · exact r2 c hc
        · exact ItemPointerCompare_lt_blk (s2 c hc)
      · intro k
        refine Iff.trans (s3 k) ?_
        rw [r3 k]
        constructor
        · rintro (⟨c, hc, hcb⟩ | ⟨c, hc, hcb⟩)
          · exact ⟨c, List.mem_append_left _ hc, hcb⟩
          · exact ⟨c, List.mem_append_right _ hc, hcb⟩
        · rintro ⟨c, hc, hcb⟩
          rcases List.mem_append.1 hc with hc | hc
          · exact Or.inl ⟨c, hc, hcb⟩
          · exact Or.inr ⟨c, hc, hcb⟩

/-- The insert condition holds exactly when the root identifier is missing
from the sorted buffer. -/
theorem validate_index_insert_condition {σ : Type} (env : HeapScanEnv)
    (indexInfo : IndexInfo) (tids passed : List ItemPointerData) (st : ValidateScanState σ)
    (rootTuple : ItemPointerData) (hsorted : TidSorted tids)
    (hinv : MergeInv env indexInfo tids passed st)
    (hb : st.root_blkno = some rootTuple.ip_blkid)
    (hcur : st.tuplesort_empty = false →
      ∃ c, st.indexcursor = some c ∧ ¬ ItemPointerCompare c rootTuple < 0) :
    (validate_index_overshot rootTuple st.tuplesort_empty st.indexcursor &&
      !st.in_index ((rootTuple.ip_posid : Int) - 1)) = decide (rootTuple ∉ tids) := by
  obtain ⟨h1, h2, -, h4, -⟩ := hinv
  obtain ⟨-, -, r3⟩ := h4 _ hb
  have hin : st.in_index ((rootTuple.ip_posid : Int) - 1) = true ↔ rootTuple ∈ passed := by
    rw [r3]
    constructor
    · rintro ⟨c, hc, hcb, hco⟩
      have : c = rootTuple := by
        obtain ⟨cb, co⟩ := c
        obtain ⟨rb, ro⟩ := rootTuple
        simp only at hcb hco
        have : co = ro := by omega
        rw [hcb, this]
      rw [← this]
      exact hc
    · intro hc
      exact ⟨rootTuple, hc, rfl, rfl⟩
  cases he : st.tuplesort_empty
  · obtain ⟨c, hc, hnlt⟩ := hcur he
    have hI := h2 he
    rw [hc] at hI ⊢
    simp only [Option.toList_some, List.singleton_append] at hI
    simp only [validate_index_overshot, Bool.false_or]
    by_cases hgt : ItemPointerCompare c rootTuple > 0
    · have hrest : ∀ x ∈ c :: st.state.tuplesort, x ≠ rootTuple := by
        intro x hx
        rcases List.mem_cons.1 hx with hx | hx
        · subst hx
          intro hxe
          subst hxe
          rw [ItemPointerCompare_self] at hgt
          omega
        · have hs : TidSorted (c :: st.state.tuplesort) := by
            unfold TidSorted at hsorted ⊢
            rw [hI] at hsorted
            exact (List.pairwise_append.1 hsorted).2.1
          exact ItemPointerCompare_overshot_ne ((List.pairwise_cons.1 hs).1 x hx) hgt
      have hmem : rootTuple ∈ tids ↔ rootTuple ∈ passed := by
        rw [hI, List.mem_append]
        constructor
        · rintro (h | h)
          · exact h
          · exact absurd rfl (hrest _ h)
        · exact Or.inl
      by_cases hp : rootTuple ∈ passed
      · simp [hgt, hin.2 hp, hmem.2 hp]
      · have hf : st.in_index ((rootTuple.ip_posid : Int) - 1) = false := by
          cases hx : st.in_index ((rootTuple.ip_posid : Int) - 1)
          · rfl
          · exact absurd (hin.1 hx) hp
        have hnm : rootTuple ∉ tids := fun h => hp (hmem.1 h)
        simp [hgt, hf, hnm]
    · have hceq : c = rootTuple := ItemPointerCompare_eq_zero hnlt hgt
      have hm : rootTuple ∈ tids := by
        rw [hI, ← hceq]
        simp
      simp [hgt, hm]
  · have hI := (h1 he).2
    have hov : validate_index_overshot rootTuple true st.indexcursor = true := by
      cases st.indexcursor <;> simp [validate_index_overshot]
    rw [hov, Bool.true_and, hI]
    by_cases hp : rootTuple ∈ passed
    · simp [hin.2 hp, hp]
    · have hf : st.in_index ((rootTuple.ip_posid : Int) - 1) = false := by
        cases hx : st.in_index ((rootTuple.ip_posid : Int) - 1)
        · rfl
        · exact absurd (hin.1 hx) hp
      simp [hf, hp]

/-- Without any order on the buffer, the insert condition still holds for
every root identifier that is missing from it. -/
theorem validate_index_insert_condition_of_missing {σ : Type} (env : HeapScanEnv)
    (indexInfo : IndexInfo) (tids passed : List ItemPointerData) (st : ValidateScanState σ)
    (rootTuple : ItemPointerData)
    (hinv : MergeInv env indexInfo tids passed st)
    (hb : st.root_blkno = some rootTuple.ip_blkid)
    (hcur : st.tuplesort_empty = false →
      ∃ c, st.indexcursor = some c ∧ ¬ ItemPointerCompare c rootTuple < 0)
    (hmiss : rootTuple ∉ tids) :
    (validate_index_overshot rootTuple st.tuplesort_empty st.indexcursor &&
      !st.in_index ((rootTuple.ip_posid : Int) - 1)) = true := by
  obtain ⟨h1, h2, -, h4, -⟩ := hinv
  obtain ⟨-, -, r3⟩ := h4 _ hb
  have hpassed : ∀ c ∈ passed, c ∈ tids := by
    intro c hc
    cases he : st.tuplesort_empty
    · rw [h2 he]
      exact List.mem_append_left _ hc
    · rw [(h1 he).2]
      exact hc
  have hf : st.in_index ((rootTuple.ip_posid : Int) - 1) = false := by
    cases hx : st.in_index ((rootTuple.ip_posid : Int) - 1)
    · rfl
    · exfalso
      obtain ⟨c, hc, hcb, hco⟩ := (r3 _).1 hx
      have : c = rootTuple := by
        obtain ⟨cb, co⟩ := c
        obtain ⟨rb, ro⟩ := rootTuple
        simp only at hcb hco
        have : co = ro := by omega
        rw [hcb, this]
      exact hmiss (this ▸ hpassed c hc)
  rw [hf]
  cases he : st.tuplesort_empty
  · obtain ⟨c, hc, hnlt⟩ := hcur he
    have hcin : c ∈ tids := by
      rw [h2 he, hc]
      simp
    have hgt : ItemPointerCompare c rootTuple > 0 := by
      by_contra hngt
      exact hmiss (ItemPointerCompare_eq_zero hnlt hngt ▸ hcin)
    simp [hc, validate_index_overshot, hgt]
  · cases st.indexcursor <;> simp [validate_index_overshot]

/-- An iteration of the validation scan up to the insert decision: the state
reached satisfies the merge invariant; the insert condition tested on it holds
for every root identifier missing from the buffer and, when the buffer is
sorted, only for those. -/
theorem validate_index_heapscan_row_prelude {σ : Type} (env : HeapScanEnv)
    (index_insert : σ → IndexInsertCall → Except ErrorData σ)
    (indexInfo : IndexInfo) (predicate : List QualClause)
    (tids passed : List ItemPointerData) (st : ValidateScanState σ)
    (heapTuple : HeapTupleData)
    (hinv : MergeInv env indexInfo tids passed st)
    (hfwd : ∀ b, st.root_blkno = some b → b ≤ heapTuple.t_self.ip_blkid) :
    ∃ (st3 : ValidateScanState σ) (passed3 : List ItemPointerData),
      MergeInv env indexInfo tids passed3 st3 ∧
      st3.root_blkno = some heapTuple.t_self.ip_blkid ∧
      st3.index = st.index ∧ st3.inserts = st.inserts ∧
      st3.state.htups = st.state.htups + 1 ∧
      st3.state.tups_inserted = st.state.tups_inserted ∧
      (TidSorted tids →
        (validate_index_overshot (rootOf env heapTuple) st3.tuplesort_empty st3.indexcursor &&
          !st3.in_index (((rootOf env heapTuple).ip_posid : Int) - 1)) =
          decide (rootOf env heapTuple ∉ tids)) ∧
      (rootOf env heapTuple ∉ tids →
        (validate_index_overshot (rootOf env heapTuple) st3.tuplesort_empty st3.indexcursor &&
          !st3.in_index (((rootOf env heapTuple).ip_posid : Int) - 1)) = true) ∧
      validate_index_heapscan_row env index_insert predicate st heapTuple =
        validate_index_heapscan_insert index_insert predicate st3 heapTuple
          (rootOf env heapTuple) := by
  obtain ⟨n1, n2, n3, n4, n5, n6⟩ :=
    validate_index_heapscan_newpage_inv env indexInfo tids passed st heapTuple hinv hfwd
  have hroots := (n1.2.2.2.1 _ n2).1
  have hroot : ({ heapTuple.t_self with
      ip_posid := validate_index_root_offnum
        (validate_index_heapscan_newpage env st heapTuple) heapTuple } : ItemPointerData) =
      rootOf env heapTuple := by
    unfold validate_index_root_offnum rootOf rootItemPointer
    rw [hroots]
    split <;> rfl
  have hrb : (rootOf env heapTuple).ip_blkid = heapTuple.t_self.ip_blkid := by
    unfold rootOf rootItemPointer
    split <;> rfl
  have n2r : (validate_index_heapscan_newpage env st heapTuple).root_blkno =
      some (rootOf env heapTuple).ip_blkid := by rw [hrb]; exact n2
  obtain ⟨⟨passed3, m1⟩, m2, m3, m4, m5, m6, m7, m8⟩ :=
    validate_index_heapscan_merge_inv env indexInfo tids passed
      (validate_index_heapscan_newpage env st heapTuple) (rootOf env heapTuple) n1 n2r
  refine ⟨validate_index_heapscan_merge (rootOf env heapTuple)
    (validate_index_heapscan_newpage env st heapTuple), passed3, m1, m2.trans n2,
    m3.trans n3, m4.trans n4, m6.trans n5, m7.trans n6, ?_, ?_, ?_⟩
  · intro hsorted
    exact validate_index_insert_condition env indexInfo tids passed3 _ _ hsorted m1
      (m2.trans n2r) m8
  · exact validate_index_insert_condition_of_missing env indexInfo tids passed3 _ _ m1
      (m2.trans n2r) m8
  · unfold validate_index_heapscan_row
    simp only [hroot]

/-- The end of an iteration, when it returns: index_insert was called exactly
when the insert condition held and the row passes the predicate. -/
theorem validate_index_heapscan_insert_ok {σ : Type} (env : HeapScanEnv)
    (index_insert : σ → IndexInsertCall → Except ErrorData σ)
    (indexInfo : IndexInfo) (tids passed : List ItemPointerData)
    (st st1 : ValidateScanState σ) (heapTuple : HeapTupleData)
    (hinv : MergeInv env indexInfo tids passed st)
    (hcond : (validate_index_overshot (rootOf env heapTuple) st.tuplesort_empty st.indexcursor &&
        !st.in_index (((rootOf env heapTuple).ip_posid : Int) - 1)) =
        decide (rootOf env heapTuple ∉ tids))
    (h : validate_index_heapscan_insert index_insert indexInfo.ii_Predicate st heapTuple
      (rootOf env heapTuple) = .ok st1) :
    MergeInv env indexInfo tids passed st1 ∧
    st1.root_blkno = st.root_blkno ∧
    st1.state.htups = st.state.htups ∧
    st1.inserts = st.inserts ++
      (if missingFrom env indexInfo tids heapTuple then [validateCall env indexInfo heapTuple]
        else []) ∧
    st1.state.tups_inserted = st.state.tups_inserted +
      (if missingFrom env indexInfo tids heapTuple then 1 else 0) := by
  unfold validate_index_heapscan_insert at h
  rw [hcond, not_passesPredicate_iff] at h
  unfold missingFrom
  by_cases hm : rootOf env heapTuple ∈ tids
  · simp only [hm, not_true_eq_false, decide_False, Bool.false_eq_true, if_false,
      Except.ok.injEq] at h
    subst h
    simp [hm, hinv]
  · simp only [hm, not_false_eq_true, decide_True, if_true] at h
    cases hp : passesPredicate indexInfo heapTuple
    · simp only [hp, Bool.not_false, if_true, Except.ok.injEq] at h
      subst h
      simp [hm, hinv]
    · simp only [hp, Bool.not_true, Bool.false_eq_true, if_false] at h
      cases hf : FormIndexDatum st.indexInfo heapTuple with
      | error e => simp [hf] at h
      | ok r =>
        obtain ⟨a1, values, isnull⟩ := r
        simp only [hf] at h
        obtain ⟨hd1, hv, -⟩ :=
          (FormIndexDatum_congr hinv.2.2.2.2 heapTuple).2 a1 values isnull hf
        cases hi : index_insert st.index ⟨values, isnull, rootOf env heapTuple, a1.ii_Unique⟩ with
        | error e => simp [hi] at h
        | ok index1 =>
          simp only [hi, Except.ok.injEq] at h
          subst h
          obtain ⟨i1, i2, i3, i4, -⟩ := hinv
          refine ⟨⟨i1, i2, i3, i4, hd1⟩, rfl, rfl, ?_, ?_⟩
          · simp [hm, validateCall, hv, hd1.2.2.2.1]
          · simp [hm]

/-- The end of an iteration returns whenever the row, if it is missing and
passes the predicate, can be projected and inserted. -/
theorem validate_index_heapscan_insert_returns {σ : Type} (env : HeapScanEnv)
    (index_insert : σ → IndexInsertCall → Except ErrorData σ)
    (indexInfo : IndexInfo) (tids passed : List ItemPointerData)
    (st : ValidateScanState σ) (heapTuple : HeapTupleData)
    (hinv : MergeInv env indexInfo tids passed st)
    (hcond : (validate_index_overshot (rootOf env heapTuple) st.tuplesort_empty st.indexcursor &&
        !st.in_index (((rootOf env heapTuple).ip_posid : Int) - 1)) =
        decide (rootOf env heapTuple ∉ tids))
    (hq : missingFrom env indexInfo tids heapTuple = true →
      (∃ r, FormIndexDatum indexInfo heapTuple = .ok r) ∧
      ∀ index, ∃ index1, index_insert index (validateCall env indexInfo heapTuple) =
        .ok index1) :
    ∃ st1, validate_index_heapscan_insert index_insert indexInfo.ii_Predicate st heapTuple
      (rootOf env heapTuple) = .ok st1 := by
  unfold validate_index_heapscan_insert
  rw [hcond, not_passesPredicate_iff]
  unfold missingFrom at hq
  by_cases hm : rootOf env heapTuple ∈ tids
  · simp [hm]
  · simp only [hm, not_false_eq_true, decide_True, if_true]
    cases hp : passesPredicate indexInfo heapTuple
    · simp
    · simp only [Bool.not_true, Bool.false_eq_true, if_false]
      obtain ⟨⟨r, hr⟩, hins⟩ := hq (by simp [hm, hp])
      cases hf : FormIndexDatum st.indexInfo heapTuple with
      | error e =>
        have := (FormIndexDatum_congr hinv.2.2.2.2 heapTuple).1 e hf
        rw [hr] at this
        cases this
      | ok r1 =>
        obtain ⟨a1, values, isnull⟩ := r1
        obtain ⟨hd1, hv, -⟩ :=
          (FormIndexDatum_congr hinv.2.2.2.2 heapTuple).2 a1 values isnull hf
        obtain ⟨index1, hi⟩ := hins st.index
        have hcall : validateCall env indexInfo heapTuple =
            ⟨values, isnull, rootOf env heapTuple, a1.ii_Unique⟩ := by
          simp [validateCall, hv, hd1.2.2.2.1]
        rw [hcall] at hi
        simp only [hi]
        exact ⟨_, rfl⟩

/-- The loop of the validation scan, when it returns, over a sorted buffer and
a heap scan in forward page order: index_insert was called once for each row
that is missing from the buffer and passes the predicate, in scan order. -/
theorem validate_index_heapscan_loop_ok {σ : Type} (env : HeapScanEnv)
    (index_insert : σ → IndexInsertCall → Except ErrorData σ)
    (indexInfo : IndexInfo) (tids : List ItemPointerData) (hsorted : TidSorted tids)
    (rows : List HeapTupleData) :
    ∀ (st st1 : ValidateScanState σ) (passed : List ItemPointerData),
      ForwardPageOrder rows →
      (∀ b, st.root_blkno = some b → ∀ t ∈ rows, b ≤ t.t_self.ip_blkid) →
      MergeInv env indexInfo tids passed st →
      validate_index_heapscan_loop env index_insert indexInfo.ii_Predicate rows st = .ok st1 →
      st1.inserts = st.inserts ++
        (rows.filter (missingFrom env indexInfo tids)).map (validateCall env indexInfo) ∧
      st1.state.tups_inserted = st.state.tups_inserted +
        (rows.filter (missingFrom env indexInfo tids)).length ∧
      st1.state.htups = st.state.htups + rows.length := by
  induction rows with
  | nil =>
    intro st st1 passed _ _ _ h
    simp only [validate_index_heapscan_loop, Except.ok.injEq] at h
    subst h
    simp
  | cons t rest ih =>
    intro st st1 passed hfwd hblk hinv h
    simp only [validate_index_heapscan_loop] at h
    cases hrow : validate_index_heapscan_row env index_insert indexInfo.ii_Predicate st t with
    | error e => simp [hrow] at h
    | ok st2 =>
      simp only [hrow] at h
      obtain ⟨st3, passed3, p1, p2, p3, p4, p5, p6, p7, -, p8⟩ :=
        validate_index_heapscan_row_prelude env index_insert indexInfo indexInfo.ii_Predicate
          tids passed st t hinv (fun b hb => hblk b hb t (List.mem_cons_self _ _))
      rw [p8] at hrow
      obtain ⟨q1, q2, q3, q4, q5⟩ := validate_index_heapscan_insert_ok env index_insert
        indexInfo tids passed3 st3 st2 t p1 (p7 hsorted) hrow
      have hfwd2 := List.pairwise_cons.1 hfwd
      obtain ⟨r1, r2, r3⟩ := ih st2 st1 passed3 hfwd2.2
        (fun b hb u hu => by
          rw [q2, p2] at hb
          simp only [Option.some.injEq] at hb
          subst hb
          exact hfwd2.1 u hu)
        q1 h
      refine ⟨?_, ?_, ?_⟩
      · rw [r1, q4, p4, List.filter_cons]
        cases missingFrom env indexInfo tids t <;> simp
      · rw [r2, q5, p6, List.filter_cons]
        cases missingFrom env indexInfo tids t
        · simp
        · simp
          omega
      · rw [r3, q3, p5, List.length_cons]
        omega

/-- The loop of the validation scan returns whenever every row that is missing
and passes the predicate can be projected and inserted. -/
theorem validate_index_heapscan_loop_returns {σ : Type} (env : HeapScanEnv)
    (index_insert : σ → IndexInsertCall → Except ErrorData σ)
    (indexInfo : IndexInfo) (tids : List ItemPointerData) (hsorted : TidSorted tids)
    (rows : List HeapTupleData) :
    ∀ (st : ValidateScanState σ) (passed : List ItemPointerData),
      ForwardPageOrder rows →
      (∀ b, st.root_blkno = some b → ∀ t ∈ rows, b ≤ t.t_self.ip_blkid) →
      MergeInv env indexInfo tids passed st →
      (∀ t ∈ rows, missingFrom env indexInfo tids t = true →
        (∃ r, FormIndexDatum indexInfo t = .ok r) ∧
        ∀ index, ∃ index1, index_insert index (validateCall env indexInfo t) = .ok index1) →
      ∃ st1, validate_index_heapscan_loop env index_insert indexInfo.ii_Predicate rows st =
        .ok st1 := by
  induction rows with
  | nil =>
    intro st _ _ _ _ _
    exact ⟨st, rfl⟩
  | cons t rest ih =>
    intro st passed hfwd hblk hinv hq
    obtain ⟨st3, passed3, p1, p2, p3, p4, p5, p6, p7, -, p8⟩ :=
      validate_index_heapscan_row_prelude env index_insert indexInfo indexInfo.ii_Predicate
        tids passed st t hinv (fun b hb => hblk b hb t (List.mem_cons_self _ _))
    obtain ⟨st2, hst2⟩ := validate_index_heapscan_insert_returns env index_insert indexInfo
      tids passed3 st3 t p1 (p7 hsorted) (hq t (List.mem_cons_self _ _))
    obtain ⟨q1, q2, -, -, -⟩ := validate_index_heapscan_insert_ok env index_insert
      indexInfo tids passed3 st3 st2 t p1 (p7 hsorted) hst2
    have hfwd2 := List.pairwise_cons.1 hfwd
    obtain ⟨st1, h1⟩ := ih st2 passed3 hfwd2.2
      (fun b hb u hu => by
        rw [q2, p2] at hb
        simp only [Option.some.injEq] at hb
        subst hb
        exact hfwd2.1 u hu)
      q1 (fun u hu => hq u (List.mem_cons_of_mem _ hu))
    refine ⟨st1, ?_⟩
    simp only [validate_index_heapscan_loop]
    rw [p8, hst2]
    exact h1

/-- The end of an iteration, for a buffer in any order: the calls made so far
are kept, and a row that is missing from the buffer and passes the predicate
is inserted. -/
theorem validate_index_heapscan_insert_sound {σ : Type} (env : HeapScanEnv)
    (index_insert : σ → IndexInsertCall → Except ErrorData σ)
    (indexInfo : IndexInfo) (tids passed : List ItemPointerData)
    (st st1 : ValidateScanState σ) (heapTuple : HeapTupleData)
    (hinv : MergeInv env indexInfo tids passed st)
    (hcond : rootOf env heapTuple ∉ tids →
      (validate_index_overshot (rootOf env heapTuple) st.tuplesort_empty st.indexcursor &&
        !st.in_index (((rootOf env heapTuple).ip_posid : Int) - 1)) = true)
    (h : validate_index_heapscan_insert index_insert indexInfo.ii_Predicate st heapTuple
      (rootOf env heapTuple) = .ok st1) :
    MergeInv env indexInfo tids passed st1 ∧
    st1.root_blkno = st.root_blkno ∧
    (∃ extra, st1.inserts = st.inserts ++ extra) ∧
    (missingFrom env indexInfo tids heapTuple = true →
      validateCall env indexInfo heapTuple ∈ st1.inserts) := by
  unfold validate_index_heapscan_insert at h
  rw [not_passesPredicate_iff] at h
  have hkeep : st1 = st → MergeInv env indexInfo tids passed st1 ∧
      st1.root_blkno = st.root_blkno ∧ (∃ extra, st1.inserts = st.inserts ++ extra) := by
    intro he
    subst he
    exact ⟨hinv, rfl, [], by simp⟩
  split at h
  · rename_i hc
    cases hp : passesPredicate indexInfo heapTuple
    · simp only [hp, Bool.not_false, if_true, Except.ok.injEq] at h
      obtain ⟨k1, k2, k3⟩ := hkeep h.symm
      refine ⟨k1, k2, k3, ?_⟩
      intro hm
      simp [missingFrom, hp] at hm
    · simp only [hp, Bool.not_true, Bool.false_eq_true, if_false] at h
      cases hf : FormIndexDatum st.indexInfo heapTuple with
      | error e => simp [hf] at h
      | ok r =>
        obtain ⟨a1, values, isnull⟩ := r
        simp only [hf] at h
        obtain ⟨hd1, hv, -⟩ :=
          (FormIndexDatum_congr hinv.2.2.2.2 heapTuple).2 a1 values isnull hf
        cases hi : index_insert st.index ⟨values, isnull, rootOf env heapTuple, a1.ii_Unique⟩ with
        | error e => simp [hi] at h
        | ok index1 =>
          simp only [hi, Except.ok.injEq] at h
          subst h
          obtain ⟨i1, i2, i3, i4, -⟩ := hinv
          refine ⟨⟨i1, i2, i3, i4, hd1⟩, rfl, ⟨_, rfl⟩, ?_⟩
          intro _
          simp [validateCall, hv, hd1.2.2.2.1]
  · rename_i hc
    simp only [Except.ok.injEq] at h
    obtain ⟨k1, k2, k3⟩ := hkeep h.symm
    refine ⟨k1, k2, k3, ?_⟩
    intro hm
    simp only [missingFrom, Bool.and_eq_true, decide_eq_true_eq] at hm
    exact absurd (hcond hm.1) hc

/-- The loop of the validation scan, for a buffer in any order and a heap scan
in forward page order: every row that is missing from the buffer and passes
the predicate has been inserted when the loop returns. -/
theorem validate_index_heapscan_loop_sound {σ : Type} (env : HeapScanEnv)
    (index_insert : σ → IndexInsertCall → Except ErrorData σ)
    (indexInfo : IndexInfo) (tids : List ItemPointerData) (rows : List HeapTupleData) :
    ∀ (st st1 : ValidateScanState σ) (passed : List ItemPointerData),
      ForwardPageOrder rows →
      (∀ b, st.root_blkno = some b → ∀ t ∈ rows, b ≤ t.t_self.ip_blkid) →
      MergeInv env indexInfo tids passed st →
      validate_index_heapscan_loop env index_insert indexInfo.ii_Predicate rows st = .ok st1 →
      (∃ extra, st1.inserts = st.inserts ++ extra) ∧
      ∀ t ∈ rows, missingFrom env indexInfo tids t = true →
        validateCall env indexInfo t ∈ st1.inserts := by
  induction rows with
  | nil =>
    intro st st1 passed _ _ _ h
    simp only [validate_index_heapscan_loop, Except.ok.injEq] at h
    subst h
    exact ⟨⟨[], by simp⟩, fun t ht => by cases ht⟩
  | cons t rest ih =>
    intro st st1 passed hfwd hblk hinv h
    simp only [validate_index_heapscan_loop] at h
    cases hrow : validate_index_heapscan_row env index_insert indexInfo.ii_Predicate st t with
    | error e => simp [hrow] at h
    | ok st2 =>
      simp only [hrow] at h
      obtain ⟨st3, passed3, p1, p2, -, p4, -, -, -, p7, p8⟩ :=
        validate_index_heapscan_row_prelude env index_insert indexInfo indexInfo.ii_Predicate
          tids passed st t hinv (fun b hb => hblk b hb t (List.mem_cons_self _ _))
      rw [p8] at hrow
      obtain ⟨q1, q2, ⟨e2, q3⟩, q4⟩ := validate_index_heapscan_insert_sound env index_insert
        indexInfo tids passed3 st3 st2 t p1 p7 hrow
      have hfwd2 := List.pairwise_cons.1 hfwd
      obtain ⟨⟨e1, r1⟩, r2⟩ := ih st2 st1 passed3 hfwd2.2
        (fun b hb u hu => by
          rw [q2, p2] at hb
          simp only [Option.some.injEq] at hb
          subst hb
          exact hfwd2.1 u hu)
        q1 h
      refine ⟨⟨e2 ++ e1, by rw [r1, q3, p4, List.append_assoc]⟩, ?_⟩
      intro u hu hm
      rcases List.mem_cons.1 hu with hu | hu
      · subst hu
        rw [r1]
        exact List.mem_append_left _ (q4 hm)
      · exact r2 u hu hm

theorem MergeInv_init {σ : Type} (env : HeapScanEnv) (indexInfo : IndexInfo)
    (state : v_i_state) (index : σ) :
    MergeInv env indexInfo state.tuplesort [] (ValidateScanState.init indexInfo state index) := by
  refine ⟨?_, ?_, ?_, ?_, SameDescriptor.refl _⟩
  · intro h
    cases h
  · intro _
    simp [ValidateScanState.init]
  · intro _
    rfl
  · intro b hb
    cases hb

/-- The function validate_index_heapscan, when it returns, in closed form. -/
theorem validate_index_heapscan_ok {σ : Type} (env : HeapScanEnv)
    (index_insert : σ → IndexInsertCall → Except ErrorData σ)
    (indexInfo : IndexInfo) (state : v_i_state) (index : σ) (rows : List HeapTupleData)
    (st : ValidateScanState σ) (hsorted : TidSorted state.tuplesort)
    (hfwd : ForwardPageOrder rows)
    (h : validate_index_heapscan env index_insert indexInfo state index rows = .ok st) :
    st.inserts =
      (rows.filter (missingFrom env indexInfo state.tuplesort)).map
        (validateCall env indexInfo) ∧
    st.state.tups_inserted = state.tups_inserted +
      (rows.filter (missingFrom env indexInfo state.tuplesort)).length ∧
    st.state.htups = state.htups + rows.length := by
  unfold validate_index_heapscan at h
  cases hl : validate_index_heapscan_loop env index_insert (ExecPrepareExpr indexInfo.ii_Predicate)
      rows (ValidateScanState.init indexInfo state index) with
  | error e => simp [hl] at h
  | ok st0 =>
    simp only [hl, Except.ok.injEq] at h
    subst h
    have := validate_index_heapscan_loop_ok env index_insert indexInfo state.tuplesort hsorted
      rows _ st0 [] hfwd (fun b hb => by cases hb) (MergeInv_init env indexInfo state index) hl
    simpa [ValidateScanState.init] using this

theorem validate_index_heapscan_returns {σ : Type} (env : HeapScanEnv)
    (index_insert : σ → IndexInsertCall → Except ErrorData σ)
    (indexInfo : IndexInfo) (state : v_i_state) (index : σ) (rows : List HeapTupleData)
    (hsorted : TidSorted state.tuplesort) (hfwd : ForwardPageOrder rows)
    (hq : ∀ t ∈ rows, missingFrom env indexInfo state.tuplesort t = true →
      (∃ r, FormIndexDatum indexInfo t = .ok r) ∧
      ∀ index, ∃ index1, index_insert index (validateCall env indexInfo t) = .ok index1) :
    ∃ st, validate_index_heapscan env index_insert indexInfo state index rows = .ok st := by
  obtain ⟨st0, h0⟩ := validate_index_heapscan_loop_returns env index_insert indexInfo
    state.tuplesort hsorted rows _ [] hfwd (fun b hb => by cases hb)
    (MergeInv_init env indexInfo state index) hq
  unfold validate_index_heapscan
  have h1 : validate_index_heapscan_loop env index_insert (ExecPrepareExpr indexInfo.ii_Predicate)
      rows (ValidateScanState.init indexInfo state index) = .ok st0 := h0
  rw [h1]
  exact ⟨_, rfl⟩

/-- For a buffer in any order and a heap scan in forward page order, every
scanned row that passes the predicate has its root identifier in the buffer or
among the identifiers passed to index_insert. -/
theorem validate_index_heapscan_sound {σ : Type} (env : HeapScanEnv)
    (index_insert : σ → IndexInsertCall → Except ErrorData σ)
    (indexInfo : IndexInfo) (state : v_i_state) (index : σ) (rows : List HeapTupleData)
    (st : ValidateScanState σ) (hfwd : ForwardPageOrder rows)
    (h : validate_index_heapscan env index_insert indexInfo state index rows = .ok st) :
    ∀ t ∈ rows, passesPredicate indexInfo t = true →
      rootOf env t ∈ state.tuplesort ∨ rootOf env t ∈ insertedTids st.inserts := by
  unfold validate_index_heapscan at h
  cases hl : validate_index_heapscan_loop env index_insert (ExecPrepareExpr indexInfo.ii_Predicate)
      rows (ValidateScanState.init indexInfo state index) with
  | error e => simp [hl] at h
  | ok st0 =>
    simp only [hl, Except.ok.injEq] at h
    subst h
    obtain ⟨-, hall⟩ := validate_index_heapscan_loop_sound env index_insert indexInfo
      state.tuplesort rows _ st0 [] hfwd (fun b hb => by cases hb)
      (MergeInv_init env indexInfo state index) hl
    intro t ht hp
    by_cases hm : rootOf env t ∈ state.tuplesort
    · exact Or.inl hm
    · right
      have := hall t ht (by simp [missingFrom, hm, hp])
      simp only [insertedTids, List.mem_map]
      exact ⟨_, this, rfl⟩

/-! ### Properties of the validation merge-join -/

/-- C2: over a sorted buffer of index identifiers and a heap scan in forward
page order, validate_index_heapscan calls index_insert exactly for the scanned
rows whose root identifier does not occur in the buffer and that pass the
predicate, once each and in scan order, with the row's root identifier, its
projected values and the flag ii_Unique; tups_inserted counts these calls. The
order in which the roots of one page are visited plays no part. The run
returns whenever each such row can be projected and inserted. -/
theorem validate_index_heapscan_inserts_missing {σ : Type} (env : HeapScanEnv)
    (index_insert : σ → IndexInsertCall → Except ErrorData σ)
    (indexInfo : IndexInfo) (state : v_i_state) (index : σ) (rows : List HeapTupleData)
    (hsorted : TidSorted state.tuplesort) (hfwd : ForwardPageOrder rows) :
    (∀ st, validate_index_heapscan env index_insert indexInfo state index rows = .ok st →
      st.inserts =
        (rows.filter (fun t => decide (rootOf env t ∉ state.tuplesort) &&
          passesPredicate indexInfo t)).map
          (fun t => ⟨(FormIndexDatum_values indexInfo t).1,
            (FormIndexDatum_values indexInfo t).2, rootOf env t, indexInfo.ii_Unique⟩) ∧
      st.state.tups_inserted = state.tups_inserted + st.inserts.length) ∧
    ((∀ t ∈ rows, rootOf env t ∉ state.tuplesort → passesPredicate indexInfo t = true →
        (∃ r, FormIndexDatum indexInfo t = .ok r) ∧
        ∀ index0, ∃ index1, index_insert index0
          ⟨(FormIndexDatum_values indexInfo t).1, (FormIndexDatum_values indexInfo t).2,
            rootOf env t, indexInfo.ii_Unique⟩ = .ok index1) →
      ∃ st, validate_index_heapscan env index_insert indexInfo state index rows = .ok st) := by
  constructor
  · intro st h
    obtain ⟨h1, h2, -⟩ :=
      validate_index_heapscan_ok env index_insert indexInfo state index rows st hsorted hfwd h
    refine ⟨h1, ?_⟩
    rw [h2, h1, List.length_map]
  · intro hq
    apply validate_index_heapscan_returns env index_insert indexInfo state index rows
      hsorted hfwd
    intro t ht hm
    simp only [missingFrom, Bool.and_eq_true, decide_eq_true_eq] at hm
    exact hq t ht hm.1 hm.2

theorem validate_index_heapscan_inserts_missing_witness :
    TidSorted ([⟨0, 3⟩, ⟨0, 5⟩] : List ItemPointerData) ∧
    ForwardPageOrder exampleScan ∧
    validateOutcome (validate_index_heapscan (exampleEnv (fun _ => .HEAPTUPLE_LIVE) exampleRoots)
      exampleInsert (exampleIndexInfo []) ⟨[⟨0, 3⟩, ⟨0, 5⟩], 0, 2, 0⟩ [] exampleScan) =
      some ([⟨[9], [false], ⟨1, 1⟩, false⟩], 1) ∧
    (returned (validate_index_heapscan (exampleEnv (fun _ => .HEAPTUPLE_LIVE) exampleRoots)
      exampleInsert (exampleIndexInfo []) ⟨[⟨0, 3⟩, ⟨0, 5⟩], 0, 2, 0⟩ [] exampleScan)
      (ValidateScanState.init (exampleIndexInfo []) ⟨[], 0, 0, 0⟩ [])).state.tups_inserted =
      0 + (returned (validate_index_heapscan
        (exampleEnv (fun _ => .HEAPTUPLE_LIVE) exampleRoots)
        exampleInsert (exampleIndexInfo []) ⟨[⟨0, 3⟩, ⟨0, 5⟩], 0, 2, 0⟩ [] exampleScan)
        (ValidateScanState.init (exampleIndexInfo []) ⟨[], 0, 0, 0⟩ [])).inserts.length :=
  ⟨by unfold TidSorted; decide, by unfold ForwardPageOrder; decide, rfl,
    ((validate_index_heapscan_inserts_missing
      (exampleEnv (fun _ => .HEAPTUPLE_LIVE) exampleRoots) exampleInsert (exampleIndexInfo [])
      ⟨[⟨0, 3⟩, ⟨0, 5⟩], 0, 2, 0⟩ [] exampleScan
      (by unfold TidSorted; decide) (by unfold ForwardPageOrder; decide)).1 _ rfl).2⟩

theorem mem_insertedTids_iff {σ : Type} (env : HeapScanEnv)
    (index_insert : σ → IndexInsertCall → Except ErrorData σ)
    (indexInfo : IndexInfo) (state : v_i_state) (index : σ) (rows : List HeapTupleData)
    (st : ValidateScanState σ) (hsorted : TidSorted state.tuplesort)
    (hfwd : ForwardPageOrder rows)
    (h : validate_index_heapscan env index_insert indexInfo state index rows = .ok st)
    (tid : ItemPointerData) :
    tid ∈ insertedTids st.inserts ↔
      ∃ t ∈ rows, rootOf env t ∉ state.tuplesort ∧ passesPredicate indexInfo t = true ∧
        rootOf env t = tid := by
  obtain ⟨h1, -, -⟩ :=
    validate_index_heapscan_ok env index_insert indexInfo state index rows st hsorted hfwd h
  rw [h1]
  simp only [insertedTids, List.map_map, List.mem_map, List.mem_filter, missingFrom,
    Bool.and_eq_true, decide_eq_true_eq, Function.comp, validateCall]
  constructor
  · rintro ⟨t, ⟨ht, hm, hp⟩, he⟩
    exact ⟨t, ht, hm, hp, he⟩
  · rintro ⟨t, ht, hm, hp, he⟩
    exact ⟨t, ⟨ht, hm, hp⟩, he⟩

/-- C1: for a sorted buffer of index identifiers and a heap scan in forward
page order, if every identifier of the buffer is the root identifier of some
scanned row that passes the predicate, then after validate_index_heapscan the
identifiers in the index (the buffer together with those passed to
index_insert) are exactly the root identifiers of the scanned rows that pass
the predicate. The run returns whenever each missing row can be projected and
inserted. -/
theorem validate_index_heapscan_exact {σ : Type} (env : HeapScanEnv)
    (index_insert : σ → IndexInsertCall → Except ErrorData σ)
    (indexInfo : IndexInfo) (state : v_i_state) (index : σ) (rows : List HeapTupleData)
    (hsorted : TidSorted state.tuplesort) (hfwd : ForwardPageOrder rows)
    (hsub : ∀ tid ∈ state.tuplesort,
      ∃ t ∈ rows, passesPredicate indexInfo t = true ∧ rootOf env t = tid) :
    (∀ st, validate_index_heapscan env index_insert indexInfo state index rows = .ok st →
      ∀ tid, (tid ∈ state.tuplesort ∨ tid ∈ insertedTids st.inserts) ↔
        ∃ t ∈ rows, passesPredicate indexInfo t = true ∧ rootOf env t = tid) ∧
    ((∀ t ∈ rows, missingFrom env indexInfo state.tuplesort t = true →
        (∃ r, FormIndexDatum indexInfo t = .ok r) ∧
        ∀ index0, ∃ index1, index_insert index0 (validateCall env indexInfo t) = .ok index1) →
      ∃ st, validate_index_heapscan env index_insert indexInfo state index rows = .ok st) := by
  refine ⟨?_, validate_index_heapscan_returns env index_insert indexInfo state index rows
    hsorted hfwd⟩
  intro st h tid
  rw [mem_insertedTids_iff env index_insert indexInfo state index rows st hsorted hfwd h]
  constructor
  · rintro (hin | ⟨t, ht, -, hp, he⟩)
    · exact hsub tid hin
    · exact ⟨t, ht, hp, he⟩
  · rintro ⟨t, ht, hp, he⟩
    by_cases hm : tid ∈ state.tuplesort
    · exact Or.inl hm
    · exact Or.inr ⟨t, ht, he ▸ hm, hp, he⟩

theorem validate_index_heapscan_exact_witness :
    TidSorted ([⟨0, 3⟩] : List ItemPointerData) ∧
    ForwardPageOrder exampleScan ∧
    validateOutcome (validate_index_heapscan (exampleEnv (fun _ => .HEAPTUPLE_LIVE) exampleRoots)
      exampleInsert (exampleIndexInfo []) ⟨[⟨0, 3⟩], 0, 1, 0⟩ [] exampleScan) =
      some ([⟨[7], [false], ⟨0, 5⟩, false⟩, ⟨[9], [false], ⟨1, 1⟩, false⟩], 2) ∧
    ∀ tid, (tid ∈ ([⟨0, 3⟩] : List ItemPointerData) ∨
        tid ∈ insertedTids (returned (validate_index_heapscan
          (exampleEnv (fun _ => .HEAPTUPLE_LIVE) exampleRoots)
          exampleInsert (exampleIndexInfo []) ⟨[⟨0, 3⟩], 0, 1, 0⟩ [] exampleScan)
          (ValidateScanState.init (exampleIndexInfo []) ⟨[], 0, 0, 0⟩ [])).inserts) ↔
      ∃ t ∈ exampleScan, passesPredicate (exampleIndexInfo []) t = true ∧
        rootOf (exampleEnv (fun _ => .HEAPTUPLE_LIVE) exampleRoots) t = tid :=
  ⟨by unfold TidSorted; decide, by unfold ForwardPageOrder; decide, rfl,
    (validate_index_heapscan_exact
      (exampleEnv (fun _ => .HEAPTUPLE_LIVE) exampleRoots) exampleInsert (exampleIndexInfo [])
      ⟨[⟨0, 3⟩], 0, 1, 0⟩ [] exampleScan
      (by unfold TidSorted; decide) (by unfold ForwardPageOrder; decide)
      (by
        intro tid htid
        simp only [List.mem_singleton] at htid
        subst htid
        exact ⟨exampleRow 0 3 false false 8, by simp [exampleScan], rfl, rfl⟩)).1 _ rfl⟩

theorem ItemPointerCompare_le_iff (a b : ItemPointerData) :
    ItemPointerCompare a b ≤ 0 ↔
      a.ip_blkid < b.ip_blkid ∨ (a.ip_blkid = b.ip_blkid ∧ a.ip_posid ≤ b.ip_posid) := by
  unfold ItemPointerCompare
  by_cases h1 : a.ip_blkid < b.ip_blkid
  · simp [h1]
  · by_cases h2 : a.ip_blkid > b.ip_blkid
    · simp [h1, h2]
      omega
    · have e : a.ip_blkid = b.ip_blkid := by omega
      by_cases h3 : a.ip_posid < b.ip_posid
      · simp [e, h3]
        omega
      · by_cases h4 : a.ip_posid > b.ip_posid
        · simp [e, h3, h4]
        · simp [e, h3, h4]
          omega

theorem ItemPointerCompare_total (a b : ItemPointerData) :
    ItemPointerCompare a b ≤ 0 ∨ ItemPointerCompare b a ≤ 0 := by
  rw [ItemPointerCompare_le_iff, ItemPointerCompare_le_iff]
  omega

theorem ItemPointerCompare_trans (a b c : ItemPointerData)
    (h1 : ItemPointerCompare a b ≤ 0) (h2 : ItemPointerCompare b c ≤ 0) :
    ItemPointerCompare a c ≤ 0 := by
  rw [ItemPointerCompare_le_iff] at h1 h2 ⊢
  omega

theorem sortedUnion_sorted (a b : List ItemPointerData) : TidSorted (sortedUnion a b) := by
  haveI : IsTotal ItemPointerData (fun x y => ItemPointerCompare x y ≤ 0) :=
    ⟨ItemPointerCompare_total⟩
  haveI : IsTrans ItemPointerData (fun x y => ItemPointerCompare x y ≤ 0) :=
    ⟨ItemPointerCompare_trans⟩
  exact List.sorted_insertionSort (fun x y => ItemPointerCompare x y ≤ 0) (a ++ b)

theorem mem_sortedUnion (a b : List ItemPointerData) (x : ItemPointerData) :
    x ∈ sortedUnion a b ↔ x ∈ a ∨ x ∈ b := by
  unfold sortedUnion
  rw [(List.perm_insertionSort (fun x y => ItemPointerCompare x y ≤ 0) (a ++ b)).mem_iff,
    List.mem_append]

/-- C3: if validate_index_heapscan has run once over an index buffer and a heap
scan in forward page order, a second run over the same heap scan, with the
buffer equal to the sorted union of the original identifiers and the ones the
first run inserted, returns and calls index_insert zero times: tups_inserted
stays 0. -/
theorem validate_index_heapscan_idempotent {σ : Type} (env : HeapScanEnv)
    (index_insert : σ → IndexInsertCall → Except ErrorData σ)
    (indexInfo : IndexInfo) (state : v_i_state) (index index2 : σ)
    (rows : List HeapTupleData) (st1 : ValidateScanState σ) (htups2 itups2 : Nat)
    (hfwd : ForwardPageOrder rows)
    (h1 : validate_index_heapscan env index_insert indexInfo state index rows = .ok st1) :
    ∃ st2, validate_index_heapscan env index_insert indexInfo
        ⟨sortedUnion state.tuplesort (insertedTids st1.inserts), htups2, itups2, 0⟩
        index2 rows = .ok st2 ∧
      st2.inserts = [] ∧ st2.state.tups_inserted = 0 := by
  have hnone : ∀ t ∈ rows, missingFrom env indexInfo
      (sortedUnion state.tuplesort (insertedTids st1.inserts)) t = false := by
    intro t ht
    unfold missingFrom
    cases hp : passesPredicate indexInfo t
    · simp
    · have hin : rootOf env t ∈ sortedUnion state.tuplesort (insertedTids st1.inserts) := by
        rw [mem_sortedUnion]
        exact validate_index_heapscan_sound env index_insert indexInfo state index rows st1
          hfwd h1 t ht hp
      simp [hin]
  have hs2 := sortedUnion_sorted state.tuplesort (insertedTids st1.inserts)
  obtain ⟨st2, h2⟩ := validate_index_heapscan_returns env index_insert indexInfo
    ⟨sortedUnion state.tuplesort (insertedTids st1.inserts), htups2, itups2, 0⟩ index2 rows
    hs2 hfwd (fun t ht hm => by rw [hnone t ht] at hm; cases hm)
  obtain ⟨r1, r2, -⟩ := validate_index_heapscan_ok env index_insert indexInfo
    ⟨sortedUnion state.tuplesort (insertedTids st1.inserts), htups2, itups2, 0⟩ index2 rows
    st2 hs2 hfwd h2
  have hf : rows.filter (missingFrom env indexInfo
      (sortedUnion state.tuplesort (insertedTids st1.inserts))) = [] := by
    rw [List.filter_eq_nil_iff]
    intro t ht
    simp [hnone t ht]
  rw [hf] at r1 r2
  exact ⟨st2, h2, r1, by simpa using r2⟩

theorem validate_index_heapscan_idempotent_witness :
    ForwardPageOrder exampleScan ∧
    validateOutcome (validate_index_heapscan (exampleEnv (fun _ => .HEAPTUPLE_LIVE) exampleRoots)
      exampleInsert (exampleIndexInfo []) ⟨[⟨0, 3⟩], 0, 1, 0⟩ [] exampleScan) =
      some ([⟨[7], [false], ⟨0, 5⟩, false⟩, ⟨[9], [false], ⟨1, 1⟩, false⟩], 2) ∧
    sortedUnion [⟨0, 3⟩] [⟨0, 5⟩, ⟨1, 1⟩] = [⟨0, 3⟩, ⟨0, 5⟩, ⟨1, 1⟩] ∧
    ∃ st2, validate_index_heapscan (exampleEnv (fun _ => .HEAPTUPLE_LIVE) exampleRoots)
        exampleInsert (exampleIndexInfo [])
        ⟨sortedUnion [⟨0, 3⟩] (insertedTids (returned (validate_index_heapscan
          (exampleEnv (fun _ => .HEAPTUPLE_LIVE) exampleRoots)
          exampleInsert (exampleIndexInfo []) ⟨[⟨0, 3⟩], 0, 1, 0⟩ [] exampleScan)
          (ValidateScanState.init (exampleIndexInfo []) ⟨[], 0, 0, 0⟩ [])).inserts), 0, 3, 0⟩
        [] exampleScan = .ok st2 ∧
      st2.inserts = [] ∧ st2.state.tups_inserted = 0 :=
  ⟨by unfold ForwardPageOrder; decide, rfl, by decide,
    validate_index_heapscan_idempotent
      (exampleEnv (fun _ => .HEAPTUPLE_LIVE) exampleRoots) exampleInsert (exampleIndexInfo [])
      ⟨[⟨0, 3⟩], 0, 1, 0⟩ [] [] exampleScan _ 0 3
      (by unfold ForwardPageOrder; decide) rfl⟩

/-! ### Witnesses on concrete inputs -/

theorem valid_implies_ready_invariant_witness :
    ValidImpliesReady emptyCatalog ∧
    FlagsReachable emptyCatalog exampleCatalog ∧
    (exampleCatalog 100).map (fun f => (f.indisready, f.indisvalid)) = some (true, true) ∧
    ValidImpliesReady exampleCatalog :=
  have hstart : ValidImpliesReady emptyCatalog := fun _ _ h => by cases h
  have hreach : FlagsReachable emptyCatalog exampleCatalog :=
    FlagsReachable.set_flags 100 .INDEX_CREATE_SET_VALID
      (FormData_pg_index.mk 100 50 1 false false false false false true [1] [1978] [0] true true)
      (FlagsReachable.set_flags 100 .INDEX_CREATE_SET_READY
        (FormData_pg_index.mk 100 50 1 false false false false false false [1] [1978] [0] true true)
        (FlagsReachable.created (exampleCreateEnv id) 50 3 100 (exampleIndexInfo []) 1663
          [1978] [0] false false none false true true none 100 (exampleIndexInfo [])
          FlagsReachable.start rfl)
        rfl rfl rfl)
      rfl rfl rfl
  ⟨hstart, hreach, rfl, valid_implies_ready_invariant emptyCatalog exampleCatalog hstart hreach⟩

theorem FormIndexDatum_projects_witness :
    FormIndexDatum exampleExpressionIndex exampleSlot =
      .ok (FormIndexDatum_setup exampleExpressionIndex, [11, 111, 22, 0],
        [false, false, false, true]) ∧
    ([11, 111, 22, 0] : List Datum).length = exampleExpressionIndex.ii_NumIndexAttrs ∧
    ([false, false, false, true] : List Bool).length = exampleExpressionIndex.ii_NumIndexAttrs ∧
    ∀ i, i < exampleExpressionIndex.ii_NumIndexAttrs →
      (exampleExpressionIndex.ii_KeyAttrNumbers i ≠ 0 →
        ([11, 111, 22, 0] : List Datum)[i]? =
          some (exampleSlot.attr (exampleExpressionIndex.ii_KeyAttrNumbers i)).1 ∧
        ([false, false, false, true] : List Bool)[i]? =
          some (exampleSlot.attr (exampleExpressionIndex.ii_KeyAttrNumbers i)).2) ∧
      (exampleExpressionIndex.ii_KeyAttrNumbers i = 0 →
        ∃ e, (indexExpressionStates exampleExpressionIndex)[
            exprPositionsBefore exampleExpressionIndex i]? = some e ∧
          ([11, 111, 22, 0] : List Datum)[i]? = some (e exampleSlot).1 ∧
          ([false, false, false, true] : List Bool)[i]? = some (e exampleSlot).2) :=
  ⟨rfl, FormIndexDatum_projects exampleExpressionIndex exampleSlot
    (FormIndexDatum_setup exampleExpressionIndex) [11, 111, 22, 0] [false, false, false, true]
    rfl⟩

theorem build_scan_applies_predicate_witness :
    (returned (IndexBuildHeapScan (exampleEnv (fun _ => .HEAPTUPLE_LIVE) (fun _ => 0))
        (exampleIndexInfo [valueAbove10]) .TransactionSnapshot 0 rows_5_15_25)
      (BuildScanState.init (exampleIndexInfo []))).callbacks =
      (rows_5_15_25.filter (fun t =>
        passedVisibility (exampleEnv (fun _ => .HEAPTUPLE_LIVE) (fun _ => 0))
          .TransactionSnapshot 0 (exampleIndexInfo [valueAbove10]) t &&
        passesPredicate (exampleIndexInfo [valueAbove10]) t)).map
        (heapBuildCall (exampleEnv (fun _ => .HEAPTUPLE_LIVE) (fun _ => 0))
          .TransactionSnapshot 0 (exampleIndexInfo [valueAbove10])) :=
  (build_scan_applies_predicate (exampleEnv (fun _ => .HEAPTUPLE_LIVE) (fun _ => 0))
    (exampleIndexInfo [valueAbove10]) .TransactionSnapshot 0 true rows_5_15_25).1 _ rfl

theorem no_indexable_rows_zero_witness :
    (∀ t ∈ [exampleRow 0 1 false true 7, exampleRow 0 2 false false 8],
      (exampleEnv (fun t => if t.hot_updated then .HEAPTUPLE_RECENTLY_DEAD else .HEAPTUPLE_DEAD)
        (fun _ => 0)).HeapTupleSatisfiesVacuum t 0 = .HEAPTUPLE_DEAD ∨
      ((exampleEnv (fun t => if t.hot_updated then .HEAPTUPLE_RECENTLY_DEAD else .HEAPTUPLE_DEAD)
        (fun _ => 0)).HeapTupleSatisfiesVacuum t 0 = .HEAPTUPLE_RECENTLY_DEAD ∧
        t.hot_updated = true) ∨
      ((exampleEnv (fun t => if t.hot_updated then .HEAPTUPLE_RECENTLY_DEAD else .HEAPTUPLE_DEAD)
        (fun _ => 0)).HeapTupleSatisfiesVacuum t 0 = .HEAPTUPLE_DELETE_IN_PROGRESS ∧
        (exampleEnv (fun t => if t.hot_updated then .HEAPTUPLE_RECENTLY_DEAD else .HEAPTUPLE_DEAD)
          (fun _ => 0)).TransactionIdIsCurrentTransactionId t.xmax = true ∧
        t.hot_updated = true)) ∧
    ∃ st, IndexBuildHeapScan
        (exampleEnv (fun t => if t.hot_updated then .HEAPTUPLE_RECENTLY_DEAD else .HEAPTUPLE_DEAD)
          (fun _ => 0))
        (exampleIndexInfo []) .SnapshotAny (0 + 1)
        [exampleRow 0 1 false true 7, exampleRow 0 2 false false 8] = .ok st ∧
      st.callbacks = [] ∧ st.reltuples = 0 :=
  have hskip : ∀ t ∈ [exampleRow 0 1 false true 7, exampleRow 0 2 false false 8],
      (exampleEnv (fun t => if t.hot_updated then .HEAPTUPLE_RECENTLY_DEAD else .HEAPTUPLE_DEAD)
        (fun _ => 0)).HeapTupleSatisfiesVacuum t 0 = .HEAPTUPLE_DEAD ∨
      ((exampleEnv (fun t => if t.hot_updated then .HEAPTUPLE_RECENTLY_DEAD else .HEAPTUPLE_DEAD)
        (fun _ => 0)).HeapTupleSatisfiesVacuum t 0 = .HEAPTUPLE_RECENTLY_DEAD ∧
        t.hot_updated = true) ∨
      ((exampleEnv (fun t => if t.hot_updated then .HEAPTUPLE_RECENTLY_DEAD else .HEAPTUPLE_DEAD)
        (fun _ => 0)).HeapTupleSatisfiesVacuum t 0 = .HEAPTUPLE_DELETE_IN_PROGRESS ∧
        (exampleEnv (fun t => if t.hot_updated then .HEAPTUPLE_RECENTLY_DEAD else .HEAPTUPLE_DEAD)
          (fun _ => 0)).TransactionIdIsCurrentTransactionId t.xmax = true ∧
        t.hot_updated = true) := by
    intro t ht
    simp only [List.mem_cons, List.mem_singleton, List.not_mem_nil, or_false] at ht
    rcases ht with rfl | rfl
    · exact Or.inr (Or.inl ⟨rfl, rfl⟩)
    · exact Or.inl rfl
  ⟨hskip, (no_indexable_rows_zero _ (exampleIndexInfo []) 0 _ hskip).1⟩

theorem chain_indexed_once_witness :
    (∀ t ∈ [exampleRow 0 1 false true 20] ++ exampleRow 0 2 true false 15 :: [],
      rootOf (exampleEnv
        (fun t => if t.hot_updated then .HEAPTUPLE_RECENTLY_DEAD else .HEAPTUPLE_LIVE)
        (fun _ => 1)) t = ⟨0, 1⟩) ∧
    passesPredicate (exampleIndexInfo [valueAbove10]) (exampleRow 0 2 true false 15) = true ∧
    ∃ st, IndexBuildHeapScan
        (exampleEnv (fun t => if t.hot_updated then .HEAPTUPLE_RECENTLY_DEAD else .HEAPTUPLE_LIVE)
          (fun _ => 1))
        (exampleIndexInfo [valueAbove10]) .SnapshotAny (0 + 1)
        ([exampleRow 0 1 false true 20] ++ exampleRow 0 2 true false 15 :: []) = .ok st ∧
      st.callbacks = [⟨⟨0, 1⟩, [15], [false], true⟩] ∧ st.reltuples = 1 :=
  have hchain : ∀ t ∈ [exampleRow 0 1 false true 20] ++ exampleRow 0 2 true false 15 :: [],
      rootOf (exampleEnv
        (fun t => if t.hot_updated then .HEAPTUPLE_RECENTLY_DEAD else .HEAPTUPLE_LIVE)
        (fun _ => 1)) t = ⟨0, 1⟩ := by
    intro t ht
    simp only [List.singleton_append, List.mem_cons, List.mem_singleton, List.not_mem_nil,
      or_false] at ht
    rcases ht with rfl | rfl <;> rfl
  ⟨hchain, rfl,
    (chain_indexed_once _ (exampleIndexInfo [valueAbove10]) 0
      [exampleRow 0 1 false true 20] [] (exampleRow 0 2 true false 15) ⟨0, 1⟩
      hchain rfl
      (by
        intro t ht
        simp only [List.append_nil, List.mem_singleton] at ht
        subst ht
        exact Or.inr ⟨rfl, rfl⟩)).1
      (FormIndexDatum_setup (exampleIndexInfo [valueAbove10])) [15] [false] rfl rfl⟩

/-! ### Registration, flag transitions and repair -/

/-- C11: index_create writes the pg_index row of a new index through
UpdateIndexRelation with isvalid = !concurrent, once its parameter checks have
passed and the index relation has been created: the row of the index then has
indisready and indisvalid both equal to !concurrent (both false for a
concurrent creation, both true otherwise) and indcheckxmin and indisclustered
false, and no other row is touched. The registration is reached exactly when
the checks pass and nothing called before it raises; a descriptor without
columns and a concurrent creation on a system catalog are refused before any
row is written. When index_create returns, the row of the index is the
registered one, except that index_build has set indcheckxmin when the build
found broken HOT chains under a descriptor that is not concurrent; and
index_create does return when nothing it calls raises. -/
theorem index_create_initial_flags (env : IndexCreateEnv) (pg_index : PgIndex)
    (heapRelationId : Oid) (indexRelationName : Nat) (indexRelationId : Oid)
    (indexInfo : IndexInfo) (tableSpaceId : Oid) (classObjectId : List Oid)
    (coloptions : List Int) (isprimary isconstraint : Bool) (constrOid : Option Oid)
    (allow_system_table_mods skip_build concurrent : Bool) (altConName : Option Nat) :
    (∀ indexoid pg_index1,
      index_create_register env pg_index heapRelationId indexRelationName indexRelationId
        indexInfo tableSpaceId classObjectId coloptions isprimary allow_system_table_mods
        concurrent = .ok (indexoid, pg_index1) ↔
      (index_create_check_parameters env heapRelationId indexRelationName indexInfo
          tableSpaceId allow_system_table_mods concurrent = .ok () ∧
        env.ConstructTupleDescriptor indexInfo classObjectId = .ok () ∧
        env.heap_create indexoid = .ok () ∧
        indexoid = index_create_oid env heapRelationId indexRelationId tableSpaceId ∧
        pg_index1 = UpdateIndexRelation pg_index indexoid heapRelationId indexInfo
          classObjectId coloptions isprimary (!concurrent))) ∧
    (∀ indexoid pg_index1,
      index_create_register env pg_index heapRelationId indexRelationName indexRelationId
        indexInfo tableSpaceId classObjectId coloptions isprimary allow_system_table_mods
        concurrent = .ok (indexoid, pg_index1) →
      (OidIsValid indexRelationId = true → indexoid = indexRelationId) ∧
      (OidIsValid indexRelationId = false →
        indexoid = env.GetNewRelFileNode tableSpaceId (env.relisshared heapRelationId)) ∧
      (∀ other, other ≠ indexoid → pg_index1 other = pg_index other) ∧
      ∃ row, pg_index1 indexoid = some row ∧
        row.indexrelid = indexoid ∧ row.indrelid = heapRelationId ∧
        row.indisready = !concurrent ∧ row.indisvalid = !concurrent ∧
        row.indcheckxmin = false ∧ row.indisclustered = false ∧
        (concurrent = true →
          (row.indisready, row.indisvalid, row.indcheckxmin, row.indisclustered) =
            (false, false, false, false)) ∧
        (concurrent = false →
          (row.indisready, row.indisvalid, row.indcheckxmin, row.indisclustered) =
            (true, true, false, false))) ∧
    (∀ indexoid pg_index2 indexInfo2,
      index_create env pg_index heapRelationId indexRelationName indexRelationId indexInfo
        tableSpaceId classObjectId coloptions isprimary isconstraint constrOid
        allow_system_table_mods skip_build concurrent altConName =
          .ok (indexoid, pg_index2, indexInfo2) →
      ∃ pg_index1 row1 row2,
        index_create_register env pg_index heapRelationId indexRelationName indexRelationId
          indexInfo tableSpaceId classObjectId coloptions isprimary allow_system_table_mods
          concurrent = .ok (indexoid, pg_index1) ∧
        pg_index1 indexoid = some row1 ∧ pg_index2 indexoid = some row2 ∧
        row2 = { row1 with indcheckxmin := row2.indcheckxmin } ∧
        row2.indisready = !concurrent ∧ row2.indisvalid = !concurrent ∧
        row2.indisclustered = false ∧
        (row2.indcheckxmin = true ↔
          (env.IsBootstrapProcessingMode = false ∧ skip_build = false ∧
            indexInfo2.ii_BrokenHotChain = true ∧ indexInfo2.ii_Concurrent = false)) ∧
        (∀ other, other ≠ indexoid → pg_index2 other = pg_index other)) ∧
    (index_create_check_parameters env heapRelationId indexRelationName indexInfo
        tableSpaceId allow_system_table_mods concurrent = .ok () →
      env.ConstructTupleDescriptor indexInfo classObjectId = .ok () →
      env.heap_create (index_create_oid env heapRelationId indexRelationId tableSpaceId) =
        .ok () →
      index_create_dependencies env heapRelationId indexRelationName indexInfo isprimary
        isconstraint constrOid altConName = .ok () →
      env.index_update_stats = .ok () →
      ∀ indexInfo2, env.ambuild indexInfo = .ok indexInfo2 →
        ∃ pg_index2 indexInfo3,
          index_create env pg_index heapRelationId indexRelationName indexRelationId indexInfo
            tableSpaceId classObjectId coloptions isprimary isconstraint constrOid
            allow_system_table_mods skip_build concurrent altConName =
              .ok (index_create_oid env heapRelationId indexRelationId tableSpaceId,
                pg_index2, indexInfo3)) ∧
    (indexInfo.ii_NumIndexAttrs < 1 →
      index_create env pg_index heapRelationId indexRelationName indexRelationId indexInfo
        tableSpaceId classObjectId coloptions isprimary isconstraint constrOid
        allow_system_table_mods skip_build concurrent altConName =
          .error .must_index_at_least_one_column) ∧
    (1 ≤ indexInfo.ii_NumIndexAttrs → concurrent = true →
      env.IsSystemRelation heapRelationId = true →
      index_create env pg_index heapRelationId indexRelationName indexRelationId indexInfo
          tableSpaceId classObjectId coloptions isprimary isconstraint constrOid
          allow_system_table_mods skip_build concurrent altConName =
        .error (if !allow_system_table_mods && env.IsNormalProcessingMode then
          .user_defined_indexes_on_system_catalog_tables_are_not_supported
        else .concurrent_index_creation_on_system_catalog_tables_is_not_supported)) ∧
    createOutcome (index_create (exampleCreateEnv id) emptyCatalog 50 3 InvalidOid
        (exampleIndexInfo []) 1663 [1978] [0] false false none false true true none) =
      .ok (100, some (false, false, false, false)) ∧
    createOutcome (index_create (exampleCreateEnv id) emptyCatalog 50 3 InvalidOid
        (exampleIndexInfo []) 1663 [1978] [0] false false none false false false none) =
      .ok (100, some (true, true, false, false)) ∧
    createOutcome (index_create
        (exampleCreateEnv (fun indexInfo => { indexInfo with ii_BrokenHotChain := true }))
        emptyCatalog 50 3 InvalidOid (exampleIndexInfo []) 1663 [1978] [0] false false none
        false false false none) =
      .ok (100, some (true, true, true, false)) ∧
    createOutcome (index_create (exampleCreateEnv id) emptyCatalog 5 3 InvalidOid
        (exampleIndexInfo []) 1663 [1978] [0] false false none true true true none) =
      .error .concurrent_index_creation_on_system_catalog_tables_is_not_supported := by
  have hreg : ∀ indexoid pg_index1,
      index_create_register env pg_index heapRelationId indexRelationName indexRelationId
        indexInfo tableSpaceId classObjectId coloptions isprimary allow_system_table_mods
        concurrent = .ok (indexoid, pg_index1) ↔
      (index_create_check_parameters env heapRelationId indexRelationName indexInfo
          tableSpaceId allow_system_table_mods concurrent = .ok () ∧
        env.ConstructTupleDescriptor indexInfo classObjectId = .ok () ∧
        env.heap_create indexoid = .ok () ∧
        indexoid = index_create_oid env heapRelationId indexRelationId tableSpaceId ∧
        pg_index1 = UpdateIndexRelation pg_index indexoid heapRelationId indexInfo
          classObjectId coloptions isprimary (!concurrent)) := by
    intro indexoid pg_index1
    constructor
    · exact index_create_register_ok env pg_index heapRelationId indexRelationName
        indexRelationId indexInfo tableSpaceId classObjectId coloptions isprimary
        allow_system_table_mods concurrent indexoid pg_index1
    · rintro ⟨h1, h2, h3, h4, h5⟩
      subst h4 h5
      unfold index_create_register
      rw [h1]
      simp only
      rw [h2]
      simp only
      rw [h3]
  have hrow : ∀ indexoid pg_index1,
      index_create_register env pg_index heapRelationId indexRelationName indexRelationId
        indexInfo tableSpaceId classObjectId coloptions isprimary allow_system_table_mods
        concurrent = .ok (indexoid, pg_index1) →
      (∀ other, other ≠ indexoid → pg_index1 other = pg_index other) ∧
      ∃ row, pg_index1 indexoid = some row ∧
        row.indexrelid = indexoid ∧ row.indrelid = heapRelationId ∧
        row.indisready = !concurrent ∧ row.indisvalid = !concurrent ∧
        row.indcheckxmin = false ∧ row.indisclustered = false := by
    intro indexoid pg_index1 h
    rw [((hreg indexoid pg_index1).1 h).2.2.2.2]
    unfold UpdateIndexRelation
    refine ⟨fun other ho => Function.update_noteq ho _ _, ?_⟩
    simp only [Function.update_same]
    exact ⟨_, rfl, rfl, rfl, rfl, rfl, rfl, rfl⟩
  refine ⟨hreg, ?_, ?_, ?_, ?_, ?_, rfl, rfl, rfl, rfl⟩
  · intro indexoid pg_index1 h
    obtain ⟨hother, row, hr, r1, r2, r3, r4, r5, r6⟩ := hrow indexoid pg_index1 h
    have hoid := ((hreg indexoid pg_index1).1 h).2.2.2.1
    refine ⟨?_, ?_, hother, row, hr, r1, r2, r3, r4, r5, r6, ?_, ?_⟩
    · intro hv
      rw [hoid]
      unfold index_create_oid
      simp [hv]
    · intro hv
      rw [hoid]
      unfold index_create_oid
      simp [hv]
    · intro hc
      rw [r3, r4, r5, r6, hc]
      rfl
    · intro hc
      rw [r3, r4, r5, r6, hc]
      rfl
  · intro indexoid pg_index2 indexInfo2 h
    obtain ⟨pg_index1, hr, -, hrest⟩ := index_create_ok env pg_index heapRelationId
      indexRelationName indexRelationId indexInfo tableSpaceId classObjectId coloptions
      isprimary isconstraint constrOid allow_system_table_mods skip_build concurrent
      altConName indexoid pg_index2 indexInfo2 h
    obtain ⟨hother, row, hrow1, -, -, r3, r4, r5, r6⟩ := hrow indexoid pg_index1 hr
    have hsame : pg_index2 = pg_index1 →
        (env.IsBootstrapProcessingMode = false ∧ skip_build = false ∧
          indexInfo2.ii_BrokenHotChain = true ∧ indexInfo2.ii_Concurrent = false → False) →
        ∃ pg_index1 row1 row2,
          index_create_register env pg_index heapRelationId indexRelationName indexRelationId
            indexInfo tableSpaceId classObjectId coloptions isprimary allow_system_table_mods
            concurrent = .ok (indexoid, pg_index1) ∧
          pg_index1 indexoid = some row1 ∧ pg_index2 indexoid = some row2 ∧
          row2 = { row1 with indcheckxmin := row2.indcheckxmin } ∧
          row2.indisready = !concurrent ∧ row2.indisvalid = !concurrent ∧
          row2.indisclustered = false ∧
          (row2.indcheckxmin = true ↔
            (env.IsBootstrapProcessingMode = false ∧ skip_build = false ∧
              indexInfo2.ii_BrokenHotChain = true ∧ indexInfo2.ii_Concurrent = false)) ∧
          (∀ other, other ≠ indexoid → pg_index2 other = pg_index other) := by
      intro h2 hno
      subst h2
      refine ⟨pg_index2, row, row, hr, hrow1, hrow1, rfl, r3, r4, r6, ?_, hother⟩
      constructor
      · intro hx
        rw [r5] at hx
        cases hx
      · intro hx
        exact (hno hx).elim
    rcases hrest with ⟨hb, h2, -⟩ | ⟨-, hk, -, h2, -⟩ | ⟨hb, hk, hbuild⟩
    · exact hsame h2 (fun hx => by rw [hb] at hx; cases hx.1)
    · exact hsame h2 (fun hx => by rw [hk] at hx; cases hx.2.1)
    · obtain ⟨-, -, hset, hkeep⟩ := index_build_ok env pg_index1 indexoid indexInfo false
        pg_index2 indexInfo2 hbuild
      cases hcond : (indexInfo2.ii_BrokenHotChain && !false && !indexInfo2.ii_Concurrent)
      · refine hsame (hkeep hcond) (fun hx => ?_)
        rw [hx.2.2.1, hx.2.2.2] at hcond
        cases hcond
      · obtain ⟨indexForm, hf, heq⟩ := hset hcond
        rw [hrow1] at hf
        cases hf
        subst heq
        simp only [Bool.not_false, Bool.and_true, Bool.and_eq_true, Bool.not_eq_true'] at hcond
        refine ⟨pg_index1, row, { row with indcheckxmin := true }, hr, hrow1,
          Function.update_same _ _ _, rfl, r3, r4, r6, ?_, ?_⟩
        · exact ⟨fun _ => ⟨hb, hk, hcond.1, hcond.2⟩, fun _ => rfl⟩
        · intro other ho
          rw [Function.update_noteq ho]
          exact hother other ho
  · intro h1 h2 h3 h4 h5 indexInfo2 h6
    have hr := (hreg (index_create_oid env heapRelationId indexRelationId tableSpaceId)
      (UpdateIndexRelation pg_index
        (index_create_oid env heapRelationId indexRelationId tableSpaceId) heapRelationId
        indexInfo classObjectId coloptions isprimary (!concurrent))).2 ⟨h1, h2, h3, rfl, rfl⟩
    unfold index_create
    rw [hr]
    simp only
    rw [h4]
    simp only
    cases hb : env.IsBootstrapProcessingMode
    · simp only [Bool.false_eq_true, if_false]
      cases hk : skip_build
      · simp only [Bool.false_eq_true, if_false]
        unfold index_build
        rw [h6]
        simp only
        rw [h5]
        cases hcond : (indexInfo2.ii_BrokenHotChain && !false && !indexInfo2.ii_Concurrent)
        · simp only [Bool.false_eq_true, if_false]
          exact ⟨_, _, rfl⟩
        · simp only [if_true]
          unfold UpdateIndexRelation
          simp only [Function.update_same]
          exact ⟨_, _, rfl⟩
      · simp only [if_true]
        rw [h5]
        exact ⟨_, _, rfl⟩
    · simp only [if_true]
      exact ⟨_, _, rfl⟩
  · intro hn
    unfold index_create index_create_register index_create_check_parameters
    simp [hn]
  · intro hn hc hsys
    have hn1 : ¬ indexInfo.ii_NumIndexAttrs < 1 := by omega
    unfold index_create index_create_register index_create_check_parameters
    subst hc
    cases ha : allow_system_table_mods <;> cases hm : env.IsNormalProcessingMode <;>
      simp [hn1, hsys, ha, hm]

/-- C12: on the row of the index, index_set_state_flags sets exactly the
requested flag (indisready for INDEX_CREATE_SET_READY, indisvalid for
INDEX_CREATE_SET_VALID) and leaves every other field and every other row as
they were. Its Assert lines permit SET_READY exactly on an index that is
neither ready nor valid, and the result is ready and not valid; they permit
SET_VALID exactly on an index that is ready and not valid, and the result is
ready and valid; they permit no action on an index that is valid. -/
theorem index_set_state_flags_transitions (pg_index : PgIndex) (indexId : Oid)
    (indexForm : FormData_pg_index) (action : IndexStateFlagsAction)
    (hrow : pg_index indexId = some indexForm) :
    index_set_state_flags pg_index indexId .INDEX_CREATE_SET_READY =
      .ok (Function.update pg_index indexId (some { indexForm with indisready := true })) ∧
    index_set_state_flags pg_index indexId .INDEX_CREATE_SET_VALID =
      .ok (Function.update pg_index indexId (some { indexForm with indisvalid := true })) ∧
    (index_set_state_flags_asserts indexForm .INDEX_CREATE_SET_READY = true ↔
      indexForm.indisready = false ∧ indexForm.indisvalid = false) ∧
    (index_set_state_flags_asserts indexForm .INDEX_CREATE_SET_VALID = true ↔
      indexForm.indisready = true ∧ indexForm.indisvalid = false) ∧
    (index_set_state_flags_asserts indexForm .INDEX_CREATE_SET_READY = true →
      ({ indexForm with indisready := true } : FormData_pg_index).indisready = true ∧
      ({ indexForm with indisready := true } : FormData_pg_index).indisvalid = false) ∧
    (index_set_state_flags_asserts indexForm .INDEX_CREATE_SET_VALID = true →
      ({ indexForm with indisvalid := true } : FormData_pg_index).indisready = true ∧
      ({ indexForm with indisvalid := true } : FormData_pg_index).indisvalid = true) ∧
    (indexForm.indisvalid = true → index_set_state_flags_asserts indexForm action = false) := by
  refine ⟨?_, ?_, ?_, ?_, ?_, ?_, ?_⟩
  · simp [index_set_state_flags, hrow]
  · simp [index_set_state_flags, hrow]
  · simp [index_set_state_flags_asserts]
  · simp [index_set_state_flags_asserts]
  · simp [index_set_state_flags_asserts]
  · intro h
    simp only [index_set_state_flags_asserts, Bool.and_eq_true, Bool.not_eq_true'] at h
    exact ⟨h.1, rfl⟩
  · intro hv
    cases action <;> simp [index_set_state_flags_asserts, hv]

/-- C13: whenever reindex_index completes without error the row of the index
is marked both valid and ready afterwards, whatever its two flags were before,
with every other field kept; the row is rewritten exactly when one of the two
flags was not set, and when both were set the catalog is left as it was. It
completes whenever the rebuild does and the row is found. -/
theorem reindex_index_repairs (pg_index : PgIndex) (indexId : Oid)
    (rebuild : Except ErrorData Unit) :
    (∀ (pg_index1 : PgIndex) (updated : Bool),
      reindex_index pg_index indexId rebuild = .ok (pg_index1, updated) →
      ∃ indexForm, pg_index indexId = some indexForm ∧
        pg_index1 indexId =
          some { indexForm with indisvalid := true, indisready := true } ∧
        (∀ other, other ≠ indexId → pg_index1 other = pg_index other) ∧
        (updated = false ↔ (indexForm.indisvalid = true ∧ indexForm.indisready = true)) ∧
        (indexForm.indisvalid = true ∧ indexForm.indisready = true →
          pg_index1 = pg_index)) ∧
    (∀ indexForm, pg_index indexId = some indexForm → rebuild = .ok () →
      ∃ r, reindex_index pg_index indexId rebuild = .ok r) := by
  constructor
  · intro pg_index1 updated h
    unfold reindex_index at h
    cases rebuild with
    | error e => simp at h
    | ok u =>
      simp only at h
      cases hrow : pg_index indexId with
      | none => simp [hrow] at h
      | some indexForm =>
        simp only [hrow] at h
        refine ⟨indexForm, rfl, ?_⟩
        by_cases hf : (!indexForm.indisvalid || !indexForm.indisready) = true
        · rw [if_pos hf] at h
          simp only [Except.ok.injEq, Prod.mk.injEq] at h
          obtain ⟨h1, h2⟩ := h
          subst h1 h2
          refine ⟨by simp, fun other ho => Function.update_noteq ho _ _, ?_, ?_⟩
          · simp only [Bool.or_eq_true, Bool.not_eq_true'] at hf
            constructor
            · intro hc
              cases hc
            · rintro ⟨hv, hr⟩
              rcases hf with hf | hf
              · rw [hv] at hf
                cases hf
              · rw [hr] at hf
                cases hf
          · rintro ⟨hv, hr⟩
            simp [hv, hr] at hf
        · rw [if_neg hf] at h
          simp only [Except.ok.injEq, Prod.mk.injEq] at h
          obtain ⟨h1, h2⟩ := h
          subst h1 h2
          have hv : indexForm.indisvalid = true := by
            cases hx : indexForm.indisvalid
            · simp [hx] at hf
            · rfl
          have hr : indexForm.indisready = true := by
            cases hx : indexForm.indisready
            · simp [hx] at hf
            · rfl
          refine ⟨?_, fun _ _ => rfl, ?_, fun _ => rfl⟩
          · rw [hrow]
            congr 1
            cases indexForm
            simp only at hv hr
            subst hv hr
            rfl
          · exact ⟨fun _ => ⟨hv, hr⟩, fun _ => rfl⟩
  · intro indexForm hrow hreb
    subst hreb
    unfold reindex_index
    simp only [hrow]
    split <;> exact ⟨_, rfl⟩

/-! ### The visibility policy of the build scan, row by row -/

theorem IndexBuildHeapScan_newpage_spec (env : HeapScanEnv) (st : BuildScanState)
    (heapTuple : HeapTupleData)
    (hroot : ∀ b, st.root_blkno = some b → st.root_offsets = env.heap_get_root_tuples b) :
    (IndexBuildHeapScan_newpage env st heapTuple).root_offsets =
      env.heap_get_root_tuples heapTuple.t_self.ip_blkid ∧
    (IndexBuildHeapScan_newpage env st heapTuple).root_blkno =
      some heapTuple.t_self.ip_blkid ∧
    (IndexBuildHeapScan_newpage env st heapTuple).indexInfo = st.indexInfo ∧
    (IndexBuildHeapScan_newpage env st heapTuple).reltuples = st.reltuples ∧
    (IndexBuildHeapScan_newpage env st heapTuple).callbacks = st.callbacks ∧
    (IndexBuildHeapScan_newpage env st heapTuple).waits = st.waits := by
  unfold IndexBuildHeapScan_newpage
  by_cases hb : st.root_blkno = some heapTuple.t_self.ip_blkid
  · rw [if_neg (not_not.mpr hb)]
    exact ⟨hroot _ hb, hb, rfl, rfl, rfl, rfl⟩
  · rw [if_pos hb]
    exact ⟨rfl, rfl, rfl, rfl, rfl, rfl⟩

theorem IndexBuildHeapScan_row_of_recheck (env : HeapScanEnv) (fuel : Nat)
    (predicate : List QualClause) (st : BuildScanState) (heapTuple : HeapTupleData) :
    IndexBuildHeapScan_row env .SnapshotAny fuel predicate st heapTuple =
      match IndexBuildHeapScan_recheck env heapTuple fuel 0
          (IndexBuildHeapScan_newpage env st heapTuple).indexInfo
          (IndexBuildHeapScan_newpage env st heapTuple).waits with
      | .error e => .error e
      | .ok q =>
        if !q.indexIt then
          .ok { IndexBuildHeapScan_newpage env st heapTuple with
            indexInfo := q.indexInfo, waits := q.waits }
        else
          IndexBuildHeapScan_index predicate
            { IndexBuildHeapScan_newpage env st heapTuple with
              indexInfo := q.indexInfo, waits := q.waits } heapTuple q.tupleIsAlive := by
  unfold IndexBuildHeapScan_row IndexBuildHeapScan_newpage
  simp only [if_true]

theorem IndexBuildHeapScan_row_indexed (env : HeapScanEnv) (indexInfo : IndexInfo)
    (fuel : Nat) (st : BuildScanState) (heapTuple : HeapTupleData) (alive : Bool)
    (hinv : BuildInv env indexInfo st)
    (hq : ∀ a w, IndexBuildHeapScan_recheck env heapTuple fuel 0 a w =
      .ok ⟨true, alive, a, w⟩) :
    (∀ st1, IndexBuildHeapScan_row env .SnapshotAny fuel indexInfo.ii_Predicate st heapTuple =
        .ok st1 → RowIndexed env indexInfo st heapTuple alive st1) ∧
    ((passesPredicate indexInfo heapTuple = true →
        ∃ r, FormIndexDatum indexInfo heapTuple = .ok r) →
      ∃ st1, IndexBuildHeapScan_row env .SnapshotAny fuel indexInfo.ii_Predicate st
        heapTuple = .ok st1) := by
  obtain ⟨hroot, hd⟩ := hinv
  obtain ⟨n1, n2, n3, n4, n5, n6⟩ := IndexBuildHeapScan_newpage_spec env st heapTuple hroot
  rw [IndexBuildHeapScan_row_of_recheck, hq]
  simp only [Bool.not_true, Bool.false_eq_true, if_false]
  have hd1 : SameDescriptor
      ({ IndexBuildHeapScan_newpage env st heapTuple with
        indexInfo := (IndexBuildHeapScan_newpage env st heapTuple).indexInfo,
        waits := (IndexBuildHeapScan_newpage env st heapTuple).waits } :
        BuildScanState).indexInfo indexInfo := by
    show SameDescriptor (IndexBuildHeapScan_newpage env st heapTuple).indexInfo indexInfo
    rw [n3]
    exact hd
  constructor
  · intro st1 h
    obtain ⟨r1, r2, _, _, _, _, r7⟩ :=
      IndexBuildHeapScan_index_ok env indexInfo _ st1 heapTuple alive hd1 n1 h
    refine ⟨?_, ?_, ?_⟩
    · rw [r1]
      show (IndexBuildHeapScan_newpage env st heapTuple).reltuples + 1 = _
      rw [n4]
    · rw [r2]
      show (IndexBuildHeapScan_newpage env st heapTuple).callbacks ++ _ = _
      rw [n5]
    · rw [r7]
      show (IndexBuildHeapScan_newpage env st heapTuple).indexInfo.ii_BrokenHotChain = _
      rw [n3]
  · intro hproj
    exact IndexBuildHeapScan_index_returns indexInfo _ heapTuple alive hd1 hproj

theorem IndexBuildHeapScan_row_skipped (env : HeapScanEnv) (fuel : Nat)
    (predicate : List QualClause) (st : BuildScanState) (heapTuple : HeapTupleData)
    (mark : IndexInfo → IndexInfo)
    (hq : ∀ a w, IndexBuildHeapScan_recheck env heapTuple fuel 0 a w =
      .ok ⟨false, false, mark a, w⟩) :
    ∃ st1, IndexBuildHeapScan_row env .SnapshotAny fuel predicate st heapTuple = .ok st1 ∧
      RowSkipped st (mark st.indexInfo) st1 := by
  rw [IndexBuildHeapScan_row_of_recheck, hq]
  simp only [Bool.not_false, if_true]
  refine ⟨_, rfl, ?_, ?_, ?_, ?_⟩
  · show (IndexBuildHeapScan_newpage env st heapTuple).reltuples = _
    unfold IndexBuildHeapScan_newpage
    split <;> rfl
  · show (IndexBuildHeapScan_newpage env st heapTuple).callbacks = _
    unfold IndexBuildHeapScan_newpage
    split <;> rfl
  · show (IndexBuildHeapScan_newpage env st heapTuple).waits = _
    unfold IndexBuildHeapScan_newpage
    split <;> rfl
  · show mark (IndexBuildHeapScan_newpage env st heapTuple).indexInfo = _
    unfold IndexBuildHeapScan_newpage
    split <;> rfl

theorem IndexBuildHeapScan_row_raises (env : HeapScanEnv) (fuel : Nat)
    (predicate : List QualClause) (st : BuildScanState) (heapTuple : HeapTupleData)
    (e : ErrorData)
    (hq : ∀ a w, IndexBuildHeapScan_recheck env heapTuple fuel 0 a w = .error e) :
    IndexBuildHeapScan_row env .SnapshotAny fuel predicate st heapTuple = .error e := by
  rw [IndexBuildHeapScan_row_of_recheck, hq]

theorem IndexBuildHeapScan_loop_append (env : HeapScanEnv) (snapshot : Snapshot) (fuel : Nat)
    (predicate : List QualClause) (before after : List HeapTupleData) :
    ∀ st, IndexBuildHeapScan_loop env snapshot fuel predicate (before ++ after) st =
      match IndexBuildHeapScan_loop env snapshot fuel predicate before st with
      | .error e => .error e
      | .ok st1 => IndexBuildHeapScan_loop env snapshot fuel predicate after st1 := by
  induction before with
  | nil => intro st; rfl
  | cons t rest ih =>
    intro st
    simp only [List.cons_append, IndexBuildHeapScan_loop]
    cases IndexBuildHeapScan_row env snapshot fuel predicate st t with
    | error e => rfl
    | ok st1 => exact ih st1

theorem IndexBuildHeapScan_recheck_live (env : HeapScanEnv) (t : HeapTupleData) (fuel : Nat)
    (h : env.HeapTupleSatisfiesVacuum t 0 = .HEAPTUPLE_LIVE) (a : IndexInfo)
    (w : List TransactionId) :
    IndexBuildHeapScan_recheck env t (fuel + 1) 0 a w = .ok ⟨true, true, a, w⟩ := by
  simp [IndexBuildHeapScan_recheck, h]

theorem IndexBuildHeapScan_recheck_dead (env : HeapScanEnv) (t : HeapTupleData) (fuel : Nat)
    (h : env.HeapTupleSatisfiesVacuum t 0 = .HEAPTUPLE_DEAD) (a : IndexInfo)
    (w : List TransactionId) :
    IndexBuildHeapScan_recheck env t (fuel + 1) 0 a w = .ok ⟨false, false, a, w⟩ := by
  simp [IndexBuildHeapScan_recheck, h]

theorem IndexBuildHeapScan_recheck_recently_dead (env : HeapScanEnv) (t : HeapTupleData)
    (fuel : Nat) (h : env.HeapTupleSatisfiesVacuum t 0 = .HEAPTUPLE_RECENTLY_DEAD)
    (a : IndexInfo) (w : List TransactionId) :
    IndexBuildHeapScan_recheck env t (fuel + 1) 0 a w =
      if t.hot_updated then .ok ⟨false, false, { a with ii_BrokenHotChain := true }, w⟩
      else .ok ⟨true, false, a, w⟩ := by
  simp [IndexBuildHeapScan_recheck, h]

theorem IndexBuildHeapScan_recheck_own_insert (env : HeapScanEnv) (t : HeapTupleData)
    (fuel : Nat) (h : env.HeapTupleSatisfiesVacuum t 0 = .HEAPTUPLE_INSERT_IN_PROGRESS)
    (hown : env.TransactionIdIsCurrentTransactionId t.xmin = true)
    (a : IndexInfo) (w : List TransactionId) :
    IndexBuildHeapScan_recheck env t (fuel + 1) 0 a w = .ok ⟨true, true, a, w⟩ := by
  simp [IndexBuildHeapScan_recheck, h, hown]

theorem IndexBuildHeapScan_recheck_own_delete (env : HeapScanEnv) (t : HeapTupleData)
    (fuel : Nat) (h : env.HeapTupleSatisfiesVacuum t 0 = .HEAPTUPLE_DELETE_IN_PROGRESS)
    (hown : env.TransactionIdIsCurrentTransactionId t.xmax = true)
    (a : IndexInfo) (w : List TransactionId) :
    IndexBuildHeapScan_recheck env t (fuel + 1) 0 a w =
      if t.hot_updated then .ok ⟨false, false, { a with ii_BrokenHotChain := true }, w⟩
      else .ok ⟨true, false, a, w⟩ := by
  simp [IndexBuildHeapScan_recheck, h, hown]

theorem IndexBuildHeapScan_recheck_foreign_insert (env : HeapScanEnv) (t : HeapTupleData)
    (fuel : Nat) (hsys : env.IsSystemRelation = false)
    (h : env.HeapTupleSatisfiesVacuum t 0 = .HEAPTUPLE_INSERT_IN_PROGRESS)
    (hforeign : env.TransactionIdIsCurrentTransactionId t.xmin = false)
    (a : IndexInfo) (w : List TransactionId) :
    IndexBuildHeapScan_recheck env t (fuel + 1) 0 a w =
      .error .concurrent_insert_in_progress := by
  simp [IndexBuildHeapScan_recheck, h, hforeign, hsys]

theorem IndexBuildHeapScan_recheck_foreign_delete (env : HeapScanEnv) (t : HeapTupleData)
    (fuel : Nat) (hsys : env.IsSystemRelation = false)
    (h : env.HeapTupleSatisfiesVacuum t 0 = .HEAPTUPLE_DELETE_IN_PROGRESS)
    (hforeign : env.TransactionIdIsCurrentTransactionId t.xmax = false)
    (a : IndexInfo) (w : List TransactionId) :
    IndexBuildHeapScan_recheck env t (fuel + 1) 0 a w =
      .error .concurrent_delete_in_progress := by
  simp [IndexBuildHeapScan_recheck, h, hforeign, hsys]

theorem IndexBuildHeapScan_raises_at (env : HeapScanEnv) (indexInfo : IndexInfo) (fuel : Nat)
    (before after : List HeapTupleData) (t : HeapTupleData) (e : ErrorData)
    (hrow : ∀ predicate st,
      IndexBuildHeapScan_row env .SnapshotAny fuel predicate st t = .error e) :
    (∃ e1, IndexBuildHeapScan env indexInfo .SnapshotAny fuel (before ++ t :: after) =
      .error e1) ∧
    (∀ st1, IndexBuildHeapScan env indexInfo .SnapshotAny fuel before = .ok st1 →
      IndexBuildHeapScan env indexInfo .SnapshotAny fuel (before ++ t :: after) =
        .error e) := by
  unfold IndexBuildHeapScan
  rw [IndexBuildHeapScan_loop_append]
  cases hb : IndexBuildHeapScan_loop env .SnapshotAny fuel
      (ExecPrepareExpr indexInfo.ii_Predicate) before (BuildScanState.init indexInfo) with
  | error e1 =>
    exact ⟨⟨e1, rfl⟩, fun st1 h => by cases h⟩
  | ok st0 =>
    have hstep : IndexBuildHeapScan_loop env .SnapshotAny fuel
        (ExecPrepareExpr indexInfo.ii_Predicate) (t :: after) st0 = .error e := by
      simp only [IndexBuildHeapScan_loop, hrow]
    exact ⟨⟨e, hstep⟩, fun st1 _ => hstep⟩

/-- C14: in liveness-evaluation mode (SnapshotAny) on a table that is not a
system relation, a row version classified InsertInProgress whose inserter is
not the current transaction, or DeleteInProgress whose deleter is not the
current transaction, makes the iteration of IndexBuildHeapScan for it raise
(concurrent insert in progress, concurrent delete in progress) from every
state, before the row is counted or handed to the callback; so every scan
whose rows contain such a version ends in an error, and in that error when the
rows before it were scanned without one. -/
theorem foreign_writer_is_fatal (env : HeapScanEnv) (indexInfo : IndexInfo) (fuel : Nat)
    (before after : List HeapTupleData) (t : HeapTupleData)
    (hsys : env.IsSystemRelation = false)
    (hcls : (env.HeapTupleSatisfiesVacuum t 0 = .HEAPTUPLE_INSERT_IN_PROGRESS ∧
        env.TransactionIdIsCurrentTransactionId t.xmin = false) ∨
      (env.HeapTupleSatisfiesVacuum t 0 = .HEAPTUPLE_DELETE_IN_PROGRESS ∧
        env.TransactionIdIsCurrentTransactionId t.xmax = false)) :
    ∃ e, (∀ predicate st,
        IndexBuildHeapScan_row env .SnapshotAny (fuel + 1) predicate st t = .error e) ∧
      (env.HeapTupleSatisfiesVacuum t 0 = .HEAPTUPLE_INSERT_IN_PROGRESS →
        e = .concurrent_insert_in_progress) ∧
      (env.HeapTupleSatisfiesVacuum t 0 = .HEAPTUPLE_DELETE_IN_PROGRESS →
        e = .concurrent_delete_in_progress) ∧
      (∃ e1, IndexBuildHeapScan env indexInfo .SnapshotAny (fuel + 1)
        (before ++ t :: after) = .error e1) ∧
      (∀ st1, IndexBuildHeapScan env indexInfo .SnapshotAny (fuel + 1) before = .ok st1 →
        IndexBuildHeapScan env indexInfo .SnapshotAny (fuel + 1) (before ++ t :: after) =
          .error e) := by
  rcases hcls with ⟨hc, hx⟩ | ⟨hc, hx⟩
  · have hrow : ∀ predicate st, IndexBuildHeapScan_row env .SnapshotAny (fuel + 1) predicate
        st t = .error .concurrent_insert_in_progress := fun predicate st =>
      IndexBuildHeapScan_row_raises env (fuel + 1) predicate st t _
        (IndexBuildHeapScan_recheck_foreign_insert env t fuel hsys hc hx)
    obtain ⟨h1, h2⟩ := IndexBuildHeapScan_raises_at env indexInfo (fuel + 1) before after t _ hrow
    refine ⟨_, hrow, fun _ => rfl, fun hd => ?_, h1, h2⟩
    rw [hc] at hd
    cases hd
  · have hrow : ∀ predicate st, IndexBuildHeapScan_row env .SnapshotAny (fuel + 1) predicate
        st t = .error .concurrent_delete_in_progress := fun predicate st =>
      IndexBuildHeapScan_row_raises env (fuel + 1) predicate st t _
        (IndexBuildHeapScan_recheck_foreign_delete env t fuel hsys hc hx)
    obtain ⟨h1, h2⟩ := IndexBuildHeapScan_raises_at env indexInfo (fuel + 1) before after t _ hrow
    refine ⟨_, hrow, fun hd => ?_, fun _ => rfl, h1, h2⟩
    rw [hc] at hd
    cases hd

/-- C18: in liveness-evaluation mode a version classified Live is counted and,
if it passes the predicate, handed to the callback with tupleIsAlive true (and
the iteration returns whenever the projection of a passing row does); a version
classified Dead is skipped: the iteration returns with the row count, the
callback invocations and the descriptor, broken-chain flag included, as they
were. -/
theorem build_scan_live_dead_policy (env : HeapScanEnv) (indexInfo : IndexInfo) (fuel : Nat)
    (st : BuildScanState) (t : HeapTupleData) (hinv : BuildInv env indexInfo st) :
    (env.HeapTupleSatisfiesVacuum t 0 = .HEAPTUPLE_LIVE →
      (∀ st1, IndexBuildHeapScan_row env .SnapshotAny (fuel + 1) indexInfo.ii_Predicate st t =
          .ok st1 → RowIndexed env indexInfo st t true st1) ∧
      ((passesPredicate indexInfo t = true → ∃ r, FormIndexDatum indexInfo t = .ok r) →
        ∃ st1, IndexBuildHeapScan_row env .SnapshotAny (fuel + 1) indexInfo.ii_Predicate st
          t = .ok st1)) ∧
    (env.HeapTupleSatisfiesVacuum t 0 = .HEAPTUPLE_DEAD →
      ∃ st1, IndexBuildHeapScan_row env .SnapshotAny (fuel + 1) indexInfo.ii_Predicate st t =
          .ok st1 ∧ RowSkipped st st.indexInfo st1) := by
  constructor
  · intro h
    exact IndexBuildHeapScan_row_indexed env indexInfo (fuel + 1) st t true hinv
      (IndexBuildHeapScan_recheck_live env t fuel h)
  · intro h
    exact IndexBuildHeapScan_row_skipped env (fuel + 1) indexInfo.ii_Predicate st t id
      (IndexBuildHeapScan_recheck_dead env t fuel h)

/-- C19: in liveness-evaluation mode a version classified RecentlyDead that is
not HOT-updated is counted and, if it passes the predicate, handed to the
callback with tupleIsAlive false; one that is HOT-updated is skipped: the
iteration returns with the row count and the callback invocations as they
were, and the descriptor is the former one with ii_BrokenHotChain set to
true. -/
theorem build_scan_recently_dead_policy (env : HeapScanEnv) (indexInfo : IndexInfo)
    (fuel : Nat) (st : BuildScanState) (t : HeapTupleData)
    (hinv : BuildInv env indexInfo st)
    (hcls : env.HeapTupleSatisfiesVacuum t 0 = .HEAPTUPLE_RECENTLY_DEAD) :
    (t.hot_updated = false →
      (∀ st1, IndexBuildHeapScan_row env .SnapshotAny (fuel + 1) indexInfo.ii_Predicate st t =
          .ok st1 → RowIndexed env indexInfo st t false st1) ∧
      ((passesPredicate indexInfo t = true → ∃ r, FormIndexDatum indexInfo t = .ok r) →
        ∃ st1, IndexBuildHeapScan_row env .SnapshotAny (fuel + 1) indexInfo.ii_Predicate st
          t = .ok st1)) ∧
    (t.hot_updated = true →
      ∃ st1, IndexBuildHeapScan_row env .SnapshotAny (fuel + 1) indexInfo.ii_Predicate st t =
          .ok st1 ∧
        RowSkipped st { st.indexInfo with ii_BrokenHotChain := true } st1 ∧
        st1.indexInfo.ii_BrokenHotChain = true) := by
  constructor
  · intro hh
    refine IndexBuildHeapScan_row_indexed env indexInfo (fuel + 1) st t false hinv ?_
    intro a w
    rw [IndexBuildHeapScan_recheck_recently_dead env t fuel hcls, hh]
    rfl
  · intro hh
    obtain ⟨st1, h1, h2⟩ := IndexBuildHeapScan_row_skipped env (fuel + 1)
      indexInfo.ii_Predicate st t (fun a => { a with ii_BrokenHotChain := true })
      (fun a w => by
        rw [IndexBuildHeapScan_recheck_recently_dead env t fuel hcls, hh]
        rfl)
    refine ⟨st1, h1, h2, ?_⟩
    rw [h2.2.2.2]

theorem IndexBuildHeapScan_newpage_congr (env env1 : HeapScanEnv) (st : BuildScanState)
    (t : HeapTupleData) (hmap : env1.heap_get_root_tuples = env.heap_get_root_tuples) :
    IndexBuildHeapScan_newpage env st t = IndexBuildHeapScan_newpage env1 st t := by
  unfold IndexBuildHeapScan_newpage
  rw [hmap]

/-- C20: in liveness-evaluation mode a version classified InsertInProgress
whose inserter is the current transaction is counted and, if it passes the
predicate, handed to the callback with tupleIsAlive true. A version classified
DeleteInProgress whose deleter is the current transaction is, when not
HOT-updated, counted and handed to the callback with tupleIsAlive false, and,
when HOT-updated, skipped with ii_BrokenHotChain set to true; its time qual
check and its whole iteration give exactly the results they give when the
classifier answers RecentlyDead for the same version. -/
theorem build_scan_own_transaction_policy (env : HeapScanEnv) (indexInfo : IndexInfo)
    (fuel : Nat) (st : BuildScanState) (t : HeapTupleData)
    (hinv : BuildInv env indexInfo st) :
    (env.HeapTupleSatisfiesVacuum t 0 = .HEAPTUPLE_INSERT_IN_PROGRESS →
      env.TransactionIdIsCurrentTransactionId t.xmin = true →
      (∀ st1, IndexBuildHeapScan_row env .SnapshotAny (fuel + 1) indexInfo.ii_Predicate st t =
          .ok st1 → RowIndexed env indexInfo st t true st1) ∧
      ((passesPredicate indexInfo t = true → ∃ r, FormIndexDatum indexInfo t = .ok r) →
        ∃ st1, IndexBuildHeapScan_row env .SnapshotAny (fuel + 1) indexInfo.ii_Predicate st
          t = .ok st1)) ∧
    (env.HeapTupleSatisfiesVacuum t 0 = .HEAPTUPLE_DELETE_IN_PROGRESS →
      env.TransactionIdIsCurrentTransactionId t.xmax = true →
      (t.hot_updated = false →
        (∀ st1, IndexBuildHeapScan_row env .SnapshotAny (fuel + 1) indexInfo.ii_Predicate st
            t = .ok st1 → RowIndexed env indexInfo st t false st1) ∧
        ((passesPredicate indexInfo t = true → ∃ r, FormIndexDatum indexInfo t = .ok r) →
          ∃ st1, IndexBuildHeapScan_row env .SnapshotAny (fuel + 1) indexInfo.ii_Predicate
            st t = .ok st1)) ∧
      (t.hot_updated = true →
        ∃ st1, IndexBuildHeapScan_row env .SnapshotAny (fuel + 1) indexInfo.ii_Predicate st
            t = .ok st1 ∧
          RowSkipped st { st.indexInfo with ii_BrokenHotChain := true } st1 ∧
          st1.indexInfo.ii_BrokenHotChain = true) ∧
      (∀ env1 : HeapScanEnv,
        env1.HeapTupleSatisfiesVacuum t 0 = .HEAPTUPLE_RECENTLY_DEAD →
        env1.heap_get_root_tuples = env.heap_get_root_tuples →
        (∀ a w, IndexBuildHeapScan_recheck env t (fuel + 1) 0 a w =
          IndexBuildHeapScan_recheck env1 t (fuel + 1) 0 a w) ∧
        (∀ predicate st0, IndexBuildHeapScan_row env .SnapshotAny (fuel + 1) predicate st0 t =
          IndexBuildHeapScan_row env1 .SnapshotAny (fuel + 1) predicate st0 t))) := by
  constructor
  · intro hcls hown
    exact IndexBuildHeapScan_row_indexed env indexInfo (fuel + 1) st t true hinv
      (IndexBuildHeapScan_recheck_own_insert env t fuel hcls hown)
  · intro hcls hown
    refine ⟨?_, ?_, ?_⟩
    · intro hh
      refine IndexBuildHeapScan_row_indexed env indexInfo (fuel + 1) st t false hinv ?_
      intro a w
      rw [IndexBuildHeapScan_recheck_own_delete env t fuel hcls hown, hh]
      rfl
    · intro hh
      obtain ⟨st1, h1, h2⟩ := IndexBuildHeapScan_row_skipped env (fuel + 1)
        indexInfo.ii_Predicate st t (fun a => { a with ii_BrokenHotChain := true })
        (fun a w => by
          rw [IndexBuildHeapScan_recheck_own_delete env t fuel hcls hown, hh]
          rfl)
      refine ⟨st1, h1, h2, ?_⟩
      rw [h2.2.2.2]
    · intro env1 hcls1 hmap
      have hre : ∀ a w, IndexBuildHeapScan_recheck env t (fuel + 1) 0 a w =
          IndexBuildHeapScan_recheck env1 t (fuel + 1) 0 a w := fun a w => by
        rw [IndexBuildHeapScan_recheck_own_delete env t fuel hcls hown,
          IndexBuildHeapScan_recheck_recently_dead env1 t fuel hcls1]
      refine ⟨hre, fun predicate st0 => ?_⟩
      rw [IndexBuildHeapScan_row_of_recheck, IndexBuildHeapScan_row_of_recheck, hre,
        IndexBuildHeapScan_newpage_congr env env1 st0 t hmap]

theorem index_set_state_flags_transitions_witness :
    exampleRegistered 100 = some (FormData_pg_index.mk 100 50 1 false false false false false
      false [1] [1978] [0] true true) ∧
    index_set_state_flags exampleRegistered 100 .INDEX_CREATE_SET_READY =
      .ok (Function.update exampleRegistered 100 (some (FormData_pg_index.mk 100 50 1 false
        false false false false true [1] [1978] [0] true true))) ∧
    index_set_state_flags_asserts (FormData_pg_index.mk 100 50 1 false false false false false
      false [1] [1978] [0] true true) .INDEX_CREATE_SET_READY = true ∧
    index_set_state_flags_asserts (FormData_pg_index.mk 100 50 1 false false false false false
      false [1] [1978] [0] true true) .INDEX_CREATE_SET_VALID = false :=
  ⟨rfl,
    (index_set_state_flags_transitions exampleRegistered 100
      (FormData_pg_index.mk 100 50 1 false false false false false false [1] [1978] [0]
        true true) .INDEX_CREATE_SET_READY rfl).1,
    rfl, rfl⟩

theorem foreign_writer_is_fatal_witness :
    (exampleEnv (fun _ => .HEAPTUPLE_INSERT_IN_PROGRESS) (fun _ => 0)).IsSystemRelation =
      false ∧
    buildOutcome (IndexBuildHeapScan
        (exampleEnv (fun _ => .HEAPTUPLE_INSERT_IN_PROGRESS) (fun _ => 0))
        (exampleIndexInfo []) .SnapshotAny (0 + 1) [exampleRow 0 1 false false 5]) =
      some ([⟨⟨0, 1⟩, [5], [false], true⟩], 1) ∧
    IndexBuildHeapScan (exampleEnv (fun _ => .HEAPTUPLE_INSERT_IN_PROGRESS) (fun _ => 0))
        (exampleIndexInfo []) .SnapshotAny (0 + 1)
        ([exampleRow 0 1 false false 5] ++ exampleForeignRow ::
          [exampleRow 0 3 false false 25]) =
      .error .concurrent_insert_in_progress :=
  ⟨rfl, rfl, by
    obtain ⟨e, -, hi, -, -, h2⟩ := foreign_writer_is_fatal
      (exampleEnv (fun _ => .HEAPTUPLE_INSERT_IN_PROGRESS) (fun _ => 0))
      (exampleIndexInfo []) 0 [exampleRow 0 1 false false 5] [exampleRow 0 3 false false 25]
      exampleForeignRow rfl (Or.inl ⟨rfl, rfl⟩)
    rw [← hi rfl]
    exact h2 _ rfl⟩

theorem build_scan_live_dead_policy_witness :
    buildOutcome (IndexBuildHeapScan_row (exampleEnv (fun _ => .HEAPTUPLE_LIVE) (fun _ => 0))
        .SnapshotAny (0 + 1) (exampleIndexInfo []).ii_Predicate
        (BuildScanState.init (exampleIndexInfo [])) (exampleRow 0 2 false false 15)) =
      some ([⟨⟨0, 2⟩, [15], [false], true⟩], 1) ∧
    RowIndexed (exampleEnv (fun _ => .HEAPTUPLE_LIVE) (fun _ => 0)) (exampleIndexInfo [])
      (BuildScanState.init (exampleIndexInfo [])) (exampleRow 0 2 false false 15) true
      (returned (IndexBuildHeapScan_row (exampleEnv (fun _ => .HEAPTUPLE_LIVE) (fun _ => 0))
        .SnapshotAny (0 + 1) (exampleIndexInfo []).ii_Predicate
        (BuildScanState.init (exampleIndexInfo [])) (exampleRow 0 2 false false 15))
        (BuildScanState.init (exampleIndexInfo []))) ∧
    buildOutcome (IndexBuildHeapScan_row (exampleEnv (fun _ => .HEAPTUPLE_DEAD) (fun _ => 0))
        .SnapshotAny (0 + 1) (exampleIndexInfo []).ii_Predicate
        (BuildScanState.init (exampleIndexInfo [])) (exampleRow 0 2 false false 15)) =
      some ([], 0) :=
  ⟨rfl,
    ((build_scan_live_dead_policy (exampleEnv (fun _ => .HEAPTUPLE_LIVE) (fun _ => 0))
      (exampleIndexInfo []) 0 (BuildScanState.init (exampleIndexInfo []))
      (exampleRow 0 2 false false 15) (BuildInv_init _ _)).1 rfl).1 _ rfl,
    rfl⟩

theorem build_scan_recently_dead_policy_witness :
    buildOutcome (IndexBuildHeapScan_row
        (exampleEnv (fun _ => .HEAPTUPLE_RECENTLY_DEAD) (fun _ => 0))
        .SnapshotAny (0 + 1) (exampleIndexInfo []).ii_Predicate
        (BuildScanState.init (exampleIndexInfo [])) (exampleRow 0 2 false false 15)) =
      some ([⟨⟨0, 2⟩, [15], [false], false⟩], 1) ∧
    buildOutcome (IndexBuildHeapScan_row
        (exampleEnv (fun _ => .HEAPTUPLE_RECENTLY_DEAD) (fun _ => 0))
        .SnapshotAny (0 + 1) (exampleIndexInfo []).ii_Predicate
        (BuildScanState.init (exampleIndexInfo [])) (exampleRow 0 2 false true 15)) =
      some ([], 0) ∧
    ∃ st1, IndexBuildHeapScan_row (exampleEnv (fun _ => .HEAPTUPLE_RECENTLY_DEAD) (fun _ => 0))
        .SnapshotAny (0 + 1) (exampleIndexInfo []).ii_Predicate
        (BuildScanState.init (exampleIndexInfo [])) (exampleRow 0 2 false true 15) = .ok st1 ∧
      RowSkipped (BuildScanState.init (exampleIndexInfo []))
        { (BuildScanState.init (exampleIndexInfo [])).indexInfo with
          ii_BrokenHotChain := true } st1 ∧
      st1.indexInfo.ii_BrokenHotChain = true :=
  ⟨rfl, rfl,
    (build_scan_recently_dead_policy
      (exampleEnv (fun _ => .HEAPTUPLE_RECENTLY_DEAD) (fun _ => 0))
      (exampleIndexInfo []) 0 (BuildScanState.init (exampleIndexInfo []))
      (exampleRow 0 2 false true 15) (BuildInv_init _ _) rfl).2 rfl⟩

theorem build_scan_own_transaction_policy_witness :
    buildOutcome (IndexBuildHeapScan_row
        (exampleEnv (fun _ => .HEAPTUPLE_DELETE_IN_PROGRESS) (fun _ => 0))
        .SnapshotAny (0 + 1) (exampleIndexInfo []).ii_Predicate
        (BuildScanState.init (exampleIndexInfo [])) (exampleOwnDelete false)) =
      some ([⟨⟨0, 2⟩, [15], [false], false⟩], 1) ∧
    RowIndexed (exampleEnv (fun _ => .HEAPTUPLE_DELETE_IN_PROGRESS) (fun _ => 0))
      (exampleIndexInfo []) (BuildScanState.init (exampleIndexInfo []))
      (exampleOwnDelete false) false
      (returned (IndexBuildHeapScan_row
        (exampleEnv (fun _ => .HEAPTUPLE_DELETE_IN_PROGRESS) (fun _ => 0))
        .SnapshotAny (0 + 1) (exampleIndexInfo []).ii_Predicate
        (BuildScanState.init (exampleIndexInfo [])) (exampleOwnDelete false))
        (BuildScanState.init (exampleIndexInfo []))) ∧
    buildOutcome (IndexBuildHeapScan_row
        (exampleEnv (fun _ => .HEAPTUPLE_INSERT_IN_PROGRESS) (fun _ => 0))
        .SnapshotAny (0 + 1) (exampleIndexInfo []).ii_Predicate
        (BuildScanState.init (exampleIndexInfo [])) (exampleRow 0 2 false false 15)) =
      some ([⟨⟨0, 2⟩, [15], [false], true⟩], 1) :=
  ⟨rfl,
    (((build_scan_own_transaction_policy
      (exampleEnv (fun _ => .HEAPTUPLE_DELETE_IN_PROGRESS) (fun _ => 0))
      (exampleIndexInfo []) 0 (BuildScanState.init (exampleIndexInfo []))
      (exampleOwnDelete false) (BuildInv_init _ _)).2 rfl rfl).1 rfl).1 _ rfl,
    rfl⟩

theorem reindex_relation_loop_rebuilt (env : ReindexEnv) (build_map : Bool)
    (indexIds : List Oid) :
    ∀ st st1, reindex_relation_loop env build_map indexIds st = .ok st1 →
      ∃ done, st1.rebuilt = st.rebuilt ++ done ∧ (indexIds = [] → done = []) := by
  induction indexIds with
  | nil =>
    intro st st1 h
    simp only [reindex_relation_loop, Except.ok.injEq] at h
    subst h
    exact ⟨[], by simp, fun _ => rfl⟩
  | cons indexOid rest ih =>
    intro st st1 h
    simp only [reindex_relation_loop] at h
    generalize (if reindex_relation_uses_map env build_map st = true then
      reindex_relation_lookup (st.oidmap.getD []) indexOid else (InvalidOid, [])) = found at h
    by_cases hskip : (reindex_relation_uses_map env build_map st &&
        !OidIsValid found.1) = true
    · rw [if_pos hskip] at h
      obtain ⟨done, h1, -⟩ := ih st st1 h
      exact ⟨done, h1, fun hc => by cases hc⟩
    · rw [if_neg hskip] at h
      cases hr : env.reindex_index indexOid found.1 found.2 with
      | error e =>
        rw [hr] at h
        cases h
      | ok p =>
        rw [hr] at h
        obtain ⟨done, h1, -⟩ := ih _ st1 h
        refine ⟨indexOid :: done, ?_, fun hc => by cases hc⟩
        rw [h1]
        simp

theorem reindex_relation_indexes_rebuilt (env : ReindexEnv) (relid : Oid) (build_map : Bool)
    (st : ReindexState) (r : Bool × ReindexState)
    (h : reindex_relation_indexes env relid build_map st = .ok r) :
    ∃ done, r.2.rebuilt = st.rebuilt ++ done ∧ (done ≠ [] → r.1 = true) := by
  unfold reindex_relation_indexes at h
  split at h
  · cases h
  · rename_i st1 hl
    simp only [Except.ok.injEq] at h
    subst h
    obtain ⟨done, h1, h2⟩ := reindex_relation_loop_rebuilt env build_map _ st st1 hl
    refine ⟨done, h1, fun hd => ?_⟩
    cases hi : env.RelationGetIndexList relid with
    | nil => exact absurd (h2 hi) hd
    | cons a l => simp

theorem reindex_relation_secondary_rebuilt (env : ReindexEnv) (build_map too : Bool)
    (aux_relid : Oid) (acc r : Bool × ReindexState)
    (h : reindex_relation_secondary env build_map too aux_relid acc = .ok r) :
    ∃ done, r.2.rebuilt = acc.2.rebuilt ++ done ∧ (done ≠ [] → r.1 = true) ∧
      (acc.1 = true → r.1 = true) := by
  unfold reindex_relation_secondary at h
  split at h
  · split at h
    · cases h
    · rename_i result st hi
      simp only [Except.ok.injEq] at h
      subst h
      obtain ⟨done, h1, h2⟩ := reindex_relation_indexes_rebuilt env aux_relid build_map _ _ hi
      refine ⟨done, h1, fun hd => ?_, fun ha => ?_⟩
      · have := h2 hd
        simp only at this
        simp [this]
      · simp [ha]
  · simp only [Except.ok.injEq] at h
    subst h
    exact ⟨[], by simp, fun hd => absurd rfl hd, fun ha => ha⟩

/-- C16: on a segment, with a non-empty oid map that has no entry for the only
index of the relation, reindex_relation skips that index, calls reindex_index
for none, and still returns true, because result is set from indexIds != NIL;
the header comment promises true only if an index was rebuilt. The other
direction holds for every input: when reindex_relation returns after a call of
reindex_index, it returns true. -/
theorem reindex_relation_true_without_rebuild :
    reindex_relation exampleReindexEnv 50 true true true true false exampleOidMap =
      .ok (true, { oidmap := some [[200, 201, 0]], rebuilt := [] }) ∧
    (∀ (env : ReindexEnv) (relid : Oid)
      (toast_too aoseg_too aoblkdir_too aovisimap_too build_map : Bool)
      (st : ReindexState) (r : Bool × ReindexState),
      reindex_relation env relid toast_too aoseg_too aoblkdir_too aovisimap_too build_map st =
        .ok r →
      r.2.rebuilt ≠ st.rebuilt → r.1 = true) := by
  refine ⟨rfl, ?_⟩
  intro env relid toast_too aoseg_too aoblkdir_too aovisimap_too build_map st r h hne
  unfold reindex_relation at h
  simp only at h
  cases h0 : reindex_relation_indexes env relid build_map st with
  | error e =>
    rw [h0] at h
    cases h
  | ok r0 =>
    rw [h0] at h
    simp only at h
    cases h1 : reindex_relation_secondary env build_map toast_too (env.reltoastrelid relid)
        r0 with
    | error e =>
      rw [h1] at h
      cases h
    | ok r1 =>
      rw [h1] at h
      simp only at h
      generalize (if ((aoseg_too || aoblkdir_too || aovisimap_too) && env.relIsAO relid) = true
        then env.GetAppendOnlyEntryAuxOids relid
        else (InvalidOid, InvalidOid, InvalidOid)) = aux at h
      cases h2 : reindex_relation_secondary env build_map aoseg_too aux.1 r1 with
      | error e =>
        rw [h2] at h
        cases h
      | ok r2 =>
        rw [h2] at h
        simp only at h
        cases h3 : reindex_relation_secondary env build_map aoblkdir_too aux.2.1 r2 with
        | error e =>
          rw [h3] at h
          cases h
        | ok r3 =>
          rw [h3] at h
          simp only at h
          obtain ⟨d0, e0, t0⟩ := reindex_relation_indexes_rebuilt env relid build_map st r0 h0
          obtain ⟨d1, e1, t1, k1⟩ := reindex_relation_secondary_rebuilt env build_map _ _ r0 r1 h1
          obtain ⟨d2, e2, t2, k2⟩ := reindex_relation_secondary_rebuilt env build_map _ _ r1 r2 h2
          obtain ⟨d3, e3, t3, k3⟩ := reindex_relation_secondary_rebuilt env build_map _ _ r2 r3 h3
          obtain ⟨d4, e4, t4, k4⟩ := reindex_relation_secondary_rebuilt env build_map _ _ r3 r h
          by_cases c4 : d4 = []
          · by_cases c3 : d3 = []
            · by_cases c2 : d2 = []
              · by_cases c1 : d1 = []
                · by_cases c0 : d0 = []
                  · exfalso
                    apply hne
                    rw [e4, e3, e2, e1, e0, c4, c3, c2, c1, c0]
                    simp
                  · exact k4 (k3 (k2 (k1 (t0 c0))))
                · exact k4 (k3 (k2 (t1 c1)))
              · exact k4 (k3 (t2 c2))
            · exact k4 (t3 c3)
          · exact t4 c4

/-! ### validate_index: the uniqueness flag and the errors of index_insert -/

theorem validate_index_heapscan_newpage_indexInfo {σ : Type} (env : HeapScanEnv)
    (st : ValidateScanState σ) (t : HeapTupleData) :
    (validate_index_heapscan_newpage env st t).indexInfo = st.indexInfo := by
  unfold validate_index_heapscan_newpage
  simp only
  split <;> rfl

theorem validate_index_heapscan_merge_indexInfo {σ : Type} (rootTuple : ItemPointerData)
    (st : ValidateScanState σ) :
    (validate_index_heapscan_merge rootTuple st).indexInfo = st.indexInfo := by
  unfold validate_index_heapscan_merge
  split <;> rfl

theorem validate_index_heapscan_insert_flag {σ : Type}
    (index_insert : σ → IndexInsertCall → Except ErrorData σ) (indexInfo : IndexInfo)
    (predicate : List QualClause) (st : ValidateScanState σ) (t : HeapTupleData)
    (rootTuple : ItemPointerData) (hd : SameDescriptor st.indexInfo indexInfo) :
    validate_index_heapscan_insert index_insert predicate st t rootTuple =
      validate_index_heapscan_insert (insertWithFlag index_insert indexInfo.ii_Unique)
        predicate st t rootTuple ∧
    ∀ st1, validate_index_heapscan_insert index_insert predicate st t rootTuple = .ok st1 →
      SameDescriptor st1.indexInfo indexInfo := by
  unfold validate_index_heapscan_insert
  split
  · split
    · exact ⟨rfl, fun st1 h => by cases h; exact hd⟩
    · cases hf : FormIndexDatum st.indexInfo t with
      | error e => exact ⟨rfl, fun st1 h => by cases h⟩
      | ok r =>
        obtain ⟨a1, values, isnull⟩ := r
        obtain ⟨hd1, -, -⟩ := (FormIndexDatum_congr hd t).2 a1 values isnull hf
        have hu : a1.ii_Unique = indexInfo.ii_Unique := hd1.2.2.2.1
        simp only [insertWithFlag, hu, if_true]
        refine ⟨trivial, fun st1 h => ?_⟩
        split at h
        · cases h
        · cases h
          exact hd1
  · exact ⟨rfl, fun st1 h => by cases h; exact hd⟩

theorem validate_index_heapscan_row_flag {σ : Type} (env : HeapScanEnv)
    (index_insert : σ → IndexInsertCall → Except ErrorData σ) (indexInfo : IndexInfo)
    (predicate : List QualClause) (st : ValidateScanState σ) (t : HeapTupleData)
    (hd : SameDescriptor st.indexInfo indexInfo) :
    validate_index_heapscan_row env index_insert predicate st t =
      validate_index_heapscan_row env (insertWithFlag index_insert indexInfo.ii_Unique)
        predicate st t ∧
    ∀ st1, validate_index_heapscan_row env index_insert predicate st t = .ok st1 →
      SameDescriptor st1.indexInfo indexInfo := by
  unfold validate_index_heapscan_row
  simp only
  apply validate_index_heapscan_insert_flag
  rw [validate_index_heapscan_merge_indexInfo, validate_index_heapscan_newpage_indexInfo]
  exact hd

theorem validate_index_heapscan_loop_flag {σ : Type} (env : HeapScanEnv)
    (index_insert : σ → IndexInsertCall → Except ErrorData σ) (indexInfo : IndexInfo)
    (predicate : List QualClause) (rows : List HeapTupleData) :
    ∀ st : ValidateScanState σ, SameDescriptor st.indexInfo indexInfo →
      validate_index_heapscan_loop env index_insert predicate rows st =
        validate_index_heapscan_loop env (insertWithFlag index_insert indexInfo.ii_Unique)
          predicate rows st := by
  induction rows with
  | nil => intro st _; rfl
  | cons t rest ih =>
    intro st hd
    obtain ⟨h1, h2⟩ := validate_index_heapscan_row_flag env index_insert indexInfo predicate
      st t hd
    simp only [validate_index_heapscan_loop]
    rw [← h1]
    cases hrow : validate_index_heapscan_row env index_insert predicate st t with
    | error e => rfl
    | ok st1 => exact ih st1 (h2 st1 hrow)

theorem validate_index_heapscan_flag {σ : Type} (env : HeapScanEnv)
    (index_insert : σ → IndexInsertCall → Except ErrorData σ) (indexInfo : IndexInfo)
    (state : v_i_state) (index : σ) (rows : List HeapTupleData) :
    validate_index_heapscan env index_insert indexInfo state index rows =
      validate_index_heapscan env (insertWithFlag index_insert indexInfo.ii_Unique) indexInfo
        state index rows := by
  unfold validate_index_heapscan
  rw [validate_index_heapscan_loop_flag env index_insert indexInfo _ rows _
    (SameDescriptor.refl _)]

theorem validate_index_heapscan_insert_cases {σ : Type} (env : HeapScanEnv)
    (index_insert : σ → IndexInsertCall → Except ErrorData σ)
    (indexInfo : IndexInfo) (tids passed : List ItemPointerData)
    (st : ValidateScanState σ) (heapTuple : HeapTupleData)
    (hinv : MergeInv env indexInfo tids passed st)
    (hcond : (validate_index_overshot (rootOf env heapTuple) st.tuplesort_empty st.indexcursor &&
        !st.in_index (((rootOf env heapTuple).ip_posid : Int) - 1)) =
        decide (rootOf env heapTuple ∉ tids))
    (hproj : missingFrom env indexInfo tids heapTuple = true →
      ∃ r, FormIndexDatum indexInfo heapTuple = .ok r) :
    (missingFrom env indexInfo tids heapTuple = false →
      validate_index_heapscan_insert index_insert indexInfo.ii_Predicate st heapTuple
        (rootOf env heapTuple) = .ok st) ∧
    (missingFrom env indexInfo tids heapTuple = true →
      (∀ e, index_insert st.index (validateCall env indexInfo heapTuple) = .error e →
        validate_index_heapscan_insert index_insert indexInfo.ii_Predicate st heapTuple
          (rootOf env heapTuple) = .error e) ∧
      (∀ index1, index_insert st.index (validateCall env indexInfo heapTuple) = .ok index1 →
        ∃ st1, validate_index_heapscan_insert index_insert indexInfo.ii_Predicate st heapTuple
          (rootOf env heapTuple) = .ok st1 ∧ st1.index = index1)) := by
  unfold validate_index_heapscan_insert
  rw [hcond, not_passesPredicate_iff]
  unfold missingFrom at hproj ⊢
  by_cases hm : rootOf env heapTuple ∈ tids
  · simp [hm]
  · cases hp : passesPredicate indexInfo heapTuple
    · simp [hm]
    · simp only [hm, not_false_eq_true, decide_True, hp, Bool.and_self, Bool.true_eq_false,
        false_implies, true_and, if_true, Bool.not_true, Bool.false_eq_true, if_false,
        true_implies]
      obtain ⟨r, hr⟩ := hproj (by simp [hm, hp])
      obtain ⟨b1, values, isnull⟩ := r
      cases hf : FormIndexDatum st.indexInfo heapTuple with
      | error e =>
        have := (FormIndexDatum_congr hinv.2.2.2.2 heapTuple).1 e hf
        rw [hr] at this
        cases this
      | ok r1 =>
        obtain ⟨a1, values1, isnull1⟩ := r1
        obtain ⟨hd1, hv, -⟩ :=
          (FormIndexDatum_congr hinv.2.2.2.2 heapTuple).2 a1 values1 isnull1 hf
        have hcall : (⟨values1, isnull1, rootOf env heapTuple, a1.ii_Unique⟩ :
            IndexInsertCall) = validateCall env indexInfo heapTuple := by
          simp [validateCall, hv, hd1.2.2.2.1]
        simp only [hcall]
        constructor
        · intro e he
          rw [he]
        · intro index1 hi
          rw [hi]
          exact ⟨_, rfl, rfl⟩

theorem validate_index_heapscan_loop_insertAll {σ : Type} (env : HeapScanEnv)
    (index_insert : σ → IndexInsertCall → Except ErrorData σ)
    (indexInfo : IndexInfo) (tids : List ItemPointerData) (hsorted : TidSorted tids)
    (rows : List HeapTupleData) :
    ∀ (st : ValidateScanState σ) (passed : List ItemPointerData),
      ForwardPageOrder rows →
      (∀ b, st.root_blkno = some b → ∀ t ∈ rows, b ≤ t.t_self.ip_blkid) →
      MergeInv env indexInfo tids passed st →
      (∀ t ∈ rows, missingFrom env indexInfo tids t = true →
        ∃ r, FormIndexDatum indexInfo t = .ok r) →
      (∀ e, insertAll index_insert st.index (validateCalls env indexInfo tids rows) = .error e →
        validate_index_heapscan_loop env index_insert indexInfo.ii_Predicate rows st =
          .error e) ∧
      (∀ index1,
        insertAll index_insert st.index (validateCalls env indexInfo tids rows) = .ok index1 →
        ∃ st1, validate_index_heapscan_loop env index_insert indexInfo.ii_Predicate rows st =
          .ok st1 ∧ st1.index = index1) := by
  induction rows with
  | nil =>
    intro st passed _ _ _ _
    constructor
    · intro e h
      cases h
    · intro index1 h
      simp only [validateCalls, List.filter_nil, List.map_nil, insertAll,
        Except.ok.injEq] at h
      exact ⟨st, rfl, h⟩
  | cons t rest ih =>
    intro st passed hfwd hblk hinv hproj
    obtain ⟨st3, passed3, p1, p2, p3, p4, p5, p6, p7, -, p8⟩ :=
      validate_index_heapscan_row_prelude env index_insert indexInfo indexInfo.ii_Predicate
        tids passed st t hinv (fun b hb => hblk b hb t (List.mem_cons_self _ _))
    obtain ⟨c1, c2⟩ := validate_index_heapscan_insert_cases env index_insert indexInfo tids
      passed3 st3 t p1 (p7 hsorted) (hproj t (List.mem_cons_self _ _))
    have hfwd2 := List.pairwise_cons.1 hfwd
    have hnext : ∀ st2 : ValidateScanState σ,
        validate_index_heapscan_row env index_insert indexInfo.ii_Predicate st t = .ok st2 →
        (∀ e, insertAll index_insert st2.index (validateCalls env indexInfo tids rest) =
            .error e →
          validate_index_heapscan_loop env index_insert indexInfo.ii_Predicate rest st2 =
            .error e) ∧
        (∀ index1, insertAll index_insert st2.index (validateCalls env indexInfo tids rest) =
            .ok index1 →
          ∃ st1, validate_index_heapscan_loop env index_insert indexInfo.ii_Predicate rest
            st2 = .ok st1 ∧ st1.index = index1) := by
      intro st2 hrow
      rw [p8] at hrow
      obtain ⟨q1, q2, -⟩ := validate_index_heapscan_insert_ok env index_insert
        indexInfo tids passed3 st3 st2 t p1 (p7 hsorted) hrow
      exact ih st2 passed3 hfwd2.2
        (fun b hb u hu => by
          rw [q2, p2] at hb
          simp only [Option.some.injEq] at hb
          subst hb
          exact hfwd2.1 u hu)
        q1 (fun u hu => hproj u (List.mem_cons_of_mem _ hu))
    simp only [validate_index_heapscan_loop]
    cases hm : missingFrom env indexInfo tids t
    · have hrow : validate_index_heapscan_row env index_insert indexInfo.ii_Predicate st t =
          .ok st3 := by
        rw [p8]
        exact c1 hm
      have hcalls : validateCalls env indexInfo tids (t :: rest) =
          validateCalls env indexInfo tids rest := by
        simp [validateCalls, List.filter_cons, hm]
      rw [hcalls, hrow, ← p3]
      exact hnext st3 hrow
    · have hcalls : validateCalls env indexInfo tids (t :: rest) =
          validateCall env indexInfo t :: validateCalls env indexInfo tids rest := by
        simp [validateCalls, List.filter_cons, hm]
      rw [hcalls]
      simp only [insertAll]
      obtain ⟨d1, d2⟩ := c2 hm
      rw [p3] at d1 d2
      cases hi : index_insert st.index (validateCall env indexInfo t) with
      | error e =>
        have hrow : validate_index_heapscan_row env index_insert indexInfo.ii_Predicate st t =
            .error e := by
          rw [p8]
          exact d1 e hi
        rw [hrow]
        constructor
        · intro e1 h
          cases h
          rfl
        · intro index1 h
          cases h
      | ok index2 =>
        obtain ⟨st2, hst2, hidx⟩ := d2 index2 hi
        have hrow : validate_index_heapscan_row env index_insert indexInfo.ii_Predicate st t =
            .ok st2 := by
          rw [p8]
          exact hst2
        rw [hrow]
        simp only
        rw [← hidx]
        exact hnext st2 hrow

theorem index_bulk_delete_collect_fold (ids : List ItemPointerData) :
    ∀ state : v_i_state,
      ids.foldl
        (fun (acc : List ItemPointerData × v_i_state) itemptr =>
          ((if (validate_index_callback itemptr acc.2).1 then acc.1 ++ [itemptr] else acc.1),
            (validate_index_callback itemptr acc.2).2))
        ([], state) =
      ([], { state with
        tuplesort := state.tuplesort ++ ids, itups := state.itups + ids.length }) := by
  induction ids with
  | nil =>
    intro state
    simp
  | cons a rest ih =>
    intro state
    simp only [List.foldl_cons]
    change List.foldl _
      ([], { state with tuplesort := state.tuplesort ++ [a], itups := state.itups + 1 })
      rest = _
    rw [ih]
    simp only [List.append_assoc, List.singleton_append, List.length_cons, Prod.mk.injEq,
      true_and]
    congr 1
    omega

theorem index_bulk_delete_collects {σ : Type} (am : ValidateEnv σ) (index : σ)
    (state : v_i_state) (h : am.index_bulk_delete_error = none) :
    index_bulk_delete am index validate_index_callback state =
      .ok (index, { state with
        tuplesort := state.tuplesort ++ am.stored_ids index,
        itups := state.itups + (am.stored_ids index).length }) := by
  unfold index_bulk_delete
  rw [h]
  simp only [index_bulk_delete_collect_fold, List.foldl_nil]

theorem tuplesort_performsort_sorted (tids : List ItemPointerData) :
    TidSorted (tuplesort_performsort tids) := by
  haveI : IsTotal ItemPointerData (fun x y => ItemPointerCompare x y ≤ 0) :=
    ⟨ItemPointerCompare_total⟩
  haveI : IsTrans ItemPointerData (fun x y => ItemPointerCompare x y ≤ 0) :=
    ⟨ItemPointerCompare_trans⟩
  exact List.sorted_insertionSort (fun x y => ItemPointerCompare x y ≤ 0) tids

theorem mem_tuplesort_performsort (tids : List ItemPointerData) (x : ItemPointerData) :
    x ∈ tuplesort_performsort tids ↔ x ∈ tids :=
  (List.perm_insertionSort (fun x y => ItemPointerCompare x y ≤ 0) tids).mem_iff

theorem missingFrom_congr (env : HeapScanEnv) (a b : IndexInfo) (ta tb : List ItemPointerData)
    (hp : a.ii_Predicate = b.ii_Predicate) (hmem : ∀ x, x ∈ ta ↔ x ∈ tb) :
    missingFrom env a ta = missingFrom env b tb := by
  funext t
  unfold missingFrom passesPredicate
  rw [hp]
  congr 1
  simp only [hmem]

theorem FormIndexDatum_values_congr {a b : IndexInfo} (hab : SameDescriptor a b)
    (slot : HeapTupleData) :
    FormIndexDatum_values a slot = FormIndexDatum_values b slot := by
  obtain ⟨h1, h2⟩ := FormIndexDatum_congr hab slot
  cases hf : FormIndexDatum a slot with
  | error e =>
    have hb := h1 e hf
    simp [FormIndexDatum_values, hf, hb]
  | ok r =>
    obtain ⟨a1, values, isnull⟩ := r
    obtain ⟨-, hv, -⟩ := h2 a1 values isnull hf
    rw [hv]
    simp [FormIndexDatum_values, hf]

theorem validateCalls_congr (env : HeapScanEnv) (a b : IndexInfo)
    (ta tb : List ItemPointerData) (rows : List HeapTupleData)
    (hab : SameDescriptor a b) (hmem : ∀ x, x ∈ ta ↔ x ∈ tb) :
    validateCalls env a ta rows = validateCalls env b tb rows := by
  unfold validateCalls
  rw [missingFrom_congr env a b ta tb hab.2.2.2.2 hmem]
  congr 1
  funext t
  simp only [validateCall, FormIndexDatum_values_congr hab t, hab.2.2.2.1]

theorem validate_index_heapscan_insertAll {σ : Type} (env : HeapScanEnv)
    (index_insert : σ → IndexInsertCall → Except ErrorData σ)
    (indexInfo : IndexInfo) (state : v_i_state) (index : σ) (rows : List HeapTupleData)
    (hsorted : TidSorted state.tuplesort) (hfwd : ForwardPageOrder rows)
    (hproj : ∀ t ∈ rows, missingFrom env indexInfo state.tuplesort t = true →
      ∃ r, FormIndexDatum indexInfo t = .ok r) :
    (∀ e, insertAll index_insert index (validateCalls env indexInfo state.tuplesort rows) =
        .error e →
      validate_index_heapscan env index_insert indexInfo state index rows = .error e) ∧
    (∀ index1, insertAll index_insert index (validateCalls env indexInfo state.tuplesort rows) =
        .ok index1 →
      ∃ st, validate_index_heapscan env index_insert indexInfo state index rows = .ok st ∧
        st.index = index1) := by
  obtain ⟨h1, h2⟩ := validate_index_heapscan_loop_insertAll env index_insert indexInfo
    state.tuplesort hsorted rows (ValidateScanState.init indexInfo state index) [] hfwd
    (fun b hb => by cases hb) (MergeInv_init env indexInfo state index) hproj
  unfold validate_index_heapscan
  constructor
  · intro e he
    have := h1 e he
    simp only [ExecPrepareExpr] at this ⊢
    rw [this]
  · intro index1 hi
    obtain ⟨st1, hl, hidx⟩ := h2 index1 hi
    simp only [ExecPrepareExpr] at hl ⊢
    rw [hl]
    exact ⟨_, rfl, hidx⟩

theorem validate_index_result {σ : Type} (env : HeapScanEnv) (am : ValidateEnv σ)
    (indexInfo : IndexInfo) (index : σ) (rows : List HeapTupleData)
    (hbegin : am.tuplesort_begin_error = none)
    (hbulk : am.index_bulk_delete_error = none)
    (hsort : am.tuplesort_performsort_error = none) :
    (validate_index env am indexInfo index rows).result =
      validate_index_heapscan env am.index_insert { indexInfo with ii_Concurrent := true }
        { tuplesort := tuplesort_performsort (am.stored_ids index), htups := 0,
          itups := (am.stored_ids index).length, tups_inserted := 0 } index rows := by
  unfold validate_index validate_index_try
  simp only [hbegin, index_bulk_delete_collects am index _ hbulk, hsort, List.nil_append,
    Nat.zero_add]
  cases validate_index_heapscan env am.index_insert { indexInfo with ii_Concurrent := true }
      { tuplesort := tuplesort_performsort (am.stored_ids index), htups := 0,
        itups := (am.stored_ids index).length, tups_inserted := 0 } index rows <;> rfl

/-- C15: every index_insert call validate_index_heapscan makes passes ii_Unique
as the uniqueness flag: replacing index_insert by one that refuses any other
flag changes nothing, for every state, index and scan. And when the collection
and the sort do not raise, validate_index makes the index_insert calls of the
rows missing from the index one after the other: if one of them raises,
validate_index ends with that very error; it completes exactly when all of
them succeed, and then they are the calls it made, each with the flag
ii_Unique. -/
theorem validate_index_surfaces_insert_errors {σ : Type} (env : HeapScanEnv)
    (am : ValidateEnv σ) (indexInfo : IndexInfo) (index : σ) (rows : List HeapTupleData)
    (hbegin : am.tuplesort_begin_error = none)
    (hbulk : am.index_bulk_delete_error = none)
    (hsort : am.tuplesort_performsort_error = none)
    (hfwd : ForwardPageOrder rows)
    (hproj : ∀ t ∈ rows, missingFrom env indexInfo (am.stored_ids index) t = true →
      ∃ r, FormIndexDatum indexInfo t = .ok r) :
    (∀ (info : IndexInfo) (state : v_i_state) (index0 : σ) (scan : List HeapTupleData),
      validate_index_heapscan env am.index_insert info state index0 scan =
        validate_index_heapscan env (insertWithFlag am.index_insert info.ii_Unique) info state
          index0 scan) ∧
    (∀ e, insertAll am.index_insert index
        (validateCalls env indexInfo (am.stored_ids index) rows) = .error e →
      (validate_index env am indexInfo index rows).result = .error e) ∧
    (∀ index1, insertAll am.index_insert index
        (validateCalls env indexInfo (am.stored_ids index) rows) = .ok index1 →
      ∃ st, (validate_index env am indexInfo index rows).result = .ok st ∧
        st.index = index1 ∧
        st.inserts = validateCalls env indexInfo (am.stored_ids index) rows ∧
        ∀ call ∈ st.inserts, call.check_uniqueness = indexInfo.ii_Unique) := by
  have hd : SameDescriptor { indexInfo with ii_Concurrent := true } indexInfo := by
    refine ⟨rfl, rfl, ?_, rfl, rfl⟩
    unfold indexExpressionStates FormIndexDatum_setup
    split <;> rfl
  have hcalls : validateCalls env { indexInfo with ii_Concurrent := true }
      (tuplesort_performsort (am.stored_ids index)) rows =
      validateCalls env indexInfo (am.stored_ids index) rows :=
    validateCalls_congr env _ _ _ _ rows hd (mem_tuplesort_performsort _)
  have hsorted := tuplesort_performsort_sorted (am.stored_ids index)
  obtain ⟨h1, h2⟩ := validate_index_heapscan_insertAll env am.index_insert
    { indexInfo with ii_Concurrent := true }
    { tuplesort := tuplesort_performsort (am.stored_ids index), htups := 0,
      itups := (am.stored_ids index).length, tups_inserted := 0 } index rows hsorted hfwd
    (fun t ht hm => by
      have hmf := missingFrom_congr env { indexInfo with ii_Concurrent := true } indexInfo
        (tuplesort_performsort (am.stored_ids index)) (am.stored_ids index) rfl
        (mem_tuplesort_performsort _)
      rw [hmf] at hm
      obtain ⟨r, hr⟩ := hproj t ht hm
      cases hf : FormIndexDatum { indexInfo with ii_Concurrent := true } t with
      | ok r1 => exact ⟨r1, rfl⟩
      | error e =>
        have := (FormIndexDatum_congr hd t).1 e hf
        rw [hr] at this
        cases this)
  rw [hcalls] at h1 h2
  rw [validate_index_result env am indexInfo index rows hbegin hbulk hsort]
  refine ⟨fun info state index0 scan =>
    validate_index_heapscan_flag env am.index_insert info state index0 scan, h1, ?_⟩
  intro index1 hi
  obtain ⟨st, hst, hidx⟩ := h2 index1 hi
  obtain ⟨k1, -, -⟩ := validate_index_heapscan_ok env am.index_insert _ _ index rows st
    hsorted hfwd hst
  have hins : st.inserts = validateCalls env indexInfo (am.stored_ids index) rows := by
    rw [k1, ← hcalls]
    rfl
  refine ⟨st, hst, hidx, hins, ?_⟩
  intro call hc
  rw [hins] at hc
  simp only [validateCalls, List.mem_map] at hc
  obtain ⟨t, -, rfl⟩ := hc
  rfl

theorem validate_index_surfaces_insert_errors_witness :
    ForwardPageOrder exampleDuplicates ∧
    validateCalls (exampleEnv (fun _ => .HEAPTUPLE_LIVE) (fun _ => 0)) exampleUniqueIndexInfo
      (exampleUniqueMethod.stored_ids [⟨[5], [false], ⟨0, 1⟩, true⟩]) exampleDuplicates =
      [⟨[5], [false], ⟨0, 2⟩, true⟩] ∧
    (validate_index (exampleEnv (fun _ => .HEAPTUPLE_LIVE) (fun _ => 0)) exampleUniqueMethod
      exampleUniqueIndexInfo [⟨[5], [false], ⟨0, 1⟩, true⟩] exampleDuplicates).result =
      .error (.access_method_error 23505) :=
  ⟨by unfold ForwardPageOrder exampleDuplicates; decide, rfl,
    (validate_index_surfaces_insert_errors (exampleEnv (fun _ => .HEAPTUPLE_LIVE) (fun _ => 0))
      exampleUniqueMethod exampleUniqueIndexInfo [⟨[5], [false], ⟨0, 1⟩, true⟩]
      exampleDuplicates rfl rfl rfl (by unfold ForwardPageOrder exampleDuplicates; decide)
      (fun t _ _ => ⟨_, rfl⟩)).2.1 (.access_method_error 23505) rfl⟩

/-! ### Scan-mode selection, release of the sort buffer, the collect phase -/

/-- C26 (as stated) fails: a non-concurrent build outside bootstrap mode on an
append-only row table does not scan with SnapshotAny; IndexBuildScan takes a
copy of the transaction snapshot and indexes the rows the storage scan returns
under it. -/
theorem append_only_build_counterexample :
    (exampleIndexInfo []).ii_Concurrent = false ∧
    IndexBuildScan_snapshot false .aorows (exampleIndexInfo []) = .TransactionSnapshot ∧
    IndexBuildScan_snapshot false .aocols (exampleIndexInfo []) = .TransactionSnapshot ∧
    buildOutcome (IndexBuildScan (exampleEnv (fun _ => .HEAPTUPLE_LIVE) (fun _ => 0))
        false .aorows true (exampleIndexInfo []) 1
        (fun snapshot =>
          if snapshot = .SnapshotAny then rows_5_15_25 else [exampleRow 0 2 false false 15])) =
      some ([⟨⟨0, 2⟩, [15], [false], true⟩], 1) :=
  ⟨rfl, rfl, rfl, rfl⟩

/-- C26 (amended): in bootstrap mode IndexBuildScan scans with SnapshotNow.
Outside bootstrap mode it scans with SnapshotAny exactly when the build is not
concurrent and the parent relation is not append-only (neither row- nor
column-oriented), and with a copy of the transaction snapshot exactly when the
build is concurrent or the relation is append-only. A non-concurrent build of a
heap table outside bootstrap mode is IndexBuildHeapScan under SnapshotAny over
the rows the storage scan returns for SnapshotAny; a concurrent one is
IndexBuildHeapScan under the transaction snapshot. -/
theorem IndexBuildScan_snapshot_selection (bootstrap : Bool) (relstorage : RelStorage)
    (indexInfo : IndexInfo) :
    (bootstrap = true →
      IndexBuildScan_snapshot bootstrap relstorage indexInfo = .SnapshotNow) ∧
    (bootstrap = false →
      (IndexBuildScan_snapshot bootstrap relstorage indexInfo = .SnapshotAny ↔
        (indexInfo.ii_Concurrent = false ∧ relstorage ≠ .aorows ∧ relstorage ≠ .aocols)) ∧
      (IndexBuildScan_snapshot bootstrap relstorage indexInfo = .TransactionSnapshot ↔
        (indexInfo.ii_Concurrent = true ∨ relstorage = .aorows ∨ relstorage = .aocols))) ∧
    (∀ (env : HeapScanEnv) (blkdir : Bool) (fuel : Nat)
      (scan : Snapshot → List HeapTupleData),
      (indexInfo.ii_Concurrent = false →
        IndexBuildScan env false .heap blkdir indexInfo fuel scan =
          match IndexBuildHeapScan env indexInfo .SnapshotAny fuel (scan .SnapshotAny) with
          | .error e => .error e
          | .ok st =>
            .ok { st with
              indexInfo :=
                { st.indexInfo with ii_ExpressionsState := [], ii_PredicateState := [] } }) ∧
      (indexInfo.ii_Concurrent = true →
        IndexBuildScan env false .heap blkdir indexInfo fuel scan =
          match IndexBuildHeapScan env indexInfo .TransactionSnapshot fuel
              (scan .TransactionSnapshot) with
          | .error e => .error e
          | .ok st =>
            .ok { st with
              indexInfo :=
                { st.indexInfo with ii_ExpressionsState := [], ii_PredicateState := [] } })) := by
  refine ⟨?_, ?_, ?_⟩
  · intro hb
    simp [IndexBuildScan_snapshot, hb]
  · intro hb
    unfold IndexBuildScan_snapshot
    rw [hb]
    cases hc : indexInfo.ii_Concurrent <;> cases relstorage <;> simp
  · intro env blkdir fuel scan
    constructor
    · intro hc
      simp [IndexBuildScan, IndexBuildScan_snapshot, hc]
    · intro hc
      simp [IndexBuildScan, IndexBuildScan_snapshot, hc]

theorem validate_index_try_exit {σ : Type} (env : HeapScanEnv) (am : ValidateEnv σ)
    (indexInfo : IndexInfo) (index : σ) (rows : List HeapTupleData)
    (hbegin : am.tuplesort_begin_error = none) :
    (∃ e, (validate_index_try env am indexInfo index rows).outcome = .error e ∧
      (validate_index_try env am indexInfo index rows).tuplesort_allocated = true ∧
      (validate_index_try env am indexInfo index rows).tuplesort_end_calls = 0) ∨
    (∃ st, (validate_index_try env am indexInfo index rows).outcome = .ok st ∧
      (validate_index_try env am indexInfo index rows).tuplesort_allocated = false ∧
      (validate_index_try env am indexInfo index rows).tuplesort_end_calls = 1) := by
  unfold validate_index_try
  simp only [hbegin]
  cases index_bulk_delete am index validate_index_callback
      { tuplesort := [], htups := 0, itups := 0, tups_inserted := 0 } with
  | error e => exact Or.inl ⟨e, rfl, rfl, rfl⟩
  | ok r =>
    obtain ⟨index1, state1⟩ := r
    simp only
    cases am.tuplesort_performsort_error with
    | some e => exact Or.inl ⟨e, rfl, rfl, rfl⟩
    | none =>
      simp only
      cases validate_index_heapscan env am.index_insert indexInfo
          { state1 with tuplesort := tuplesort_performsort state1.tuplesort } index1 rows with
      | error e => exact Or.inl ⟨e, rfl, rfl, rfl⟩
      | ok st => exact Or.inr ⟨st, rfl, rfl, rfl⟩

/-- C27: once tuplesort_begin_datum has returned, every run of validate_index
calls tuplesort_end exactly once, whether the block returns or an error is
raised by the collection (index_bulk_delete), by tuplesort_performsort or by
validate_index_heapscan; the error that leaves validate_index is the one that
was raised. When tuplesort_begin_datum itself raises there is no sort buffer
and tuplesort_end is not called. -/
theorem validate_index_releases_tuplesort {σ : Type} (env : HeapScanEnv)
    (am : ValidateEnv σ) (indexInfo : IndexInfo) (index : σ) (rows : List HeapTupleData) :
    (am.tuplesort_begin_error = none →
      (validate_index env am indexInfo index rows).tuplesort_end_calls = 1) ∧
    (∀ e, am.tuplesort_begin_error = some e →
      (validate_index env am indexInfo index rows).tuplesort_end_calls = 0 ∧
      (validate_index env am indexInfo index rows).result = .error e) ∧
    (validate_index env am indexInfo index rows).result =
      (validate_index_try env am { indexInfo with ii_Concurrent := true } index
        rows).outcome ∧
    (am.tuplesort_begin_error = none →
      (∀ e, am.index_bulk_delete_error = some e →
        (validate_index env am indexInfo index rows).result = .error e) ∧
      (∀ e, am.index_bulk_delete_error = none → am.tuplesort_performsort_error = some e →
        (validate_index env am indexInfo index rows).result = .error e) ∧
      (am.index_bulk_delete_error = none → am.tuplesort_performsort_error = none →
        (validate_index env am indexInfo index rows).result =
          validate_index_heapscan env am.index_insert { indexInfo with ii_Concurrent := true }
            { tuplesort := tuplesort_performsort (am.stored_ids index), htups := 0,
              itups := (am.stored_ids index).length, tups_inserted := 0 } index rows)) := by
  refine ⟨?_, ?_, ?_, ?_⟩
  · intro hbegin
    obtain ⟨e, h1, h2, h3⟩ | ⟨st, h1, h2, h3⟩ :=
      validate_index_try_exit env am { indexInfo with ii_Concurrent := true } index rows hbegin
    · unfold validate_index
      simp only [h1, h2, h3, if_true]
    · unfold validate_index
      simp only [h1, h3]
  · intro e hbegin
    unfold validate_index validate_index_try
    simp [hbegin]
  · unfold validate_index
    simp only
    cases (validate_index_try env am { indexInfo with ii_Concurrent := true } index
      rows).outcome <;> rfl
  · intro hbegin
    refine ⟨?_, ?_, ?_⟩
    · intro e hbulk
      unfold validate_index validate_index_try index_bulk_delete
      simp only [hbegin, hbulk]
    · intro e hbulk hsort
      unfold validate_index validate_index_try
      simp only [hbegin, index_bulk_delete_collects am index _ hbulk, hsort]
    · intro hbulk hsort
      exact validate_index_result env am indexInfo index rows hbegin hbulk hsort

/-- C30: validate_index_callback answers false for every identifier, appends
the identifier to the sort buffer, adds one to itups and leaves the other
counters alone. So the traversal of index_bulk_delete with this callback leaves
the index as it was, the buffer extended by every identifier the traversal
reported, in order and with multiplicity, and itups increased by their number;
sorting the buffer permutes it. -/
theorem validate_index_callback_collects :
    (∀ (itemptr : ItemPointerData) (state : v_i_state),
      (validate_index_callback itemptr state).1 = false ∧
      (validate_index_callback itemptr state).2.tuplesort = state.tuplesort ++ [itemptr] ∧
      (validate_index_callback itemptr state).2.itups = state.itups + 1 ∧
      (validate_index_callback itemptr state).2.htups = state.htups ∧
      (validate_index_callback itemptr state).2.tups_inserted = state.tups_inserted) ∧
    (∀ (σ : Type) (am : ValidateEnv σ) (index : σ) (state : v_i_state),
      am.index_bulk_delete_error = none →
      index_bulk_delete am index validate_index_callback state =
        .ok (index, { state with
          tuplesort := state.tuplesort ++ am.stored_ids index,
          itups := state.itups + (am.stored_ids index).length })) ∧
    (∀ (σ : Type) (am : ValidateEnv σ) (index : σ),
      am.index_bulk_delete_error = none →
      index_bulk_delete am index validate_index_callback
          { tuplesort := [], htups := 0, itups := 0, tups_inserted := 0 } =
        .ok (index, v_i_state.mk (am.stored_ids index) 0 (am.stored_ids index).length 0)) ∧
    (∀ ids : List ItemPointerData,
      (tuplesort_performsort ids).Perm ids ∧ TidSorted (tuplesort_performsort ids)) := by
  refine ⟨fun itemptr state => ⟨rfl, rfl, rfl, rfl, rfl⟩,
    fun σ am index state h => index_bulk_delete_collects am index state h, ?_, ?_⟩
  · intro σ am index h
    rw [index_bulk_delete_collects am index _ h]
    simp
  · intro ids
    exact ⟨List.perm_insertionSort _ ids, tuplesort_performsort_sorted ids⟩

/-! ### Reference-snapshot scans -/

theorem IndexBuildHeapScan_row_reference (env : HeapScanEnv) (snapshot : Snapshot) (fuel : Nat)
    (predicate : List QualClause) (st : BuildScanState) (t : HeapTupleData)
    (hs : snapshot ≠ .SnapshotAny) :
    IndexBuildHeapScan_row env snapshot fuel predicate st t =
      IndexBuildHeapScan_index predicate (IndexBuildHeapScan_newpage env st t) t true := by
  unfold IndexBuildHeapScan_row IndexBuildHeapScan_newpage
  simp only [if_neg hs]

theorem IndexBuildHeapScan_index_error (predicate : List QualClause) (st : BuildScanState)
    (t : HeapTupleData) (alive : Bool) (e : ErrorData)
    (h : IndexBuildHeapScan_index predicate st t alive = .error e) :
    e = .wrong_number_of_index_expressions := by
  unfold IndexBuildHeapScan_index at h
  simp only at h
  split at h
  · cases h
  · split at h
    · rename_i e1 hf
      rw [FormIndexDatum_eq] at hf
      split at hf
      · cases hf
      · cases hf
        cases h
        rfl
    · cases h

theorem IndexBuildHeapScan_loop_reference_error (env : HeapScanEnv) (snapshot : Snapshot)
    (fuel : Nat) (predicate : List QualClause) (hs : snapshot ≠ .SnapshotAny)
    (rows : List HeapTupleData) :
    ∀ st e, IndexBuildHeapScan_loop env snapshot fuel predicate rows st = .error e →
      e = .wrong_number_of_index_expressions := by
  induction rows with
  | nil =>
    intro st e h
    cases h
  | cons t rest ih =>
    intro st e h
    simp only [IndexBuildHeapScan_loop] at h
    cases hrow : IndexBuildHeapScan_row env snapshot fuel predicate st t with
    | error e1 =>
      rw [hrow] at h
      simp only [Except.error.injEq] at h
      subst h
      rw [IndexBuildHeapScan_row_reference env snapshot fuel predicate st t hs] at hrow
      exact IndexBuildHeapScan_index_error _ _ _ _ _ hrow
    | ok st1 =>
      rw [hrow] at h
      exact ih st1 e h

theorem IndexBuildHeapScan_loop_reference_congr (env env1 : HeapScanEnv) (snapshot : Snapshot)
    (fuel fuel1 : Nat) (predicate : List QualClause) (hs : snapshot ≠ .SnapshotAny)
    (hmap : env1.heap_get_root_tuples = env.heap_get_root_tuples)
    (rows : List HeapTupleData) :
    ∀ st, IndexBuildHeapScan_loop env1 snapshot fuel1 predicate rows st =
      IndexBuildHeapScan_loop env snapshot fuel predicate rows st := by
  induction rows with
  | nil => intro st; rfl
  | cons t rest ih =>
    intro st
    simp only [IndexBuildHeapScan_loop]
    rw [IndexBuildHeapScan_row_reference env1 snapshot fuel1 predicate st t hs,
      IndexBuildHeapScan_row_reference env snapshot fuel predicate st t hs,
      IndexBuildHeapScan_newpage_congr env env1 st t hmap]
    cases IndexBuildHeapScan_index predicate (IndexBuildHeapScan_newpage env1 st t) t true with
    | error e => rfl
    | ok st1 => exact ih st1

theorem passedVisibility_reference (env : HeapScanEnv) (snapshot : Snapshot) (fuel : Nat)
    (indexInfo : IndexInfo) (hs : snapshot ≠ .SnapshotAny) (t : HeapTupleData) :
    passedVisibility env snapshot fuel indexInfo t = true ∧
    decidedAlive env snapshot fuel indexInfo t = true := by
  unfold passedVisibility decidedAlive
  rw [visibilityDecision_reference env snapshot fuel indexInfo t hs]
  exact ⟨rfl, rfl⟩

/-- C22: when IndexBuildHeapScan runs with a snapshot other than SnapshotAny,
every row the storage scan returns is counted, and the callback is invoked, in
scan order, for exactly the rows that pass the predicate, each with its root
identifier, its projected values and tupleIsAlive true; no wait is made. The
scan returns whenever the passing rows can be projected, the only error it can
end in is the one of FormIndexDatum, and its outcome is the same for every
classifier and every budget of rechecks. -/
theorem reference_snapshot_bypasses_classifier (env : HeapScanEnv) (indexInfo : IndexInfo)
    (snapshot : Snapshot) (fuel : Nat) (rows : List HeapTupleData)
    (hs : snapshot ≠ .SnapshotAny) :
    (∀ st, IndexBuildHeapScan env indexInfo snapshot fuel rows = .ok st →
      st.reltuples = rows.length ∧
      st.callbacks = (rows.filter (passesPredicate indexInfo)).map
        (fun t => ⟨rootOf env t, (FormIndexDatum_values indexInfo t).1,
          (FormIndexDatum_values indexInfo t).2, true⟩)) ∧
    ((∀ t ∈ rows, passesPredicate indexInfo t = true →
        ∃ r, FormIndexDatum indexInfo t = .ok r) →
      ∃ st, IndexBuildHeapScan env indexInfo snapshot fuel rows = .ok st) ∧
    (∀ e, IndexBuildHeapScan env indexInfo snapshot fuel rows = .error e →
      e = .wrong_number_of_index_expressions) ∧
    (∀ (env1 : HeapScanEnv) (fuel1 : Nat),
      env1.heap_get_root_tuples = env.heap_get_root_tuples →
      IndexBuildHeapScan env1 indexInfo snapshot fuel1 rows =
        IndexBuildHeapScan env indexInfo snapshot fuel rows) := by
  have hv := passedVisibility_reference env snapshot fuel indexInfo hs
  refine ⟨?_, ?_, ?_, ?_⟩
  · intro st h
    obtain ⟨h1, h2⟩ := IndexBuildHeapScan_ok env indexInfo snapshot fuel rows st h
    constructor
    · rw [h1, List.filter_eq_self.2 (fun t _ => (hv t).1)]
    · rw [h2]
      have hf : (fun t => passedVisibility env snapshot fuel indexInfo t &&
          passesPredicate indexInfo t) = passesPredicate indexInfo := by
        funext t
        rw [(hv t).1, Bool.true_and]
      rw [hf]
      apply List.map_congr_left
      intro t _
      simp only [heapBuildCall, (hv t).2]
  · intro hproj
    exact IndexBuildHeapScan_returns env indexInfo snapshot fuel rows
      (fun t _ => ⟨_, visibilityDecision_reference env snapshot fuel indexInfo t hs⟩)
      (fun t ht _ hp => hproj t ht hp)
  · intro e h
    exact IndexBuildHeapScan_loop_reference_error env snapshot fuel _ hs rows _ e h
  · intro env1 fuel1 hmap
    exact IndexBuildHeapScan_loop_reference_congr env env1 snapshot fuel fuel1 _ hs hmap rows _

theorem reference_snapshot_bypasses_classifier_witness :
    buildOutcome (IndexBuildHeapScan (exampleEnv (fun _ => .HEAPTUPLE_DEAD) (fun _ => 0))
        (exampleIndexInfo [valueAbove10]) .TransactionSnapshot 0 rows_5_15_25) =
      some ([⟨⟨0, 2⟩, [15], [false], true⟩, ⟨⟨0, 3⟩, [25], [false], true⟩], 3) ∧
    (returned (IndexBuildHeapScan (exampleEnv (fun _ => .HEAPTUPLE_DEAD) (fun _ => 0))
        (exampleIndexInfo [valueAbove10]) .TransactionSnapshot 0 rows_5_15_25)
      (BuildScanState.init (exampleIndexInfo []))).reltuples = rows_5_15_25.length :=
  ⟨rfl, ((reference_snapshot_bypasses_classifier
    (exampleEnv (fun _ => .HEAPTUPLE_DEAD) (fun _ => 0)) (exampleIndexInfo [valueAbove10])
    .TransactionSnapshot 0 rows_5_15_25 (by decide)).1 _ rfl).1⟩

/-! ### Waits of the time qual check on a system relation -/

theorem IndexBuildHeapScan_recheck_wait (env : HeapScanEnv) (t : HeapTupleData)
    (fuel waited : Nat) (a : IndexInfo) (w : List TransactionId)
    (hsys : env.IsSystemRelation = true)
    (hf : foreignInProgress env t waited = true) :
    IndexBuildHeapScan_recheck env t (fuel + 1) waited a w =
      IndexBuildHeapScan_recheck env t fuel (waited + 1) a
        (w ++ [waitedTransaction env t waited]) := by
  unfold foreignInProgress at hf
  unfold waitedTransaction
  rw [IndexBuildHeapScan_recheck]
  cases hc : env.HeapTupleSatisfiesVacuum t waited <;> rw [hc] at hf <;>
    simp only [Bool.false_eq_true, Bool.not_eq_true'] at hf
  · simp [hf, hsys]
  · simp [hf, hsys]

theorem IndexBuildHeapScan_recheck_decided (env : HeapScanEnv) (t : HeapTupleData)
    (fuel waited : Nat) (a : IndexInfo) (w : List TransactionId)
    (hf : foreignInProgress env t waited = false) :
    (∀ q, IndexBuildHeapScan_recheck env t (fuel + 1) waited a w = .ok q →
      q.waits = w ∧
      q.indexInfo = (if ambiguousChainMember env t waited then
        { a with ii_BrokenHotChain := true } else a)) ∧
    (env.HeapTupleSatisfiesVacuum t waited ≠ .HEAPTUPLE_UNEXPECTED →
      ∃ q, IndexBuildHeapScan_recheck env t (fuel + 1) waited a w = .ok q) := by
  unfold foreignInProgress at hf
  unfold ambiguousChainMember
  rw [IndexBuildHeapScan_recheck]
  cases hc : env.HeapTupleSatisfiesVacuum t waited <;> rw [hc] at hf <;>
    simp only [Bool.not_eq_false'] at hf
  · simp
  · simp
  · cases hh : t.hot_updated <;> simp
  · simp [hf]
  · cases hh : t.hot_updated <;> simp [hf]
  · simp

theorem IndexBuildHeapScan_recheck_waits (env : HeapScanEnv) (t : HeapTupleData)
    (hsys : env.IsSystemRelation = true) (n : Nat) :
    ∀ (k0 fuel : Nat) (a : IndexInfo) (w : List TransactionId),
      (∀ k, k < n → foreignInProgress env t (k0 + k) = true) →
      IndexBuildHeapScan_recheck env t (n + fuel) k0 a w =
        IndexBuildHeapScan_recheck env t fuel (k0 + n) a
          (w ++ (List.range n).map (fun k => waitedTransaction env t (k0 + k))) := by
  induction n with
  | zero =>
    intro k0 fuel a w _
    simp
  | succ n ih =>
    intro k0 fuel a w hw
    have h0 : foreignInProgress env t k0 = true := by
      have := hw 0 (Nat.succ_pos n)
      simpa using this
    have hstep : n + 1 + fuel = (n + fuel) + 1 := by omega
    rw [hstep, IndexBuildHeapScan_recheck_wait env t (n + fuel) k0 a w hsys h0,
      ih (k0 + 1) fuel a _ (fun k hk => by
        have := hw (k + 1) (Nat.succ_lt_succ hk)
        rw [show k0 + 1 + k = k0 + (k + 1) by omega]
        exact this)]
    have hk : k0 + 1 + n = k0 + (n + 1) := by omega
    rw [hk]
    congr 1
    rw [List.range_succ_eq_map, List.map_cons, List.map_map, List.append_assoc]
    congr 1
    rw [List.singleton_append, Nat.add_zero]
    congr 1
    apply List.map_congr_left
    intro k _
    simp only [Function.comp, Nat.succ_eq_add_one]
    rw [show k0 + 1 + k = k0 + (k + 1) by omega]

/-- C21 (as stated) fails: on a system relation a row version first classified
InsertInProgress by the foreign transaction 7 and, after the wait for it,
DeleteInProgress by the foreign transaction 8 makes IndexBuildHeapScan wait
twice, for 7 and then for 8, before the third classification decides the
row. -/
theorem two_waits_counterexample :
    (exampleCatalogEnv (fun _ k =>
        if k = 0 then .HEAPTUPLE_INSERT_IN_PROGRESS
        else if k = 1 then .HEAPTUPLE_DELETE_IN_PROGRESS else .HEAPTUPLE_LIVE)).IsSystemRelation =
      true ∧
    (returned (IndexBuildHeapScan
        (exampleCatalogEnv (fun _ k =>
          if k = 0 then .HEAPTUPLE_INSERT_IN_PROGRESS
          else if k = 1 then .HEAPTUPLE_DELETE_IN_PROGRESS else .HEAPTUPLE_LIVE))
        (exampleIndexInfo []) .SnapshotAny 3 [exampleForeignRow])
      (BuildScanState.init (exampleIndexInfo []))).waits = [7, 8] ∧
    buildOutcome (IndexBuildHeapScan
        (exampleCatalogEnv (fun _ k =>
          if k = 0 then .HEAPTUPLE_INSERT_IN_PROGRESS
          else if k = 1 then .HEAPTUPLE_DELETE_IN_PROGRESS else .HEAPTUPLE_LIVE))
        (exampleIndexInfo []) .SnapshotAny 3 [exampleForeignRow]) =
      some ([⟨⟨0, 2⟩, [15], [false], true⟩], 1) :=
  ⟨rfl, rfl, rfl⟩

/-- C21 (amended): on a system relation, in liveness-evaluation mode, every
classification of a row version as in progress by a foreign transaction makes
the time qual check of IndexBuildHeapScan wait for that transaction and
classify again, and the first classification that is not of this kind decides
the row. So when the first n classifications of a row are foreign in-progress
and the next one is not, exactly n waits are made for the row, for the
transactions of these n classifications in order: exactly one when the
classification after the first wait decides. The check returns unless the
deciding classification is an unexpected result. -/
theorem waits_follow_foreign_classifications (env : HeapScanEnv) (t : HeapTupleData)
    (n fuel : Nat) (a : IndexInfo) (w : List TransactionId)
    (hsys : env.IsSystemRelation = true)
    (hwait : ∀ k, k < n → foreignInProgress env t k = true)
    (hdec : foreignInProgress env t n = false) :
    IndexBuildHeapScan_recheck env t (n + (fuel + 1)) 0 a w =
      IndexBuildHeapScan_recheck env t (fuel + 1) n a
        (w ++ (List.range n).map (waitedTransaction env t)) ∧
    (∀ q, IndexBuildHeapScan_recheck env t (n + (fuel + 1)) 0 a w = .ok q →
      q.waits = w ++ (List.range n).map (waitedTransaction env t) ∧
      q.waits.length = w.length + n) ∧
    (env.HeapTupleSatisfiesVacuum t n ≠ .HEAPTUPLE_UNEXPECTED →
      ∃ q, IndexBuildHeapScan_recheck env t (n + (fuel + 1)) 0 a w = .ok q) := by
  have hw := IndexBuildHeapScan_recheck_waits env t hsys n 0 (fuel + 1) a w
    (fun k hk => by
      rw [Nat.zero_add]
      exact hwait k hk)
  simp only [Nat.zero_add] at hw
  obtain ⟨d1, d2⟩ := IndexBuildHeapScan_recheck_decided env t fuel n a
    (w ++ (List.range n).map (waitedTransaction env t)) hdec
  refine ⟨hw, ?_, ?_⟩
  · intro q hq
    rw [hw] at hq
    obtain ⟨e1, -⟩ := d1 q hq
    rw [e1]
    simp
  · intro hu
    rw [hw]
    exact d2 hu

theorem waits_follow_foreign_classifications_witness :
    (exampleCatalogEnv (fun _ k =>
        if k = 0 then .HEAPTUPLE_INSERT_IN_PROGRESS else .HEAPTUPLE_LIVE)).IsSystemRelation =
      true ∧
    ∀ q, IndexBuildHeapScan_recheck
        (exampleCatalogEnv (fun _ k =>
          if k = 0 then .HEAPTUPLE_INSERT_IN_PROGRESS else .HEAPTUPLE_LIVE))
        exampleForeignRow (1 + (0 + 1)) 0 (exampleIndexInfo []) [] = .ok q →
      q.waits = [] ++ (List.range 1).map
        (waitedTransaction (exampleCatalogEnv (fun _ k =>
          if k = 0 then .HEAPTUPLE_INSERT_IN_PROGRESS else .HEAPTUPLE_LIVE))
          exampleForeignRow) ∧
      q.waits.length = ([] : List TransactionId).length + 1 :=
  ⟨rfl, (waits_follow_foreign_classifications
    (exampleCatalogEnv (fun _ k =>
      if k = 0 then .HEAPTUPLE_INSERT_IN_PROGRESS else .HEAPTUPLE_LIVE))
    exampleForeignRow 1 0 (exampleIndexInfo []) [] rfl
    (fun k hk => by
      have hk0 : k = 0 := by omega
      subst hk0
      rfl)
    rfl).2.1⟩

/-! ### The broken-chain flag -/

theorem IndexBuildHeapScan_recheck_foreign_raises (env : HeapScanEnv) (t : HeapTupleData)
    (fuel waited : Nat) (a : IndexInfo) (w : List TransactionId)
    (hsys : env.IsSystemRelation = false)
    (hf : foreignInProgress env t waited = true) :
    ∃ e, IndexBuildHeapScan_recheck env t (fuel + 1) waited a w = .error e := by
  unfold foreignInProgress at hf
  rw [IndexBuildHeapScan_recheck]
  cases hc : env.HeapTupleSatisfiesVacuum t waited <;> rw [hc] at hf <;>
    simp only [Bool.false_eq_true, Bool.not_eq_true'] at hf
  · simp [hf, hsys]
  · simp [hf, hsys]

theorem IndexBuildHeapScan_recheck_unexpected (env : HeapScanEnv) (t : HeapTupleData)
    (fuel waited : Nat) (a : IndexInfo) (w : List TransactionId)
    (hc : env.HeapTupleSatisfiesVacuum t waited = .HEAPTUPLE_UNEXPECTED) :
    IndexBuildHeapScan_recheck env t (fuel + 1) waited a w =
      .error .unexpected_HeapTupleSatisfiesVacuum_result := by
  rw [IndexBuildHeapScan_recheck, hc]

theorem IndexBuildHeapScan_recheck_flag (env : HeapScanEnv) (t : HeapTupleData) (fuel : Nat) :
    ∀ (waited : Nat) (a : IndexInfo) (w : List TransactionId) (q : TimeQual),
      IndexBuildHeapScan_recheck env t fuel waited a w = .ok q →
      ∃ n, q.waits.length = w.length + n ∧
        q.indexInfo = (if ambiguousChainMember env t (waited + n) then
          { a with ii_BrokenHotChain := true } else a) ∧
        (env.IsSystemRelation = false → n = 0) ∧
        (∀ (b : IndexInfo) (wb : List TransactionId),
          ∃ q1, IndexBuildHeapScan_recheck env t fuel waited b wb = .ok q1 ∧
            q1.waits.length = wb.length + n) := by
  induction fuel with
  | zero =>
    intro waited a w q h
    simp [IndexBuildHeapScan_recheck] at h
  | succ fuel ih =>
    intro waited a w q h
    cases hf : foreignInProgress env t waited
    · obtain ⟨d1, -⟩ := IndexBuildHeapScan_recheck_decided env t fuel waited a w hf
      obtain ⟨e1, e2⟩ := d1 q h
      refine ⟨0, by rw [e1]; rfl, by rw [Nat.add_zero]; exact e2, fun _ => rfl, ?_⟩
      intro b wb
      have hu : env.HeapTupleSatisfiesVacuum t waited ≠ .HEAPTUPLE_UNEXPECTED := by
        intro hc
        rw [IndexBuildHeapScan_recheck_unexpected env t fuel waited a w hc] at h
        cases h
      obtain ⟨b1, b2⟩ := IndexBuildHeapScan_recheck_decided env t fuel waited b wb hf
      obtain ⟨q1, hq1⟩ := b2 hu
      exact ⟨q1, hq1, by rw [(b1 q1 hq1).1]; rfl⟩
    · cases hsys : env.IsSystemRelation
      · obtain ⟨e, he⟩ := IndexBuildHeapScan_recheck_foreign_raises env t fuel waited a w hsys hf
        rw [he] at h
        cases h
      · rw [IndexBuildHeapScan_recheck_wait env t fuel waited a w hsys hf] at h
        obtain ⟨n, g1, g2, -, g4⟩ := ih (waited + 1) a _ q h
        refine ⟨n + 1, ?_, ?_, fun hc => Bool.noConfusion hc, ?_⟩
        · rw [g1, List.length_append, List.length_singleton]
          omega
        · rw [g2, show waited + 1 + n = waited + (n + 1) by omega]
        · intro b wb
          rw [IndexBuildHeapScan_recheck_wait env t fuel waited b wb hsys hf]
          obtain ⟨q1, hq1, hl⟩ := g4 b (wb ++ [waitedTransaction env t waited])
          refine ⟨q1, hq1, ?_⟩
          rw [hl, List.length_append, List.length_singleton]
          omega

theorem IndexBuildHeapScan_row_flag (env : HeapScanEnv) (indexInfo : IndexInfo)
    (snapshot : Snapshot) (fuel : Nat) (st st1 : BuildScanState) (t : HeapTupleData)
    (hinv : BuildInv env indexInfo st)
    (h : IndexBuildHeapScan_row env snapshot fuel indexInfo.ii_Predicate st t = .ok st1) :
    st1.indexInfo.ii_BrokenHotChain =
      (st.indexInfo.ii_BrokenHotChain ||
        (decide (snapshot = .SnapshotAny) &&
          metAmbiguousChainMember env fuel indexInfo t)) := by
  obtain ⟨n1, n2, n3, n4, n5, n6⟩ := IndexBuildHeapScan_newpage_spec env st t hinv.1
  by_cases hs : snapshot = .SnapshotAny
  · subst hs
    rw [IndexBuildHeapScan_row_of_recheck] at h
    cases hq : IndexBuildHeapScan_recheck env t fuel 0
        (IndexBuildHeapScan_newpage env st t).indexInfo
        (IndexBuildHeapScan_newpage env st t).waits with
    | error e =>
      rw [hq] at h
      cases h
    | ok q =>
      rw [hq] at h
      simp only at h
      obtain ⟨n, -, g2, -, g4⟩ := IndexBuildHeapScan_recheck_flag env t fuel 0 _ _ q hq
      obtain ⟨q1, hq1, hl⟩ := g4 indexInfo []
      have hw : waitsFor env fuel indexInfo t = n := by
        unfold waitsFor
        rw [hq1]
        simp only [hl, List.length_nil, Nat.zero_add]
      have hflag : q.indexInfo.ii_BrokenHotChain =
          (st.indexInfo.ii_BrokenHotChain ||
            metAmbiguousChainMember env fuel indexInfo t) := by
        unfold metAmbiguousChainMember
        rw [hw, g2, n3, Nat.zero_add]
        cases ambiguousChainMember env t n <;> simp
      simp only [decide_True, Bool.true_and]
      rw [← hflag]
      by_cases hi : (!q.indexIt) = true
      · rw [if_pos hi] at h
        cases h
        rfl
      · rw [if_neg hi] at h
        have hd : SameDescriptor q.indexInfo indexInfo :=
          SameDescriptor.trans
            ((IndexBuildHeapScan_recheck_indep env t fuel 0 _ indexInfo _ []).2 q hq).1
            (by rw [n3]; exact hinv.2)
        obtain ⟨-, -, -, -, -, -, r7⟩ := IndexBuildHeapScan_index_ok env indexInfo
          { IndexBuildHeapScan_newpage env st t with
            indexInfo := q.indexInfo, waits := q.waits } st1 t q.tupleIsAlive hd n1 h
        exact r7
  · rw [IndexBuildHeapScan_row_reference env snapshot fuel _ st t hs] at h
    obtain ⟨-, -, -, -, -, -, r7⟩ := IndexBuildHeapScan_index_ok env indexInfo
      (IndexBuildHeapScan_newpage env st t) st1 t true (by rw [n3]; exact hinv.2) n1 h
    rw [r7, n3]
    simp [hs]

theorem IndexBuildHeapScan_loop_flag (env : HeapScanEnv) (indexInfo : IndexInfo)
    (snapshot : Snapshot) (fuel : Nat) (rows : List HeapTupleData) :
    ∀ (st st1 : BuildScanState), BuildInv env indexInfo st →
      IndexBuildHeapScan_loop env snapshot fuel indexInfo.ii_Predicate rows st = .ok st1 →
      st1.indexInfo.ii_BrokenHotChain =
        (st.indexInfo.ii_BrokenHotChain ||
          (decide (snapshot = .SnapshotAny) &&
            rows.any (metAmbiguousChainMember env fuel indexInfo))) := by
  induction rows with
  | nil =>
    intro st st1 _ h
    simp only [IndexBuildHeapScan_loop, Except.ok.injEq] at h
    subst h
    simp
  | cons t rest ih =>
    intro st st1 hinv h
    simp only [IndexBuildHeapScan_loop] at h
    cases hrow : IndexBuildHeapScan_row env snapshot fuel indexInfo.ii_Predicate st t with
    | error e =>
      rw [hrow] at h
      cases h
    | ok st2 =>
      rw [hrow] at h
      simp only at h
      have hinv2 := (IndexBuildHeapScan_row_ok env indexInfo snapshot fuel st st2 t hinv hrow).1
      rw [ih st2 st1 hinv2 h,
        IndexBuildHeapScan_row_flag env indexInfo snapshot fuel st st2 t hinv hrow,
        List.any_cons]
      cases st.indexInfo.ii_BrokenHotChain <;> cases decide (snapshot = .SnapshotAny) <;>
        cases metAmbiguousChainMember env fuel indexInfo t <;> simp

theorem waitsFor_ordinary (env : HeapScanEnv) (fuel : Nat) (indexInfo : IndexInfo)
    (t : HeapTupleData) (hsys : env.IsSystemRelation = false) :
    waitsFor env fuel indexInfo t = 0 := by
  unfold waitsFor
  cases hq : IndexBuildHeapScan_recheck env t fuel 0 indexInfo [] with
  | error e => rfl
  | ok q =>
    obtain ⟨n, g1, -, g3, -⟩ := IndexBuildHeapScan_recheck_flag env t fuel 0 indexInfo [] q hq
    simp only [g1, g3 hsys, List.length_nil]

/-- C23: when IndexBuildHeapScan returns, ii_BrokenHotChain is true exactly
when it was true before the scan, or the scan ran under SnapshotAny and one of
its rows is HOT-updated and was decided by a classification RecentlyDead, or
DeleteInProgress with the current transaction as deleter (the deciding
classification is the one obtained after the waits made for the row; on a
table that is not a system relation it is the first one). A scan under any
other snapshot leaves the flag as it was, a flag that was true stays true,
and IndexBuildScan hands the flag of its heap scan on unchanged. -/
theorem broken_chain_flag_iff (env : HeapScanEnv) (indexInfo : IndexInfo)
    (snapshot : Snapshot) (fuel : Nat) (rows : List HeapTupleData) (st : BuildScanState)
    (h : IndexBuildHeapScan env indexInfo snapshot fuel rows = .ok st) :
    (st.indexInfo.ii_BrokenHotChain = true ↔
      indexInfo.ii_BrokenHotChain = true ∨
      (snapshot = .SnapshotAny ∧
        ∃ t ∈ rows, t.hot_updated = true ∧
          (env.HeapTupleSatisfiesVacuum t (waitsFor env fuel indexInfo t) =
              .HEAPTUPLE_RECENTLY_DEAD ∨
            (env.HeapTupleSatisfiesVacuum t (waitsFor env fuel indexInfo t) =
                .HEAPTUPLE_DELETE_IN_PROGRESS ∧
              env.TransactionIdIsCurrentTransactionId t.xmax = true)))) ∧
    (snapshot ≠ .SnapshotAny →
      st.indexInfo.ii_BrokenHotChain = indexInfo.ii_BrokenHotChain) ∧
    (indexInfo.ii_BrokenHotChain = true → st.indexInfo.ii_BrokenHotChain = true) ∧
    (env.IsSystemRelation = false → ∀ t, waitsFor env fuel indexInfo t = 0) ∧
    (∀ (bootstrap blkdir : Bool) (scan : Snapshot → List HeapTupleData)
      (st1 : BuildScanState),
      IndexBuildScan env bootstrap .heap blkdir indexInfo fuel scan = .ok st1 →
      ∃ st0, IndexBuildHeapScan env indexInfo
          (IndexBuildScan_snapshot bootstrap .heap indexInfo) fuel
          (scan (IndexBuildScan_snapshot bootstrap .heap indexInfo)) = .ok st0 ∧
        st1.indexInfo.ii_BrokenHotChain = st0.indexInfo.ii_BrokenHotChain) := by
  have hflag := IndexBuildHeapScan_loop_flag env indexInfo snapshot fuel rows _ st
    (BuildInv_init env indexInfo) h
  have hinit : (BuildScanState.init indexInfo).indexInfo.ii_BrokenHotChain =
      indexInfo.ii_BrokenHotChain := rfl
  rw [hinit] at hflag
  have hmet : ∀ t, metAmbiguousChainMember env fuel indexInfo t = true ↔
      (t.hot_updated = true ∧
        (env.HeapTupleSatisfiesVacuum t (waitsFor env fuel indexInfo t) =
            .HEAPTUPLE_RECENTLY_DEAD ∨
          (env.HeapTupleSatisfiesVacuum t (waitsFor env fuel indexInfo t) =
              .HEAPTUPLE_DELETE_IN_PROGRESS ∧
            env.TransactionIdIsCurrentTransactionId t.xmax = true))) := by
    intro t
    unfold metAmbiguousChainMember ambiguousChainMember
    cases env.HeapTupleSatisfiesVacuum t (waitsFor env fuel indexInfo t) <;> simp
  refine ⟨?_, ?_, ?_, ?_, ?_⟩
  · rw [hflag]
    simp only [Bool.or_eq_true, Bool.and_eq_true, decide_eq_true_eq, List.any_eq_true, hmet]
  · intro hs
    rw [hflag]
    simp [hs]
  · intro hb
    rw [hflag, hb]
    rfl
  · intro hsys t
    exact waitsFor_ordinary env fuel indexInfo t hsys
  · intro bootstrap blkdir scan st1 h1
    unfold IndexBuildScan at h1
    simp only at h1
    cases h0 : IndexBuildHeapScan env indexInfo
        (IndexBuildScan_snapshot bootstrap .heap indexInfo) fuel
        (scan (IndexBuildScan_snapshot bootstrap .heap indexInfo)) with
    | error e =>
      rw [h0] at h1
      cases h1
    | ok st0 =>
      rw [h0] at h1
      cases h1
      exact ⟨st0, rfl, rfl⟩

theorem broken_chain_flag_iff_witness :
    buildOutcome (IndexBuildHeapScan
        (exampleEnv (fun t => if t.hot_updated then .HEAPTUPLE_RECENTLY_DEAD else .HEAPTUPLE_LIVE)
          (fun _ => 1))
        (exampleIndexInfo []) .SnapshotAny 1
        [exampleRow 0 1 false true 20, exampleRow 0 2 true false 15]) =
      some ([⟨⟨0, 1⟩, [15], [false], true⟩], 1) ∧
    (exampleIndexInfo []).ii_BrokenHotChain = false ∧
    (returned (IndexBuildHeapScan
        (exampleEnv (fun t => if t.hot_updated then .HEAPTUPLE_RECENTLY_DEAD else .HEAPTUPLE_LIVE)
          (fun _ => 1))
        (exampleIndexInfo []) .SnapshotAny 1
        [exampleRow 0 1 false true 20, exampleRow 0 2 true false 15])
      (BuildScanState.init (exampleIndexInfo []))).indexInfo.ii_BrokenHotChain = true :=
  ⟨rfl, rfl,
    (broken_chain_flag_iff
      (exampleEnv (fun t => if t.hot_updated then .HEAPTUPLE_RECENTLY_DEAD else .HEAPTUPLE_LIVE)
        (fun _ => 1))
      (exampleIndexInfo []) .SnapshotAny 1
      [exampleRow 0 1 false true 20, exampleRow 0 2 true false 15] _ rfl).1.2
      (Or.inr ⟨rfl, exampleRow 0 1 false true 20, List.mem_cons_self _ _, rfl,
        Or.inl rfl⟩)⟩

/-! ### Validation against an empty buffer and the build pass -/

theorem validate_index_heapscan_newpage_inv_nil {σ : Type} (env : HeapScanEnv)
    (indexInfo : IndexInfo) (tids : List ItemPointerData) (st : ValidateScanState σ)
    (heapTuple : HeapTupleData) (hinv : MergeInv env indexInfo tids [] st) :
    MergeInv env indexInfo tids [] (validate_index_heapscan_newpage env st heapTuple) ∧
    (validate_index_heapscan_newpage env st heapTuple).root_blkno =
      some heapTuple.t_self.ip_blkid ∧
    (validate_index_heapscan_newpage env st heapTuple).index = st.index ∧
    (validate_index_heapscan_newpage env st heapTuple).inserts = st.inserts := by
  obtain ⟨h1, h2, h3, h4, h5⟩ := hinv
  unfold validate_index_heapscan_newpage
  by_cases hb : st.root_blkno = some heapTuple.t_self.ip_blkid
  · rw [if_neg (by simpa using hb)]
    exact ⟨⟨h1, h2, fun _ => rfl, fun b hb1 => h4 b hb1, h5⟩, hb, rfl, rfl⟩
  · rw [if_pos (by simpa using hb)]
    refine ⟨⟨h1, h2, fun _ => rfl, ?_, h5⟩, rfl, rfl, rfl⟩
    intro b hb1
    have hb2 : some heapTuple.t_self.ip_blkid = some b := hb1
    simp only [Option.some.injEq] at hb2
    subst hb2
    refine ⟨rfl, ?_, ?_⟩
    · intro c hc
      cases hc
    · intro k
      constructor
      · intro hk
        cases hk
      · rintro ⟨c, hc, -⟩
        cases hc

theorem validate_index_heapscan_row_prelude_nil {σ : Type} (env : HeapScanEnv)
    (index_insert : σ → IndexInsertCall → Except ErrorData σ)
    (indexInfo : IndexInfo) (predicate : List QualClause) (st : ValidateScanState σ)
    (heapTuple : HeapTupleData) (hinv : MergeInv env indexInfo [] [] st) :
    ∃ st3 : ValidateScanState σ,
      MergeInv env indexInfo [] [] st3 ∧
      st3.index = st.index ∧ st3.inserts = st.inserts ∧
      (validate_index_overshot (rootOf env heapTuple) st3.tuplesort_empty st3.indexcursor &&
        !st3.in_index (((rootOf env heapTuple).ip_posid : Int) - 1)) =
        decide (rootOf env heapTuple ∉ ([] : List ItemPointerData)) ∧
      validate_index_heapscan_row env index_insert predicate st heapTuple =
        validate_index_heapscan_insert index_insert predicate st3 heapTuple
          (rootOf env heapTuple) := by
  obtain ⟨n1, n2, n3, n4⟩ :=
    validate_index_heapscan_newpage_inv_nil env indexInfo [] st heapTuple hinv
  have hroots := (n1.2.2.2.1 _ n2).1
  have hroot : ({ heapTuple.t_self with
      ip_posid := validate_index_root_offnum
        (validate_index_heapscan_newpage env st heapTuple) heapTuple } : ItemPointerData) =
      rootOf env heapTuple := by
    unfold validate_index_root_offnum rootOf rootItemPointer
    rw [hroots]
    split <;> rfl
  have hrb : (rootOf env heapTuple).ip_blkid = heapTuple.t_self.ip_blkid := by
    unfold rootOf rootItemPointer
    split <;> rfl
  have n2r : (validate_index_heapscan_newpage env st heapTuple).root_blkno =
      some (rootOf env heapTuple).ip_blkid := by rw [hrb]; exact n2
  obtain ⟨⟨passed3, m1⟩, m2, m3, m4, -, -, -, m8⟩ :=
    validate_index_heapscan_merge_inv env indexInfo [] []
      (validate_index_heapscan_newpage env st heapTuple) (rootOf env heapTuple) n1 n2r
  have hp3 : passed3 = [] := by
    cases he : (validate_index_heapscan_merge (rootOf env heapTuple)
        (validate_index_heapscan_newpage env st heapTuple)).tuplesort_empty
    · have := m1.2.1 he
      exact (List.append_eq_nil.1 this.symm).1
    · exact (m1.1 he).2.symm
  subst hp3
  refine ⟨validate_index_heapscan_merge (rootOf env heapTuple)
    (validate_index_heapscan_newpage env st heapTuple), m1, m3.trans n3, m4.trans n4, ?_, ?_⟩
  · exact validate_index_insert_condition env indexInfo [] [] _ _ List.Pairwise.nil m1
      (m2.trans n2r) m8
  · unfold validate_index_heapscan_row
    simp only [hroot]

theorem validate_index_heapscan_insert_projects {σ : Type} (env : HeapScanEnv)
    (index_insert : σ → IndexInsertCall → Except ErrorData σ)
    (indexInfo : IndexInfo) (tids passed : List ItemPointerData)
    (st st1 : ValidateScanState σ) (heapTuple : HeapTupleData)
    (hinv : MergeInv env indexInfo tids passed st)
    (hcond : (validate_index_overshot (rootOf env heapTuple) st.tuplesort_empty st.indexcursor &&
        !st.in_index (((rootOf env heapTuple).ip_posid : Int) - 1)) =
        decide (rootOf env heapTuple ∉ tids))
    (hm : missingFrom env indexInfo tids heapTuple = true)
    (h : validate_index_heapscan_insert index_insert indexInfo.ii_Predicate st heapTuple
      (rootOf env heapTuple) = .ok st1) :
    ∃ r, FormIndexDatum indexInfo heapTuple = .ok r := by
  cases hf : FormIndexDatum indexInfo heapTuple with
  | ok r => exact ⟨r, rfl⟩
  | error e =>
    exfalso
    unfold validate_index_heapscan_insert at h
    rw [hcond, not_passesPredicate_iff] at h
    unfold missingFrom at hm
    simp only [Bool.and_eq_true, decide_eq_true_eq] at hm
    simp only [hm.1, not_false_eq_true, decide_True, hm.2, Bool.not_true, Bool.false_eq_true,
      if_false, if_true] at h
    cases hg : FormIndexDatum st.indexInfo heapTuple with
    | error e1 =>
      rw [hg] at h
      cases h
    | ok r1 =>
      obtain ⟨-, -, b1, hb1⟩ :=
        (FormIndexDatum_congr hinv.2.2.2.2 heapTuple).2 r1.1 r1.2.1 r1.2.2 hg
      rw [hf] at hb1
      cases hb1

theorem validate_index_heapscan_loop_nil {σ : Type} (env : HeapScanEnv)
    (index_insert : σ → IndexInsertCall → Except ErrorData σ)
    (indexInfo : IndexInfo) (rows : List HeapTupleData) :
    ∀ (st st1 : ValidateScanState σ), MergeInv env indexInfo [] [] st →
      validate_index_heapscan_loop env index_insert indexInfo.ii_Predicate rows st = .ok st1 →
      st1.inserts = st.inserts ++
        (rows.filter (passesPredicate indexInfo)).map (validateCall env indexInfo) ∧
      ∀ t ∈ rows, passesPredicate indexInfo t = true →
        ∃ r, FormIndexDatum indexInfo t = .ok r := by
  induction rows with
  | nil =>
    intro st st1 _ h
    simp only [validate_index_heapscan_loop, Except.ok.injEq] at h
    subst h
    exact ⟨by simp, fun t ht => by cases ht⟩
  | cons t rest ih =>
    intro st st1 hinv h
    simp only [validate_index_heapscan_loop] at h
    cases hrow : validate_index_heapscan_row env index_insert indexInfo.ii_Predicate st t with
    | error e =>
      rw [hrow] at h
      cases h
    | ok st2 =>
      rw [hrow] at h
      simp only at h
      obtain ⟨st3, p1, -, p4, p7, p8⟩ := validate_index_heapscan_row_prelude_nil env
        index_insert indexInfo indexInfo.ii_Predicate st t hinv
      rw [p8] at hrow
      obtain ⟨q1, -, -, q4, -⟩ := validate_index_heapscan_insert_ok env index_insert
        indexInfo [] [] st3 st2 t p1 p7 hrow
      have hmiss : missingFrom env indexInfo [] t = passesPredicate indexInfo t := by
        simp [missingFrom]
      obtain ⟨r1, r2⟩ := ih st2 st1 q1 h
      constructor
      · rw [r1, q4, p4, List.filter_cons, hmiss]
        cases passesPredicate indexInfo t <;> simp
      · intro u hu hp
        rcases List.mem_cons.1 hu with hu | hu
        · subst hu
          exact validate_index_heapscan_insert_projects env index_insert indexInfo [] [] st3
            st2 u p1 p7 (by rw [hmiss]; exact hp) hrow
        · exact r2 u hu hp

theorem validate_index_heapscan_loop_nil_returns {σ : Type} (env : HeapScanEnv)
    (index_insert : σ → IndexInsertCall → Except ErrorData σ)
    (indexInfo : IndexInfo) (rows : List HeapTupleData) :
    ∀ (st : ValidateScanState σ), MergeInv env indexInfo [] [] st →
      (∀ t ∈ rows, passesPredicate indexInfo t = true →
        (∃ r, FormIndexDatum indexInfo t = .ok r) ∧
        ∀ index, ∃ index1, index_insert index (validateCall env indexInfo t) = .ok index1) →
      ∃ st1, validate_index_heapscan_loop env index_insert indexInfo.ii_Predicate rows st =
        .ok st1 := by
  induction rows with
  | nil =>
    intro st _ _
    exact ⟨st, rfl⟩
  | cons t rest ih =>
    intro st hinv hq
    obtain ⟨st3, p1, -, -, p7, p8⟩ := validate_index_heapscan_row_prelude_nil env
      index_insert indexInfo indexInfo.ii_Predicate st t hinv
    have hmiss : missingFrom env indexInfo [] t = passesPredicate indexInfo t := by
      simp [missingFrom]
    obtain ⟨st2, hst2⟩ := validate_index_heapscan_insert_returns env index_insert indexInfo
      [] [] st3 t p1 p7 (fun hm => hq t (List.mem_cons_self _ _) (by rw [← hmiss]; exact hm))
    obtain ⟨q1, -⟩ := validate_index_heapscan_insert_ok env index_insert
      indexInfo [] [] st3 st2 t p1 p7 hst2
    obtain ⟨st1, hst1⟩ := ih st2 q1 (fun u hu => hq u (List.mem_cons_of_mem _ hu))
    refine ⟨st1, ?_⟩
    simp only [validate_index_heapscan_loop]
    rw [p8, hst2]
    exact hst1

/-- C24: for any heap scan, validate_index_heapscan run against an empty
buffer of index identifiers and IndexBuildHeapScan run over the same rows
under a snapshot other than SnapshotAny treat the rows alike: whenever the
validation returns, the build scan returns too, and the index_insert calls of
the one and the callback invocations of the other are made for the same rows,
those passing the predicate, in the same order, with the same root
identifiers, values and null flags. Both return whenever the passing rows can
be projected and index_insert does not raise. -/
theorem validation_matches_build {σ : Type} (env : HeapScanEnv)
    (index_insert : σ → IndexInsertCall → Except ErrorData σ)
    (indexInfo : IndexInfo) (snapshot : Snapshot) (fuel : Nat) (state : v_i_state)
    (index : σ) (rows : List HeapTupleData)
    (hs : snapshot ≠ .SnapshotAny) (hempty : state.tuplesort = []) :
    (∀ vst, validate_index_heapscan env index_insert indexInfo state index rows = .ok vst →
      ∃ bst, IndexBuildHeapScan env indexInfo snapshot fuel rows = .ok bst ∧
        vst.inserts.map (fun c => (c.heap_t_ctid, c.values, c.isnull)) =
          bst.callbacks.map (fun c => (c.tid, c.values, c.isnull)) ∧
        vst.inserts =
          (rows.filter (passesPredicate indexInfo)).map (validateCall env indexInfo) ∧
        bst.callbacks = (rows.filter (passesPredicate indexInfo)).map
          (heapBuildCall env snapshot fuel indexInfo)) ∧
    ((∀ t ∈ rows, passesPredicate indexInfo t = true →
        ∃ r, FormIndexDatum indexInfo t = .ok r) →
      (∀ index0 call, ∃ index1, index_insert index0 call = .ok index1) →
      (∃ vst, validate_index_heapscan env index_insert indexInfo state index rows = .ok vst) ∧
      (∃ bst, IndexBuildHeapScan env indexInfo snapshot fuel rows = .ok bst)) := by
  have hinit : MergeInv env indexInfo [] [] (ValidateScanState.init indexInfo state index) := by
    have := MergeInv_init env indexInfo state index
    rw [hempty] at this
    exact this
  have hv := passedVisibility_reference env snapshot fuel indexInfo hs
  have hbuild : (∀ t ∈ rows, passesPredicate indexInfo t = true →
      ∃ r, FormIndexDatum indexInfo t = .ok r) →
      ∃ bst, IndexBuildHeapScan env indexInfo snapshot fuel rows = .ok bst := fun hproj =>
    IndexBuildHeapScan_returns env indexInfo snapshot fuel rows
      (fun t _ => ⟨_, visibilityDecision_reference env snapshot fuel indexInfo t hs⟩)
      (fun t ht _ hp => hproj t ht hp)
  constructor
  · intro vst h
    unfold validate_index_heapscan at h
    cases hl : validate_index_heapscan_loop env index_insert
        (ExecPrepareExpr indexInfo.ii_Predicate) rows
        (ValidateScanState.init indexInfo state index) with
    | error e =>
      rw [hl] at h
      cases h
    | ok st1 =>
      rw [hl] at h
      cases h
      obtain ⟨l1, l2⟩ := validate_index_heapscan_loop_nil env index_insert indexInfo rows _
        st1 hinit hl
      obtain ⟨bst, hb⟩ := hbuild l2
      obtain ⟨-, b2⟩ := IndexBuildHeapScan_ok env indexInfo snapshot fuel rows bst hb
      have hf : (fun t => passedVisibility env snapshot fuel indexInfo t &&
          passesPredicate indexInfo t) = passesPredicate indexInfo := by
        funext t
        rw [(hv t).1, Bool.true_and]
      rw [hf] at b2
      have hins : st1.inserts =
          (rows.filter (passesPredicate indexInfo)).map (validateCall env indexInfo) := by
        rw [l1]
        rfl
      refine ⟨bst, hb, ?_, hins, b2⟩
      show st1.inserts.map _ = _
      rw [hins, b2, List.map_map, List.map_map]
      rfl
  · intro hproj hins
    refine ⟨?_, hbuild hproj⟩
    obtain ⟨st1, hst1⟩ := validate_index_heapscan_loop_nil_returns env index_insert indexInfo
      rows _ hinit (fun t ht hp => ⟨hproj t ht hp, fun index0 => hins index0 _⟩)
    unfold validate_index_heapscan
    simp only [ExecPrepareExpr] at hst1 ⊢
    rw [hst1]
    exact ⟨_, rfl⟩

theorem validation_matches_build_witness :
    validateOutcome (validate_index_heapscan (exampleEnv (fun _ => .HEAPTUPLE_LIVE) (fun _ => 0))
        exampleInsert (exampleIndexInfo [valueAbove10]) ⟨[], 0, 0, 0⟩ [] rows_5_15_25) =
      some ([⟨[15], [false], ⟨0, 2⟩, false⟩, ⟨[25], [false], ⟨0, 3⟩, false⟩], 2) ∧
    buildOutcome (IndexBuildHeapScan (exampleEnv (fun _ => .HEAPTUPLE_LIVE) (fun _ => 0))
        (exampleIndexInfo [valueAbove10]) .TransactionSnapshot 0 rows_5_15_25) =
      some ([⟨⟨0, 2⟩, [15], [false], true⟩, ⟨⟨0, 3⟩, [25], [false], true⟩], 3) ∧
    ∃ bst, IndexBuildHeapScan (exampleEnv (fun _ => .HEAPTUPLE_LIVE) (fun _ => 0))
        (exampleIndexInfo [valueAbove10]) .TransactionSnapshot 0 rows_5_15_25 = .ok bst ∧
      (returned (validate_index_heapscan (exampleEnv (fun _ => .HEAPTUPLE_LIVE) (fun _ => 0))
          exampleInsert (exampleIndexInfo [valueAbove10]) ⟨[], 0, 0, 0⟩ [] rows_5_15_25)
        (ValidateScanState.init (exampleIndexInfo []) ⟨[], 0, 0, 0⟩ [])).inserts.map
          (fun c => (c.heap_t_ctid, c.values, c.isnull)) =
        bst.callbacks.map (fun c => (c.tid, c.values, c.isnull)) :=
  ⟨rfl, rfl,
    match (validation_matches_build (exampleEnv (fun _ => .HEAPTUPLE_LIVE) (fun _ => 0))
      exampleInsert (exampleIndexInfo [valueAbove10]) .TransactionSnapshot 0 ⟨[], 0, 0, 0⟩ []
      rows_5_15_25 (by decide) rfl).1
      (returned (validate_index_heapscan (exampleEnv (fun _ => .HEAPTUPLE_LIVE) (fun _ => 0))
          exampleInsert (exampleIndexInfo [valueAbove10]) ⟨[], 0, 0, 0⟩ [] rows_5_15_25)
        (ValidateScanState.init (exampleIndexInfo []) ⟨[], 0, 0, 0⟩ [])) rfl with
    | ⟨bst, hb, ht, _, _⟩ => ⟨bst, hb, ht⟩⟩

/-! ### The per-page bitmap of the validation scan -/

theorem validate_index_heapscan_loop_inv {σ : Type} (env : HeapScanEnv)
    (index_insert : σ → IndexInsertCall → Except ErrorData σ)
    (indexInfo : IndexInfo) (tids : List ItemPointerData) (rows : List HeapTupleData) :
    ∀ (st st1 : ValidateScanState σ) (passed : List ItemPointerData),
      ForwardPageOrder rows →
      (∀ b, st.root_blkno = some b → ∀ t ∈ rows, b ≤ t.t_self.ip_blkid) →
      MergeInv env indexInfo tids passed st →
      validate_index_heapscan_loop env index_insert indexInfo.ii_Predicate rows st = .ok st1 →
      (∃ passed1, MergeInv env indexInfo tids passed1 st1) ∧
      (∀ b, st1.root_blkno = some b →
        st.root_blkno = some b ∨ ∃ u ∈ rows, u.t_self.ip_blkid = b) := by
  induction rows with
  | nil =>
    intro st st1 passed _ _ hinv h
    simp only [validate_index_heapscan_loop, Except.ok.injEq] at h
    subst h
    exact ⟨⟨passed, hinv⟩, fun b hb => Or.inl hb⟩
  | cons t rest ih =>
    intro st st1 passed hfwd hblk hinv h
    simp only [validate_index_heapscan_loop] at h
    cases hrow : validate_index_heapscan_row env index_insert indexInfo.ii_Predicate st t with
    | error e =>
      rw [hrow] at h
      cases h
    | ok st2 =>
      rw [hrow] at h
      simp only at h
      obtain ⟨st3, passed3, p1, p2, -, -, -, -, -, p7, p8⟩ :=
        validate_index_heapscan_row_prelude env index_insert indexInfo indexInfo.ii_Predicate
          tids passed st t hinv (fun b hb => hblk b hb t (List.mem_cons_self _ _))
      rw [p8] at hrow
      obtain ⟨q1, q2, -, -⟩ := validate_index_heapscan_insert_sound env index_insert
        indexInfo tids passed3 st3 st2 t p1 p7 hrow
      have hfwd2 := List.pairwise_cons.1 hfwd
      obtain ⟨r1, r2⟩ := ih st2 st1 passed3 hfwd2.2
        (fun b hb u hu => by
          rw [q2, p2] at hb
          simp only [Option.some.injEq] at hb
          subst hb
          exact hfwd2.1 u hu)
        q1 h
      refine ⟨r1, fun b hb => ?_⟩
      rcases r2 b hb with hb2 | ⟨u, hu, hub⟩
      · rw [q2, p2] at hb2
        simp only [Option.some.injEq] at hb2
        exact Or.inr ⟨t, List.mem_cons_self _ _, hb2⟩
      · exact Or.inr ⟨u, List.mem_cons_of_mem _ hu, hub⟩

/-- C25: in a validation scan in forward page order, for the row t reached
after the rows before it: the page-change block clears in_index when t lies on
another page than the previous row (the page held in root_blkno) and leaves it
alone otherwise; and after the cursor advance for t the buffer splits into the
identifiers the cursor has passed over, the cursor and the rest of the
tuplesort, in_index[k-1] being true exactly when an identifier (page of t, k)
is among those passed over. The statement that records the cursor never
touches in_index for a cursor on another page than root_blkno. -/
theorem in_index_marks_passed_identifiers {σ : Type} (env : HeapScanEnv)
    (index_insert : σ → IndexInsertCall → Except ErrorData σ)
    (indexInfo : IndexInfo) (state : v_i_state) (index : σ)
    (before : List HeapTupleData) (t : HeapTupleData) (st : ValidateScanState σ)
    (hfwd : ForwardPageOrder (before ++ [t]))
    (h : validate_index_heapscan_loop env index_insert indexInfo.ii_Predicate before
      (ValidateScanState.init indexInfo state index) = .ok st) :
    (st.root_blkno ≠ some t.t_self.ip_blkid →
      ∀ k, (validate_index_heapscan_newpage env st t).in_index k = false) ∧
    (st.root_blkno = some t.t_self.ip_blkid →
      (validate_index_heapscan_newpage env st t).in_index = st.in_index) ∧
    (∃ passed : List ItemPointerData,
      ((validate_index_heapscan_merge
          { t.t_self with
            ip_posid := validate_index_root_offnum (validate_index_heapscan_newpage env st t) t }
          (validate_index_heapscan_newpage env st t)).tuplesort_empty = true →
        state.tuplesort = passed) ∧
      ((validate_index_heapscan_merge
          { t.t_self with
            ip_posid := validate_index_root_offnum (validate_index_heapscan_newpage env st t) t }
          (validate_index_heapscan_newpage env st t)).tuplesort_empty = false →
        state.tuplesort = passed ++
          ((validate_index_heapscan_merge
              { t.t_self with
                ip_posid :=
                  validate_index_root_offnum (validate_index_heapscan_newpage env st t) t }
              (validate_index_heapscan_newpage env st t)).indexcursor.toList ++
            (validate_index_heapscan_merge
              { t.t_self with
                ip_posid :=
                  validate_index_root_offnum (validate_index_heapscan_newpage env st t) t }
              (validate_index_heapscan_newpage env st t)).state.tuplesort)) ∧
      ∀ k : Int,
        (validate_index_heapscan_merge
          { t.t_self with
            ip_posid := validate_index_root_offnum (validate_index_heapscan_newpage env st t) t }
          (validate_index_heapscan_newpage env st t)).in_index k = true ↔
        ∃ c ∈ passed, c.ip_blkid = t.t_self.ip_blkid ∧ (c.ip_posid : Int) - 1 = k) ∧
    (∀ (root_blkno : Option Nat) (in_index : Int → Bool) (c : ItemPointerData),
      some c.ip_blkid ≠ root_blkno →
      validate_index_remember root_blkno in_index (some c) = in_index) := by
  have hfw := List.pairwise_append.1 hfwd
  obtain ⟨⟨passed, hinv⟩, hrb⟩ := validate_index_heapscan_loop_inv env index_insert indexInfo
    state.tuplesort before _ st [] hfw.1 (fun b hb => by cases hb)
    (MergeInv_init env indexInfo state index) h
  have hle : ∀ b, st.root_blkno = some b → b ≤ t.t_self.ip_blkid := by
    intro b hb
    rcases hrb b hb with hb0 | ⟨u, hu, hub⟩
    · cases hb0
    · rw [← hub]
      exact hfw.2.2 u hu t (List.mem_singleton.2 rfl)
  refine ⟨?_, ?_, ?_, ?_⟩
  · intro hne k
    unfold validate_index_heapscan_newpage
    simp only
    rw [if_pos hne]
  · intro he
    unfold validate_index_heapscan_newpage
    simp only
    rw [if_neg (not_not.2 he)]
  · obtain ⟨n1, n2, -⟩ :=
      validate_index_heapscan_newpage_inv env indexInfo state.tuplesort passed st t hinv hle
    have hroots := (n1.2.2.2.1 _ n2).1
    have hroot : ({ t.t_self with
        ip_posid := validate_index_root_offnum
          (validate_index_heapscan_newpage env st t) t } : ItemPointerData) =
        rootOf env t := by
      unfold validate_index_root_offnum rootOf rootItemPointer
      rw [hroots]
      split <;> rfl
    have hrbk : (rootOf env t).ip_blkid = t.t_self.ip_blkid := by
      unfold rootOf rootItemPointer
      split <;> rfl
    have n2r : (validate_index_heapscan_newpage env st t).root_blkno =
        some (rootOf env t).ip_blkid := by rw [hrbk]; exact n2
    obtain ⟨⟨passed3, m1⟩, m2, -⟩ :=
      validate_index_heapscan_merge_inv env indexInfo state.tuplesort passed
        (validate_index_heapscan_newpage env st t) (rootOf env t) n1 n2r
    rw [hroot]
    refine ⟨passed3, fun he => (m1.1 he).2, fun he => m1.2.1 he, ?_⟩
    exact (m1.2.2.2.1 _ (m2.trans n2)).2.2
  · intro root_blkno in_index c hne
    show (if some c.ip_blkid = root_blkno then Function.update in_index _ true
      else in_index) = in_index
    rw [if_neg hne]

theorem in_index_marks_passed_identifiers_witness :
    ForwardPageOrder ([exampleRow 0 1 true false 7] ++ [exampleRow 0 3 false false 8]) ∧
    (validate_index_heapscan_merge
      { (exampleRow 0 3 false false 8).t_self with
        ip_posid := validate_index_root_offnum
          (validate_index_heapscan_newpage (exampleEnv (fun _ => .HEAPTUPLE_LIVE) exampleRoots)
            (returned (validate_index_heapscan_loop
                (exampleEnv (fun _ => .HEAPTUPLE_LIVE) exampleRoots) exampleInsert
                (exampleIndexInfo []).ii_Predicate [exampleRow 0 1 true false 7]
                (ValidateScanState.init (exampleIndexInfo []) ⟨[⟨0, 3⟩, ⟨0, 5⟩], 0, 2, 0⟩ []))
              (ValidateScanState.init (exampleIndexInfo []) ⟨[], 0, 0, 0⟩ []))
            (exampleRow 0 3 false false 8))
          (exampleRow 0 3 false false 8) }
      (validate_index_heapscan_newpage (exampleEnv (fun _ => .HEAPTUPLE_LIVE) exampleRoots)
        (returned (validate_index_heapscan_loop
            (exampleEnv (fun _ => .HEAPTUPLE_LIVE) exampleRoots) exampleInsert
            (exampleIndexInfo []).ii_Predicate [exampleRow 0 1 true false 7]
            (ValidateScanState.init (exampleIndexInfo []) ⟨[⟨0, 3⟩, ⟨0, 5⟩], 0, 2, 0⟩ []))
          (ValidateScanState.init (exampleIndexInfo []) ⟨[], 0, 0, 0⟩ []))
        (exampleRow 0 3 false false 8))).in_index 2 = true ∧
    ((returned (validate_index_heapscan_loop
          (exampleEnv (fun _ => .HEAPTUPLE_LIVE) exampleRoots) exampleInsert
          (exampleIndexInfo []).ii_Predicate [exampleRow 0 1 true false 7]
          (ValidateScanState.init (exampleIndexInfo []) ⟨[⟨0, 3⟩, ⟨0, 5⟩], 0, 2, 0⟩ []))
        (ValidateScanState.init (exampleIndexInfo []) ⟨[], 0, 0, 0⟩ [])).root_blkno =
        some (exampleRow 0 3 false false 8).t_self.ip_blkid →
      (validate_index_heapscan_newpage (exampleEnv (fun _ => .HEAPTUPLE_LIVE) exampleRoots)
        (returned (validate_index_heapscan_loop
            (exampleEnv (fun _ => .HEAPTUPLE_LIVE) exampleRoots) exampleInsert
            (exampleIndexInfo []).ii_Predicate [exampleRow 0 1 true false 7]
            (ValidateScanState.init (exampleIndexInfo []) ⟨[⟨0, 3⟩, ⟨0, 5⟩], 0, 2, 0⟩ []))
          (ValidateScanState.init (exampleIndexInfo []) ⟨[], 0, 0, 0⟩ []))
        (exampleRow 0 3 false false 8)).in_index =
      (returned (validate_index_heapscan_loop
          (exampleEnv (fun _ => .HEAPTUPLE_LIVE) exampleRoots) exampleInsert
          (exampleIndexInfo []).ii_Predicate [exampleRow 0 1 true false 7]
          (ValidateScanState.init (exampleIndexInfo []) ⟨[⟨0, 3⟩, ⟨0, 5⟩], 0, 2, 0⟩ []))
        (ValidateScanState.init (exampleIndexInfo []) ⟨[], 0, 0, 0⟩ [])).in_index) :=
  ⟨by unfold ForwardPageOrder; decide, rfl,
    (in_index_marks_passed_identifiers (exampleEnv (fun _ => .HEAPTUPLE_LIVE) exampleRoots)
      exampleInsert (exampleIndexInfo []) ⟨[⟨0, 3⟩, ⟨0, 5⟩], 0, 2, 0⟩ []
      [exampleRow 0 1 true false 7] (exampleRow 0 3 false false 8)
      (returned (validate_index_heapscan_loop
          (exampleEnv (fun _ => .HEAPTUPLE_LIVE) exampleRoots) exampleInsert
          (exampleIndexInfo []).ii_Predicate [exampleRow 0 1 true false 7]
          (ValidateScanState.init (exampleIndexInfo []) ⟨[⟨0, 3⟩, ⟨0, 5⟩], 0, 2, 0⟩ []))
        (ValidateScanState.init (exampleIndexInfo []) ⟨[], 0, 0, 0⟩ []))
      (by unfold ForwardPageOrder; decide) rfl).2.1⟩

/-! ### Array bounds of the validation merge -/

theorem validate_index_skip_mem (rootTuple : ItemPointerData) (root_blkno : Option Nat)
    (P : ItemPointerData → Prop) :
    ∀ (rest : List ItemPointerData) (cursor : Option ItemPointerData) (inx : Int → Bool),
      (∀ c ∈ cursor.toList ++ rest, P c) →
      (∀ c ∈ (validate_index_skip rootTuple root_blkno rest cursor inx).2.1.toList ++
          (validate_index_skip rootTuple root_blkno rest cursor inx).1, P c) ∧
      (∀ k ∈ validate_index_skip_writes rootTuple root_blkno rest cursor,
        ∃ c, P c ∧ k = (c.ip_posid : Int) - 1) := by
  have hrem : ∀ (cursor : Option ItemPointerData), (∀ c ∈ cursor.toList, P c) →
      ∀ k ∈ validate_index_remember_write root_blkno cursor,
        ∃ c, P c ∧ k = (c.ip_posid : Int) - 1 := by
    intro cursor hc k hk
    cases cursor with
    | none => cases hk
    | some c =>
      simp only [validate_index_remember_write] at hk
      split at hk
      · simp only [List.mem_singleton] at hk
        exact ⟨c, hc c (by simp), hk⟩
      · cases hk
  intro rest
  induction rest with
  | nil =>
    intro cursor inx hP
    simp only [validate_index_skip, validate_index_skip_writes]
    split
    · refine ⟨fun c hc => by simp at hc, fun k hk => ?_⟩
      exact hrem cursor (fun c hc => hP c (by simpa using hc)) k hk
    · exact ⟨fun c hc => hP c (by simpa using hc), fun k hk => by cases hk⟩
  | cons t rest ih =>
    intro cursor inx hP
    simp only [validate_index_skip, validate_index_skip_writes]
    split
    · obtain ⟨i1, i2⟩ := ih (some t)
        (validate_index_remember root_blkno inx cursor)
        (fun c hc => hP c (by
          simp only [Option.toList_some, List.singleton_append] at hc
          exact List.mem_append_right _ hc))
      refine ⟨i1, fun k hk => ?_⟩
      rcases List.mem_append.1 hk with hk | hk
      · exact hrem cursor (fun c hc => hP c (List.mem_append_left _ hc)) k hk
      · exact i2 k hk
    · exact ⟨fun c hc => hP c hc, fun k hk => by cases hk⟩

theorem validate_index_heapscan_insert_frame {σ : Type}
    (index_insert : σ → IndexInsertCall → Except ErrorData σ)
    (predicate : List QualClause) (st st1 : ValidateScanState σ) (t : HeapTupleData)
    (rootTuple : ItemPointerData)
    (h : validate_index_heapscan_insert index_insert predicate st t rootTuple = .ok st1) :
    st1.state.tuplesort = st.state.tuplesort ∧ st1.indexcursor = st.indexcursor ∧
    st1.root_blkno = st.root_blkno ∧ st1.root_offsets = st.root_offsets := by
  unfold validate_index_heapscan_insert at h
  split at h
  · split at h
    · cases h
      exact ⟨rfl, rfl, rfl, rfl⟩
    · split at h
      · cases h
      · simp only at h
        split at h
        · cases h
        · cases h
          exact ⟨rfl, rfl, rfl, rfl⟩
  · cases h
    exact ⟨rfl, rfl, rfl, rfl⟩

theorem validate_index_heapscan_row_bounds {σ : Type} (env : HeapScanEnv)
    (index_insert : σ → IndexInsertCall → Except ErrorData σ)
    (predicate : List QualClause) (P : ItemPointerData → Prop) (R : Int → Prop)
    (st : ValidateScanState σ) (t : HeapTupleData)
    (hP : ∀ c, P c → R ((c.ip_posid : Int) - 1))
    (hrow : R ((t.t_self.ip_posid : Int) - 1))
    (hroot : t.heap_only = true →
      R ((env.heap_get_root_tuples t.t_self.ip_blkid ((t.t_self.ip_posid : Int) - 1) : Int)
        - 1))
    (hQ : ∀ c ∈ st.indexcursor.toList ++ st.state.tuplesort, P c)
    (hmap : ∀ b, st.root_blkno = some b → st.root_offsets = env.heap_get_root_tuples b) :
    (∀ k ∈ (validate_index_heapscan_row_accesses env st t).root_offsets_read ++
        (validate_index_heapscan_row_accesses env st t).in_index_written ++
        (validate_index_heapscan_row_accesses env st t).in_index_read, R k) ∧
    (∀ st1, validate_index_heapscan_row env index_insert predicate st t = .ok st1 →
      (∀ c ∈ st1.indexcursor.toList ++ st1.state.tuplesort, P c) ∧
      (∀ b, st1.root_blkno = some b → st1.root_offsets = env.heap_get_root_tuples b)) := by
  have hn : (validate_index_heapscan_newpage env st t).indexcursor = st.indexcursor ∧
      (validate_index_heapscan_newpage env st t).state.tuplesort = st.state.tuplesort ∧
      (validate_index_heapscan_newpage env st t).root_blkno = some t.t_self.ip_blkid ∧
      (validate_index_heapscan_newpage env st t).root_offsets =
        env.heap_get_root_tuples t.t_self.ip_blkid := by
    unfold validate_index_heapscan_newpage
    by_cases hb : st.root_blkno = some t.t_self.ip_blkid
    · simp only
      rw [if_neg (not_not.2 hb)]
      exact ⟨rfl, rfl, hb, hmap _ hb⟩
    · simp only
      rw [if_pos hb]
      exact ⟨rfl, rfl, rfl, rfl⟩
  obtain ⟨n1, n2, n3, n4⟩ := hn
  have hroff : R (((validate_index_root_offnum (validate_index_heapscan_newpage env st t) t :
      Nat) : Int) - 1) := by
    unfold validate_index_root_offnum
    by_cases hh : t.heap_only = true
    · rw [if_pos hh, n4]
      exact hroot hh
    · rw [if_neg hh]
      exact hrow
  have hQ2 : ∀ c ∈ (validate_index_heapscan_newpage env st t).indexcursor.toList ++
      (validate_index_heapscan_newpage env st t).state.tuplesort, P c := by
    rw [n1, n2]
    exact hQ
  obtain ⟨s1, s2⟩ := validate_index_skip_mem
    { t.t_self with
      ip_posid := validate_index_root_offnum (validate_index_heapscan_newpage env st t) t }
    (validate_index_heapscan_newpage env st t).root_blkno P
    (validate_index_heapscan_newpage env st t).state.tuplesort
    (validate_index_heapscan_newpage env st t).indexcursor
    (validate_index_heapscan_newpage env st t).in_index hQ2
  constructor
  · intro k hk
    simp only [validate_index_heapscan_row_accesses, List.append_assoc, List.mem_append] at hk
    rcases hk with hk | hk | hk
    · split at hk
      · simp only [List.mem_singleton] at hk
        rw [hk]
        exact hrow
      · cases hk
    · split at hk
      · cases hk
      · obtain ⟨c, hc, he⟩ := s2 k hk
        rw [he]
        exact hP c hc
    · split at hk
      · simp only [List.mem_singleton] at hk
        rw [hk]
        exact hroff
      · cases hk
  · intro st1 h
    unfold validate_index_heapscan_row at h
    simp only at h
    obtain ⟨f1, f2, f3, f4⟩ := validate_index_heapscan_insert_frame index_insert predicate _
      st1 t _ h
    have hm : (∀ c ∈ (validate_index_heapscan_merge
          { t.t_self with
            ip_posid := validate_index_root_offnum (validate_index_heapscan_newpage env st t) t }
          (validate_index_heapscan_newpage env st t)).indexcursor.toList ++
        (validate_index_heapscan_merge
          { t.t_self with
            ip_posid := validate_index_root_offnum (validate_index_heapscan_newpage env st t) t }
          (validate_index_heapscan_newpage env st t)).state.tuplesort, P c) ∧
        (validate_index_heapscan_merge
          { t.t_self with
            ip_posid := validate_index_root_offnum (validate_index_heapscan_newpage env st t) t }
          (validate_index_heapscan_newpage env st t)).root_blkno =
          (validate_index_heapscan_newpage env st t).root_blkno ∧
        (validate_index_heapscan_merge
          { t.t_self with
            ip_posid := validate_index_root_offnum (validate_index_heapscan_newpage env st t) t }
          (validate_index_heapscan_newpage env st t)).root_offsets =
          (validate_index_heapscan_newpage env st t).root_offsets := by
      unfold validate_index_heapscan_merge
      split
      · exact ⟨hQ2, rfl, rfl⟩
      · exact ⟨s1, rfl, rfl⟩
    obtain ⟨m1, m2, m3⟩ := hm
    constructor
    · rw [f1, f2]
      exact m1
    · intro b hb
      rw [f3, m2, n3] at hb
      simp only [Option.some.injEq] at hb
      subst hb
      rw [f4, m3, n4]

theorem validate_index_heapscan_loop_bounds {σ : Type} (env : HeapScanEnv)
    (index_insert : σ → IndexInsertCall → Except ErrorData σ)
    (predicate : List QualClause) (MaxHeapTuplesPerPage : Nat) (rows : List HeapTupleData) :
    ∀ st : ValidateScanState σ,
      (∀ t ∈ rows, 1 ≤ t.t_self.ip_posid ∧ t.t_self.ip_posid ≤ MaxHeapTuplesPerPage) →
      (∀ t ∈ rows, t.heap_only = true →
        1 ≤ env.heap_get_root_tuples t.t_self.ip_blkid ((t.t_self.ip_posid : Int) - 1) ∧
        env.heap_get_root_tuples t.t_self.ip_blkid ((t.t_self.ip_posid : Int) - 1) ≤
          MaxHeapTuplesPerPage) →
      (∀ c ∈ st.indexcursor.toList ++ st.state.tuplesort,
        1 ≤ c.ip_posid ∧ c.ip_posid ≤ MaxHeapTuplesPerPage) →
      (∀ b, st.root_blkno = some b → st.root_offsets = env.heap_get_root_tuples b) →
      (∀ a ∈ validate_index_heapscan_loop_accesses env index_insert predicate rows st,
        ∀ k ∈ a.root_offsets_read ++ a.in_index_written ++ a.in_index_read,
          0 ≤ k ∧ k < (MaxHeapTuplesPerPage : Int)) ∧
      (∀ st1, validate_index_heapscan_loop env index_insert predicate rows st = .ok st1 →
        (validate_index_heapscan_loop_accesses env index_insert predicate rows st).length =
          rows.length) := by
  induction rows with
  | nil =>
    intro st _ _ _ _
    exact ⟨fun a ha => (by cases ha), fun _ _ => rfl⟩
  | cons t rest ih =>
    intro st hrows hroot hQ hmap
    have ht := hrows t (List.mem_cons_self _ _)
    obtain ⟨b1, b2⟩ := validate_index_heapscan_row_bounds env index_insert predicate
      (fun c => 1 ≤ c.ip_posid ∧ c.ip_posid ≤ MaxHeapTuplesPerPage)
      (fun k => 0 ≤ k ∧ k < (MaxHeapTuplesPerPage : Int)) st t
      (fun c hc => by
        obtain ⟨h1, h2⟩ := hc
        constructor <;> omega)
      (by
        obtain ⟨h1, h2⟩ := ht
        constructor <;> omega)
      (fun hh => by
        obtain ⟨h1, h2⟩ := hroot t (List.mem_cons_self _ _) hh
        constructor <;> omega)
      hQ hmap
    simp only [validate_index_heapscan_loop_accesses, validate_index_heapscan_loop]
    cases hrow : validate_index_heapscan_row env index_insert predicate st t with
    | error e =>
      refine ⟨fun a ha => ?_, fun st1 h => by cases h⟩
      simp only [List.mem_singleton] at ha
      subst ha
      exact b1
    | ok st2 =>
      obtain ⟨c1, c2⟩ := b2 st2 hrow
      obtain ⟨i1, i2⟩ := ih st2 (fun u hu => hrows u (List.mem_cons_of_mem _ hu))
        (fun u hu => hroot u (List.mem_cons_of_mem _ hu)) c1 c2
      refine ⟨fun a ha => ?_, fun st1 h => ?_⟩
      · rcases List.mem_cons.1 ha with ha | ha
        · subst ha
          exact b1
        · exact i1 a ha
      · simp only [List.length_cons]
        rw [i2 st1 h]

/-- C29: when every scanned row and every identifier of the index buffer has
an offset between 1 and MaxHeapTuplesPerPage, and the root map of its page
holds such an offset for every scanned heap-only row, every index at which an
iteration of validate_index_heapscan reads root_offsets, writes in_index or
reads in_index lies between 0 and MaxHeapTuplesPerPage - 1; this covers the
iteration that raises, if one does, and a scan that returns has made the
accesses of one iteration per row. -/
theorem validate_index_heapscan_accesses_in_bounds {σ : Type} (env : HeapScanEnv)
    (index_insert : σ → IndexInsertCall → Except ErrorData σ)
    (indexInfo : IndexInfo) (state : v_i_state) (index : σ) (rows : List HeapTupleData)
    (MaxHeapTuplesPerPage : Nat)
    (hrows : ∀ t ∈ rows,
      1 ≤ t.t_self.ip_posid ∧ t.t_self.ip_posid ≤ MaxHeapTuplesPerPage)
    (htids : ∀ c ∈ state.tuplesort, 1 ≤ c.ip_posid ∧ c.ip_posid ≤ MaxHeapTuplesPerPage)
    (hroot : ∀ t ∈ rows, t.heap_only = true →
      1 ≤ env.heap_get_root_tuples t.t_self.ip_blkid ((t.t_self.ip_posid : Int) - 1) ∧
      env.heap_get_root_tuples t.t_self.ip_blkid ((t.t_self.ip_posid : Int) - 1) ≤
        MaxHeapTuplesPerPage) :
    (∀ a ∈ validate_index_heapscan_loop_accesses env index_insert
        (ExecPrepareExpr indexInfo.ii_Predicate) rows
        (ValidateScanState.init indexInfo state index),
      ∀ k ∈ a.root_offsets_read ++ a.in_index_written ++ a.in_index_read,
        0 ≤ k ∧ k < (MaxHeapTuplesPerPage : Int)) ∧
    (∀ st, validate_index_heapscan env index_insert indexInfo state index rows = .ok st →
      (validate_index_heapscan_loop_accesses env index_insert
        (ExecPrepareExpr indexInfo.ii_Predicate) rows
        (ValidateScanState.init indexInfo state index)).length = rows.length) := by
  obtain ⟨h1, h2⟩ := validate_index_heapscan_loop_bounds env index_insert
    (ExecPrepareExpr indexInfo.ii_Predicate) MaxHeapTuplesPerPage rows
    (ValidateScanState.init indexInfo state index) hrows hroot
    (fun c hc => htids c (by simpa [ValidateScanState.init] using hc))
    (fun b hb => by cases hb)
  refine ⟨h1, fun st h => ?_⟩
  unfold validate_index_heapscan at h
  cases hl : validate_index_heapscan_loop env index_insert
      (ExecPrepareExpr indexInfo.ii_Predicate) rows
      (ValidateScanState.init indexInfo state index) with
  | error e =>
    rw [hl] at h
    cases h
  | ok st1 => exact h2 st1 hl

theorem validate_index_heapscan_accesses_in_bounds_witness :
    validate_index_heapscan_loop_accesses (exampleEnv (fun _ => .HEAPTUPLE_LIVE) exampleRoots)
        exampleInsert (ExecPrepareExpr (exampleIndexInfo []).ii_Predicate) exampleScan
        (ValidateScanState.init (exampleIndexInfo []) ⟨[⟨0, 3⟩, ⟨0, 5⟩], 0, 2, 0⟩ []) =
      [⟨[0], [2], []⟩, ⟨[], [], [2]⟩, ⟨[], [], [0]⟩] ∧
    ∀ a ∈ validate_index_heapscan_loop_accesses
        (exampleEnv (fun _ => .HEAPTUPLE_LIVE) exampleRoots)
        exampleInsert (ExecPrepareExpr (exampleIndexInfo []).ii_Predicate) exampleScan
        (ValidateScanState.init (exampleIndexInfo []) ⟨[⟨0, 3⟩, ⟨0, 5⟩], 0, 2, 0⟩ []),
      ∀ k ∈ a.root_offsets_read ++ a.in_index_written ++ a.in_index_read,
        0 ≤ k ∧ k < ((5 : Nat) : Int) :=
  ⟨rfl,
    (validate_index_heapscan_accesses_in_bounds
      (exampleEnv (fun _ => .HEAPTUPLE_LIVE) exampleRoots) exampleInsert (exampleIndexInfo [])
      ⟨[⟨0, 3⟩, ⟨0, 5⟩], 0, 2, 0⟩ [] exampleScan 5
      (by
        intro t ht
        simp only [exampleScan, List.mem_cons, List.mem_singleton, List.not_mem_nil,
          or_false] at ht
        rcases ht with rfl | rfl | rfl <;> decide)
      (by
        intro c hc
        simp only [List.mem_cons, List.mem_singleton, List.not_mem_nil, or_false] at hc
        rcases hc with rfl | rfl <;> decide)
      (by
        intro t ht
        simp only [exampleScan, List.mem_cons, List.mem_singleton, List.not_mem_nil,
          or_false] at ht
        rcases ht with rfl | rfl | rfl <;> decide)).1⟩

/-! ### DatabaseInfo_AlignAppendOnly -/

theorem DatabaseInfo_AlignAppendOnly_entry_eof0
    (entry : DbInfoAppendOnlyCatalogSegmentInfo) (heof : entry.logicalEof = 0)
    (rest : List DbInfoGpRelationNode) :
    ∀ aligned : List DbInfoGpRelationNode,
      (∀ node ∈ rest, node.segmentFileNum ≠ entry.segmentFileNum) →
      ((∃ r, DatabaseInfo_AlignAppendOnly_entry entry aligned rest = .ok r) ↔
        ∀ node ∈ rest, node.segmentFileNum = 0 ∧ 0 < entry.segmentFileNum) := by
  induction rest with
  | nil =>
    intro aligned _
    simp [DatabaseInfo_AlignAppendOnly_entry, heof]
  | cons node rest ih =>
    intro aligned hno
    have hne := hno node (List.mem_cons_self _ _)
    have ihr := ih (aligned ++ [node]) (fun n hn => hno n (List.mem_cons_of_mem _ hn))
    simp only [DatabaseInfo_AlignAppendOnly_entry]
    by_cases hlt : node.segmentFileNum < entry.segmentFileNum
    · rw [if_pos hlt]
      by_cases hz : node.segmentFileNum = 0
      · rw [if_pos hz, ihr]
        constructor
        · intro h n hn
          rcases List.mem_cons.1 hn with hn | hn
          · subst hn
            exact ⟨hz, by omega⟩
          · exact h n hn
        · intro h n hn
          exact h n (List.mem_cons_of_mem _ hn)
      · rw [if_neg hz]
        constructor
        · rintro ⟨r, hr⟩
          cases hr
        · intro h
          exact absurd (h node (List.mem_cons_self _ _)).1 hz
    · rw [if_neg hlt, if_neg hne]
      constructor
      · rintro ⟨r, hr⟩
        cases hr
      · intro h
        obtain ⟨h1, h2⟩ := h node (List.mem_cons_self _ _)
        omega

/-- C28: for the gp_relation_node entries of segment files 0 and 2 and the
aoseg entries of segment files 1 (logical EOF 0) and 2 (logical EOF 100), both
sorted ascending, DatabaseInfo_AlignAppendOnly raises an error while aligning
the entry of segment file 1, which has EOF 0 and no gp_relation_node entry;
without that entry, or with an entry of that kind after the last one, it
returns. In general the loop run for an entry with EOF 0 and no
gp_relation_node entry of its segment file number is left without error
exactly when every gp_relation_node entry not yet consumed is for segment
file 0. -/
theorem DatabaseInfo_AlignAppendOnly_eof0_error :
    DatabaseInfo_AlignAppendOnly [⟨0, 0⟩, ⟨2, 0⟩] [⟨1, 0⟩, ⟨2, 100⟩] =
      .error (.without_aoseg_entry 2) ∧
    DatabaseInfo_AlignAppendOnly [⟨0, 0⟩, ⟨2, 0⟩] [⟨2, 100⟩] = .ok [⟨0, 0⟩, ⟨2, 100⟩] ∧
    DatabaseInfo_AlignAppendOnly [⟨0, 0⟩, ⟨2, 0⟩] [⟨2, 100⟩, ⟨3, 0⟩] =
      .ok [⟨0, 0⟩, ⟨2, 100⟩] ∧
    (∀ (entry : DbInfoAppendOnlyCatalogSegmentInfo)
      (aligned rest : List DbInfoGpRelationNode),
      entry.logicalEof = 0 →
      (∀ node ∈ rest, node.segmentFileNum ≠ entry.segmentFileNum) →
      ((∃ r, DatabaseInfo_AlignAppendOnly_entry entry aligned rest = .ok r) ↔
        ∀ node ∈ rest, node.segmentFileNum = 0 ∧ 0 < entry.segmentFileNum)) :=
  ⟨rfl, rfl, rfl, fun entry aligned rest heof hno =>
    DatabaseInfo_AlignAppendOnly_entry_eof0 entry heof rest aligned hno⟩

end Gpdb
